import Mathlib

/-! Schema synchronisation of `server/sql.go`.

A shallow embedding of `Server.SyncSchema` (src/server/sql.go, lines 92-285).

The reconciler talks to three collaborators that are not part of the two
source files: the database driver (`db.Open`, `driver.SyncSchema`), the catalog
services (`DatabaseService`, `TableService`) and the wall clock (`time.Now`).
They are taken as a parameter `Env W`, a state machine over an arbitrary world
`W`: every call consumes a world and returns its Go result pair together with
the next world.  The run records every catalog call it issues, with arguments
and results, in call order.

Go result pairs `(*T, error)` are kept as pairs of options, and a dereference
of a nil pointer is the explicit outcome `fault`.
-/

namespace Bytebase

/-! ## Data contracts -/

/-- The error codes `bytebase.ErrorCode` is compared with in the source
(`ENOTFOUND`, `ECONFLICT`); every other code is `EINTERNAL`. -/
inductive Code where
  | ECONFLICT
  | ENOTFOUND
  | EINTERNAL
  deriving DecidableEq, Repr

/-- A Go `error`: the code `bytebase.ErrorCode` reads, and the text `Error()` returns. -/
structure Error where
  code : Code
  msg : String
  deriving DecidableEq, Repr

/-- The two values of `api.SyncStatus` the source writes: `api.OK`, `api.NotFound`. -/
inductive SyncStatus where
  | OK
  | NotFound
  deriving DecidableEq, Repr

/-- The fields of `api.Instance` read by `SyncSchema`. -/
structure Instance where
  ID : Int
  Name : String
  Username : String
  Password : String
  Host : String
  Port : String
  deriving DecidableEq, Repr

/-- One live table as the driver reports it (the fields copied at lines 173-186). -/
structure TableSchema where
  Name : String
  Type_ : String
  Engine : String
  Collation : String
  RowCount : Int
  DataSize : Int
  IndexSize : Int
  DataFree : Int
  CreateOptions : String
  Comment : String
  deriving DecidableEq, Repr

/-- One live database as the driver reports it (an element of `schemaList`). -/
structure DBSchema where
  Name : String
  CharacterSet : String
  Collation : String
  TableList : List TableSchema
  deriving DecidableEq, Repr

/-- Catalog database record `api.Database`.  The source reads `ID` and `Name`;
the other fields are the ones the create and patch requests carry. -/
structure Database where
  ID : Int
  CreatorId : Int
  UpdaterId : Int
  ProjectId : Int
  InstanceId : Int
  Name : String
  CharacterSet : String
  Collation : String
  SyncStatus : SyncStatus
  LastSuccessfulSyncTs : Int
  deriving DecidableEq, Repr

/-- Catalog table record `api.Table`.  The source reads `ID` and `Name`;
the other fields are the ones the create and patch requests carry. -/
structure Table where
  ID : Int
  CreatorId : Int
  UpdaterId : Int
  DatabaseId : Int
  Name : String
  Type_ : String
  Engine : String
  Collation : String
  RowCount : Int
  DataSize : Int
  IndexSize : Int
  DataFree : Int
  CreateOptions : String
  Comment : String
  SyncStatus : SyncStatus
  LastSuccessfulSyncTs : Int
  deriving DecidableEq, Repr

/-- Request `api.DatabaseFind` (line 127): the pointer field is an option. -/
structure DatabaseFind where
  InstanceId : Option Int
  deriving DecidableEq, Repr

/-- Request `api.DatabasePatch` (lines 151-156 and 261-266). -/
structure DatabasePatch where
  ID : Int
  UpdaterId : Int
  SyncStatus : Option SyncStatus
  LastSuccessfulSyncTs : Option Int
  deriving DecidableEq, Repr

/-- Request `api.DatabaseCreate` (lines 211-218). -/
structure DatabaseCreate where
  CreatorId : Int
  ProjectId : Int
  InstanceId : Int
  Name : String
  CharacterSet : String
  Collation : String
  deriving DecidableEq, Repr

/-- Request `api.TableFind` (lines 166-169). -/
structure TableFind where
  DatabaseId : Option Int
  Name : Option String
  deriving DecidableEq, Repr

/-- Request `api.TableCreate` (lines 173-186 and 228-241). -/
structure TableCreate where
  CreatorId : Int
  DatabaseId : Int
  Name : String
  Type_ : String
  Engine : String
  Collation : String
  RowCount : Int
  DataSize : Int
  IndexSize : Int
  DataFree : Int
  CreateOptions : String
  Comment : String
  deriving DecidableEq, Repr

/-- Request `api.TablePatch` (lines 194-199). -/
structure TablePatch where
  ID : Int
  UpdaterId : Int
  SyncStatus : Option SyncStatus
  LastSuccessfulSyncTs : Option Int
  deriving DecidableEq, Repr

/-- Result `api.SqlResultSet`: the one field `SyncSchema` writes. -/
structure SqlResultSet where
  Error : String
  deriving DecidableEq, Repr

/-- A Go result pair `(*T, error)`: either component may be nil. -/
structure Ret (α : Type) where
  val : Option α
  err : Option Error
  deriving DecidableEq, Repr

/-- Argument `db.ConnectionConfig` of `db.Open`. -/
structure ConnectionConfig where
  Username : String
  Password : String
  Host : String
  Port : String
  deriving DecidableEq, Repr

/-- An opened driver: the result pair its `SyncSchema` method returns. -/
structure Driver where
  schemaList : List DBSchema
  syncErr : Option Error
  deriving DecidableEq, Repr

/-- One catalog call issued by the run, with its argument and the pair it returned. -/
inductive Call where
  | FindDatabaseList (find : DatabaseFind) (list : List Database) (err : Option Error)
  | PatchDatabase (patch : DatabasePatch) (ret : Option Database) (err : Option Error)
  | CreateDatabase (create : DatabaseCreate) (ret : Option Database) (err : Option Error)
  | FindTable (find : TableFind) (ret : Option Table) (err : Option Error)
  | CreateTable (create : TableCreate) (ret : Option Table) (err : Option Error)
  | PatchTable (patch : TablePatch) (ret : Option Table) (err : Option Error)
  deriving DecidableEq, Repr

/-- The collaborators of `SyncSchema` and the two constants of package `api`
it names, none of which is declared in the source files at hand. -/
structure Env (W : Type) where
  SYSTEM_BOT_ID : Int
  DEFAULT_PROJECT_ID : Int
  Open : ConnectionConfig → Ret Driver
  Now : W → Int × W
  FindDatabaseList : DatabaseFind → W → (List Database × Option Error) × W
  PatchDatabase : DatabasePatch → W → Ret Database × W
  CreateDatabase : DatabaseCreate → W → Ret Database × W
  FindTable : TableFind → W → Ret Table × W
  CreateTable : TableCreate → W → Ret Table × W
  PatchTable : TablePatch → W → Ret Table × W

/-! ## Control flow -/

/-- How a block of the anonymous function of `SyncSchema` ends: it falls through
(`done`), executes `return fmt.Errorf(..)` (`fail`), or dereferences nil (`fault`). -/
inductive Flow where
  | done
  | fail (msg : String)
  | fault
  deriving DecidableEq, Repr

/-- A block's end, the world it leaves and the catalog calls it issued, in order. -/
structure Run (W : Type) where
  flow : Flow
  world : W
  calls : List Call

/-- Sequencing: `k` runs only when `r` fell through; the calls accumulate. -/
def Run.andThen {W : Type} (r : Run W) (k : W → Run W) : Run W :=
  match r.flow with
  | Flow.done => ⟨(k r.world).flow, (k r.world).world, r.calls ++ (k r.world).calls⟩
  | Flow.fail msg => ⟨Flow.fail msg, r.world, r.calls⟩
  | Flow.fault => ⟨Flow.fault, r.world, r.calls⟩

/-- A Go `for _, x := range xs { body }` whose body may return from the function. -/
def forEach {W α : Type} (body : α → W → Run W) : List α → W → Run W
  | [], w => ⟨Flow.done, w, []⟩
  | x :: xs, w => (body x w).andThen (forEach body xs)

/-! ## `strings.EqualFold` -/

/-- Simple case folding on the orbits of the ASCII letters: `A`-`Z` fold to `a`-`z`,
U+017F (long s) to `s`, U+212A (Kelvin sign) to `k`.  Other characters are
left alone, which is exact whenever one side of the comparison is ASCII. -/
def foldChar (c : Char) : Char :=
  if 65 ≤ c.toNat ∧ c.toNat ≤ 90 then Char.ofNat (c.toNat + 32)
  else if c.toNat = 0x17F then 's'
  else if c.toNat = 0x212A then 'k'
  else c

/-- Go `strings.EqualFold(s, t)`. -/
def EqualFold (s t : String) : Bool :=
  s.toList.map foldChar == t.toList.map foldChar

/-! ## `Server.SyncSchema` -/

/-- The `api.TableCreate` literal of lines 173-186, repeated at lines 228-241. -/
def tableCreateOf {W : Type} (env : Env W) (database : Database) (table : TableSchema) :
    TableCreate :=
  { CreatorId := env.SYSTEM_BOT_ID
    DatabaseId := database.ID
    Name := table.Name
    Type_ := table.Type_
    Engine := table.Engine
    Collation := table.Collation
    RowCount := table.RowCount
    DataSize := table.DataSize
    IndexSize := table.IndexSize
    DataFree := table.DataFree
    CreateOptions := table.CreateOptions
    Comment := table.Comment }

/-- The closure `createTable` (lines 109-118). -/
def createTable {W : Type} (env : Env W) (inst : Instance) (database : Database)
    (tableCreate : TableCreate) (w : W) : Run W :=
  let r := env.CreateTable tableCreate w
  let c := Call.CreateTable tableCreate r.1.val r.1.err
  match r.1.err with
  | some err =>
    if err.code = Code.ECONFLICT then
      ⟨Flow.fail ("failed to sync table for instance: " ++ inst.Name ++ ", database: "
        ++ database.Name ++ ". Table name already exists: " ++ tableCreate.Name), r.2, [c]⟩
    else
      ⟨Flow.fail ("failed to sync database for instance: " ++ inst.Name ++ ", database: "
        ++ database.Name ++ ". Failed to import new table: " ++ tableCreate.Name
        ++ ". Error " ++ err.msg), r.2, [c]⟩
  | none => ⟨Flow.done, r.2, [c]⟩

/-- Body of the table loop of Case 1 (lines 165-208).  `database` is the pointer
returned by `PatchDatabase`; `&database.ID` dereferences it. -/
def syncTable {W : Type} (env : Env W) (inst : Instance) (database : Option Database)
    (ts : Int) (table : TableSchema) (w : W) : Run W :=
  match database with
  | none => ⟨Flow.fault, w, []⟩
  | some database =>
    let tableFind : TableFind := { DatabaseId := some database.ID, Name := some table.Name }
    let r := env.FindTable tableFind w
    let c := Call.FindTable tableFind r.1.val r.1.err
    match r.1.err with
    | some err =>
      if err.code = Code.ENOTFOUND then
        (Run.mk Flow.done r.2 [c]).andThen
          (createTable env inst database (tableCreateOf env database table))
      else
        ⟨Flow.fail ("failed to sync table for instance: " ++ inst.Name ++ ", database: "
          ++ database.Name ++ ". Error " ++ err.msg), r.2, [c]⟩
    | none =>
      match r.1.val with
      | none => ⟨Flow.fault, r.2, [c]⟩
      | some storedTable =>
        let tablePatch : TablePatch :=
          { ID := storedTable.ID
            UpdaterId := env.SYSTEM_BOT_ID
            SyncStatus := some SyncStatus.OK
            LastSuccessfulSyncTs := some ts }
        let p := env.PatchTable tablePatch r.2
        let cp := Call.PatchTable tablePatch p.1.val p.1.err
        match p.1.err with
        | some err =>
          if err.code = Code.ENOTFOUND then
            ⟨Flow.fail ("failed to sync table for instance: " ++ inst.Name ++ ", database: "
              ++ database.Name ++ ". Table not found: " ++ storedTable.Name), p.2, [c, cp]⟩
          else
            ⟨Flow.fail ("failed to sync table for instance: " ++ inst.Name ++ ", database: "
              ++ database.Name ++ ". Failed to update table: " ++ storedTable.Name
              ++ ". Error " ++ err.msg), p.2, [c, cp]⟩
        | none => ⟨Flow.done, p.2, [c, cp]⟩

/-- Body of the table loop of Case 2 (lines 227-245).  `database` is the pointer
returned by `CreateDatabase`; `database.ID` dereferences it. -/
def importTable {W : Type} (env : Env W) (inst : Instance) (database : Option Database)
    (table : TableSchema) (w : W) : Run W :=
  match database with
  | none => ⟨Flow.fault, w, []⟩
  | some database => createTable env inst database (tableCreateOf env database table) w

/-- The inner loop of lines 141-146: the first stored database with the live name. -/
def matchedDb (dbList : List Database) (name : String) : Option Database :=
  dbList.find? (fun db => db.Name == name)

/-- The `api.DatabaseCreate` literal of lines 211-218. -/
def databaseCreateOf {W : Type} (env : Env W) (inst : Instance) (schema : DBSchema) :
    DatabaseCreate :=
  { CreatorId := env.SYSTEM_BOT_ID
    ProjectId := env.DEFAULT_PROJECT_ID
    InstanceId := inst.ID
    Name := schema.Name
    CharacterSet := schema.CharacterSet
    Collation := schema.Collation }

/-- Case 1 (lines 148-208) for the live database `schema` matched by `matched`. -/
def syncMatched {W : Type} (env : Env W) (inst : Instance) (matched : Database)
    (schema : DBSchema) (w : W) : Run W :=
  let t := env.Now w
  let databasePatch : DatabasePatch :=
    { ID := matched.ID
      UpdaterId := env.SYSTEM_BOT_ID
      SyncStatus := some SyncStatus.OK
      LastSuccessfulSyncTs := some t.1 }
  let r := env.PatchDatabase databasePatch t.2
  let c := Call.PatchDatabase databasePatch r.1.val r.1.err
  match r.1.err with
  | some err =>
    match r.1.val with
    | none => ⟨Flow.fault, r.2, [c]⟩
    | some database =>
      if err.code = Code.ENOTFOUND then
        ⟨Flow.fail ("failed to sync database for instance: " ++ inst.Name
          ++ ". Database not found: " ++ database.Name), r.2, [c]⟩
      else
        ⟨Flow.fail ("failed to sync database for instance: " ++ inst.Name
          ++ ". Failed to update database: " ++ database.Name ++ ". Error " ++ err.msg),
          r.2, [c]⟩
  | none =>
    (Run.mk Flow.done r.2 [c]).andThen (forEach (syncTable env inst r.1.val t.1) schema.TableList)

/-- Case 2 (lines 210-245) for the live database `schema`. -/
def syncNew {W : Type} (env : Env W) (inst : Instance) (schema : DBSchema) (w : W) : Run W :=
  let databaseCreate := databaseCreateOf env inst schema
  let r := env.CreateDatabase databaseCreate w
  let c := Call.CreateDatabase databaseCreate r.1.val r.1.err
  match r.1.err with
  | some err =>
    if err.code = Code.ECONFLICT then
      ⟨Flow.fail ("failed to sync database for instance: " ++ inst.Name
        ++ ". Database name already exists: " ++ databaseCreate.Name), r.2, [c]⟩
    else
      ⟨Flow.fail ("failed to sync database for instance: " ++ inst.Name
        ++ ". Failed to import new database: " ++ databaseCreate.Name ++ ". Error " ++ err.msg),
        r.2, [c]⟩
  | none =>
    (Run.mk Flow.done r.2 [c]).andThen (forEach (importTable env inst r.1.val) schema.TableList)

/-- Body of the loop over the live databases (lines 135-247). -/
def syncDatabase {W : Type} (env : Env W) (inst : Instance) (dbList : List Database)
    (schema : DBSchema) (w : W) : Run W :=
  if EqualFold "bytebase" schema.Name then ⟨Flow.done, w, []⟩
  else
    match matchedDb dbList schema.Name with
    | some matched => syncMatched env inst matched schema w
    | none => syncNew env inst schema w

/-- Body of the Case 3 loop over the stored databases (lines 250-275). -/
def markNotFound {W : Type} (env : Env W) (inst : Instance) (schemaList : List DBSchema)
    (db : Database) (w : W) : Run W :=
  if schemaList.any (fun schema => db.Name == schema.Name) then ⟨Flow.done, w, []⟩
  else
    let t := env.Now w
    let databasePatch : DatabasePatch :=
      { ID := db.ID
        UpdaterId := env.SYSTEM_BOT_ID
        SyncStatus := some SyncStatus.NotFound
        LastSuccessfulSyncTs := some t.1 }
    let r := env.PatchDatabase databasePatch t.2
    let c := Call.PatchDatabase databasePatch r.1.val r.1.err
    match r.1.err with
    | some err =>
      match r.1.val with
      | none => ⟨Flow.fault, r.2, [c]⟩
      | some database =>
        if err.code = Code.ENOTFOUND then
          ⟨Flow.fail ("failed to sync database for instance: " ++ inst.Name
            ++ ". Database not found: " ++ database.Name), r.2, [c]⟩
        else
          ⟨Flow.fail ("failed to sync database for instance: " ++ inst.Name
            ++ ". Failed to update database: " ++ database.Name ++ ". Error: " ++ err.msg),
            r.2, [c]⟩
    | none => ⟨Flow.done, r.2, [c]⟩

/-- The `else` branch of lines 108-276: the reconciliation of one snapshot. -/
def reconcile {W : Type} (env : Env W) (inst : Instance) (schemaList : List DBSchema)
    (w : W) : Run W :=
  let databaseFind : DatabaseFind := { InstanceId := some inst.ID }
  let r := env.FindDatabaseList databaseFind w
  let c := Call.FindDatabaseList databaseFind r.1.1 r.1.2
  match r.1.2 with
  | some err =>
    ⟨Flow.fail ("failed to sync database for instance: " ++ inst.Name
      ++ ". Failed to find database list. Error " ++ err.msg), r.2, [c]⟩
  | none =>
    ((Run.mk Flow.done r.2 [c]).andThen
      (forEach (syncDatabase env inst r.1.1) schemaList)).andThen
      (forEach (markNotFound env inst schemaList) r.1.1)

/-- What a call of `SyncSchema` amounts to for its caller: the result set it
returns, or a nil dereference. -/
inductive Outcome where
  | returned (rs : SqlResultSet)
  | fault
  deriving DecidableEq, Repr

/-- A whole run: its outcome, the world it leaves and the catalog calls it issued. -/
structure Result (W : Type) where
  outcome : Outcome
  world : W
  calls : List Call

/-- Lines 280-284: the error of the anonymous function becomes `resultSet.Error`. -/
def finish {W : Type} (r : Run W) : Result W :=
  match r.flow with
  | Flow.done => ⟨Outcome.returned { Error := "" }, r.world, r.calls⟩
  | Flow.fail msg => ⟨Outcome.returned { Error := msg }, r.world, r.calls⟩
  | Flow.fault => ⟨Outcome.fault, r.world, r.calls⟩

/-- The connection configuration of lines 95-100. -/
def connectionOf (inst : Instance) : ConnectionConfig :=
  { Username := inst.Username, Password := inst.Password, Host := inst.Host, Port := inst.Port }

/-- The method `Server.SyncSchema` (lines 92-285). -/
def SyncSchema {W : Type} (env : Env W) (inst : Instance) (w : W) : Result W :=
  let o := env.Open (connectionOf inst)
  match o.err with
  | some err =>
    ⟨Outcome.returned { Error := "failed to connect instance: " ++ inst.Name ++ " with user: "
      ++ inst.Username ++ ". Error " ++ err.msg }, w, []⟩
  | none =>
    match o.val with
    | none => ⟨Outcome.fault, w, []⟩
    | some driver =>
      match driver.syncErr with
      | some err => ⟨Outcome.returned { Error := err.msg }, w, []⟩
      | none => finish (reconcile env inst driver.schemaList w)

/-! ## The catalog store -/

/-- Modelled from the spec: the catalog store behind `DatabaseService` and
`TableService`, whose implementation is absent from the source files (spec 3,
4.3, 6).  It holds the database and the table records, hands out fresh
identifiers, and reads a clock given as the sequence of its readings. -/
structure Catalog where
  databases : List Database
  tables : List Table
  nextDatabaseId : Int
  nextTableId : Int
  clock : Nat → Int
  tick : Nat

/-- Modelled from the spec: `time.Now().Unix()`, the next reading of the clock. -/
def Catalog.now (c : Catalog) : Int × Catalog :=
  (c.clock c.tick, { c with tick := c.tick + 1 })

/-- Modelled from the spec: `FindDatabases(filter)` (4.3), the records of the
instance named by the filter, in stored order; a read, it changes nothing. -/
def Catalog.findDatabaseList (find : DatabaseFind) (c : Catalog) :
    (List Database × Option Error) × Catalog :=
  ((c.databases.filter (fun d =>
      match find.InstanceId with
      | some i => d.InstanceId == i
      | none => true), none), c)

/-- Modelled from the spec: the partial update a database patch makes to one
record, only the fields the patch carries. -/
def applyDatabasePatch (patch : DatabasePatch) (d : Database) : Database :=
  { d with
    UpdaterId := patch.UpdaterId
    SyncStatus := patch.SyncStatus.getD d.SyncStatus
    LastSuccessfulSyncTs := patch.LastSuccessfulSyncTs.getD d.LastSuccessfulSyncTs }

/-- Modelled from the spec: `PatchDatabase(id, fields) -> CatalogDatabase |
NotFoundError` (4.3). -/
def Catalog.patchDatabase (patch : DatabasePatch) (c : Catalog) : Ret Database × Catalog :=
  match c.databases.find? (fun d => d.ID == patch.ID) with
  | none => (⟨none, some ⟨Code.ENOTFOUND, "database not found"⟩⟩, c)
  | some d =>
    (⟨some (applyDatabasePatch patch d), none⟩,
      { c with databases := c.databases.map (fun x =>
          if x.ID == patch.ID then applyDatabasePatch patch x else x) })

/-- Modelled from the spec: `CreateDatabase(attrs) -> CatalogDatabase |
ConflictError` (4.3).  A name is unique within one instance (3); a created
record is `SyncStatus = OK` (8, scenario A) and is stamped with the clock. -/
def Catalog.createDatabase (create : DatabaseCreate) (c : Catalog) : Ret Database × Catalog :=
  if c.databases.any (fun d => d.InstanceId == create.InstanceId && d.Name == create.Name) then
    (⟨none, some ⟨Code.ECONFLICT, "database name already exists"⟩⟩, c)
  else
    let d : Database :=
      { ID := c.nextDatabaseId
        CreatorId := create.CreatorId
        UpdaterId := create.CreatorId
        ProjectId := create.ProjectId
        InstanceId := create.InstanceId
        Name := create.Name
        CharacterSet := create.CharacterSet
        Collation := create.Collation
        SyncStatus := SyncStatus.OK
        LastSuccessfulSyncTs := c.clock c.tick }
    (⟨some d, none⟩,
      { c with
        databases := c.databases ++ [d]
        nextDatabaseId := c.nextDatabaseId + 1
        tick := c.tick + 1 })

/-- Modelled from the spec: the filter of `FindTable`, by (database, name) (4.2). -/
def tableMatches (find : TableFind) (t : Table) : Bool :=
  (match find.DatabaseId with
    | some i => t.DatabaseId == i
    | none => true) &&
  (match find.Name with
    | some n => t.Name == n
    | none => true)

/-- Modelled from the spec: `FindTable` (4.3), `NotFound` when no record matches. -/
def Catalog.findTable (find : TableFind) (c : Catalog) : Ret Table × Catalog :=
  match c.tables.find? (tableMatches find) with
  | none => (⟨none, some ⟨Code.ENOTFOUND, "table not found"⟩⟩, c)
  | some t => (⟨some t, none⟩, c)

/-- Modelled from the spec: the partial update a table patch makes to one record. -/
def applyTablePatch (patch : TablePatch) (t : Table) : Table :=
  { t with
    UpdaterId := patch.UpdaterId
    SyncStatus := patch.SyncStatus.getD t.SyncStatus
    LastSuccessfulSyncTs := patch.LastSuccessfulSyncTs.getD t.LastSuccessfulSyncTs }

/-- Modelled from the spec: `PatchTable` (4.3). -/
def Catalog.patchTable (patch : TablePatch) (c : Catalog) : Ret Table × Catalog :=
  match c.tables.find? (fun t => t.ID == patch.ID) with
  | none => (⟨none, some ⟨Code.ENOTFOUND, "table not found"⟩⟩, c)
  | some t =>
    (⟨some (applyTablePatch patch t), none⟩,
      { c with tables := c.tables.map (fun x =>
          if x.ID == patch.ID then applyTablePatch patch x else x) })

/-- Modelled from the spec: `CreateTable` (4.3).  A table name is unique within
one database (3); a created record is `SyncStatus = OK` (8, scenario A) and is
stamped with the clock. -/
def Catalog.createTable (create : TableCreate) (c : Catalog) : Ret Table × Catalog :=
  if c.tables.any (fun t => t.DatabaseId == create.DatabaseId && t.Name == create.Name) then
    (⟨none, some ⟨Code.ECONFLICT, "table name already exists"⟩⟩, c)
  else
    let t : Table :=
      { ID := c.nextTableId
        CreatorId := create.CreatorId
        UpdaterId := create.CreatorId
        DatabaseId := create.DatabaseId
        Name := create.Name
        Type_ := create.Type_
        Engine := create.Engine
        Collation := create.Collation
        RowCount := create.RowCount
        DataSize := create.DataSize
        IndexSize := create.IndexSize
        DataFree := create.DataFree
        CreateOptions := create.CreateOptions
        Comment := create.Comment
        SyncStatus := SyncStatus.OK
        LastSuccessfulSyncTs := c.clock c.tick }
    (⟨some t, none⟩,
      { c with
        tables := c.tables ++ [t]
        nextTableId := c.nextTableId + 1
        tick := c.tick + 1 })

/-- Modelled from the spec: the environment in which the catalog services are
the store above; `bot` and `project` are the system actor and the default
project, `open_` is the driver side. -/
def catalogEnv (bot project : Int) (open_ : ConnectionConfig → Ret Driver) : Env Catalog :=
  { SYSTEM_BOT_ID := bot
    DEFAULT_PROJECT_ID := project
    Open := open_
    Now := Catalog.now
    FindDatabaseList := Catalog.findDatabaseList
    PatchDatabase := Catalog.patchDatabase
    CreateDatabase := Catalog.createDatabase
    FindTable := Catalog.findTable
    CreateTable := Catalog.createTable
    PatchTable := Catalog.patchTable }

/-- A driver side on which `db.Open` succeeds and introspection returns `schemaList`. -/
def liveOpen (schemaList : List DBSchema) : ConnectionConfig → Ret Driver :=
  fun _ => ⟨some ⟨schemaList, none⟩, none⟩

/-! ## Concrete inputs -/

/-- The live table `items` of scenario A. -/
def itemsTable : TableSchema :=
  { Name := "items", Type_ := "BASE TABLE", Engine := "InnoDB", Collation := "utf8mb4_general_ci",
    RowCount := 3, DataSize := 16384, IndexSize := 0, DataFree := 0,
    CreateOptions := "", Comment := "" }

/-- The live database `orders` of scenario A. -/
def ordersSchema : DBSchema :=
  { Name := "orders", CharacterSet := "utf8mb4", Collation := "utf8mb4_general_ci",
    TableList := [itemsTable] }

/-- An instance to run the scenarios on. -/
def prodInstance : Instance :=
  { ID := 7, Name := "prod", Username := "root", Password := "secret",
    Host := "127.0.0.1", Port := "3306" }

/-- The empty catalog of scenario A; its clock reads 1000, 1001, ... -/
def emptyCatalog : Catalog :=
  { databases := [], tables := [], nextDatabaseId := 1, nextTableId := 1,
    clock := fun n => 1000 + n, tick := 0 }

/-- The stored record of database `orders` of instance 7. -/
def ordersRecord : Database :=
  { ID := 1, CreatorId := 1, UpdaterId := 1, ProjectId := 1, InstanceId := 7,
    Name := "orders", CharacterSet := "utf8mb4", Collation := "utf8mb4_general_ci",
    SyncStatus := SyncStatus.OK, LastSuccessfulSyncTs := 900 }

/-- The stored record of table `items` of database 1. -/
def itemsRecord : Table :=
  { ID := 1, CreatorId := 1, UpdaterId := 1, DatabaseId := 1, Name := "items",
    Type_ := "BASE TABLE", Engine := "InnoDB", Collation := "utf8mb4_general_ci",
    RowCount := 3, DataSize := 16384, IndexSize := 0, DataFree := 0,
    CreateOptions := "", Comment := "", SyncStatus := SyncStatus.OK,
    LastSuccessfulSyncTs := 900 }

/-- The prior catalog of scenario B: `orders` with its table `items`. -/
def ordersCatalog : Catalog :=
  { databases := [ordersRecord], tables := [itemsRecord], nextDatabaseId := 2,
    nextTableId := 2, clock := fun n => 1000 + n, tick := 0 }

/-- A store in which the listed database records are deleted by someone else
right after `FindDatabaseList` has read them: every later patch of one of them
answers `(nil, ENOTFOUND)`. -/
def vanishingEnv (open_ : ConnectionConfig → Ret Driver) : Env Catalog :=
  { catalogEnv 1 1 open_ with
    FindDatabaseList := fun find c =>
      ((Catalog.findDatabaseList find c).1, { c with databases := [] }) }

/-- A store whose `PatchDatabase` fails for an infrastructure reason and, as a
failed Go call does, returns no record: `(nil, EINTERNAL)`. -/
def lockedEnv (open_ : ConnectionConfig → Ret Driver) : Env Catalog :=
  { catalogEnv 1 1 open_ with
    PatchDatabase := fun _ c => (⟨none, some ⟨Code.EINTERNAL, "database is locked"⟩⟩, c) }

/-- A driver side on which `db.Open` fails with `err`. -/
def liveDown (err : Error) : ConnectionConfig → Ret Driver :=
  fun _ => ⟨none, some err⟩

/-! ## Classifying calls -/

/-- The table-level calls: `FindTable`, `CreateTable`, `PatchTable`. -/
def Call.isTableCall : Call → Bool
  | Call.FindTable _ _ _ => true
  | Call.CreateTable _ _ _ => true
  | Call.PatchTable _ _ _ => true
  | _ => false

/-- The calls `CreateTable`. -/
def Call.isCreateTable : Call → Bool
  | Call.CreateTable _ _ _ => true
  | _ => false

/-- The error component of the pair a call returned. -/
def Call.err : Call → Option Error
  | Call.FindDatabaseList _ _ e => e
  | Call.PatchDatabase _ _ e => e
  | Call.CreateDatabase _ _ e => e
  | Call.FindTable _ _ e => e
  | Call.CreateTable _ _ e => e
  | Call.PatchTable _ _ e => e

/-- A stored record of instance 7 that carries the reserved name. -/
def bytebaseRecord : Database :=
  { ID := 2, CreatorId := 1, UpdaterId := 1, ProjectId := 1, InstanceId := 7,
    Name := "bytebase", CharacterSet := "utf8mb4", Collation := "utf8mb4_general_ci",
    SyncStatus := SyncStatus.OK, LastSuccessfulSyncTs := 900 }

/-- A prior catalog that holds the record named `bytebase`. -/
def bytebaseCatalog : Catalog :=
  { databases := [bytebaseRecord], tables := [], nextDatabaseId := 3, nextTableId := 1,
    clock := fun n => 1000 + n, tick := 0 }

/-- A live database with the reserved name in another letter case. -/
def upperSchema : DBSchema :=
  { Name := "BYTEBASE", CharacterSet := "utf8mb4", Collation := "utf8mb4_general_ci",
    TableList := [itemsTable] }

/-! ## The database-level plan -/

/-- A database-level request without its timestamp: the target and status of a
`PatchDatabase`, or the name of a `CreateDatabase`. -/
inductive DbRequest where
  | patch (id : Int) (status : Option SyncStatus)
  | create (name : String)
  deriving DecidableEq, Repr

/-- The database-level request a call makes, if it is database-level. -/
def Call.dbRequest : Call → Option DbRequest
  | Call.PatchDatabase patch _ _ => some (DbRequest.patch patch.ID patch.SyncStatus)
  | Call.CreateDatabase create _ _ => some (DbRequest.create create.Name)
  | _ => none

/-- Whether a call is a `PatchDatabase` of the record `id`. -/
def Call.patchesDatabase (id : Int) : Call → Bool
  | Call.PatchDatabase patch _ _ => patch.ID == id
  | _ => false

/-- The reference account of spec 4.2, steps 4 and 5: each live database other
than the reserved one is matched (patch `OK`) or created, in snapshot order;
then each listed record whose name no live database has is patched `NotFound`. -/
def plannedDbRequests (dbList : List Database) (schemaList : List DBSchema) : List DbRequest :=
  (schemaList.filter (fun schema => !EqualFold "bytebase" schema.Name)).map (fun schema =>
      match matchedDb dbList schema.Name with
      | some matched => DbRequest.patch matched.ID (some SyncStatus.OK)
      | none => DbRequest.create schema.Name)
    ++ (dbList.filter (fun db => !schemaList.any (fun schema => db.Name == schema.Name))).map
      (fun db => DbRequest.patch db.ID (some SyncStatus.NotFound))

/-- The record a planned request patches, if it is a patch. -/
def DbRequest.target : DbRequest → Option Int
  | DbRequest.patch id _ => some id
  | DbRequest.create _ => none

/-- A snapshot that reports the database `orders` twice. -/
def twiceOrders : List DBSchema := [ordersSchema, ordersSchema]

/-! ## Catalog states and the steps of a run -/

/-- Modelled from the spec: the invariants of spec 3 on a catalog state, with
the freshness of the identifiers the store hands out.  Identifiers are unique,
a database name is unique within one instance, and a table name is unique
within one database. -/
structure Catalog.WF (c : Catalog) : Prop where
  dbIds : c.databases.Pairwise (fun a b => a.ID ≠ b.ID)
  dbFresh : ∀ d ∈ c.databases, d.ID < c.nextDatabaseId
  dbNames : c.databases.Pairwise (fun a b => ¬ (a.InstanceId = b.InstanceId ∧ a.Name = b.Name))
  tableIds : c.tables.Pairwise (fun a b => a.ID ≠ b.ID)
  tableFresh : ∀ t ∈ c.tables, t.ID < c.nextTableId
  tableNames : c.tables.Pairwise (fun a b => ¬ (a.DatabaseId = b.DatabaseId ∧ a.Name = b.Name))

/-- The timestamp `ts` is a reading of the clock taken since reading number
`tick0`, before the state `c`. -/
def Stamped (tick0 : Nat) (c : Catalog) (ts : Int) : Prop :=
  ∃ i, tick0 ≤ i ∧ i < c.tick ∧ ts = c.clock i

/-- In state `c` the identifier `id` is that of a database record of the
instance whose name a live database of the snapshot has. -/
def LiveDb (inst : Instance) (S : List DBSchema) (c : Catalog) (id : Int) : Prop :=
  ∃ r ∈ c.databases, r.ID = id ∧ r.InstanceId = inst.ID ∧ ∃ s ∈ S, s.Name = r.Name

/-- One step of a run on the snapshot `S` against the store, with the catalog
call it records: a clock reading, the list read, a Case 1 patch of a listed
record with a live name, a Case 3 patch of a listed record without one, a
create for a live name, or a table call for a database with a live name. -/
inductive RunStep (inst : Instance) (S : List DBSchema) (dbList : List Database)
    (tick0 : Nat) : Catalog → List Call → Catalog → Prop where
  | now (c : Catalog) : RunStep inst S dbList tick0 c [] (Catalog.now c).2
  | findDatabaseList (c : Catalog) (find : DatabaseFind) :
      RunStep inst S dbList tick0 c
        [Call.FindDatabaseList find (Catalog.findDatabaseList find c).1.1
          (Catalog.findDatabaseList find c).1.2] c
  | patchOK (c : Catalog) (m : Database) (bot ts : Int) :
      m ∈ dbList → (∃ s ∈ S, s.Name = m.Name) → Stamped tick0 c ts →
      RunStep inst S dbList tick0 c
        [Call.PatchDatabase ⟨m.ID, bot, some SyncStatus.OK, some ts⟩
          (Catalog.patchDatabase ⟨m.ID, bot, some SyncStatus.OK, some ts⟩ c).1.val
          (Catalog.patchDatabase ⟨m.ID, bot, some SyncStatus.OK, some ts⟩ c).1.err]
        (Catalog.patchDatabase ⟨m.ID, bot, some SyncStatus.OK, some ts⟩ c).2
  | patchNotFound (c : Catalog) (db : Database) (bot ts : Int) :
      db ∈ dbList → (∀ s ∈ S, s.Name ≠ db.Name) → Stamped tick0 c ts →
      RunStep inst S dbList tick0 c
        [Call.PatchDatabase ⟨db.ID, bot, some SyncStatus.NotFound, some ts⟩
          (Catalog.patchDatabase ⟨db.ID, bot, some SyncStatus.NotFound, some ts⟩ c).1.val
          (Catalog.patchDatabase ⟨db.ID, bot, some SyncStatus.NotFound, some ts⟩ c).1.err]
        (Catalog.patchDatabase ⟨db.ID, bot, some SyncStatus.NotFound, some ts⟩ c).2
  | createDatabase (c : Catalog) (create : DatabaseCreate) :
      create.InstanceId = inst.ID → (∃ s ∈ S, s.Name = create.Name) →
      RunStep inst S dbList tick0 c
        [Call.CreateDatabase create (Catalog.createDatabase create c).1.val
          (Catalog.createDatabase create c).1.err]
        (Catalog.createDatabase create c).2
  | findTable (c : Catalog) (id : Int) (name : String) :
      LiveDb inst S c id →
      RunStep inst S dbList tick0 c
        [Call.FindTable ⟨some id, some name⟩ (Catalog.findTable ⟨some id, some name⟩ c).1.val
          (Catalog.findTable ⟨some id, some name⟩ c).1.err] c
  | createTable (c : Catalog) (create : TableCreate) :
      LiveDb inst S c create.DatabaseId →
      RunStep inst S dbList tick0 c
        [Call.CreateTable create (Catalog.createTable create c).1.val
          (Catalog.createTable create c).1.err]
        (Catalog.createTable create c).2
  | patchTable (c : Catalog) (u : Table) (bot ts : Int) :
      u ∈ c.tables → LiveDb inst S c u.DatabaseId → Stamped tick0 c ts →
      RunStep inst S dbList tick0 c
        [Call.PatchTable ⟨u.ID, bot, some SyncStatus.OK, some ts⟩
          (Catalog.patchTable ⟨u.ID, bot, some SyncStatus.OK, some ts⟩ c).1.val
          (Catalog.patchTable ⟨u.ID, bot, some SyncStatus.OK, some ts⟩ c).1.err]
        (Catalog.patchTable ⟨u.ID, bot, some SyncStatus.OK, some ts⟩ c).2

/-- A sequence of steps of a run, with the calls it records in order. -/
inductive Trace (inst : Instance) (S : List DBSchema) (dbList : List Database)
    (tick0 : Nat) : Catalog → List Call → Catalog → Prop where
  | nil (c : Catalog) : Trace inst S dbList tick0 c [] c
  | cons {c c' c'' : Catalog} {l ls : List Call} :
      RunStep inst S dbList tick0 c l c' → Trace inst S dbList tick0 c' ls c'' →
      Trace inst S dbList tick0 c (l ++ ls) c''

/-- What stays true of the catalog all along a run that started in `c0` and
read the list `dbList`: the state is well formed, the clock is the same and
has not gone back, no identifier counter has gone back, the listed records
were there at the start, and every one of them is still there under its
identifier, name and instance, which no other record carries. -/
structure Tracks (dbList : List Database) (c0 c : Catalog) : Prop where
  wf : c.WF
  clock : c.clock = c0.clock
  tick : c0.tick ≤ c.tick
  nextDb : c0.nextDatabaseId ≤ c.nextDatabaseId
  nextTable : c0.nextTableId ≤ c.nextTableId
  listed : ∀ x ∈ dbList, x.ID < c0.nextDatabaseId
  kept : ∀ x ∈ dbList, ∃ r ∈ c.databases, r.ID = x.ID
  same : ∀ x ∈ dbList, ∀ r ∈ c.databases, r.ID = x.ID →
    r.Name = x.Name ∧ r.InstanceId = x.InstanceId

/-- The records `FindDatabaseList` returns for the instance, in state `c`. -/
def Catalog.listed (inst : Instance) (c : Catalog) : List Database :=
  c.databases.filter (fun d => d.InstanceId == inst.ID)

/-- State `c` holds a table record (`id`, `name`) with `SyncStatus = OK` and a
timestamp read since reading `tick0`. -/
def TableSynced (tick0 : Nat) (c : Catalog) (id : Int) (name : String) : Prop :=
  ∃ u ∈ c.tables, u.DatabaseId = id ∧ u.Name = name ∧ u.SyncStatus = SyncStatus.OK ∧
    Stamped tick0 c u.LastSuccessfulSyncTs

/-- State `c` holds the database record `id` of the instance under `name`, with
`SyncStatus = OK` and a timestamp read since reading `tick0`. -/
def DatabaseSynced (inst : Instance) (tick0 : Nat) (c : Catalog) (id : Int) (name : String) :
    Prop :=
  ∃ r ∈ c.databases, r.ID = id ∧ r.InstanceId = inst.ID ∧ r.Name = name ∧
    r.SyncStatus = SyncStatus.OK ∧ Stamped tick0 c r.LastSuccessfulSyncTs

/-- State `c` holds the live database `d` and every one of its tables, synced. -/
def Synced (inst : Instance) (tick0 : Nat) (c : Catalog) (d : DBSchema) : Prop :=
  ∃ id, DatabaseSynced inst tick0 c id d.Name ∧
    ∀ t ∈ d.TableList, TableSynced tick0 c id t.Name

/-- Every record of state `c` under the identifier of `x` is `NotFound`, with a
timestamp read since reading `tick0`. -/
def MarkedNotFound (tick0 : Nat) (c : Catalog) (x : Database) : Prop :=
  ∀ r ∈ c.databases, r.ID = x.ID →
    r.SyncStatus = SyncStatus.NotFound ∧ Stamped tick0 c r.LastSuccessfulSyncTs

/-- The table records of database `x` in state `c` are those of state `c0`. -/
def TablesUntouched (c0 c : Catalog) (x : Database) : Prop :=
  c.tables.filter (fun t => t.DatabaseId == x.ID)
    = c0.tables.filter (fun t => t.DatabaseId == x.ID)

/-- A call that is no table call for database `x`, whose table records in
state `c0` it leaves alone. -/
def Call.sparesTablesOf (c0 : Catalog) (x : Database) (call : Call) : Prop :=
  (∀ find ret err, call = Call.FindTable find ret err → find.DatabaseId ≠ some x.ID) ∧
  (∀ create ret err, call = Call.CreateTable create ret err → create.DatabaseId ≠ x.ID) ∧
  (∀ patch ret err, call = Call.PatchTable patch ret err →
    ∀ t ∈ c0.tables, t.DatabaseId = x.ID → t.ID ≠ patch.ID)

/-- A call that creates nothing: a read, or a patch that sets `SyncStatus` and
`LastSuccessfulSyncTs`. -/
def Call.onlySyncs : Call → Bool
  | Call.FindDatabaseList _ _ _ => true
  | Call.FindTable _ _ _ => true
  | Call.PatchDatabase patch _ _ => patch.SyncStatus.isSome && patch.LastSuccessfulSyncTs.isSome
  | Call.PatchTable patch _ _ => patch.SyncStatus.isSome && patch.LastSuccessfulSyncTs.isSome
  | Call.CreateDatabase _ _ _ => false
  | Call.CreateTable _ _ _ => false

/-- State `c` holds, under a listed record named like the live database `d`,
a table record for every table of `d`. -/
def Present (dbList : List Database) (c : Catalog) (d : DBSchema) : Prop :=
  ∃ m ∈ dbList, m.Name = d.Name ∧
    ∀ t ∈ d.TableList, ∃ u ∈ c.tables, u.DatabaseId = m.ID ∧ u.Name = t.Name

/-! ## Stored tables that are found again -/

/-- The structural attributes of a stored table record, in the shape of a live
table: everything a `TableCreate` copies from the live side. -/
def Table.shape (t : Table) : TableSchema :=
  { Name := t.Name, Type_ := t.Type_, Engine := t.Engine, Collation := t.Collation,
    RowCount := t.RowCount, DataSize := t.DataSize, IndexSize := t.IndexSize,
    DataFree := t.DataFree, CreateOptions := t.CreateOptions, Comment := t.Comment }

/-- In the call list `l`, every `FindTable` that returned a record without an
error is followed at once by a `PatchTable` of that record's ID that carries
the updater `bot`, `SyncStatus = OK` and a timestamp. -/
def FoundThenPatched (bot : Int) (l : List Call) : Prop :=
  ∀ A B find st, l = A ++ Call.FindTable find (some st) none :: B →
    ∃ ts pr pe B', B = Call.PatchTable ⟨st.ID, bot, some SyncStatus.OK, some ts⟩ pr pe :: B'

/-- The live table `items` after it has grown: its row count, sizes and comment
are no longer those of the stored `itemsRecord`. -/
def itemsGrown : TableSchema :=
  { Name := "items", Type_ := "BASE TABLE", Engine := "InnoDB", Collation := "utf8mb4_general_ci",
    RowCount := 500, DataSize := 65536, IndexSize := 16384, DataFree := 0,
    CreateOptions := "", Comment := "line items" }

/-- The live database `orders` with the grown table. -/
def ordersGrown : DBSchema :=
  { Name := "orders", CharacterSet := "utf8mb4", Collation := "utf8mb4_general_ci",
    TableList := [itemsGrown] }

/-! ## Timestamps -/

/-- Whether a call that patches a record carries `SyncStatus` and
`LastSuccessfulSyncTs` together; the other calls carry neither. -/
def Call.pairsStatusAndTs : Call → Bool
  | Call.PatchDatabase patch _ _ => patch.SyncStatus.isSome && patch.LastSuccessfulSyncTs.isSome
  | Call.PatchTable patch _ _ => patch.SyncStatus.isSome && patch.LastSuccessfulSyncTs.isSome
  | _ => true

/-- The timestamp a patch call carries was read from the clock of `C` at or
after its reading number `C.tick`. -/
def Call.readSince (C : Catalog) : Call → Prop
  | Call.PatchDatabase patch _ _ => ∃ i, C.tick ≤ i ∧ patch.LastSuccessfulSyncTs = some (C.clock i)
  | Call.PatchTable patch _ _ => ∃ i, C.tick ≤ i ∧ patch.LastSuccessfulSyncTs = some (C.clock i)
  | _ => True

/-- The timestamp a patch call carries is not before the one the record it
names holds in the catalog `C`. -/
def Call.notBefore (C : Catalog) : Call → Prop
  | Call.PatchDatabase patch _ _ =>
    ∃ ts, patch.LastSuccessfulSyncTs = some ts ∧
      ∀ r ∈ C.databases, r.ID = patch.ID → r.LastSuccessfulSyncTs ≤ ts
  | Call.PatchTable patch _ _ =>
    ∃ ts, patch.LastSuccessfulSyncTs = some ts ∧
      ∀ t ∈ C.tables, t.ID = patch.ID → t.LastSuccessfulSyncTs ≤ ts
  | _ => True

/-- No timestamp stored in `C` is ahead of a reading its clock gives from
reading number `C.tick` on. -/
def NotAhead (C : Catalog) : Prop :=
  ∀ i, C.tick ≤ i →
    (∀ r ∈ C.databases, r.LastSuccessfulSyncTs ≤ C.clock i) ∧
    (∀ t ∈ C.tables, t.LastSuccessfulSyncTs ≤ C.clock i)

/-- Every record of `C` is in state `c` under its ID with a timestamp that is
not before the one it has in `C`. -/
def Forward (C c : Catalog) : Prop :=
  (∀ r ∈ C.databases, ∃ r' ∈ c.databases,
    r'.ID = r.ID ∧ r.LastSuccessfulSyncTs ≤ r'.LastSuccessfulSyncTs) ∧
  (∀ t ∈ C.tables, ∃ t' ∈ c.tables,
    t'.ID = t.ID ∧ t.LastSuccessfulSyncTs ≤ t'.LastSuccessfulSyncTs)

/-- A stored `orders` whose timestamp is ahead of the clock: it was written
when the clock read 5000. -/
def aheadRecord : Database :=
  { ID := 1, CreatorId := 1, UpdaterId := 1, ProjectId := 1, InstanceId := 7,
    Name := "orders", CharacterSet := "utf8mb4", Collation := "utf8mb4_general_ci",
    SyncStatus := SyncStatus.OK, LastSuccessfulSyncTs := 5000 }

/-- A prior catalog that holds `aheadRecord`; its clock reads 1000, 1001, ... -/
def aheadCatalog : Catalog :=
  { databases := [aheadRecord], tables := [], nextDatabaseId := 2, nextTableId := 1,
    clock := fun n => 1000 + n, tick := 0 }

/-- The live database `orders` without tables. -/
def ordersBare : DBSchema :=
  { Name := "orders", CharacterSet := "utf8mb4", Collation := "utf8mb4_general_ci",
    TableList := [] }

/-! ## Failed catalog calls -/

/-- A call whose failure ends the run: any call that returned an error, except a
`FindTable` that found nothing, which the run answers with a `CreateTable`. -/
def Call.halts : Call → Bool
  | Call.FindTable _ _ (some e) => decide (e.code ≠ Code.ENOTFOUND)
  | c => c.err.isSome

/-- The calls `A` end with a database-level call that returned the record `d`
without error, followed by table-level calls only: a later table-level call
belongs to the iteration of `d`. -/
def Encloses (A : List Call) (d : Database) : Prop :=
  ∃ pre dbc mid, A = pre ++ dbc :: mid ∧ (∀ a ∈ mid, a.isTableCall = true) ∧
    ((∃ patch, dbc = Call.PatchDatabase patch (some d) none) ∨
      (∃ create, dbc = Call.CreateDatabase create (some d) none))

/-- What the failed table-level call `c`, issued after the calls `A` in the
iteration of the database record `d`, makes of the block: the error text of
lines 113, 115, 191, 203 and 205. -/
def TableFailure (inst : Instance) (d : Database) (A : List Call) (c : Call) (f : Flow) : Prop :=
  match c with
  | Call.FindTable _ _ (some e) =>
    f = Flow.fail ("failed to sync table for instance: " ++ inst.Name ++ ", database: "
      ++ d.Name ++ ". Error " ++ e.msg)
  | Call.CreateTable create _ (some e) =>
    create.DatabaseId = d.ID ∧
    f = Flow.fail (if e.code = Code.ECONFLICT then
        "failed to sync table for instance: " ++ inst.Name ++ ", database: " ++ d.Name
          ++ ". Table name already exists: " ++ create.Name
      else
        "failed to sync database for instance: " ++ inst.Name ++ ", database: " ++ d.Name
          ++ ". Failed to import new table: " ++ create.Name ++ ". Error " ++ e.msg)
  | Call.PatchTable patch _ (some e) =>
    ∃ A' find st, A = A' ++ [Call.FindTable find (some st) none] ∧ patch.ID = st.ID ∧
      f = Flow.fail (if e.code = Code.ENOTFOUND then
          "failed to sync table for instance: " ++ inst.Name ++ ", database: " ++ d.Name
            ++ ". Table not found: " ++ st.Name
        else
          "failed to sync table for instance: " ++ inst.Name ++ ", database: " ++ d.Name
            ++ ". Failed to update table: " ++ st.Name ++ ". Error " ++ e.msg)
  | _ => False

/-- What the failed call `c`, issued after the calls `A`, makes of the run: the
error text of lines 113-272 for it, or a nil dereference when a failed
`PatchDatabase` returned no record. -/
def Reported (inst : Instance) (A : List Call) (c : Call) (f : Flow) : Prop :=
  match c with
  | Call.FindDatabaseList _ _ (some e) =>
    f = Flow.fail ("failed to sync database for instance: " ++ inst.Name
      ++ ". Failed to find database list. Error " ++ e.msg)
  | Call.CreateDatabase create _ (some e) =>
    f = Flow.fail (if e.code = Code.ECONFLICT then
        "failed to sync database for instance: " ++ inst.Name
          ++ ". Database name already exists: " ++ create.Name
      else
        "failed to sync database for instance: " ++ inst.Name
          ++ ". Failed to import new database: " ++ create.Name ++ ". Error " ++ e.msg)
  | Call.PatchDatabase _ none (some _) => f = Flow.fault
  | Call.PatchDatabase patch (some d) (some e) =>
    f = Flow.fail (if e.code = Code.ENOTFOUND then
        "failed to sync database for instance: " ++ inst.Name
          ++ ". Database not found: " ++ d.Name
      else
        "failed to sync database for instance: " ++ inst.Name
          ++ ". Failed to update database: " ++ d.Name
          ++ (if patch.SyncStatus = some SyncStatus.NotFound then ". Error: " else ". Error ")
          ++ e.msg)
  | Call.FindTable find ret (some e) =>
    ∃ d, Encloses A d ∧ TableFailure inst d A (Call.FindTable find ret (some e)) f
  | Call.CreateTable create ret (some e) =>
    ∃ d, Encloses A d ∧ TableFailure inst d A (Call.CreateTable create ret (some e)) f
  | Call.PatchTable patch ret (some e) =>
    ∃ d, Encloses A d ∧ TableFailure inst d A (Call.PatchTable patch ret (some e)) f
  | _ => False

/-- Every call of the block that halts a run is the last call of the block, and
the block ends as `report` says of it. -/
def Run.Halts {W : Type} (report : List Call → Call → Flow → Prop) (r : Run W) : Prop :=
  ∀ A B c, r.calls = A ++ c :: B → c.halts = true → B = [] ∧ report A c r.flow

/-- A block that returns an error has issued a call, and the last one halts a run. -/
def Run.FailsLast {W : Type} (r : Run W) : Prop :=
  ∀ msg, r.flow = Flow.fail msg → ∃ A c, r.calls = A ++ [c] ∧ c.halts = true

/-! ## What a run leaves behind -/

/-- The database record a call returned without error. -/
def Call.database : Call → Option Database
  | Call.PatchDatabase _ (some d) none => some d
  | Call.CreateDatabase _ (some d) none => some d
  | _ => none

/-- The table record a call returned without error. -/
def Call.table : Call → Option Table
  | Call.CreateTable _ (some t) none => some t
  | Call.PatchTable _ (some t) none => some t
  | _ => none

/-- State `c` holds the database record `d`: a record with its identifier,
name, instance and `SyncStatus`. -/
def Catalog.holdsDatabase (c : Catalog) (d : Database) : Prop :=
  ∃ r ∈ c.databases, r.ID = d.ID ∧ r.Name = d.Name ∧ r.InstanceId = d.InstanceId ∧
    r.SyncStatus = d.SyncStatus

/-- State `c` holds the table record `t`: a record with its identifier,
database, structural attributes and `SyncStatus`. -/
def Catalog.holdsTable (c : Catalog) (t : Table) : Prop :=
  ∃ u ∈ c.tables, u.ID = t.ID ∧ u.DatabaseId = t.DatabaseId ∧ u.shape = t.shape ∧
    u.SyncStatus = t.SyncStatus

/-- The status of record `d` agrees with the snapshot `S`: `OK` under a live
name, `NotFound` under a name no live database has. -/
def Settled (S : List DBSchema) (d : Database) : Prop :=
  (d.SyncStatus = SyncStatus.OK ∧ ∃ s ∈ S, s.Name = d.Name) ∨
  (d.SyncStatus = SyncStatus.NotFound ∧ ∀ s ∈ S, s.Name ≠ d.Name)

/-- A live database `orders` that reports its table `items` twice. -/
def twinItems : DBSchema :=
  { Name := "orders", CharacterSet := "utf8mb4", Collation := "utf8mb4_general_ci",
    TableList := [itemsTable, itemsTable] }

/-! ## The context an error message carries -/

/-- Go `strings.Contains(msg, name)`: the text `name` occurs in `msg`. -/
def Mentions (msg name : String) : Prop :=
  name.toList <:+: msg.toList

/-- A driver side on which `db.Open` succeeds and introspection fails with `err`. -/
def liveBroken (err : Error) : ConnectionConfig → Ret Driver :=
  fun _ => ⟨some ⟨[], some err⟩, none⟩

/-- A store whose `FindTable` fails for an infrastructure reason: `(nil, EINTERNAL)`. -/
def brokenFindEnv (open_ : ConnectionConfig → Ret Driver) : Env Catalog :=
  { catalogEnv 1 1 open_ with
    FindTable := fun _ c => (⟨none, some ⟨Code.EINTERNAL, "database is locked"⟩⟩, c) }

instance Mentions.instDecidable (msg name : String) : Decidable (Mentions msg name) :=
  inferInstanceAs (Decidable (name.toList <:+: msg.toList))

/-- The stored record of `orders`, marked `NotFound` by an earlier run. -/
def goneRecord : Database :=
  { ordersRecord with SyncStatus := SyncStatus.NotFound }

/-- A prior catalog in which `orders` is marked `NotFound`. -/
def goneCatalog : Catalog :=
  { databases := [goneRecord], tables := [itemsRecord], nextDatabaseId := 2,
    nextTableId := 2, clock := fun n => 1000 + n, tick := 0 }

/-! ## The `/sql/ping` handler -/

/-- The fields of `api.ConnectionInfo` the `/sql/ping` handler reads;
`InstanceId` is a pointer, nil when the request names no instance. -/
structure ConnectionInfo where
  DBType : String
  Username : String
  Password : String
  Host : String
  Port : String
  InstanceId : Option Int
  deriving DecidableEq, Repr

/-- An opened driver, as far as the handler uses it: what its `Ping` returns. -/
structure PingDriver where
  pingErr : Option Error
  deriving DecidableEq, Repr

/-- The collaborators of the `/sql/ping` handler, none of which is declared in
the source files at hand.  `PointerText` is what `%d` prints for the pointer
`connectionInfo.InstanceId` at line 32. -/
structure PingEnv where
  FindInstanceAdminPasswordById : Int → String × Option Error
  Open : String → ConnectionConfig → Ret PingDriver
  Marshal : SqlResultSet → Option Error
  PointerText : String

/-- How the handler ends: it returns an `echo.HTTPError`, or it returns nil
after writing the result set, or it dereferences nil. -/
inductive PingOutcome where
  | httpError (status : Nat) (message : String)
  | written (rs : SqlResultSet)
  | fault
  deriving DecidableEq, Repr

/-- A call of the handler: its outcome and the `db.Open` calls it made, each
with the database type and the connection configuration passed. -/
structure PingRun where
  outcome : PingOutcome
  opened : List (String × ConnectionConfig)
  deriving DecidableEq, Repr

/-- Lines 61-65 of the handler: the result set is marshalled into the response. -/
def respond (env : PingEnv) (resultSet : SqlResultSet)
    (opened : List (String × ConnectionConfig)) : PingRun :=
  match env.Marshal resultSet with
  | some _ => ⟨PingOutcome.httpError 500 "Failed to marshal sql result set response", opened⟩
  | none => ⟨PingOutcome.written resultSet, opened⟩

/-- Lines 37-65 of the handler: the connection is opened with `password` and
pinged. -/
def connect (env : PingEnv) (connectionInfo : ConnectionInfo) (password : String) : PingRun :=
  let config : ConnectionConfig :=
    { Username := connectionInfo.Username
      Password := password
      Host := connectionInfo.Host
      Port := connectionInfo.Port }
  let o := env.Open connectionInfo.DBType config
  let opened := [(connectionInfo.DBType, config)]
  match o.err with
  | some err =>
    let usePassword := if connectionInfo.Password = "" then "NO" else "YES"
    let hostPort :=
      if connectionInfo.Port ≠ "" then connectionInfo.Host ++ ":" ++ connectionInfo.Port
      else connectionInfo.Host
    respond env
      { Error := "failed to connect '" ++ hostPort ++ "' for user '" ++ connectionInfo.Username
          ++ "' (using password: " ++ usePassword ++ "), " ++ err.msg } opened
  | none =>
    match o.val with
    | none => ⟨PingOutcome.fault, opened⟩
    | some db =>
      match db.pingErr with
      | some err => respond env { Error := err.msg } opened
      | none => respond env { Error := "" } opened

/-- The handler of `POST /sql/ping` in `registerSqlRoutes` (lines 18-66).
`payload` is what `jsonapi.UnmarshalPayload` makes of the request body, `none`
when it fails. -/
def sqlPing (env : PingEnv) (payload : Option ConnectionInfo) : PingRun :=
  match payload with
  | none => ⟨PingOutcome.httpError 400 "Malformatted sql ping request", []⟩
  | some connectionInfo =>
    if connectionInfo.Password = "" then
      match connectionInfo.InstanceId with
      | some instanceId =>
        let r := env.FindInstanceAdminPasswordById instanceId
        match r.2 with
        | some _ =>
          ⟨PingOutcome.httpError 500
            ("Failed to retrieve admin password for instance: " ++ env.PointerText), []⟩
        | none => connect env connectionInfo r.1
      | none => connect env connectionInfo connectionInfo.Password
    else connect env connectionInfo connectionInfo.Password

/-- A ping request for instance 7 that carries no password. -/
def pingStored : ConnectionInfo :=
  { DBType := "MYSQL", Username := "root", Password := "", Host := "127.0.0.1", Port := "3306",
    InstanceId := some 7 }

/-- A ping request that carries its own password. -/
def pingTyped : ConnectionInfo :=
  { pingStored with Password := "typed" }

/-- Collaborators for which instance 7 has the stored admin password `secret`
and every connection opens and pings. -/
def pingEnv : PingEnv :=
  { FindInstanceAdminPasswordById := fun id =>
      if id = 7 then ("secret", none) else ("", some ⟨Code.ENOTFOUND, "instance not found"⟩)
    Open := fun _ _ => ⟨some ⟨none⟩, none⟩
    Marshal := fun _ => none
    PointerText := "824634785096" }

/-- A ping request without password for an instance that is not stored. -/
def pingUnknown : ConnectionInfo :=
  { pingStored with InstanceId := some 8 }

/-- A live database named like the stored `orders` but for the letter case. -/
def capitalOrders : DBSchema :=
  { ordersSchema with Name := "Orders" }

/-! ## `activeProfile` of the release build -/

/-- The fields of struct `profile` of package `cmd` that `activeProfile` sets. -/
structure profile where
  mode : String
  dsn : String
  seedDir : String
  forceResetSeed : Bool
  deriving DecidableEq, Repr

/-- The function `activeProfile` of `bin/server/cmd/profile_release.go`
(lines 9-24); `fmt.Sprintf("file:%s/bytebase.db", dataDir)` is the
concatenation of its three pieces. -/
def activeProfile (dataDir : String) (isDemo : Bool) : profile :=
  let dsn := "file:" ++ dataDir ++ "/bytebase.db"
  let seedDir := "seed/release"
  let forceResetSeed := false
  let r : String × String × Bool :=
    if isDemo then ("file:" ++ dataDir ++ "/bytebase_demo.db", "seed/test", true)
    else (dsn, seedDir, forceResetSeed)
  { mode := "release", dsn := r.1, seedDir := r.2.1, forceResetSeed := r.2.2 }

/-- The reference definition of the active profile: the release values when
`isDemo` is false, the demo values when it is true. -/
def activeProfileReference (dataDir : String) : Bool → profile
  | false =>
    { mode := "release", dsn := "file:" ++ dataDir ++ "/bytebase.db",
      seedDir := "seed/release", forceResetSeed := false }
  | true =>
    { mode := "release", dsn := "file:" ++ dataDir ++ "/bytebase_demo.db",
      seedDir := "seed/test", forceResetSeed := true }

/-! ## Runs that halt early -/

/-- A store whose `CreateTable` fails for an infrastructure reason: `(nil, EINTERNAL)`. -/
def brokenCreateEnv (open_ : ConnectionConfig → Ret Driver) : Env Catalog :=
  { catalogEnv 1 1 open_ with
    CreateTable := fun _ c => (⟨none, some ⟨Code.EINTERNAL, "disk full"⟩⟩, c) }

/-- A second live table of `orders`. -/
def linesTable : TableSchema :=
  { itemsTable with Name := "lines" }

/-- The live database `orders` with two tables, `items` and `lines`. -/
def ordersWide : DBSchema :=
  { ordersSchema with TableList := [itemsTable, linesTable] }

/-- A live database `refunds` without tables. -/
def refundsSchema : DBSchema :=
  { Name := "refunds", CharacterSet := "utf8mb4", Collation := "utf8mb4_general_ci",
    TableList := [] }

/-! ## Sequencing lemmas -/

theorem Run.andThen_mk_done {W : Type} (w : W) (cs : List Call) (k : W → Run W) :
    (Run.mk Flow.done w cs).andThen k = ⟨(k w).flow, (k w).world, cs ++ (k w).calls⟩ := rfl

theorem Run.andThen_of_done {W : Type} (r : Run W) (k : W → Run W) (h : r.flow = Flow.done) :
    r.andThen k = ⟨(k r.world).flow, (k r.world).world, r.calls ++ (k r.world).calls⟩ := by
  unfold Run.andThen
  rw [h]

theorem Run.andThen_of_not_done {W : Type} (r : Run W) (k : W → Run W)
    (h : r.flow ≠ Flow.done) : r.andThen k = r := by
  unfold Run.andThen
  cases r with
  | mk f w cs =>
    cases f with
    | done => exact absurd rfl h
    | fail msg => rfl
    | fault => rfl

theorem forEach_nil {W α : Type} (body : α → W → Run W) (w : W) :
    forEach body [] w = ⟨Flow.done, w, []⟩ := rfl

theorem forEach_cons {W α : Type} (body : α → W → Run W) (x : α) (xs : List α) (w : W) :
    forEach body (x :: xs) w = (body x w).andThen (forEach body xs) := rfl

/-! ## C5: a failed connection or introspection leaves the catalog alone -/

/-- C5: when `db.Open` fails, or opens and `driver.SyncSchema` fails, the run
issues no catalog call at all, the world it leaves is the world it started in,
and the returned result set carries the failure: the connection error wrapped
with the instance and user, or the introspection error's own text. -/
theorem C5_failed_connection_leaves_catalog {W : Type} (env : Env W) (inst : Instance)
    (w : W) (e : Error)
    (h : (env.Open (connectionOf inst)).err = some e ∨
      ∃ driver, env.Open (connectionOf inst) = ⟨some driver, none⟩ ∧ driver.syncErr = some e) :
    (SyncSchema env inst w).calls = [] ∧ (SyncSchema env inst w).world = w ∧
    ((env.Open (connectionOf inst)).err = some e →
      (SyncSchema env inst w).outcome = Outcome.returned
        { Error := "failed to connect instance: " ++ inst.Name ++ " with user: "
            ++ inst.Username ++ ". Error " ++ e.msg }) ∧
    ((env.Open (connectionOf inst)).err = none →
      (SyncSchema env inst w).outcome = Outcome.returned { Error := e.msg }) := by
  rcases h with h | ⟨driver, hd, hs⟩
  · simp [SyncSchema, h]
  · simp [SyncSchema, hd, hs]

/-- C5 at scenario E: the instance is down, the stored `orders` is untouched. -/
theorem C5_failed_connection_leaves_catalog_witness :
    (SyncSchema (catalogEnv 1 1 (liveDown ⟨Code.EINTERNAL, "dial tcp: connection refused"⟩))
        prodInstance ordersCatalog).calls = [] ∧
    (SyncSchema (catalogEnv 1 1 (liveDown ⟨Code.EINTERNAL, "dial tcp: connection refused"⟩))
        prodInstance ordersCatalog).world.databases = [ordersRecord] :=
  ⟨(C5_failed_connection_leaves_catalog
      (catalogEnv 1 1 (liveDown ⟨Code.EINTERNAL, "dial tcp: connection refused"⟩))
      prodInstance ordersCatalog ⟨Code.EINTERNAL, "dial tcp: connection refused"⟩
      (Or.inl rfl)).1,
   by rw [(C5_failed_connection_leaves_catalog
      (catalogEnv 1 1 (liveDown ⟨Code.EINTERNAL, "dial tcp: connection refused"⟩))
      prodInstance ordersCatalog ⟨Code.EINTERNAL, "dial tcp: connection refused"⟩
      (Or.inl rfl)).2.1]; rfl⟩

/-! ## C4, C6: a failed `PatchDatabase` -/

/-- C4: the stored `orders` vanishes between the read and the write.  In Case 1
(live `orders`) and in Case 3 (empty snapshot) alike `PatchDatabase` answers
`(nil, ENOTFOUND)`, and the run does not return the descriptive message: it
dereferences the nil record while building it. -/
theorem C4_vanished_patch_target_faults :
    (SyncSchema (vanishingEnv (liveOpen [ordersSchema])) prodInstance ordersCatalog).outcome
      = Outcome.fault ∧
    (SyncSchema (vanishingEnv (liveOpen [ordersSchema])) prodInstance ordersCatalog).calls
      = [Call.FindDatabaseList ⟨some 7⟩ [ordersRecord] none,
         Call.PatchDatabase ⟨1, 1, some SyncStatus.OK, some 1000⟩ none
           (some ⟨Code.ENOTFOUND, "database not found"⟩)] ∧
    (SyncSchema (vanishingEnv (liveOpen [])) prodInstance ordersCatalog).outcome
      = Outcome.fault ∧
    (SyncSchema (vanishingEnv (liveOpen [])) prodInstance ordersCatalog).calls
      = [Call.FindDatabaseList ⟨some 7⟩ [ordersRecord] none,
         Call.PatchDatabase ⟨1, 1, some SyncStatus.NotFound, some 1000⟩ none
           (some ⟨Code.ENOTFOUND, "database not found"⟩)] := by
  refine ⟨?_, ?_, ?_, ?_⟩ <;> decide

/-- C6: the second catalog operation of the run, `PatchDatabase`, fails with
`(nil, EINTERNAL)`.  The run issues nothing after it, but it returns no result
set with a non-empty `Error`: it faults on the nil record. -/
theorem C6_failed_patch_faults :
    (SyncSchema (lockedEnv (liveOpen [ordersSchema])) prodInstance ordersCatalog).outcome
      = Outcome.fault ∧
    (SyncSchema (lockedEnv (liveOpen [ordersSchema])) prodInstance ordersCatalog).calls
      = [Call.FindDatabaseList ⟨some 7⟩ [ordersRecord] none,
         Call.PatchDatabase ⟨1, 1, some SyncStatus.OK, some 1000⟩ none
           (some ⟨Code.EINTERNAL, "database is locked"⟩)] := by
  refine ⟨?_, ?_⟩ <;> decide

theorem Run.andThen_calls_extends {W : Type} (r : Run W) (k : W → Run W) :
    ∃ rest, (r.andThen k).calls = r.calls ++ rest := by
  unfold Run.andThen
  cases r with
  | mk f w cs =>
    cases f with
    | done => exact ⟨_, rfl⟩
    | fail msg => exact ⟨[], by simp⟩
    | fault => exact ⟨[], by simp⟩

theorem forEach_append {W α : Type} (body : α → W → Run W) (xs ys : List α) (w : W) :
    forEach body (xs ++ ys) w = (forEach body xs w).andThen (forEach body ys) := by
  induction xs generalizing w with
  | nil => simp [forEach_nil, Run.andThen_mk_done]
  | cons x xs ih =>
    rw [List.cons_append, forEach_cons, forEach_cons]
    by_cases h : (body x w).flow = Flow.done
    · rw [Run.andThen_of_done _ _ h, Run.andThen_of_done _ _ h, ih]
      generalize forEach body xs (body x w).world = r
      cases r with
      | mk f w' cs =>
        cases f <;> simp [Run.andThen]
    · rw [Run.andThen_of_not_done _ _ h, Run.andThen_of_not_done _ _ h]
      exact (Run.andThen_of_not_done _ _ h).symm

/-- Every call of a loop is a call of one iteration, reached after the
iterations before it fell through. -/
theorem forEach_calls_split {W α : Type} (body : α → W → Run W) (xs : List α) (w : W)
    (A B : List Call) (c : Call) (h : (forEach body xs w).calls = A ++ c :: B) :
    ∃ pre x post A2 B2 B1, xs = pre ++ x :: post ∧
      (forEach body pre w).flow = Flow.done ∧
      (body x (forEach body pre w).world).calls = A2 ++ c :: B2 ∧
      A = (forEach body pre w).calls ++ A2 ∧ B = B2 ++ B1 := by
  induction xs generalizing w A with
  | nil => simp [forEach_nil] at h
  | cons x xs ih =>
    rw [forEach_cons] at h
    by_cases hd : (body x w).flow = Flow.done
    · rw [Run.andThen_of_done _ _ hd] at h
      simp only at h
      rcases List.append_eq_append_iff.mp h with ⟨a', hA, hrest⟩ | ⟨c', hcalls, hcB⟩
      · obtain ⟨pre, y, post, A2, B2, B1, hxs, hflow, hbody, hA', hB⟩ := ih _ _ hrest
        refine ⟨x :: pre, y, post, A2, B2, B1, by simp [hxs], ?_, ?_, ?_, hB⟩
        · rw [forEach_cons, Run.andThen_of_done _ _ hd]; exact hflow
        · rw [forEach_cons, Run.andThen_of_done _ _ hd]; exact hbody
        · rw [forEach_cons, Run.andThen_of_done _ _ hd, hA, hA']; simp
      · cases c' with
        | nil =>
          simp only [List.nil_append] at hcB
          simp only [List.append_nil] at hcalls
          obtain ⟨pre, y, post, A2, B2, B1, hxs, hflow, hbody, hA', hB⟩ := ih _ [] hcB.symm
          refine ⟨x :: pre, y, post, A2, B2, B1, by simp [hxs], ?_, ?_, ?_, hB⟩
          · rw [forEach_cons, Run.andThen_of_done _ _ hd]; exact hflow
          · rw [forEach_cons, Run.andThen_of_done _ _ hd]; exact hbody
          · rw [forEach_cons, Run.andThen_of_done _ _ hd, ← hcalls]
            simp only
            rw [List.append_assoc, ← hA']
            simp
        | cons c0 c'' =>
          simp only [List.cons_append, List.cons.injEq] at hcB
          obtain ⟨hc, hB⟩ := hcB
          subst hc
          exact ⟨[], x, xs, A, c'', _, rfl, rfl, by simpa [forEach_nil] using hcalls,
            by simp [forEach_nil], hB⟩
    · rw [Run.andThen_of_not_done _ _ hd] at h
      exact ⟨[], x, xs, A, B, [], rfl, rfl, by simpa [forEach_nil] using h,
        by simp [forEach_nil], by simp⟩

theorem forEach_calls_mem {W α : Type} (body : α → W → Run W) (xs : List α) (w : W)
    (c : Call) (h : c ∈ (forEach body xs w).calls) :
    ∃ x ∈ xs, ∃ w', c ∈ (body x w').calls := by
  obtain ⟨A, B, hAB⟩ := List.append_of_mem h
  obtain ⟨pre, x, post, A2, B2, B1, hxs, _, hbody, _, _⟩ :=
    forEach_calls_split body xs w A B c hAB
  exact ⟨x, by simp [hxs], _, by rw [hbody]; simp⟩

/-! ## The calls of the loop bodies -/

theorem createTable_calls {W : Type} (env : Env W) (inst : Instance) (database : Database)
    (tc : TableCreate) (w : W) :
    (createTable env inst database tc w).calls
      = [Call.CreateTable tc (env.CreateTable tc w).1.val (env.CreateTable tc w).1.err] := by
  unfold createTable
  dsimp only
  split
  · split <;> simp_all
  · simp_all

theorem createTable_world {W : Type} (env : Env W) (inst : Instance) (database : Database)
    (tc : TableCreate) (w : W) :
    (createTable env inst database tc w).world = (env.CreateTable tc w).2 := by
  unfold createTable
  dsimp only
  split
  · split <;> simp_all
  · simp_all

theorem createTable_flow_done_iff {W : Type} (env : Env W) (inst : Instance)
    (database : Database) (tc : TableCreate) (w : W) :
    (createTable env inst database tc w).flow = Flow.done ↔ (env.CreateTable tc w).1.err = none := by
  unfold createTable
  dsimp only
  split
  · split <;> simp_all
  · simp_all

theorem createTable_flow_ne_fault {W : Type} (env : Env W) (inst : Instance)
    (database : Database) (tc : TableCreate) (w : W) :
    (createTable env inst database tc w).flow ≠ Flow.fault := by
  unfold createTable
  dsimp only
  split
  · split <;> simp_all
  · simp_all

/-- The table loop of Case 2 issues one `CreateTable` per live table, in list
order, up to the first one that fails. -/
theorem forEach_importTable_calls {W : Type} (env : Env W) (inst : Instance)
    (database : Database) (tables : List TableSchema) (w : W) :
    List.Forall₂ (fun t c => ∃ ret err, c = Call.CreateTable (tableCreateOf env database t) ret err)
      (tables.take (forEach (importTable env inst (some database)) tables w).calls.length)
      (forEach (importTable env inst (some database)) tables w).calls ∧
    ((∀ c ∈ (forEach (importTable env inst (some database)) tables w).calls, c.err = none) →
      (forEach (importTable env inst (some database)) tables w).calls.length = tables.length) ∧
    ((forEach (importTable env inst (some database)) tables w).flow = Flow.done →
      (forEach (importTable env inst (some database)) tables w).calls.length = tables.length) := by
  induction tables generalizing w with
  | nil => simp [forEach_nil]
  | cons t ts ih =>
    rw [forEach_cons]
    have hc : (importTable env inst (some database) t w).calls
        = [Call.CreateTable (tableCreateOf env database t)
            (env.CreateTable (tableCreateOf env database t) w).1.val
            (env.CreateTable (tableCreateOf env database t) w).1.err] :=
      createTable_calls env inst database _ w
    by_cases hd : (importTable env inst (some database) t w).flow = Flow.done
    · rw [Run.andThen_of_done _ _ hd]
      obtain ⟨ih1, ih2, ih3⟩ := ih (importTable env inst (some database) t w).world
      simp only [hc, List.singleton_append, List.length_cons, List.take_succ_cons]
      refine ⟨List.Forall₂.cons ⟨_, _, rfl⟩ ih1, ?_, ?_⟩
      · intro hall
        rw [ih2 (fun c hc' => hall c (List.mem_cons_of_mem _ hc'))]
      · intro hfl
        rw [ih3 hfl]
    · rw [Run.andThen_of_not_done _ _ hd]
      have herr : (env.CreateTable (tableCreateOf env database t) w).1.err ≠ none := by
        intro h0
        exact hd ((createTable_flow_done_iff env inst database _ w).mpr h0)
      simp only [hc, List.length_singleton, List.take_succ_cons, List.take_zero]
      refine ⟨List.Forall₂.cons ⟨_, _, rfl⟩ List.Forall₂.nil, ?_, ?_⟩
      · intro hall
        exact absurd (hall _ (List.mem_singleton_self _)) herr
      · intro hfl
        exact absurd hfl hd

theorem syncNew_calls {W : Type} (env : Env W) (inst : Instance) (schema : DBSchema) (w : W) :
    (syncNew env inst schema w).calls
      = Call.CreateDatabase (databaseCreateOf env inst schema)
          (env.CreateDatabase (databaseCreateOf env inst schema) w).1.val
          (env.CreateDatabase (databaseCreateOf env inst schema) w).1.err ::
        (match (env.CreateDatabase (databaseCreateOf env inst schema) w).1.err with
          | some _ => []
          | none => (forEach (importTable env inst
              (env.CreateDatabase (databaseCreateOf env inst schema) w).1.val) schema.TableList
              (env.CreateDatabase (databaseCreateOf env inst schema) w).2).calls) := by
  unfold syncNew
  dsimp only
  split
  · split <;> simp_all
  · simp_all [Run.andThen_mk_done]

theorem syncNew_flow_of_err {W : Type} (env : Env W) (inst : Instance) (schema : DBSchema)
    (w : W) (e : Error)
    (h : (env.CreateDatabase (databaseCreateOf env inst schema) w).1.err = some e) :
    (syncNew env inst schema w).flow ≠ Flow.done := by
  unfold syncNew
  dsimp only
  split
  · split <;> simp_all
  · simp_all

theorem syncNew_flow_of_ok {W : Type} (env : Env W) (inst : Instance) (schema : DBSchema)
    (w : W) (h : (env.CreateDatabase (databaseCreateOf env inst schema) w).1.err = none) :
    (syncNew env inst schema w).flow
      = (forEach (importTable env inst
          (env.CreateDatabase (databaseCreateOf env inst schema) w).1.val) schema.TableList
          (env.CreateDatabase (databaseCreateOf env inst schema) w).2).flow := by
  unfold syncNew
  dsimp only
  split
  · simp_all
  · simp_all [Run.andThen_mk_done]

theorem Run.andThen_calls {W : Type} (r : Run W) (k : W → Run W) :
    (r.andThen k).calls = r.calls ++ (if r.flow = Flow.done then (k r.world).calls else []) := by
  by_cases h : r.flow = Flow.done
  · rw [Run.andThen_of_done _ _ h]; simp [h]
  · rw [Run.andThen_of_not_done _ _ h]; simp [h]

theorem Run.andThen_flow_done {W : Type} (r : Run W) (k : W → Run W)
    (h : (r.andThen k).flow = Flow.done) : r.flow = Flow.done := by
  by_contra hn
  rw [Run.andThen_of_not_done _ _ hn] at h
  exact hn h

theorem Run.andThen_flow_done_snd {W : Type} (r : Run W) (k : W → Run W)
    (h : (r.andThen k).flow = Flow.done) : (k r.world).flow = Flow.done := by
  have h1 := Run.andThen_flow_done r k h
  rw [Run.andThen_of_done _ _ h1] at h
  exact h

theorem Run.andThen_world_of_done {W : Type} (r : Run W) (k : W → Run W)
    (h : r.flow = Flow.done) : (r.andThen k).world = (k r.world).world := by
  rw [Run.andThen_of_done _ _ h]

theorem Run.andThen_flow_of_done {W : Type} (r : Run W) (k : W → Run W)
    (h : r.flow = Flow.done) : (r.andThen k).flow = (k r.world).flow := by
  rw [Run.andThen_of_done _ _ h]

theorem forEach_calls_head {W α : Type} (body : α → W → Run W) (P : Call → Prop)
    (hbody : ∀ x w c, (body x w).calls.head? = some c → P c) (xs : List α) (w : W) (c : Call)
    (h : (forEach body xs w).calls.head? = some c) : P c := by
  cases hcs : (forEach body xs w).calls with
  | nil => rw [hcs] at h; simp at h
  | cons c0 B =>
    rw [hcs] at h
    simp only [List.head?_cons, Option.some.injEq] at h
    subst h
    obtain ⟨pre, x, post, A2, B2, B1, _, _, hb, hA, _⟩ :=
      forEach_calls_split body xs w [] B c0 (by simpa using hcs)
    have hA2 : A2 = [] := by
      have := congrArg List.length hA
      simp at this
      exact List.length_eq_zero.mp (by omega)
    subst hA2
    exact hbody x _ c0 (by rw [hb]; rfl)

theorem syncMatched_calls {W : Type} (env : Env W) (inst : Instance) (matched : Database)
    (schema : DBSchema) (w : W) :
    (syncMatched env inst matched schema w).calls
      = Call.PatchDatabase
          ⟨matched.ID, env.SYSTEM_BOT_ID, some SyncStatus.OK, some (env.Now w).1⟩
          (env.PatchDatabase
            ⟨matched.ID, env.SYSTEM_BOT_ID, some SyncStatus.OK, some (env.Now w).1⟩
            (env.Now w).2).1.val
          (env.PatchDatabase
            ⟨matched.ID, env.SYSTEM_BOT_ID, some SyncStatus.OK, some (env.Now w).1⟩
            (env.Now w).2).1.err ::
        (match (env.PatchDatabase
            ⟨matched.ID, env.SYSTEM_BOT_ID, some SyncStatus.OK, some (env.Now w).1⟩
            (env.Now w).2).1.err with
          | some _ => []
          | none => (forEach (syncTable env inst
              (env.PatchDatabase
                ⟨matched.ID, env.SYSTEM_BOT_ID, some SyncStatus.OK, some (env.Now w).1⟩
                (env.Now w).2).1.val (env.Now w).1) schema.TableList
              (env.PatchDatabase
                ⟨matched.ID, env.SYSTEM_BOT_ID, some SyncStatus.OK, some (env.Now w).1⟩
                (env.Now w).2).2).calls) := by
  unfold syncMatched
  dsimp only
  split
  · split
    · simp_all
    · split <;> simp_all
  · simp_all [Run.andThen_mk_done]

theorem markNotFound_calls {W : Type} (env : Env W) (inst : Instance)
    (schemaList : List DBSchema) (db : Database) (w : W) :
    (markNotFound env inst schemaList db w).calls
      = if schemaList.any (fun schema => db.Name == schema.Name) then []
        else [Call.PatchDatabase
          ⟨db.ID, env.SYSTEM_BOT_ID, some SyncStatus.NotFound, some (env.Now w).1⟩
          (env.PatchDatabase
            ⟨db.ID, env.SYSTEM_BOT_ID, some SyncStatus.NotFound, some (env.Now w).1⟩
            (env.Now w).2).1.val
          (env.PatchDatabase
            ⟨db.ID, env.SYSTEM_BOT_ID, some SyncStatus.NotFound, some (env.Now w).1⟩
            (env.Now w).2).1.err] := by
  unfold markNotFound
  dsimp only
  split
  · rfl
  · split
    · split
      · simp_all
      · split <;> simp_all
    · simp_all

theorem matchedDb_eq_none_iff (dbList : List Database) (name : String) :
    matchedDb dbList name = none ↔ ∀ db ∈ dbList, db.Name ≠ name := by
  unfold matchedDb
  simp

theorem syncDatabase_calls_head {W : Type} (env : Env W) (inst : Instance)
    (dbList : List Database) (schema : DBSchema) (w : W) (c : Call)
    (h : (syncDatabase env inst dbList schema w).calls.head? = some c) :
    c.isTableCall = false := by
  unfold syncDatabase at h
  split at h
  · simp at h
  · split at h
    · rw [syncMatched_calls] at h
      simp only [List.head?_cons, Option.some.injEq] at h
      subst h; rfl
    · rw [syncNew_calls] at h
      simp only [List.head?_cons, Option.some.injEq] at h
      subst h; rfl

theorem markNotFound_calls_head {W : Type} (env : Env W) (inst : Instance)
    (schemaList : List DBSchema) (db : Database) (w : W) (c : Call)
    (h : (markNotFound env inst schemaList db w).calls.head? = some c) :
    c.isTableCall = false := by
  rw [markNotFound_calls] at h
  split at h
  · simp at h
  · simp only [List.head?_cons, Option.some.injEq] at h
    subst h; rfl

theorem finish_calls {W : Type} (r : Run W) : (finish r).calls = r.calls := by
  unfold finish; split <;> rfl

theorem finish_world {W : Type} (r : Run W) : (finish r).world = r.world := by
  unfold finish; split <;> rfl

theorem finish_outcome_ok_iff {W : Type} (r : Run W) :
    (finish r).outcome = Outcome.returned ⟨""⟩ ↔ (r.flow = Flow.done ∨ r.flow = Flow.fail "") := by
  unfold finish
  split <;> simp_all

theorem SyncSchema_of_open {W : Type} (env : Env W) (inst : Instance) (w : W) (driver : Driver)
    (hopen : env.Open (connectionOf inst) = ⟨some driver, none⟩)
    (hsync : driver.syncErr = none) :
    SyncSchema env inst w = finish (reconcile env inst driver.schemaList w) := by
  unfold SyncSchema
  simp [hopen, hsync]

theorem reconcile_of_list {W : Type} (env : Env W) (inst : Instance)
    (schemaList : List DBSchema) (w : W)
    (hlist : (env.FindDatabaseList ⟨some inst.ID⟩ w).1.2 = none) :
    reconcile env inst schemaList w
      = ((Run.mk Flow.done (env.FindDatabaseList ⟨some inst.ID⟩ w).2
            [Call.FindDatabaseList ⟨some inst.ID⟩ (env.FindDatabaseList ⟨some inst.ID⟩ w).1.1
              none]).andThen
          (forEach (syncDatabase env inst (env.FindDatabaseList ⟨some inst.ID⟩ w).1.1)
            schemaList)).andThen
          (forEach (markNotFound env inst schemaList)
            (env.FindDatabaseList ⟨some inst.ID⟩ w).1.1) := by
  unfold reconcile
  simp [hlist]

theorem syncDatabase_of_unmatched {W : Type} (env : Env W) (inst : Instance)
    (dbList : List Database) (schema : DBSchema) (w : W)
    (hreserved : EqualFold "bytebase" schema.Name = false)
    (hnew : ∀ db ∈ dbList, db.Name ≠ schema.Name) :
    syncDatabase env inst dbList schema w = syncNew env inst schema w := by
  unfold syncDatabase
  rw [(matchedDb_eq_none_iff dbList schema.Name).mpr hnew]
  simp [hreserved]

theorem syncDatabase_of_matched {W : Type} (env : Env W) (inst : Instance)
    (dbList : List Database) (schema : DBSchema) (w : W) (matched : Database)
    (hreserved : EqualFold "bytebase" schema.Name = false)
    (hm : matchedDb dbList schema.Name = some matched) :
    syncDatabase env inst dbList schema w = syncMatched env inst matched schema w := by
  unfold syncDatabase
  rw [hm]
  simp [hreserved]

theorem syncDatabase_of_reserved {W : Type} (env : Env W) (inst : Instance)
    (dbList : List Database) (schema : DBSchema) (w : W)
    (hreserved : EqualFold "bytebase" schema.Name = true) :
    syncDatabase env inst dbList schema w = ⟨Flow.done, w, []⟩ := by
  unfold syncDatabase
  simp [hreserved]

/-- The calls of a run whose connection, introspection and list read succeeded,
cut at one live database `d`: the list read, the calls of the iterations before
`d` (when they all fell through), the calls of the iteration of `d`, and a rest
that is empty unless that iteration fell through and never starts with a table call. -/
theorem SyncSchema_calls_at {W : Type} (env : Env W) (inst : Instance) (w : W)
    (driver : Driver) (pre post : List DBSchema) (d : DBSchema) (dbList : List Database)
    (w1 : W)
    (hopen : env.Open (connectionOf inst) = ⟨some driver, none⟩)
    (hsync : driver.syncErr = none)
    (hlive : driver.schemaList = pre ++ d :: post)
    (hlist : env.FindDatabaseList ⟨some inst.ID⟩ w = ((dbList, none), w1))
    (hreach : (forEach (syncDatabase env inst dbList) pre w1).flow = Flow.done) :
    ∃ rest, (SyncSchema env inst w).calls
        = Call.FindDatabaseList ⟨some inst.ID⟩ dbList none ::
          ((forEach (syncDatabase env inst dbList) pre w1).calls ++
            ((syncDatabase env inst dbList d
              (forEach (syncDatabase env inst dbList) pre w1).world).calls ++ rest)) ∧
      ((syncDatabase env inst dbList d
          (forEach (syncDatabase env inst dbList) pre w1).world).flow ≠ Flow.done → rest = []) ∧
      (∀ c, rest.head? = some c → c.isTableCall = false) := by
  have h1 : (env.FindDatabaseList ⟨some inst.ID⟩ w).1.2 = none := by rw [hlist]
  have h2 : (env.FindDatabaseList ⟨some inst.ID⟩ w).1.1 = dbList := by rw [hlist]
  have h3 : (env.FindDatabaseList ⟨some inst.ID⟩ w).2 = w1 := by rw [hlist]
  rw [SyncSchema_of_open env inst w driver hopen hsync, finish_calls,
    reconcile_of_list env inst _ w h1, h2, h3, hlive]
  rw [Run.andThen_calls, Run.andThen_calls, forEach_append, Run.andThen_calls, forEach_cons,
    Run.andThen_calls]
  simp only [hreach, if_true, List.singleton_append, List.cons_append, List.append_assoc]
  refine ⟨_, rfl, ?_, ?_⟩
  · intro hnd
    have hX : ¬ ((Run.mk Flow.done w1
        [Call.FindDatabaseList ⟨some inst.ID⟩ dbList none]).andThen
          (forEach (syncDatabase env inst dbList) (pre ++ d :: post))).flow = Flow.done := by
      intro hX
      rw [Run.andThen_mk_done] at hX
      simp only at hX
      rw [forEach_append] at hX
      have := Run.andThen_flow_done_snd _ _ hX
      rw [forEach_cons] at this
      exact hnd (Run.andThen_flow_done _ _ this)
    rw [Run.andThen_world_of_done _ _ rfl] at *
    simp [hnd, hX]
  · intro c hc
    rw [List.head?_append] at hc
    cases hpost : (if (syncDatabase env inst dbList d
        (forEach (syncDatabase env inst dbList) pre w1).world).flow = Flow.done then
        (forEach (syncDatabase env inst dbList) post
          (syncDatabase env inst dbList d
            (forEach (syncDatabase env inst dbList) pre w1).world).world).calls
        else []).head? with
    | some c1 =>
      rw [hpost] at hc
      simp only [Option.or_some, Option.some.injEq] at hc
      subst hc
      split at hpost
      · exact forEach_calls_head _ _ (syncDatabase_calls_head env inst dbList) _ _ _ hpost
      · simp at hpost
    | none =>
      rw [hpost] at hc
      simp only [Option.none_or] at hc
      split at hc
      · exact forEach_calls_head _ _ (markNotFound_calls_head env inst _) _ _ _ hc
      · simp at hc

/-! ## C10: Case 2 -/

/-- C10, amended: let `d` be a live database, not the reserved one, whose name no stored
database of the instance has, and let the run reach it (the iterations of the
live databases before it fell through).  Then the run issues, right after the
calls of those iterations, one `CreateDatabase` with the system actor, the
default project, the instance ID and the name, character set and collation of
`d`.  If that create fails nothing follows.  If it succeeds with record
`database`, it is followed by `CreateTable` calls only (no `FindTable`, no
`PatchTable`): one per table of `d`, in list order, each for `database.ID`, up
to the first `CreateTable` that fails, and for every table when none fails;
whatever the run issues after them starts with a database-level call. -/
theorem C10_unmatched_database_is_created {W : Type} (env : Env W) (inst : Instance) (w : W)
    (driver : Driver) (pre post : List DBSchema) (d : DBSchema) (dbList : List Database)
    (w1 : W)
    (hopen : env.Open (connectionOf inst) = ⟨some driver, none⟩)
    (hsync : driver.syncErr = none)
    (hlive : driver.schemaList = pre ++ d :: post)
    (hlist : env.FindDatabaseList ⟨some inst.ID⟩ w = ((dbList, none), w1))
    (hreserved : EqualFold "bytebase" d.Name = false)
    (hnew : ∀ db ∈ dbList, db.Name ≠ d.Name)
    (hreach : (forEach (syncDatabase env inst dbList) pre w1).flow = Flow.done) :
    ∃ (ret : Option Database) (err : Option Error) (tcalls rest : List Call),
      (env.CreateDatabase
        ⟨env.SYSTEM_BOT_ID, env.DEFAULT_PROJECT_ID, inst.ID, d.Name, d.CharacterSet, d.Collation⟩
        (forEach (syncDatabase env inst dbList) pre w1).world).1 = ⟨ret, err⟩ ∧
      (SyncSchema env inst w).calls
        = Call.FindDatabaseList ⟨some inst.ID⟩ dbList none ::
          ((forEach (syncDatabase env inst dbList) pre w1).calls ++
            Call.CreateDatabase
              ⟨env.SYSTEM_BOT_ID, env.DEFAULT_PROJECT_ID, inst.ID, d.Name, d.CharacterSet,
                d.Collation⟩ ret err :: (tcalls ++ rest)) ∧
      (∀ c ∈ tcalls, c.isCreateTable = true) ∧
      (∀ c, rest.head? = some c → c.isTableCall = false) ∧
      (err ≠ none → tcalls = [] ∧ rest = []) ∧
      (∀ database, ret = some database → err = none →
        List.Forall₂ (fun t c => ∃ r e, c = Call.CreateTable
            { CreatorId := env.SYSTEM_BOT_ID, DatabaseId := database.ID, Name := t.Name,
              Type_ := t.Type_, Engine := t.Engine, Collation := t.Collation,
              RowCount := t.RowCount, DataSize := t.DataSize, IndexSize := t.IndexSize,
              DataFree := t.DataFree, CreateOptions := t.CreateOptions, Comment := t.Comment }
            r e)
          (d.TableList.take tcalls.length) tcalls ∧
        ((∀ c ∈ tcalls, c.err = none) → tcalls.length = d.TableList.length) ∧
        (tcalls.length < d.TableList.length → rest = [])) := by
  obtain ⟨rest, hcalls, hrest, hhead⟩ :=
    SyncSchema_calls_at env inst w driver pre post d dbList w1 hopen hsync hlive hlist hreach
  rw [syncDatabase_of_unmatched env inst dbList d _ hreserved hnew] at hcalls hrest
  rw [syncNew_calls] at hcalls
  generalize hbw : (forEach (syncDatabase env inst dbList) pre w1).world = bw at hcalls hrest ⊢
  have hcreate : databaseCreateOf env inst d
      = ⟨env.SYSTEM_BOT_ID, env.DEFAULT_PROJECT_ID, inst.ID, d.Name, d.CharacterSet,
          d.Collation⟩ := rfl
  rw [hcreate] at hcalls
  have hfe := syncNew_flow_of_err env inst d bw
  have hfo := syncNew_flow_of_ok env inst d bw
  rw [hcreate] at hfe hfo
  generalize env.CreateDatabase ⟨env.SYSTEM_BOT_ID, env.DEFAULT_PROJECT_ID, inst.ID, d.Name,
    d.CharacterSet, d.Collation⟩ bw = cr at hcalls hfe hfo ⊢
  obtain ⟨⟨ret, err⟩, w2⟩ := cr
  simp only at hcalls hfe hfo ⊢
  cases err with
  | some e =>
    refine ⟨ret, some e, [], rest, rfl, ?_, ?_, hhead, ?_, ?_⟩
    · simpa using hcalls
    · simp
    · intro _; exact ⟨rfl, hrest (hfe e rfl)⟩
    · intro _ _ h; simp at h
  | none =>
    simp only at hcalls
    refine ⟨ret, none, (forEach (importTable env inst ret) d.TableList w2).calls, rest, rfl,
      ?_, ?_, hhead, ?_, ?_⟩
    · simpa using hcalls
    · intro c hc
      obtain ⟨t, _, w', hc'⟩ := forEach_calls_mem _ _ _ c hc
      unfold importTable at hc'
      split at hc'
      · simp at hc'
      · rw [createTable_calls] at hc'
        simp only [List.mem_singleton] at hc'
        subst hc'; rfl
    · intro h; exact absurd rfl h
    · intro database hret _
      subst hret
      obtain ⟨f1, f2, f3⟩ := forEach_importTable_calls env inst database d.TableList w2
      refine ⟨f1, f2, ?_⟩
      intro hlt
      apply hrest
      rw [hfo rfl]
      intro hdone
      have := f3 hdone
      omega

/-- C10 at scenario A: the empty catalog and the live database `orders` with its
table `items`. -/
theorem C10_unmatched_database_is_created_witness :
    ∃ (ret : Option Database) (err : Option Error) (tcalls rest : List Call),
      (Catalog.createDatabase ⟨1, 1, 7, "orders", "utf8mb4", "utf8mb4_general_ci"⟩
        emptyCatalog).1 = ⟨ret, err⟩ ∧
      (SyncSchema (catalogEnv 1 1 (liveOpen [ordersSchema])) prodInstance emptyCatalog).calls
        = Call.FindDatabaseList ⟨some 7⟩ [] none ::
          ([] ++ Call.CreateDatabase ⟨1, 1, 7, "orders", "utf8mb4", "utf8mb4_general_ci"⟩
            ret err :: (tcalls ++ rest)) ∧
      (∀ c ∈ tcalls, c.isCreateTable = true) ∧
      (∀ c, rest.head? = some c → c.isTableCall = false) := by
  obtain ⟨ret, err, tcalls, rest, h1, h2, h3, h4, _, _⟩ :=
    C10_unmatched_database_is_created (catalogEnv 1 1 (liveOpen [ordersSchema])) prodInstance
      emptyCatalog ⟨[ordersSchema], none⟩ [] [] ordersSchema [] emptyCatalog rfl rfl rfl rfl
      (by decide) (by simp) rfl
  exact ⟨ret, err, tcalls, rest, h1, h2, h3, h4⟩

theorem append_eq_append_cons {α : Type} (L1 L2 A B : List α) (c : α)
    (h : L1 ++ L2 = A ++ c :: B) :
    (∃ A', A = L1 ++ A' ∧ L2 = A' ++ c :: B) ∨ (∃ B', L1 = A ++ c :: B' ∧ B = B' ++ L2) := by
  rcases List.append_eq_append_iff.mp h with ⟨a', hA, hrest⟩ | ⟨c', hL1, hcB⟩
  · exact Or.inl ⟨a', hA, hrest⟩
  · cases c' with
    | nil =>
      simp only [List.nil_append] at hcB
      simp only [List.append_nil] at hL1
      exact Or.inl ⟨[], by simp [hL1], by simpa using hcB.symm⟩
    | cons c0 c'' =>
      simp only [List.cons_append, List.cons.injEq] at hcB
      obtain ⟨hc, hB⟩ := hcB
      subst hc
      exact Or.inr ⟨c'', hL1, hB⟩

/-- The calls one iteration of the Case 1 table loop issues. -/
theorem syncTable_calls_cases {W : Type} (env : Env W) (inst : Instance)
    (database : Option Database) (ts : Int) (table : TableSchema) (w : W) :
    (database = none ∧ (syncTable env inst database ts table w).calls = []) ∨
    ∃ d, database = some d ∧ ∃ fr fe,
      (env.FindTable ⟨some d.ID, some table.Name⟩ w).1 = ⟨fr, fe⟩ ∧
      ((syncTable env inst database ts table w).calls
          = [Call.FindTable ⟨some d.ID, some table.Name⟩ fr fe] ∨
        (∃ e cr ce, fe = some e ∧ e.code = Code.ENOTFOUND ∧
          (syncTable env inst database ts table w).calls
            = [Call.FindTable ⟨some d.ID, some table.Name⟩ fr fe,
               Call.CreateTable (tableCreateOf env d table) cr ce]) ∨
        (∃ st pr pe, fr = some st ∧ fe = none ∧
          (syncTable env inst database ts table w).calls
            = [Call.FindTable ⟨some d.ID, some table.Name⟩ fr fe,
               Call.PatchTable ⟨st.ID, env.SYSTEM_BOT_ID, some SyncStatus.OK, some ts⟩ pr pe])) := by
  cases database with
  | none => left; exact ⟨rfl, rfl⟩
  | some d =>
    right
    refine ⟨d, rfl, (env.FindTable ⟨some d.ID, some table.Name⟩ w).1.val,
      (env.FindTable ⟨some d.ID, some table.Name⟩ w).1.err, rfl, ?_⟩
    unfold syncTable
    dsimp only
    split
    · rename_i e he
      split
      · rename_i hcode
        right; left
        refine ⟨e, (env.CreateTable (tableCreateOf env d table)
            (env.FindTable ⟨some d.ID, some table.Name⟩ w).2).1.val,
          (env.CreateTable (tableCreateOf env d table)
            (env.FindTable ⟨some d.ID, some table.Name⟩ w).2).1.err, he, hcode, ?_⟩
        rw [Run.andThen_mk_done, createTable_calls]
        rfl
      · left; rfl
    · rename_i he
      split
      · left; rfl
      · rename_i st hst
        right; right
        refine ⟨st, (env.PatchTable ⟨st.ID, env.SYSTEM_BOT_ID, some SyncStatus.OK, some ts⟩
            (env.FindTable ⟨some d.ID, some table.Name⟩ w).2).1.val,
          (env.PatchTable ⟨st.ID, env.SYSTEM_BOT_ID, some SyncStatus.OK, some ts⟩
            (env.FindTable ⟨some d.ID, some table.Name⟩ w).2).1.err, hst, he, ?_⟩
        split
        · split <;> simp_all
        · simp_all

theorem syncTable_calls_isTableCall {W : Type} (env : Env W) (inst : Instance)
    (database : Option Database) (ts : Int) (table : TableSchema) (w : W) (c : Call)
    (h : c ∈ (syncTable env inst database ts table w).calls) : c.isTableCall = true := by
  rcases syncTable_calls_cases env inst database ts table w with
    ⟨_, h0⟩ | ⟨d, _, fr, fe, _, h1 | ⟨e, cr, ce, _, _, h2⟩ | ⟨st, pr, pe, _, _, h3⟩⟩
  · rw [h0] at h; simp at h
  · rw [h1] at h; simp at h; subst h; rfl
  · rw [h2] at h; simp at h; rcases h with h | h <;> subst h <;> rfl
  · rw [h3] at h; simp at h; rcases h with h | h <;> subst h <;> rfl

theorem syncTable_calls_createTable {W : Type} (env : Env W) (inst : Instance)
    (database : Option Database) (ts : Int) (table : TableSchema) (w : W)
    (tc : TableCreate) (ret : Option Table) (err : Option Error)
    (h : Call.CreateTable tc ret err ∈ (syncTable env inst database ts table w).calls) :
    ∃ d, database = some d ∧ tc = tableCreateOf env d table := by
  rcases syncTable_calls_cases env inst database ts table w with
    ⟨_, h0⟩ | ⟨d, hd, fr, fe, _, h1 | ⟨e, cr, ce, _, _, h2⟩ | ⟨st, pr, pe, _, _, h3⟩⟩
  · rw [h0] at h; simp at h
  · rw [h1] at h; simp at h
  · rw [h2] at h; simp at h; exact ⟨d, hd, h.1⟩
  · rw [h3] at h; simp at h

theorem importTable_calls_cases {W : Type} (env : Env W) (inst : Instance)
    (database : Option Database) (table : TableSchema) (w : W) :
    (database = none ∧ (importTable env inst database table w).calls = []) ∨
    ∃ d cr ce, database = some d ∧ (importTable env inst database table w).calls
      = [Call.CreateTable (tableCreateOf env d table) cr ce] := by
  cases database with
  | none => left; exact ⟨rfl, rfl⟩
  | some d => right; exact ⟨d, _, _, rfl, createTable_calls env inst d _ w⟩

theorem markNotFound_calls_mem {W : Type} (env : Env W) (inst : Instance)
    (schemaList : List DBSchema) (db : Database) (w : W) (c : Call)
    (h : c ∈ (markNotFound env inst schemaList db w).calls) :
    (schemaList.any (fun schema => db.Name == schema.Name)) = false ∧
    ∃ ts ret err, c = Call.PatchDatabase
      ⟨db.ID, env.SYSTEM_BOT_ID, some SyncStatus.NotFound, some ts⟩ ret err := by
  rw [markNotFound_calls] at h
  split at h
  · simp at h
  · rename_i hany
    simp only [List.mem_singleton] at h
    exact ⟨by simpa using hany, _, _, _, h⟩

/-- The calls of one iteration of the loop over the live databases: none for the
reserved name, otherwise one database-level call (the Case 1 patch of the
matched record or the Case 2 create) followed by calls of its table loop. -/
theorem syncDatabase_calls_cases {W : Type} (env : Env W) (inst : Instance)
    (dbList : List Database) (schema : DBSchema) (w : W) :
    (EqualFold "bytebase" schema.Name = true ∧ (syncDatabase env inst dbList schema w).calls = []) ∨
    (EqualFold "bytebase" schema.Name = false ∧ ∃ dbc ret err tcs,
      (syncDatabase env inst dbList schema w).calls = dbc :: tcs ∧
      (tcs ≠ [] → err = none) ∧
      ((∃ matched ts, matchedDb dbList schema.Name = some matched ∧
          dbc = Call.PatchDatabase ⟨matched.ID, env.SYSTEM_BOT_ID, some SyncStatus.OK, some ts⟩
            ret err ∧
          ∀ c ∈ tcs, ∃ t ∈ schema.TableList, ∃ w', c ∈ (syncTable env inst ret ts t w').calls) ∨
        (matchedDb dbList schema.Name = none ∧
          dbc = Call.CreateDatabase
            ⟨env.SYSTEM_BOT_ID, env.DEFAULT_PROJECT_ID, inst.ID, schema.Name,
              schema.CharacterSet, schema.Collation⟩ ret err ∧
          ∀ c ∈ tcs, ∃ t ∈ schema.TableList, ∃ w', c ∈ (importTable env inst ret t w').calls))) := by
  cases hres : EqualFold "bytebase" schema.Name with
  | true => left; exact ⟨rfl, by rw [syncDatabase_of_reserved env inst dbList schema w hres]⟩
  | false =>
    right
    refine ⟨rfl, ?_⟩
    cases hm : matchedDb dbList schema.Name with
    | some matched =>
      rw [syncDatabase_of_matched env inst dbList schema w matched hres hm, syncMatched_calls]
      refine ⟨_, _, _, _, rfl, ?_, Or.inl ⟨matched, (env.Now w).1, rfl, rfl, ?_⟩⟩
      · intro hne
        split at hne
        · exact absurd rfl hne
        · assumption
      · intro c hc
        split at hc
        · simp at hc
        · exact forEach_calls_mem _ _ _ c hc
    | none =>
      rw [syncDatabase_of_unmatched env inst dbList schema w hres
        ((matchedDb_eq_none_iff _ _).mp hm), syncNew_calls]
      refine ⟨_, _, _, _, rfl, ?_, Or.inr ⟨rfl, rfl, ?_⟩⟩
      · intro hne
        split at hne
        · exact absurd rfl hne
        · assumption
      · intro c hc
        split at hc
        · simp at hc
        · exact forEach_calls_mem _ _ _ c hc

/-- Where a call of a run sits: it is the list read, or a call of the iteration
of one live database reached after the earlier iterations fell through, or a
call of the Case 3 loop. -/
theorem SyncSchema_calls_locate {W : Type} (env : Env W) (inst : Instance) (w : W)
    (A B : List Call) (c : Call) (h : (SyncSchema env inst w).calls = A ++ c :: B) :
    ∃ driver, env.Open (connectionOf inst) = ⟨some driver, none⟩ ∧ driver.syncErr = none ∧
      ((A = [] ∧ c = Call.FindDatabaseList ⟨some inst.ID⟩
          (env.FindDatabaseList ⟨some inst.ID⟩ w).1.1 (env.FindDatabaseList ⟨some inst.ID⟩ w).1.2) ∨
        ((env.FindDatabaseList ⟨some inst.ID⟩ w).1.2 = none ∧
          ∃ pre schema post A2 B2, driver.schemaList = pre ++ schema :: post ∧
            (forEach (syncDatabase env inst (env.FindDatabaseList ⟨some inst.ID⟩ w).1.1) pre
              (env.FindDatabaseList ⟨some inst.ID⟩ w).2).flow = Flow.done ∧
            (syncDatabase env inst (env.FindDatabaseList ⟨some inst.ID⟩ w).1.1 schema
              (forEach (syncDatabase env inst (env.FindDatabaseList ⟨some inst.ID⟩ w).1.1) pre
                (env.FindDatabaseList ⟨some inst.ID⟩ w).2).world).calls = A2 ++ c :: B2 ∧
            A = Call.FindDatabaseList ⟨some inst.ID⟩
                (env.FindDatabaseList ⟨some inst.ID⟩ w).1.1 none ::
              ((forEach (syncDatabase env inst (env.FindDatabaseList ⟨some inst.ID⟩ w).1.1) pre
                (env.FindDatabaseList ⟨some inst.ID⟩ w).2).calls ++ A2)) ∨
        ((env.FindDatabaseList ⟨some inst.ID⟩ w).1.2 = none ∧
          ∃ db ∈ (env.FindDatabaseList ⟨some inst.ID⟩ w).1.1, ∃ w',
            c ∈ (markNotFound env inst driver.schemaList db w').calls)) := by
  unfold SyncSchema at h
  dsimp only at h
  split at h
  · simp at h
  · rename_i hoerr
    split at h
    · simp at h
    · rename_i driver hoval
      split at h
      · simp at h
      · rename_i hsync
        refine ⟨driver, ?_, hsync, ?_⟩
        · cases ho : env.Open (connectionOf inst) with
          | mk v e => rw [ho] at hoerr hoval; simp only at hoerr hoval; rw [hoerr, hoval]
        rw [finish_calls] at h
        cases hl : (env.FindDatabaseList ⟨some inst.ID⟩ w).1.2 with
        | some e =>
          left
          unfold reconcile at h
          simp only [hl] at h
          cases A with
          | nil =>
            simp only [List.nil_append, List.cons.injEq] at h
            exact ⟨rfl, h.1.symm⟩
          | cons a A' =>
            have := congrArg List.length h
            simp at this
        | none =>
          rw [reconcile_of_list env inst _ w hl, Run.andThen_calls, Run.andThen_mk_done] at h
          simp only at h
          rw [List.singleton_append, List.cons_append] at h
          cases A with
          | nil =>
            left
            simp only [List.nil_append, List.cons.injEq] at h
            exact ⟨rfl, h.1.symm⟩
          | cons a A' =>
            right
            simp only [List.cons_append, List.cons.injEq] at h
            obtain ⟨ha, h⟩ := h
            rcases append_eq_append_cons _ _ _ _ _ h with ⟨A'', hA, hc3⟩ | ⟨B', hmain, _⟩
            · right
              refine ⟨rfl, ?_⟩
              split at hc3
              · obtain ⟨db, hdb, w', hw'⟩ := forEach_calls_mem _ _ _ c
                  (by rw [hc3]; simp)
                exact ⟨db, hdb, w', hw'⟩
              · simp at hc3
            · left
              refine ⟨rfl, ?_⟩
              obtain ⟨pre, x, post, A2, B2, B1, hxs, hflow, hbody, hA, _⟩ :=
                forEach_calls_split _ _ _ _ _ _ hmain
              exact ⟨pre, x, post, A2, B2, hxs, hflow, hbody, by rw [← ha, hA]⟩

/-! ## C9: a created table copies the live table -/

/-- C9: every `CreateTable` the run issues, in Case 1 and in Case 2 alike, is
issued in the iteration of a live database `schema` that is not the reserved
one, for one of its live tables `table`: the request carries `Name`, `Type`,
`Engine`, `Collation`, `RowCount`, `DataSize`, `IndexSize`, `DataFree`,
`CreateOptions` and `Comment` of `table` unchanged, `CreatorId` is the system
actor, and `DatabaseId` is the ID of the record `database` returned by the
database-level call of that iteration: the latest database-level call before
it (only table calls lie between), which is the successful `PatchDatabase` of
the matched record (Case 1) or the successful `CreateDatabase` (Case 2). -/
theorem C9_created_table_copies_live_table {W : Type} (env : Env W) (inst : Instance) (w : W)
    (A B : List Call) (tc : TableCreate) (ret : Option Table) (err : Option Error)
    (h : (SyncSchema env inst w).calls = A ++ Call.CreateTable tc ret err :: B) :
    ∃ driver, env.Open (connectionOf inst) = ⟨some driver, none⟩ ∧
    ∃ schema ∈ driver.schemaList, ∃ table ∈ schema.TableList,
    ∃ (pre mid : List Call) (dbc : Call) (database : Database),
      EqualFold "bytebase" schema.Name = false ∧
      A = pre ++ dbc :: mid ∧ (∀ c ∈ mid, c.isTableCall = true) ∧
      ((∃ matched ts,
          matchedDb (env.FindDatabaseList ⟨some inst.ID⟩ w).1.1 schema.Name = some matched ∧
          dbc = Call.PatchDatabase
            ⟨matched.ID, env.SYSTEM_BOT_ID, some SyncStatus.OK, some ts⟩ (some database) none) ∨
        (matchedDb (env.FindDatabaseList ⟨some inst.ID⟩ w).1.1 schema.Name = none ∧
          dbc = Call.CreateDatabase
            ⟨env.SYSTEM_BOT_ID, env.DEFAULT_PROJECT_ID, inst.ID, schema.Name,
              schema.CharacterSet, schema.Collation⟩ (some database) none)) ∧
      tc.CreatorId = env.SYSTEM_BOT_ID ∧ tc.DatabaseId = database.ID ∧
      tc.Name = table.Name ∧ tc.Type_ = table.Type_ ∧ tc.Engine = table.Engine ∧
      tc.Collation = table.Collation ∧ tc.RowCount = table.RowCount ∧
      tc.DataSize = table.DataSize ∧ tc.IndexSize = table.IndexSize ∧
      tc.DataFree = table.DataFree ∧ tc.CreateOptions = table.CreateOptions ∧
      tc.Comment = table.Comment := by
  obtain ⟨driver, hopen, _, hfirst | ⟨_, pre, schema, post, A2, B2, hS, _, hbody, hA⟩ |
      ⟨_, db, _, w', hc3⟩⟩ := SyncSchema_calls_locate env inst w A B _ h
  · exact absurd hfirst.2 (by simp)
  · refine ⟨driver, hopen, schema, by simp [hS], ?_⟩
    rcases syncDatabase_calls_cases env inst (env.FindDatabaseList ⟨some inst.ID⟩ w).1.1 schema
        (forEach (syncDatabase env inst (env.FindDatabaseList ⟨some inst.ID⟩ w).1.1) pre
          (env.FindDatabaseList ⟨some inst.ID⟩ w).2).world with
      ⟨_, h0⟩ | ⟨hres, dbc, dret, derr, tcs, hcalls, herr, hkind⟩
    · rw [h0] at hbody; simp at hbody
    · rw [hcalls] at hbody
      have hsplit : ∃ mid, A2 = dbc :: mid ∧ tcs = mid ++ Call.CreateTable tc ret err :: B2 := by
        cases A2 with
        | nil =>
          simp only [List.nil_append, List.cons.injEq] at hbody
          rcases hkind with ⟨m, ts, _, hd, _⟩ | ⟨_, hd, _⟩ <;> rw [hd] at hbody <;> simp at hbody
        | cons a A2' =>
          simp only [List.cons_append, List.cons.injEq] at hbody
          exact ⟨A2', by rw [hbody.1], hbody.2⟩
      obtain ⟨mid, hA2, htcs⟩ := hsplit
      have hne : tcs ≠ [] := by rw [htcs]; simp
      have hderr := herr hne
      subst hderr
      have hcmem : Call.CreateTable tc ret err ∈ tcs := by rw [htcs]; simp
      have hmidsub : ∀ c ∈ mid, c ∈ tcs := fun c hc => by rw [htcs]; simp [hc]
      rcases hkind with ⟨m, ts, hm, hd, htab⟩ | ⟨hm, hd, htab⟩
      · obtain ⟨t, ht, w2, hc⟩ := htab _ hcmem
        obtain ⟨database, hdb, htc⟩ := syncTable_calls_createTable env inst dret ts t w2 tc ret err hc
        subst hdb
        refine ⟨t, ht, (Call.FindDatabaseList ⟨some inst.ID⟩ (env.FindDatabaseList ⟨some inst.ID⟩ w).1.1 none ::
            (forEach (syncDatabase env inst (env.FindDatabaseList ⟨some inst.ID⟩ w).1.1) pre
              (env.FindDatabaseList ⟨some inst.ID⟩ w).2).calls), mid, dbc, database, hres,
          by rw [hA, hA2]; simp, ?_,
          Or.inl ⟨m, ts, hm, hd⟩, ?_⟩
        · intro c hc
          obtain ⟨t', _, w3, hc'⟩ := htab c (hmidsub c hc)
          exact syncTable_calls_isTableCall env inst _ ts t' w3 c hc'
        · subst htc
          simp [tableCreateOf]
      · obtain ⟨t, ht, w2, hc⟩ := htab _ hcmem
        rcases importTable_calls_cases env inst dret t w2 with ⟨_, h0⟩ | ⟨database, cr, ce, hdb, h1⟩
        · rw [h0] at hc; simp at hc
        · rw [h1] at hc
          simp only [List.mem_singleton, Call.CreateTable.injEq] at hc
          obtain ⟨htc, _, _⟩ := hc
          subst hdb
          refine ⟨t, ht, (Call.FindDatabaseList ⟨some inst.ID⟩ (env.FindDatabaseList ⟨some inst.ID⟩ w).1.1 none ::
            (forEach (syncDatabase env inst (env.FindDatabaseList ⟨some inst.ID⟩ w).1.1) pre
              (env.FindDatabaseList ⟨some inst.ID⟩ w).2).calls), mid, dbc, database, hres,
          by rw [hA, hA2]; simp, ?_,
            Or.inr ⟨hm, hd⟩, ?_⟩
          · intro c hc
            obtain ⟨t', _, w3, hc'⟩ := htab c (hmidsub c hc)
            rcases importTable_calls_cases env inst (some database) t' w3 with
              ⟨_, h0⟩ | ⟨d', cr', ce', _, h1'⟩
            · rw [h0] at hc'; simp at hc'
            · rw [h1'] at hc'
              simp only [List.mem_singleton] at hc'
              subst hc'; rfl
          · subst htc
            simp [tableCreateOf]
  · obtain ⟨_, ts, r, e, hc⟩ := markNotFound_calls_mem env inst _ db w' _ hc3
    simp at hc

/-- C9 at scenario A: the `CreateTable` of `items`, third call of the run. -/
theorem C9_created_table_copies_live_table_witness :
    ∃ schema ∈ [ordersSchema], ∃ table ∈ schema.TableList, ∃ database : Database,
      (1 : Int) = database.ID ∧ "items" = table.Name ∧ (3 : Int) = table.RowCount := by
  obtain ⟨driver, hopen, schema, hs, table, ht, _, _, _, database, _, _, _, _, _, h1, h2, _, _,
      _, h3, _⟩ :=
    C9_created_table_copies_live_table (catalogEnv 1 1 (liveOpen [ordersSchema])) prodInstance
      emptyCatalog
      [Call.FindDatabaseList ⟨some 7⟩ [] none,
       Call.CreateDatabase ⟨1, 1, 7, "orders", "utf8mb4", "utf8mb4_general_ci"⟩
        (some ⟨1, 1, 1, 1, 7, "orders", "utf8mb4", "utf8mb4_general_ci", SyncStatus.OK, 1000⟩)
        none]
      []
      ⟨1, 1, "items", "BASE TABLE", "InnoDB", "utf8mb4_general_ci", 3, 16384, 0, 0, "", ""⟩
      (some ⟨1, 1, 1, 1, "items", "BASE TABLE", "InnoDB", "utf8mb4_general_ci", 3, 16384, 0, 0,
        "", "", SyncStatus.OK, 1001⟩)
      none (by decide)
  have hd : driver = ⟨[ordersSchema], none⟩ := by
    have : (⟨some ⟨[ordersSchema], none⟩, none⟩ : Ret Driver) = ⟨some driver, none⟩ := hopen
    simp only [Ret.mk.injEq, Option.some.injEq, and_true] at this
    exact this.symm
  subst hd
  exact ⟨schema, hs, table, ht, database, h1, h2, h3⟩

theorem matchedDb_some (dbList : List Database) (name : String) (m : Database)
    (h : matchedDb dbList name = some m) : m ∈ dbList ∧ m.Name = name := by
  unfold matchedDb at h
  refine ⟨List.mem_of_find?_eq_some h, ?_⟩
  have := List.find?_some h
  simpa using this

/-- The iteration a table call belongs to: a live database that is not the
reserved one, whose database-level call `dbc` succeeded with record `database`
and is the latest database-level call before the table call; the table loop of
that iteration issued the table calls `mid` since then, and this one. -/
theorem SyncSchema_table_call_context {W : Type} (env : Env W) (inst : Instance) (w : W)
    (A B : List Call) (c : Call) (h : (SyncSchema env inst w).calls = A ++ c :: B)
    (hc : c.isTableCall = true) :
    ∃ driver, env.Open (connectionOf inst) = ⟨some driver, none⟩ ∧
    ∃ schema ∈ driver.schemaList, EqualFold "bytebase" schema.Name = false ∧
    ∃ (pre mid : List Call) (dbc : Call) (database : Database),
      A = pre ++ dbc :: mid ∧
      ((∃ matched ts w2 B2,
          matchedDb (env.FindDatabaseList ⟨some inst.ID⟩ w).1.1 schema.Name = some matched ∧
          dbc = Call.PatchDatabase
            ⟨matched.ID, env.SYSTEM_BOT_ID, some SyncStatus.OK, some ts⟩ (some database) none ∧
          (forEach (syncTable env inst (some database) ts) schema.TableList w2).calls
            = mid ++ c :: B2) ∨
        (∃ w2 B2, matchedDb (env.FindDatabaseList ⟨some inst.ID⟩ w).1.1 schema.Name = none ∧
          dbc = Call.CreateDatabase
            ⟨env.SYSTEM_BOT_ID, env.DEFAULT_PROJECT_ID, inst.ID, schema.Name,
              schema.CharacterSet, schema.Collation⟩ (some database) none ∧
          (forEach (importTable env inst (some database)) schema.TableList w2).calls
            = mid ++ c :: B2)) := by
  obtain ⟨driver, hopen, _, hfirst | ⟨_, pre, schema, post, A2, B2, hS, _, hbody, hA⟩ |
      ⟨_, db, _, w', hc3⟩⟩ := SyncSchema_calls_locate env inst w A B _ h
  · rw [hfirst.2] at hc; simp [Call.isTableCall] at hc
  · refine ⟨driver, hopen, schema, by simp [hS], ?_⟩
    generalize (forEach (syncDatabase env inst (env.FindDatabaseList ⟨some inst.ID⟩ w).1.1) pre
      (env.FindDatabaseList ⟨some inst.ID⟩ w).2).world = bw at hbody
    cases hres : EqualFold "bytebase" schema.Name with
    | true =>
      rw [syncDatabase_of_reserved env inst _ schema bw hres] at hbody
      simp at hbody
    | false =>
      refine ⟨rfl, ?_⟩
      cases hm : matchedDb (env.FindDatabaseList ⟨some inst.ID⟩ w).1.1 schema.Name with
      | some matched =>
        rw [syncDatabase_of_matched env inst _ schema bw matched hres hm, syncMatched_calls]
          at hbody
        cases A2 with
        | nil =>
          simp only [List.nil_append, List.cons.injEq] at hbody
          rw [← hbody.1] at hc; simp [Call.isTableCall] at hc
        | cons a mid =>
          simp only [List.cons_append, List.cons.injEq] at hbody
          obtain ⟨ha, htcs⟩ := hbody
          generalize env.PatchDatabase
            ⟨matched.ID, env.SYSTEM_BOT_ID, some SyncStatus.OK, some (env.Now bw).1⟩
            (env.Now bw).2 = pr at ha htcs
          obtain ⟨⟨ret, err⟩, w2⟩ := pr
          simp only at ha htcs
          cases err with
          | some e => simp at htcs
          | none =>
            simp only at htcs
            cases ret with
            | none =>
              have hmem : c ∈ (forEach (syncTable env inst none (env.Now bw).1)
                  schema.TableList w2).calls := by rw [htcs]; simp
              obtain ⟨t, _, w3, hw3⟩ := forEach_calls_mem _ _ _ c hmem
              simp [syncTable] at hw3
            | some database =>
              exact ⟨(Call.FindDatabaseList ⟨some inst.ID⟩ (env.FindDatabaseList ⟨some inst.ID⟩ w).1.1 none ::
                (forEach (syncDatabase env inst (env.FindDatabaseList ⟨some inst.ID⟩ w).1.1) pre
                  (env.FindDatabaseList ⟨some inst.ID⟩ w).2).calls), mid, a, database,
                by rw [hA]; simp, Or.inl ⟨matched, (env.Now bw).1, w2, B2, rfl,
                ha.symm, htcs⟩⟩
      | none =>
        rw [syncDatabase_of_unmatched env inst _ schema bw hres
          ((matchedDb_eq_none_iff _ _).mp hm), syncNew_calls] at hbody
        cases A2 with
        | nil =>
          simp only [List.nil_append, List.cons.injEq] at hbody
          rw [← hbody.1] at hc; simp [Call.isTableCall] at hc
        | cons a mid =>
          simp only [List.cons_append, List.cons.injEq] at hbody
          obtain ⟨ha, htcs⟩ := hbody
          have hcreate : databaseCreateOf env inst schema
              = ⟨env.SYSTEM_BOT_ID, env.DEFAULT_PROJECT_ID, inst.ID, schema.Name,
                  schema.CharacterSet, schema.Collation⟩ := rfl
          rw [hcreate] at ha htcs
          generalize env.CreateDatabase
            ⟨env.SYSTEM_BOT_ID, env.DEFAULT_PROJECT_ID, inst.ID, schema.Name,
              schema.CharacterSet, schema.Collation⟩ bw = cr at ha htcs
          obtain ⟨⟨ret, err⟩, w2⟩ := cr
          simp only at ha htcs
          cases err with
          | some e => simp at htcs
          | none =>
            simp only at htcs
            cases ret with
            | none =>
              have hmem : c ∈ (forEach (importTable env inst none) schema.TableList w2).calls := by
                rw [htcs]; simp
              obtain ⟨t, _, w3, hw3⟩ := forEach_calls_mem _ _ _ c hmem
              simp [importTable] at hw3
            | some database =>
              exact ⟨(Call.FindDatabaseList ⟨some inst.ID⟩ (env.FindDatabaseList ⟨some inst.ID⟩ w).1.1 none ::
                (forEach (syncDatabase env inst (env.FindDatabaseList ⟨some inst.ID⟩ w).1.1) pre
                  (env.FindDatabaseList ⟨some inst.ID⟩ w).2).calls), mid, a, database,
                by rw [hA]; simp, Or.inr ⟨w2, B2, rfl, ha.symm, htcs⟩⟩
  · obtain ⟨_, ts, r, e, hcc⟩ := markNotFound_calls_mem env inst _ db w' _ hc3
    rw [hcc] at hc; simp [Call.isTableCall] at hc

/-! ## C3: the reserved name -/

/-- C3 fails as stated: the prior catalog holds a record named `bytebase`, the
live snapshot holds the reserved database in another letter case; the live
database is skipped, and Case 3 patches the stored record to `NotFound`. -/
theorem C3_stored_reserved_record_marked_not_found :
    EqualFold "bytebase" bytebaseRecord.Name = true ∧
    (SyncSchema (catalogEnv 1 1 (liveOpen [upperSchema])) prodInstance bytebaseCatalog).calls
      = [Call.FindDatabaseList ⟨some 7⟩ [bytebaseRecord] none,
         Call.PatchDatabase ⟨2, 1, some SyncStatus.NotFound, some 1000⟩
          (some { bytebaseRecord with
            SyncStatus := SyncStatus.NotFound, LastSuccessfulSyncTs := 1000 }) none] ∧
    (SyncSchema (catalogEnv 1 1 (liveOpen [upperSchema])) prodInstance bytebaseCatalog).outcome
      = Outcome.returned ⟨""⟩ := by
  refine ⟨?_, ?_, ?_⟩ <;> decide

theorem forEach_syncTable_calls_isTableCall {W : Type} (env : Env W) (inst : Instance)
    (database : Option Database) (ts : Int) (tables : List TableSchema) (w : W) (c : Call)
    (h : c ∈ (forEach (syncTable env inst database ts) tables w).calls) :
    c.isTableCall = true := by
  obtain ⟨t, _, w', hc⟩ := forEach_calls_mem _ _ _ c h
  exact syncTable_calls_isTableCall env inst database ts t w' c hc

theorem forEach_importTable_calls_isTableCall {W : Type} (env : Env W) (inst : Instance)
    (database : Option Database) (tables : List TableSchema) (w : W) (c : Call)
    (h : c ∈ (forEach (importTable env inst database) tables w).calls) :
    c.isTableCall = true := by
  obtain ⟨t, _, w', hc⟩ := forEach_calls_mem _ _ _ c h
  rcases importTable_calls_cases env inst database t w' with ⟨_, h0⟩ | ⟨d, cr, ce, _, h1⟩
  · rw [h0] at hc; simp at hc
  · rw [h1] at hc; simp only [List.mem_singleton] at hc; subst hc; rfl

/-- C3, amended: whatever the snapshot and the prior catalog, for every call
`c` the run issues: a `CreateDatabase` carries the name of a live database
that is not the reserved one; a `PatchDatabase` either sets `OK` on a listed
record whose name is not reserved (Case 1), or sets `NotFound` on a listed
record whose name no live database has (Case 3); and a table call is issued in
the iteration of a live database that is not the reserved one, after that
iteration's successful database-level call `dbc` (only table calls in
between), for the record `database` it returned: `FindTable` and
`CreateTable` carry `database.ID`, and `PatchTable` patches the record the
`FindTable` just before it returned for `database.ID`. -/
theorem C3_reserved_name_is_skipped {W : Type} (env : Env W) (inst : Instance) (w : W)
    (A B : List Call) (c : Call) (h : (SyncSchema env inst w).calls = A ++ c :: B) :
    ∃ driver, env.Open (connectionOf inst) = ⟨some driver, none⟩ ∧
      (∀ create ret err, c = Call.CreateDatabase create ret err →
        EqualFold "bytebase" create.Name = false ∧
        ∃ schema ∈ driver.schemaList, schema.Name = create.Name) ∧
      (∀ patch ret err, c = Call.PatchDatabase patch ret err →
        (patch.SyncStatus = some SyncStatus.OK ∧
          ∃ m ∈ (env.FindDatabaseList ⟨some inst.ID⟩ w).1.1, m.ID = patch.ID ∧
            EqualFold "bytebase" m.Name = false ∧
            ∃ schema ∈ driver.schemaList, schema.Name = m.Name) ∨
        (patch.SyncStatus = some SyncStatus.NotFound ∧
          ∃ db ∈ (env.FindDatabaseList ⟨some inst.ID⟩ w).1.1, db.ID = patch.ID ∧
            ∀ schema ∈ driver.schemaList, schema.Name ≠ db.Name)) ∧
      (c.isTableCall = true →
        ∃ schema ∈ driver.schemaList, EqualFold "bytebase" schema.Name = false ∧
        ∃ (pre mid : List Call) (dbc : Call) (database : Database),
          A = pre ++ dbc :: mid ∧ (∀ x ∈ mid, x.isTableCall = true) ∧
          ((∃ patch, dbc = Call.PatchDatabase patch (some database) none) ∨
            (∃ create, create.Name = schema.Name ∧
              dbc = Call.CreateDatabase create (some database) none)) ∧
          (∀ find ret err, c = Call.FindTable find ret err →
            find.DatabaseId = some database.ID) ∧
          (∀ create ret err, c = Call.CreateTable create ret err →
            create.DatabaseId = database.ID) ∧
          (∀ patch ret err, c = Call.PatchTable patch ret err →
            ∃ find stored, mid.getLast? = some (Call.FindTable find (some stored) none) ∧
              find.DatabaseId = some database.ID ∧ stored.ID = patch.ID)) := by
  obtain ⟨driver, hopen, _, hloc⟩ := SyncSchema_calls_locate env inst w A B _ h
  refine ⟨driver, hopen, ?_, ?_, ?_⟩
  · intro create ret err hc
    subst hc
    rcases hloc with hfirst | ⟨_, pre, schema, post, A2, B2, hS, _, hbody, _⟩ | ⟨_, db, _, w', hc3⟩
    · simp at hfirst
    · rcases syncDatabase_calls_cases env inst _ schema _ with
        ⟨_, h0⟩ | ⟨hres, dbc, dret, derr, tcs, hcalls, _, hkind⟩
      · rw [h0] at hbody; simp at hbody
      · rw [hcalls] at hbody
        cases A2 with
        | nil =>
          simp only [List.nil_append, List.cons.injEq] at hbody
          rcases hkind with ⟨m, ts, _, hd, _⟩ | ⟨_, hd, _⟩
          · rw [hd] at hbody; simp at hbody
          · rw [hd] at hbody
            simp only [Call.CreateDatabase.injEq] at hbody
            rw [← hbody.1.1]
            exact ⟨hres, schema, by simp [hS], rfl⟩
        | cons a A2' =>
          simp only [List.cons_append, List.cons.injEq] at hbody
          have hmem : Call.CreateDatabase create ret err ∈ tcs := by rw [hbody.2]; simp
          rcases hkind with ⟨m, ts, _, _, htab⟩ | ⟨_, _, htab⟩
          · obtain ⟨t, _, w2, hc⟩ := htab _ hmem
            have := syncTable_calls_isTableCall env inst _ _ _ _ _ hc
            simp [Call.isTableCall] at this
          · obtain ⟨t, _, w2, hc⟩ := htab _ hmem
            rcases importTable_calls_cases env inst dret t w2 with ⟨_, h0⟩ | ⟨d, cr, ce, _, h1⟩
            · rw [h0] at hc; simp at hc
            · rw [h1] at hc; simp at hc
    · obtain ⟨_, ts, r, e, hcc⟩ := markNotFound_calls_mem env inst _ db w' _ hc3
      simp at hcc
  · intro patch ret err hc
    subst hc
    rcases hloc with hfirst | ⟨_, pre, schema, post, A2, B2, hS, _, hbody, _⟩ | ⟨_, db, hdb, w', hc3⟩
    · simp at hfirst
    · left
      rcases syncDatabase_calls_cases env inst _ schema _ with
        ⟨_, h0⟩ | ⟨hres, dbc, dret, derr, tcs, hcalls, _, hkind⟩
      · rw [h0] at hbody; simp at hbody
      · rw [hcalls] at hbody
        cases A2 with
        | nil =>
          simp only [List.nil_append, List.cons.injEq] at hbody
          rcases hkind with ⟨m, ts, hm, hd, _⟩ | ⟨_, hd, _⟩
          · rw [hd] at hbody
            simp only [Call.PatchDatabase.injEq] at hbody
            obtain ⟨hmem, hname⟩ := matchedDb_some _ _ _ hm
            rw [← hbody.1.1]
            exact ⟨rfl, m, hmem, rfl, by rw [hname]; exact hres, schema, by simp [hS],
              hname.symm⟩
          · rw [hd] at hbody; simp at hbody
        | cons a A2' =>
          simp only [List.cons_append, List.cons.injEq] at hbody
          have hmem : Call.PatchDatabase patch ret err ∈ tcs := by rw [hbody.2]; simp
          rcases hkind with ⟨m, ts, _, _, htab⟩ | ⟨_, _, htab⟩
          · obtain ⟨t, _, w2, hc⟩ := htab _ hmem
            have := syncTable_calls_isTableCall env inst _ _ _ _ _ hc
            simp [Call.isTableCall] at this
          · obtain ⟨t, _, w2, hc⟩ := htab _ hmem
            rcases importTable_calls_cases env inst dret t w2 with ⟨_, h0⟩ | ⟨d, cr, ce, _, h1⟩
            · rw [h0] at hc; simp at hc
            · rw [h1] at hc; simp at hc
    · right
      obtain ⟨hany, ts, r, e, hcc⟩ := markNotFound_calls_mem env inst _ db w' _ hc3
      simp only [Call.PatchDatabase.injEq] at hcc
      rw [hcc.1]
      refine ⟨rfl, db, hdb, rfl, ?_⟩
      intro schema hs heq
      have := List.any_eq_false.mp hany schema hs
      simp [heq] at this
  · intro hc
    obtain ⟨driver', hopen', schema, hs, hres, pre, mid, dbc, database, hA, hkind⟩ :=
      SyncSchema_table_call_context env inst w A B c h hc
    have hdrv : driver' = driver := by
      rw [hopen] at hopen'
      simp only [Ret.mk.injEq, Option.some.injEq, and_true] at hopen'
      exact hopen'.symm
    subst hdrv
    refine ⟨schema, hs, hres, pre, mid, dbc, database, hA, ?_⟩
    rcases hkind with ⟨matched, ts, w2, B2, _, hd, hloop⟩ | ⟨w2, B2, _, hd, hloop⟩
    · refine ⟨?_, Or.inl ⟨_, hd⟩, ?_, ?_, ?_⟩
      · intro x hx
        exact forEach_syncTable_calls_isTableCall env inst _ ts _ w2 x (by rw [hloop]; simp [hx])
      · intro find ret err hcf
        obtain ⟨t, _, w3, hmem⟩ := forEach_calls_mem _ _ _ c (by rw [hloop]; simp)
        rcases syncTable_calls_cases env inst (some database) ts t w3 with
          ⟨h0, _⟩ | ⟨d, hd', fr, fe, _, h1 | ⟨e, cr, ce, _, _, h2⟩ | ⟨st, pr, pe, _, _, h3⟩⟩
        · simp at h0
        all_goals
          simp only [Option.some.injEq] at hd'
          subst hd'
        · rw [h1, hcf] at hmem; simp at hmem; rw [hmem.1]
        · rw [h2, hcf] at hmem; simp at hmem; rw [hmem.1]
        · rw [h3, hcf] at hmem; simp at hmem; rw [hmem.1]
      · intro create ret err hcc
        obtain ⟨t, _, w3, hmem⟩ := forEach_calls_mem _ _ _ c (by rw [hloop]; simp)
        rw [hcc] at hmem
        obtain ⟨d, hd', htc⟩ := syncTable_calls_createTable env inst _ ts t w3 _ _ _ hmem
        simp only [Option.some.injEq] at hd'
        subst hd'
        rw [htc]; rfl
      · intro patch ret err hcp
        obtain ⟨tpre, t, tpost, A3, B3, B1, _, _, hbody, hmid, _⟩ :=
          forEach_calls_split _ _ _ _ _ _ hloop
        rcases syncTable_calls_cases env inst (some database) ts t
            (forEach (syncTable env inst (some database) ts) tpre w2).world with
          ⟨h0, _⟩ | ⟨d, hd', fr, fe, _, h1 | ⟨e, cr, ce, _, _, h2⟩ | ⟨st, pr, pe, hfr, hfe, h3⟩⟩
        · simp at h0
        all_goals
          simp only [Option.some.injEq] at hd'
          subst hd'
        · rw [h1, hcp] at hbody
          rcases A3 with _ | ⟨a, _ | ⟨b, A3'⟩⟩ <;> simp at hbody
        · rw [h2, hcp] at hbody
          rcases A3 with _ | ⟨a, _ | ⟨b, A3'⟩⟩ <;> simp at hbody
        · rw [h3, hcp] at hbody
          rcases A3 with _ | ⟨a, _ | ⟨b, A3'⟩⟩ <;> simp at hbody
          obtain ⟨ha, ⟨hp, _, _⟩, _⟩ := hbody
          refine ⟨⟨some database.ID, some t.Name⟩, st, ?_, rfl, ?_⟩
          · rw [hmid, ← ha, hfr, hfe]; simp
          · rw [← hp]
    · refine ⟨?_, Or.inr ⟨_, rfl, hd⟩, ?_, ?_, ?_⟩
      · intro x hx
        exact forEach_importTable_calls_isTableCall env inst _ _ w2 x (by rw [hloop]; simp [hx])
      all_goals
        intro req ret err hcc
        obtain ⟨t, _, w3, hmem⟩ := forEach_calls_mem _ _ _ c (by rw [hloop]; simp)
        rcases importTable_calls_cases env inst (some database) t w3 with
          ⟨h0, _⟩ | ⟨d, cr, ce, hd', h1⟩
        · simp at h0
        simp only [Option.some.injEq] at hd'
        subst hd'
        rw [h1, hcc] at hmem
        simp at hmem
      · rw [hmem.1]; rfl

/-- C3, amended, at the counterexample's run: its second call is the Case 3
`NotFound` patch of the stored record named `bytebase`, which no live database
matches by exact name. -/
theorem C3_reserved_name_is_skipped_witness :
    ∃ driver, (catalogEnv 1 1 (liveOpen [upperSchema])).Open (connectionOf prodInstance)
        = ⟨some driver, none⟩ ∧
      ∃ db ∈ [bytebaseRecord], db.ID = 2 ∧ ∀ schema ∈ driver.schemaList, schema.Name ≠ db.Name := by
  obtain ⟨driver, hopen, _, hpatch, _⟩ :=
    C3_reserved_name_is_skipped (catalogEnv 1 1 (liveOpen [upperSchema])) prodInstance
      bytebaseCatalog
      [Call.FindDatabaseList ⟨some 7⟩ [bytebaseRecord] none] []
      (Call.PatchDatabase ⟨2, 1, some SyncStatus.NotFound, some 1000⟩
        (some { bytebaseRecord with
          SyncStatus := SyncStatus.NotFound, LastSuccessfulSyncTs := 1000 }) none)
      (by decide)
  rcases hpatch _ _ _ rfl with ⟨hok, _⟩ | ⟨_, db, hdb, hid, hno⟩
  · simp at hok
  · exact ⟨driver, hopen, db, hdb, hid, hno⟩

/-! ## Every failure message is non-empty -/

theorem str_append_eq_empty (a b : String) : a ++ b = "" ↔ a = "" ∧ b = "" := by
  constructor
  · intro h
    have := congrArg String.length h
    simp [String.length_append] at this
    have e : ∀ s : String, s.length = 0 → s = "" := by
      intro s hs
      cases s with
      | mk l => simp [String.length] at hs; subst hs; rfl
    exact ⟨e _ this.1, e _ this.2⟩
  · rintro ⟨rfl, rfl⟩; rfl

theorem Run.andThen_flow_ne {W : Type} (r : Run W) (k : W → Run W)
    (hr : r.flow ≠ Flow.fail "") (hk : ∀ w, (k w).flow ≠ Flow.fail "") :
    (r.andThen k).flow ≠ Flow.fail "" := by
  by_cases h : r.flow = Flow.done
  · rw [Run.andThen_of_done _ _ h]; exact hk _
  · rw [Run.andThen_of_not_done _ _ h]; exact hr

theorem forEach_flow_ne {W α : Type} (body : α → W → Run W)
    (hbody : ∀ x w, (body x w).flow ≠ Flow.fail "") (xs : List α) (w : W) :
    (forEach body xs w).flow ≠ Flow.fail "" := by
  induction xs generalizing w with
  | nil => simp [forEach_nil]
  | cons x xs ih =>
    rw [forEach_cons]
    exact Run.andThen_flow_ne _ _ (hbody x w) ih

theorem createTable_flow_ne {W : Type} (env : Env W) (inst : Instance) (database : Database)
    (tc : TableCreate) (w : W) : (createTable env inst database tc w).flow ≠ Flow.fail "" := by
  unfold createTable
  dsimp only
  split
  · split <;> simp [str_append_eq_empty]
  · simp

theorem syncTable_flow_ne {W : Type} (env : Env W) (inst : Instance)
    (database : Option Database) (ts : Int) (table : TableSchema) (w : W) :
    (syncTable env inst database ts table w).flow ≠ Flow.fail "" := by
  unfold syncTable
  split
  · simp
  · dsimp only
    split
    · split
      · exact Run.andThen_flow_ne _ _ (by simp) (createTable_flow_ne env inst _ _)
      · simp [str_append_eq_empty]
    · split
      · simp
      · split
        · split <;> simp [str_append_eq_empty]
        · simp

theorem importTable_flow_ne {W : Type} (env : Env W) (inst : Instance)
    (database : Option Database) (table : TableSchema) (w : W) :
    (importTable env inst database table w).flow ≠ Flow.fail "" := by
  unfold importTable
  split
  · simp
  · exact createTable_flow_ne env inst _ _ w

theorem syncMatched_flow_ne {W : Type} (env : Env W) (inst : Instance) (matched : Database)
    (schema : DBSchema) (w : W) : (syncMatched env inst matched schema w).flow ≠ Flow.fail "" := by
  unfold syncMatched
  dsimp only
  split
  · split
    · simp
    · split <;> simp [str_append_eq_empty]
  · exact Run.andThen_flow_ne _ _ (by simp)
      (forEach_flow_ne _ (syncTable_flow_ne env inst _ _) _)

theorem syncNew_flow_ne {W : Type} (env : Env W) (inst : Instance) (schema : DBSchema)
    (w : W) : (syncNew env inst schema w).flow ≠ Flow.fail "" := by
  unfold syncNew
  dsimp only
  split
  · split <;> simp [str_append_eq_empty]
  · exact Run.andThen_flow_ne _ _ (by simp)
      (forEach_flow_ne _ (importTable_flow_ne env inst _) _)

theorem syncDatabase_flow_ne {W : Type} (env : Env W) (inst : Instance)
    (dbList : List Database) (schema : DBSchema) (w : W) :
    (syncDatabase env inst dbList schema w).flow ≠ Flow.fail "" := by
  unfold syncDatabase
  split
  · simp
  · split
    · exact syncMatched_flow_ne env inst _ schema w
    · exact syncNew_flow_ne env inst schema w

theorem markNotFound_flow_ne {W : Type} (env : Env W) (inst : Instance)
    (schemaList : List DBSchema) (db : Database) (w : W) :
    (markNotFound env inst schemaList db w).flow ≠ Flow.fail "" := by
  unfold markNotFound
  dsimp only
  split
  · simp
  · split
    · split
      · simp
      · split <;> simp [str_append_eq_empty]
    · simp

theorem reconcile_flow_ne {W : Type} (env : Env W) (inst : Instance)
    (schemaList : List DBSchema) (w : W) :
    (reconcile env inst schemaList w).flow ≠ Flow.fail "" := by
  unfold reconcile
  dsimp only
  split
  · simp [str_append_eq_empty]
  · exact Run.andThen_flow_ne _ _
      (Run.andThen_flow_ne _ _ (by simp)
        (forEach_flow_ne _ (syncDatabase_flow_ne env inst _) _))
      (forEach_flow_ne _ (markNotFound_flow_ne env inst _) _)

/-- A run whose connection and introspection succeeded returns an empty `Error`
exactly when the reconciliation fell through to `return nil`. -/
theorem SyncSchema_ok_iff {W : Type} (env : Env W) (inst : Instance) (w : W) (driver : Driver)
    (hopen : env.Open (connectionOf inst) = ⟨some driver, none⟩)
    (hsync : driver.syncErr = none) :
    (SyncSchema env inst w).outcome = Outcome.returned ⟨""⟩ ↔
      (reconcile env inst driver.schemaList w).flow = Flow.done := by
  rw [SyncSchema_of_open env inst w driver hopen hsync, finish_outcome_ok_iff]
  constructor
  · rintro (h | h)
    · exact h
    · exact absurd h (reconcile_flow_ne env inst _ w)
  · intro h; exact Or.inl h

/-! ## C8: the database-level calls of a run -/

theorem filterMap_dbRequest_of_tableCalls (cs : List Call)
    (h : ∀ c ∈ cs, c.isTableCall = true) : cs.filterMap Call.dbRequest = [] := by
  rw [List.filterMap_eq_nil_iff]
  intro c hc
  have := h c hc
  cases c <;> simp_all [Call.isTableCall, Call.dbRequest]

theorem syncDatabase_dbRequests {W : Type} (env : Env W) (inst : Instance)
    (dbList : List Database) (schema : DBSchema) (w : W) :
    (syncDatabase env inst dbList schema w).calls.filterMap Call.dbRequest
      = if (!EqualFold "bytebase" schema.Name) = true then
          [match matchedDb dbList schema.Name with
            | some matched => DbRequest.patch matched.ID (some SyncStatus.OK)
            | none => DbRequest.create schema.Name]
        else [] := by
  rcases syncDatabase_calls_cases env inst dbList schema w with
    ⟨hres, h0⟩ | ⟨hres, dbc, ret, err, tcs, hcalls, _, hkind⟩
  · simp [hres, h0]
  · rw [hcalls]
    rcases hkind with ⟨m, ts, hm, hd, htab⟩ | ⟨hm, hd, htab⟩
    · have : tcs.filterMap Call.dbRequest = [] :=
        filterMap_dbRequest_of_tableCalls tcs (fun c hc => by
          obtain ⟨t, _, w', h'⟩ := htab c hc
          exact syncTable_calls_isTableCall env inst _ _ _ _ _ h')
      simp [hres, hm, hd, Call.dbRequest, this]
    · have : tcs.filterMap Call.dbRequest = [] :=
        filterMap_dbRequest_of_tableCalls tcs (fun c hc => by
          obtain ⟨t, _, w', h'⟩ := htab c hc
          exact forEach_importTable_calls_isTableCall env inst ret [t] w' c
            (by simpa [forEach_cons, forEach_nil, Run.andThen_calls] using h'))
      simp [hres, hm, hd, Call.dbRequest, this]

theorem markNotFound_dbRequests {W : Type} (env : Env W) (inst : Instance)
    (schemaList : List DBSchema) (db : Database) (w : W) :
    (markNotFound env inst schemaList db w).calls.filterMap Call.dbRequest
      = if (!schemaList.any (fun schema => db.Name == schema.Name)) = true then
          [DbRequest.patch db.ID (some SyncStatus.NotFound)]
        else [] := by
  rw [markNotFound_calls]
  cases h : schemaList.any (fun schema => db.Name == schema.Name) <;>
    simp [Call.dbRequest]

/-- A loop whose every iteration makes the request `g x` when `p x` holds, and
none otherwise, makes the requests of a prefix of the list, all of them when it
falls through. -/
theorem forEach_filterMap_calls {W α β : Type} (body : α → W → Run W)
    (f : Call → Option β) (p : α → Bool) (g : α → β)
    (hbody : ∀ x w, (body x w).calls.filterMap f = if p x = true then [g x] else [])
    (xs : List α) (w : W) :
    (forEach body xs w).calls.filterMap f <+: (xs.filter p).map g ∧
    ((forEach body xs w).flow = Flow.done →
      (forEach body xs w).calls.filterMap f = (xs.filter p).map g) := by
  induction xs generalizing w with
  | nil => simp [forEach_nil]
  | cons x xs ih =>
    rw [forEach_cons, Run.andThen_calls, List.filterMap_append, hbody]
    have hsplit : ((x :: xs).filter p).map g
        = (if p x = true then [g x] else []) ++ (xs.filter p).map g := by
      cases hp : p x <;> simp [List.filter_cons, hp]
    rw [hsplit]
    constructor
    · apply List.prefix_append_right_inj _ |>.mpr
      split
      · exact (ih _).1
      · simp
    · intro hfl
      have h1 := Run.andThen_flow_done _ _ hfl
      have h2 := Run.andThen_flow_done_snd _ _ hfl
      simp only [h1, if_true]
      rw [(ih _).2 h2]

theorem planned_targets_nodup (dbList : List Database) (schemaList : List DBSchema)
    (hnames : (schemaList.map (fun schema => schema.Name)).Nodup)
    (hids : (dbList.map (fun db => db.ID)).Nodup) :
    ((plannedDbRequests dbList schemaList).filterMap DbRequest.target).Nodup := by
  have hinj := List.inj_on_of_nodup_map hids
  unfold plannedDbRequests
  rw [List.filterMap_append, List.filterMap_map, List.filterMap_map]
  have h2 : List.filterMap (DbRequest.target ∘ fun db : Database =>
        DbRequest.patch db.ID (some SyncStatus.NotFound))
      (dbList.filter (fun db => !schemaList.any (fun schema => db.Name == schema.Name)))
      = (dbList.filter (fun db => !schemaList.any (fun schema => db.Name == schema.Name))).map
          (fun db => db.ID) := by
    rw [← List.filterMap_eq_map]
    rfl
  have h1 : List.filterMap (DbRequest.target ∘ fun schema : DBSchema =>
        match matchedDb dbList schema.Name with
        | some matched => DbRequest.patch matched.ID (some SyncStatus.OK)
        | none => DbRequest.create schema.Name)
      (schemaList.filter (fun schema => !EqualFold "bytebase" schema.Name))
      = List.filterMap (fun n => (matchedDb dbList n).map (fun db => db.ID))
          ((schemaList.filter (fun schema => !EqualFold "bytebase" schema.Name)).map
            (fun schema => schema.Name)) := by
    rw [List.filterMap_map]
    apply List.filterMap_congr
    intro s _
    simp only [Function.comp]
    cases matchedDb dbList s.Name <;> rfl
  rw [h1, h2, List.nodup_append]
  refine ⟨?_, ?_, ?_⟩
  · apply List.Nodup.filterMap
    · intro n n' b hb hb'
      simp only [Option.mem_def, Option.map_eq_some'] at hb hb'
      obtain ⟨m, hm, hmb⟩ := hb
      obtain ⟨m', hm', hmb'⟩ := hb'
      obtain ⟨hmem, hname⟩ := matchedDb_some _ _ _ hm
      obtain ⟨hmem', hname'⟩ := matchedDb_some _ _ _ hm'
      have : m = m' := hinj hmem hmem' (by rw [hmb, hmb'])
      rw [← hname, ← hname', this]
    · exact hnames.sublist ((List.filter_sublist _).map _)
  · exact hids.sublist ((List.filter_sublist _).map _)
  · intro id h1' h2'
    simp only [List.mem_filterMap, List.mem_map, List.mem_filter, Option.map_eq_some'] at h1' h2'
    obtain ⟨n, ⟨s, ⟨hs, _⟩, hsn⟩, m, hm, hmid⟩ := h1'
    obtain ⟨db, ⟨hdb, hnone⟩, hdbid⟩ := h2'
    obtain ⟨hmem, hname⟩ := matchedDb_some _ _ _ hm
    have : m = db := hinj hmem hdb (by rw [hmid, hdbid])
    subst this
    simp only [Bool.not_eq_true', List.any_eq_false, beq_iff_eq] at hnone
    exact hnone s hs (by rw [hname, hsn])

/-- C8 fails as stated: the snapshot reports `orders` twice, the catalog holds
`orders` (ID 1); the run succeeds and patches record 1 twice. -/
theorem C8_record_patched_twice :
    (SyncSchema (catalogEnv 1 1 (liveOpen twiceOrders)) prodInstance ordersCatalog).outcome
      = Outcome.returned ⟨""⟩ ∧
    (SyncSchema (catalogEnv 1 1 (liveOpen twiceOrders)) prodInstance ordersCatalog).calls.countP
      (Call.patchesDatabase 1) = 2 := by
  refine ⟨?_, ?_⟩ <;> decide

/-- C8, amended: in every run whose connection, introspection and list read
succeeded, the database-level calls are, in order, a prefix of the reference
account: one `PatchDatabase(OK)` of the matched record or one `CreateDatabase`
per live database other than the reserved one, then one
`PatchDatabase(NotFound)` per listed record whose name no live database has;
they are the whole account when the run returns an empty `Error`.  If moreover
the live names are pairwise distinct and the listed records have distinct IDs,
every record is the target of at most one `PatchDatabase` call. -/
theorem C8_database_calls_follow_plan {W : Type} (env : Env W) (inst : Instance) (w : W)
    (driver : Driver) (dbList : List Database) (w1 : W)
    (hopen : env.Open (connectionOf inst) = ⟨some driver, none⟩)
    (hsync : driver.syncErr = none)
    (hlist : env.FindDatabaseList ⟨some inst.ID⟩ w = ((dbList, none), w1)) :
    (SyncSchema env inst w).calls.filterMap Call.dbRequest
        <+: plannedDbRequests dbList driver.schemaList ∧
    ((SyncSchema env inst w).outcome = Outcome.returned ⟨""⟩ →
      (SyncSchema env inst w).calls.filterMap Call.dbRequest
        = plannedDbRequests dbList driver.schemaList) ∧
    ((driver.schemaList.map (fun schema => schema.Name)).Nodup →
      (dbList.map (fun db => db.ID)).Nodup →
      ∀ id, (SyncSchema env inst w).calls.countP (Call.patchesDatabase id) ≤ 1) := by
  have h1 : (env.FindDatabaseList ⟨some inst.ID⟩ w).1.2 = none := by rw [hlist]
  have h2 : (env.FindDatabaseList ⟨some inst.ID⟩ w).1.1 = dbList := by rw [hlist]
  have h3 : (env.FindDatabaseList ⟨some inst.ID⟩ w).2 = w1 := by rw [hlist]
  have hok := SyncSchema_ok_iff env inst w driver hopen hsync
  have hrec := reconcile_of_list env inst driver.schemaList w h1
  rw [h2, h3] at hrec
  have hcalls : (SyncSchema env inst w).calls = (reconcile env inst driver.schemaList w).calls := by
    rw [SyncSchema_of_open env inst w driver hopen hsync, finish_calls]
  obtain ⟨m1, m2⟩ := forEach_filterMap_calls (syncDatabase env inst dbList) Call.dbRequest
    (fun schema => !EqualFold "bytebase" schema.Name)
    (fun schema => match matchedDb dbList schema.Name with
      | some matched => DbRequest.patch matched.ID (some SyncStatus.OK)
      | none => DbRequest.create schema.Name)
    (syncDatabase_dbRequests env inst dbList) driver.schemaList w1
  have hreq : (SyncSchema env inst w).calls.filterMap Call.dbRequest
      = (forEach (syncDatabase env inst dbList) driver.schemaList w1).calls.filterMap
          Call.dbRequest ++
        (if (forEach (syncDatabase env inst dbList) driver.schemaList w1).flow = Flow.done then
          (forEach (markNotFound env inst driver.schemaList) dbList
            (forEach (syncDatabase env inst dbList) driver.schemaList w1).world).calls.filterMap
              Call.dbRequest
          else []) := by
    rw [hcalls, hrec, Run.andThen_calls, Run.andThen_mk_done]
    simp only [List.singleton_append, List.filterMap_append, List.filterMap_cons,
      Call.dbRequest]
    split <;> simp
  have hpre : (SyncSchema env inst w).calls.filterMap Call.dbRequest
      <+: plannedDbRequests dbList driver.schemaList := by
    rw [hreq]
    unfold plannedDbRequests
    by_cases hfl : (forEach (syncDatabase env inst dbList) driver.schemaList w1).flow = Flow.done
    · simp only [hfl, if_true]
      rw [m2 hfl]
      exact (List.prefix_append_right_inj _).mpr
        (forEach_filterMap_calls (markNotFound env inst driver.schemaList) Call.dbRequest
          (fun db => !driver.schemaList.any (fun schema => db.Name == schema.Name))
          (fun db => DbRequest.patch db.ID (some SyncStatus.NotFound))
          (markNotFound_dbRequests env inst driver.schemaList) dbList _).1
    · simp only [hfl, if_false, List.append_nil]
      exact m1.trans (List.prefix_append _ _)
  refine ⟨hpre, ?_, ?_⟩
  · intro hsucc
    have hdone := hok.mp hsucc
    rw [hrec] at hdone
    have hmain := Run.andThen_flow_done _ _ hdone
    have hc3 := Run.andThen_flow_done_snd _ _ hdone
    rw [Run.andThen_mk_done] at hmain
    simp only at hmain
    rw [Run.andThen_world_of_done _ _ rfl] at hc3
    simp only at hc3
    rw [hreq]
    unfold plannedDbRequests
    simp only [hmain, if_true]
    rw [m2 hmain, (forEach_filterMap_calls (markNotFound env inst driver.schemaList)
      Call.dbRequest (fun db => !driver.schemaList.any (fun schema => db.Name == schema.Name))
      (fun db => DbRequest.patch db.ID (some SyncStatus.NotFound))
      (markNotFound_dbRequests env inst driver.schemaList) dbList _).2 hc3]
  · intro hnames hids id
    have hnd := planned_targets_nodup dbList driver.schemaList hnames hids
    have hcount : (SyncSchema env inst w).calls.countP (Call.patchesDatabase id)
        = List.count id (((SyncSchema env inst w).calls.filterMap Call.dbRequest).filterMap
            DbRequest.target) := by
      rw [List.count, List.countP_filterMap, List.countP_filterMap]
      apply List.countP_congr
      intro c _
      cases c <;> simp [Call.patchesDatabase, Call.dbRequest, DbRequest.target]
    rw [hcount]
    exact le_trans ((hpre.filterMap DbRequest.target).sublist.count_le _)
      (List.nodup_iff_count_le_one.mp hnd id)

/-- C8, amended, at scenario B extended by a live `orders`: one patch of record 1. -/
theorem C8_database_calls_follow_plan_witness :
    (SyncSchema (catalogEnv 1 1 (liveOpen [ordersSchema])) prodInstance ordersCatalog).calls.filterMap
        Call.dbRequest = [DbRequest.patch 1 (some SyncStatus.OK)] ∧
    (SyncSchema (catalogEnv 1 1 (liveOpen [ordersSchema])) prodInstance ordersCatalog).calls.countP
        (Call.patchesDatabase 1) ≤ 1 :=
  ⟨by
    rw [(C8_database_calls_follow_plan (catalogEnv 1 1 (liveOpen [ordersSchema])) prodInstance
      ordersCatalog ⟨[ordersSchema], none⟩ [ordersRecord] ordersCatalog rfl rfl rfl).2.1
      (by decide)]
    decide,
   (C8_database_calls_follow_plan (catalogEnv 1 1 (liveOpen [ordersSchema])) prodInstance
      ordersCatalog ⟨[ordersSchema], none⟩ [ordersRecord] ordersCatalog rfl rfl rfl).2.2
      (by decide) (by decide) 1⟩

/-! ## The store, operation by operation -/

theorem applyDatabasePatch_ID (p : DatabasePatch) (d : Database) :
    (applyDatabasePatch p d).ID = d.ID := rfl

theorem applyDatabasePatch_Name (p : DatabasePatch) (d : Database) :
    (applyDatabasePatch p d).Name = d.Name := rfl

theorem applyDatabasePatch_InstanceId (p : DatabasePatch) (d : Database) :
    (applyDatabasePatch p d).InstanceId = d.InstanceId := rfl

theorem applyTablePatch_ID (p : TablePatch) (t : Table) : (applyTablePatch p t).ID = t.ID := rfl

theorem applyTablePatch_Name (p : TablePatch) (t : Table) :
    (applyTablePatch p t).Name = t.Name := rfl

theorem applyTablePatch_DatabaseId (p : TablePatch) (t : Table) :
    (applyTablePatch p t).DatabaseId = t.DatabaseId := rfl

theorem map_patch_eq_self {α : Type} (l : List α) (q : α → Bool) (f : α → α)
    (h : l.find? q = none) : l.map (fun x => if q x = true then f x else x) = l := by
  have h' := List.find?_eq_none.mp h
  calc l.map (fun x => if q x = true then f x else x) = l.map id := by
        apply List.map_congr_left
        intro x hx
        simp [h' x hx]
    _ = l := List.map_id l

theorem patchDatabase_databases (p : DatabasePatch) (c : Catalog) :
    (Catalog.patchDatabase p c).2.databases
      = c.databases.map (fun x => if (x.ID == p.ID) = true then applyDatabasePatch p x else x) := by
  unfold Catalog.patchDatabase
  split
  · rename_i h
    exact (map_patch_eq_self _ _ _ h).symm
  · rfl

theorem patchDatabase_rest (p : DatabasePatch) (c : Catalog) :
    (Catalog.patchDatabase p c).2.tables = c.tables ∧
    (Catalog.patchDatabase p c).2.nextDatabaseId = c.nextDatabaseId ∧
    (Catalog.patchDatabase p c).2.nextTableId = c.nextTableId ∧
    (Catalog.patchDatabase p c).2.clock = c.clock ∧
    (Catalog.patchDatabase p c).2.tick = c.tick := by
  unfold Catalog.patchDatabase
  split <;> simp

theorem patchDatabase_result (p : DatabasePatch) (c : Catalog) :
    ((Catalog.patchDatabase p c).1.err = none ∧
      ∃ r ∈ c.databases, r.ID = p.ID ∧
        (Catalog.patchDatabase p c).1.val = some (applyDatabasePatch p r)) ∨
    ((∃ e, (Catalog.patchDatabase p c).1.err = some e) ∧
      (Catalog.patchDatabase p c).1.val = none ∧ ∀ r ∈ c.databases, r.ID ≠ p.ID) := by
  unfold Catalog.patchDatabase
  split
  · rename_i h
    right
    refine ⟨⟨_, rfl⟩, rfl, ?_⟩
    intro r hr
    have := List.find?_eq_none.mp h r hr
    simpa using this
  · rename_i d h
    left
    refine ⟨rfl, d, List.mem_of_find?_eq_some h, ?_, rfl⟩
    have := List.find?_some h
    simpa using this

theorem patchTable_tables (p : TablePatch) (c : Catalog) :
    (Catalog.patchTable p c).2.tables
      = c.tables.map (fun x => if (x.ID == p.ID) = true then applyTablePatch p x else x) := by
  unfold Catalog.patchTable
  split
  · rename_i h
    exact (map_patch_eq_self _ _ _ h).symm
  · rfl

theorem patchTable_rest (p : TablePatch) (c : Catalog) :
    (Catalog.patchTable p c).2.databases = c.databases ∧
    (Catalog.patchTable p c).2.nextDatabaseId = c.nextDatabaseId ∧
    (Catalog.patchTable p c).2.nextTableId = c.nextTableId ∧
    (Catalog.patchTable p c).2.clock = c.clock ∧
    (Catalog.patchTable p c).2.tick = c.tick := by
  unfold Catalog.patchTable
  split <;> simp

theorem patchTable_result (p : TablePatch) (c : Catalog) :
    ((Catalog.patchTable p c).1.err = none ∧
      ∃ r ∈ c.tables, r.ID = p.ID ∧
        (Catalog.patchTable p c).1.val = some (applyTablePatch p r)) ∨
    ((∃ e, (Catalog.patchTable p c).1.err = some e) ∧
      (Catalog.patchTable p c).1.val = none ∧ ∀ r ∈ c.tables, r.ID ≠ p.ID) := by
  unfold Catalog.patchTable
  split
  · rename_i h
    right
    refine ⟨⟨_, rfl⟩, rfl, ?_⟩
    intro r hr
    have := List.find?_eq_none.mp h r hr
    simpa using this
  · rename_i d h
    left
    refine ⟨rfl, d, List.mem_of_find?_eq_some h, ?_, rfl⟩
    have := List.find?_some h
    simpa using this

/-- The record `CreateDatabase` stores for a request, in state `c`. -/
theorem createDatabase_cases (create : DatabaseCreate) (c : Catalog) :
    ((∃ e, (Catalog.createDatabase create c).1 = ⟨none, some e⟩) ∧
      (Catalog.createDatabase create c).2 = c ∧
      ∃ r ∈ c.databases, r.InstanceId = create.InstanceId ∧ r.Name = create.Name) ∨
    (∃ d : Database, (Catalog.createDatabase create c).1 = ⟨some d, none⟩ ∧
      d.ID = c.nextDatabaseId ∧ d.InstanceId = create.InstanceId ∧ d.Name = create.Name ∧
      d.SyncStatus = SyncStatus.OK ∧ d.LastSuccessfulSyncTs = c.clock c.tick ∧
      (Catalog.createDatabase create c).2.databases = c.databases ++ [d] ∧
      (Catalog.createDatabase create c).2.tables = c.tables ∧
      (Catalog.createDatabase create c).2.nextDatabaseId = c.nextDatabaseId + 1 ∧
      (Catalog.createDatabase create c).2.nextTableId = c.nextTableId ∧
      (Catalog.createDatabase create c).2.clock = c.clock ∧
      (Catalog.createDatabase create c).2.tick = c.tick + 1 ∧
      ∀ r ∈ c.databases, ¬ (r.InstanceId = create.InstanceId ∧ r.Name = create.Name)) := by
  unfold Catalog.createDatabase
  split
  · rename_i h
    left
    refine ⟨⟨_, rfl⟩, rfl, ?_⟩
    simpa using h
  · rename_i h
    right
    refine ⟨_, rfl, rfl, rfl, rfl, rfl, rfl, rfl, rfl, rfl, rfl, rfl, rfl, ?_⟩
    simpa using h

theorem createTable_cases (create : TableCreate) (c : Catalog) :
    ((∃ e, (Catalog.createTable create c).1 = ⟨none, some e⟩) ∧
      (Catalog.createTable create c).2 = c ∧
      ∃ r ∈ c.tables, r.DatabaseId = create.DatabaseId ∧ r.Name = create.Name) ∨
    (∃ t : Table, (Catalog.createTable create c).1 = ⟨some t, none⟩ ∧
      t.ID = c.nextTableId ∧ t.DatabaseId = create.DatabaseId ∧ t.Name = create.Name ∧
      t.SyncStatus = SyncStatus.OK ∧ t.LastSuccessfulSyncTs = c.clock c.tick ∧
      (Catalog.createTable create c).2.tables = c.tables ++ [t] ∧
      (Catalog.createTable create c).2.databases = c.databases ∧
      (Catalog.createTable create c).2.nextDatabaseId = c.nextDatabaseId ∧
      (Catalog.createTable create c).2.nextTableId = c.nextTableId + 1 ∧
      (Catalog.createTable create c).2.clock = c.clock ∧
      (Catalog.createTable create c).2.tick = c.tick + 1 ∧
      ∀ r ∈ c.tables, ¬ (r.DatabaseId = create.DatabaseId ∧ r.Name = create.Name)) := by
  unfold Catalog.createTable
  split
  · rename_i h
    left
    refine ⟨⟨_, rfl⟩, rfl, ?_⟩
    simpa using h
  · rename_i h
    right
    refine ⟨_, rfl, rfl, rfl, rfl, rfl, rfl, rfl, rfl, rfl, rfl, rfl, rfl, ?_⟩
    simpa using h

theorem findTable_cases (id : Int) (name : String) (c : Catalog) :
    (Catalog.findTable ⟨some id, some name⟩ c).2 = c ∧
    ((∃ u ∈ c.tables, u.DatabaseId = id ∧ u.Name = name ∧
        (Catalog.findTable ⟨some id, some name⟩ c).1 = ⟨some u, none⟩) ∨
      ((∀ u ∈ c.tables, ¬ (u.DatabaseId = id ∧ u.Name = name)) ∧
        (Catalog.findTable ⟨some id, some name⟩ c).1
          = ⟨none, some ⟨Code.ENOTFOUND, "table not found"⟩⟩)) := by
  unfold Catalog.findTable
  split
  · rename_i h
    refine ⟨rfl, Or.inr ⟨?_, rfl⟩⟩
    intro u hu
    have := List.find?_eq_none.mp h u hu
    simpa [tableMatches] using this
  · rename_i u h
    refine ⟨rfl, Or.inl ⟨u, List.mem_of_find?_eq_some h, ?_⟩⟩
    have := List.find?_some h
    simp only [tableMatches, Bool.and_eq_true, beq_iff_eq] at this
    exact ⟨this.1, this.2, rfl⟩

/-! ## What one step changes -/

/-- The five shapes of the state change of a step: nothing but the clock
reading, a patch of the database records, a new database record, a patch of the
table records, a new table record. -/
theorem RunStep.kind {inst : Instance} {S : List DBSchema} {dbList : List Database}
    {tick0 : Nat} {c c' : Catalog} {l : List Call} (h : RunStep inst S dbList tick0 c l c') :
    c'.clock = c.clock ∧ c.tick ≤ c'.tick ∧
    ((c'.databases = c.databases ∧ c'.tables = c.tables ∧
        c'.nextDatabaseId = c.nextDatabaseId ∧ c'.nextTableId = c.nextTableId) ∨
      (∃ p : DatabasePatch,
        c'.databases = c.databases.map
          (fun x => if (x.ID == p.ID) = true then applyDatabasePatch p x else x) ∧
        c'.tables = c.tables ∧
        c'.nextDatabaseId = c.nextDatabaseId ∧ c'.nextTableId = c.nextTableId) ∨
      (∃ d : Database, c'.databases = c.databases ++ [d] ∧ d.ID = c.nextDatabaseId ∧
        (∀ r ∈ c.databases, ¬ (r.InstanceId = d.InstanceId ∧ r.Name = d.Name)) ∧
        c'.tables = c.tables ∧
        c'.nextDatabaseId = c.nextDatabaseId + 1 ∧ c'.nextTableId = c.nextTableId) ∨
      (∃ p : TablePatch,
        c'.tables = c.tables.map
          (fun x => if (x.ID == p.ID) = true then applyTablePatch p x else x) ∧
        c'.databases = c.databases ∧
        c'.nextDatabaseId = c.nextDatabaseId ∧ c'.nextTableId = c.nextTableId) ∨
      (∃ t : Table, c'.tables = c.tables ++ [t] ∧ t.ID = c.nextTableId ∧
        (∀ r ∈ c.tables, ¬ (r.DatabaseId = t.DatabaseId ∧ r.Name = t.Name)) ∧
        c'.databases = c.databases ∧
        c'.nextDatabaseId = c.nextDatabaseId ∧ c'.nextTableId = c.nextTableId + 1)) := by
  cases h with
  | now => exact ⟨rfl, Nat.le_succ _, Or.inl ⟨rfl, rfl, rfl, rfl⟩⟩
  | findDatabaseList find => exact ⟨rfl, le_refl _, Or.inl ⟨rfl, rfl, rfl, rfl⟩⟩
  | patchOK m bot ts _ _ _ =>
    obtain ⟨h1, h2, h3, h4, h5⟩ := patchDatabase_rest ⟨m.ID, bot, some SyncStatus.OK, some ts⟩ c
    exact ⟨h4, le_of_eq h5.symm, Or.inr (Or.inl ⟨_, patchDatabase_databases _ c, h1, h2, h3⟩)⟩
  | patchNotFound db bot ts _ _ _ =>
    obtain ⟨h1, h2, h3, h4, h5⟩ :=
      patchDatabase_rest ⟨db.ID, bot, some SyncStatus.NotFound, some ts⟩ c
    exact ⟨h4, le_of_eq h5.symm, Or.inr (Or.inl ⟨_, patchDatabase_databases _ c, h1, h2, h3⟩)⟩
  | createDatabase create _ _ =>
    rcases createDatabase_cases create c with ⟨_, hc, _⟩ |
      ⟨d, _, hid, hin, hn, _, _, hdb, ht, hnd, hnt, hcl, htk, hno⟩
    · rw [hc]; exact ⟨rfl, le_refl _, Or.inl ⟨rfl, rfl, rfl, rfl⟩⟩
    · refine ⟨hcl, by omega, Or.inr (Or.inr (Or.inl ⟨d, hdb, hid, ?_, ht, hnd, hnt⟩))⟩
      intro r hr
      rw [hin, hn]
      exact hno r hr
  | findTable id name _ => exact ⟨rfl, le_refl _, Or.inl ⟨rfl, rfl, rfl, rfl⟩⟩
  | createTable create _ =>
    rcases createTable_cases create c with ⟨_, hc, _⟩ |
      ⟨t, _, hid, hin, hn, _, _, htb, hd, hnd, hnt, hcl, htk, hno⟩
    · rw [hc]; exact ⟨rfl, le_refl _, Or.inl ⟨rfl, rfl, rfl, rfl⟩⟩
    · refine ⟨hcl, by omega, Or.inr (Or.inr (Or.inr (Or.inr ⟨t, htb, hid, ?_, hd, hnd, hnt⟩)))⟩
      intro r hr
      rw [hin, hn]
      exact hno r hr
  | patchTable u bot ts _ _ _ =>
    obtain ⟨h1, h2, h3, h4, h5⟩ := patchTable_rest ⟨u.ID, bot, some SyncStatus.OK, some ts⟩ c
    exact ⟨h4, le_of_eq h5.symm,
      Or.inr (Or.inr (Or.inr (Or.inl ⟨_, patchTable_tables _ c, h1, h2, h3⟩)))⟩

theorem pairwise_map_patch {α : Type} (R : α → α → Prop) (f : α → α) (l : List α)
    (hf : ∀ a b, R a b → R (f a) (f b)) (h : l.Pairwise R) : (l.map f).Pairwise R := by
  rw [List.pairwise_map]
  exact h.imp (fun {a b} hab => hf a b hab)

/-- A step keeps the catalog well formed. -/
theorem RunStep.wf {inst : Instance} {S : List DBSchema} {dbList : List Database}
    {tick0 : Nat} {c c' : Catalog} {l : List Call} (h : RunStep inst S dbList tick0 c l c')
    (hwf : c.WF) : c'.WF := by
  obtain ⟨_, _, hk⟩ := h.kind
  rcases hk with ⟨hd, ht, hnd, hnt⟩ | ⟨p, hd, ht, hnd, hnt⟩ | ⟨d, hd, hid, hno, ht, hnd, hnt⟩ |
    ⟨p, ht, hd, hnd, hnt⟩ | ⟨t, ht, hid, hno, hd, hnd, hnt⟩
  · exact ⟨by rw [hd]; exact hwf.dbIds, by rw [hd, hnd]; exact hwf.dbFresh,
      by rw [hd]; exact hwf.dbNames, by rw [ht]; exact hwf.tableIds,
      by rw [ht, hnt]; exact hwf.tableFresh, by rw [ht]; exact hwf.tableNames⟩
  · refine ⟨?_, ?_, ?_, by rw [ht]; exact hwf.tableIds,
      by rw [ht, hnt]; exact hwf.tableFresh, by rw [ht]; exact hwf.tableNames⟩
    · rw [hd]
      refine pairwise_map_patch _ _ _ ?_ hwf.dbIds
      intro a b hab
      by_cases ha : (a.ID == p.ID) = true <;> by_cases hb : (b.ID == p.ID) = true <;>
        simp [ha, hb, applyDatabasePatch_ID, hab]
    · rw [hd, hnd]
      intro x hx
      obtain ⟨r, hr, rfl⟩ := List.mem_map.mp hx
      by_cases ha : (r.ID == p.ID) = true <;> simp [ha, applyDatabasePatch_ID, hwf.dbFresh r hr]
    · rw [hd]
      refine pairwise_map_patch _ _ _ ?_ hwf.dbNames
      intro a b hab
      by_cases ha : (a.ID == p.ID) = true <;> by_cases hb : (b.ID == p.ID) = true <;>
        simpa [ha, hb, applyDatabasePatch_Name, applyDatabasePatch_InstanceId] using hab
  · refine ⟨?_, ?_, ?_, by rw [ht]; exact hwf.tableIds,
      by rw [ht, hnt]; exact hwf.tableFresh, by rw [ht]; exact hwf.tableNames⟩
    · rw [hd, List.pairwise_append]
      refine ⟨hwf.dbIds, List.pairwise_singleton _ _, ?_⟩
      intro a ha b hb
      simp only [List.mem_singleton] at hb
      subst hb
      have := hwf.dbFresh a ha
      omega
    · rw [hd, hnd]
      intro x hx
      rcases List.mem_append.mp hx with hx | hx
      · have := hwf.dbFresh x hx; omega
      · simp only [List.mem_singleton] at hx
        subst hx; omega
    · rw [hd, List.pairwise_append]
      refine ⟨hwf.dbNames, List.pairwise_singleton _ _, ?_⟩
      intro a ha b hb
      simp only [List.mem_singleton] at hb
      subst hb
      exact hno a ha
  · refine ⟨by rw [hd]; exact hwf.dbIds, by rw [hd, hnd]; exact hwf.dbFresh,
      by rw [hd]; exact hwf.dbNames, ?_, ?_, ?_⟩
    · rw [ht]
      refine pairwise_map_patch _ _ _ ?_ hwf.tableIds
      intro a b hab
      by_cases ha : (a.ID == p.ID) = true <;> by_cases hb : (b.ID == p.ID) = true <;>
        simp [ha, hb, applyTablePatch_ID, hab]
    · rw [ht, hnt]
      intro x hx
      obtain ⟨r, hr, rfl⟩ := List.mem_map.mp hx
      by_cases ha : (r.ID == p.ID) = true <;> simp [ha, applyTablePatch_ID, hwf.tableFresh r hr]
    · rw [ht]
      refine pairwise_map_patch _ _ _ ?_ hwf.tableNames
      intro a b hab
      by_cases ha : (a.ID == p.ID) = true <;> by_cases hb : (b.ID == p.ID) = true <;>
        simpa [ha, hb, applyTablePatch_Name, applyTablePatch_DatabaseId] using hab
  · refine ⟨by rw [hd]; exact hwf.dbIds, by rw [hd, hnd]; exact hwf.dbFresh,
      by rw [hd]; exact hwf.dbNames, ?_, ?_, ?_⟩
    · rw [ht, List.pairwise_append]
      refine ⟨hwf.tableIds, List.pairwise_singleton _ _, ?_⟩
      intro a ha b hb
      simp only [List.mem_singleton] at hb
      subst hb
      have := hwf.tableFresh a ha
      omega
    · rw [ht, hnt]
      intro x hx
      rcases List.mem_append.mp hx with hx | hx
      · have := hwf.tableFresh x hx; omega
      · simp only [List.mem_singleton] at hx
        subst hx; omega
    · rw [ht, List.pairwise_append]
      refine ⟨hwf.tableNames, List.pairwise_singleton _ _, ?_⟩
      intro a ha b hb
      simp only [List.mem_singleton] at hb
      subst hb
      exact hno a ha

/-! ## What a run keeps -/

theorem Stamped.mono {tick0 : Nat} {c c' : Catalog} {ts : Int} (h : Stamped tick0 c ts)
    (hclock : c'.clock = c.clock) (htick : c.tick ≤ c'.tick) : Stamped tick0 c' ts := by
  obtain ⟨i, h1, h2, h3⟩ := h
  exact ⟨i, h1, by omega, by rw [hclock]; exact h3⟩

/-- A step keeps every database record under its identifier, name and instance. -/
theorem RunStep.keeps_database {inst : Instance} {S : List DBSchema} {dbList : List Database}
    {tick0 : Nat} {c c' : Catalog} {l : List Call} (h : RunStep inst S dbList tick0 c l c')
    (r : Database) (hr : r ∈ c.databases) :
    ∃ r' ∈ c'.databases, r'.ID = r.ID ∧ r'.Name = r.Name ∧ r'.InstanceId = r.InstanceId := by
  obtain ⟨_, _, hk⟩ := h.kind
  rcases hk with ⟨hd, _⟩ | ⟨p, hd, _⟩ | ⟨d, hd, _⟩ | ⟨p, _, hd, _⟩ | ⟨t, _, _, _, hd, _⟩
  · exact ⟨r, by rw [hd]; exact hr, rfl, rfl, rfl⟩
  · refine ⟨_, by rw [hd]; exact List.mem_map_of_mem _ hr, ?_⟩
    by_cases ha : (r.ID == p.ID) = true <;>
      simp [ha, applyDatabasePatch_ID, applyDatabasePatch_Name, applyDatabasePatch_InstanceId]
  · exact ⟨r, by rw [hd]; simp [hr], rfl, rfl, rfl⟩
  · exact ⟨r, by rw [hd]; exact hr, rfl, rfl, rfl⟩
  · exact ⟨r, by rw [hd]; exact hr, rfl, rfl, rfl⟩

/-- A step keeps every table record under its identifier, database and name. -/
theorem RunStep.keeps_table_step {inst : Instance} {S : List DBSchema} {dbList : List Database}
    {tick0 : Nat} {c c' : Catalog} {l : List Call} (h : RunStep inst S dbList tick0 c l c')
    (u : Table) (hu : u ∈ c.tables) :
    ∃ u' ∈ c'.tables, u'.ID = u.ID ∧ u'.DatabaseId = u.DatabaseId ∧ u'.Name = u.Name := by
  obtain ⟨_, _, hk⟩ := h.kind
  rcases hk with ⟨_, ht, _⟩ | ⟨p, _, ht, _⟩ | ⟨d, _, _, _, ht, _⟩ | ⟨p, ht, _⟩ | ⟨t, ht, _⟩
  · exact ⟨u, by rw [ht]; exact hu, rfl, rfl, rfl⟩
  · exact ⟨u, by rw [ht]; exact hu, rfl, rfl, rfl⟩
  · exact ⟨u, by rw [ht]; exact hu, rfl, rfl, rfl⟩
  · refine ⟨_, by rw [ht]; exact List.mem_map_of_mem _ hu, ?_⟩
    by_cases ha : (u.ID == p.ID) = true <;>
      simp [ha, applyTablePatch_ID, applyTablePatch_Name, applyTablePatch_DatabaseId]
  · exact ⟨u, by rw [ht]; simp [hu], rfl, rfl, rfl⟩

/-- Where a database record after a step comes from: a record before the step
with the same identifier, name and instance, or the record just created. -/
theorem RunStep.database_origin {inst : Instance} {S : List DBSchema}
    {dbList : List Database} {tick0 : Nat} {c c' : Catalog} {l : List Call}
    (h : RunStep inst S dbList tick0 c l c') (r' : Database) (hr' : r' ∈ c'.databases) :
    (∃ r ∈ c.databases, r.ID = r'.ID ∧ r.Name = r'.Name ∧ r.InstanceId = r'.InstanceId) ∨
    r'.ID = c.nextDatabaseId := by
  obtain ⟨_, _, hk⟩ := h.kind
  rcases hk with ⟨hd, _⟩ | ⟨p, hd, _⟩ | ⟨d, hd, hid, _⟩ | ⟨p, _, hd, _⟩ | ⟨t, _, _, _, hd, _⟩
  · exact Or.inl ⟨r', by rw [← hd]; exact hr', rfl, rfl, rfl⟩
  · rw [hd] at hr'
    obtain ⟨r, hr, rfl⟩ := List.mem_map.mp hr'
    refine Or.inl ⟨r, hr, ?_⟩
    by_cases ha : (r.ID == p.ID) = true <;>
      simp [ha, applyDatabasePatch_ID, applyDatabasePatch_Name, applyDatabasePatch_InstanceId]
  · rw [hd] at hr'
    rcases List.mem_append.mp hr' with hx | hx
    · exact Or.inl ⟨r', hx, rfl, rfl, rfl⟩
    · simp only [List.mem_singleton] at hx
      subst hx
      exact Or.inr hid
  · exact Or.inl ⟨r', by rw [← hd]; exact hr', rfl, rfl, rfl⟩
  · exact Or.inl ⟨r', by rw [← hd]; exact hr', rfl, rfl, rfl⟩

theorem RunStep.tracks_step {inst : Instance} {S : List DBSchema} {dbList : List Database}
    {tick0 : Nat} {c0 c c' : Catalog} {l : List Call} (h : RunStep inst S dbList tick0 c l c')
    (ht : Tracks dbList c0 c) : Tracks dbList c0 c' := by
  obtain ⟨hclock, htick, hk⟩ := h.kind
  have hnext : c.nextDatabaseId ≤ c'.nextDatabaseId ∧ c.nextTableId ≤ c'.nextTableId := by
    rcases hk with ⟨_, _, h1, h2⟩ | ⟨_, _, _, h1, h2⟩ | ⟨_, _, _, _, _, h1, h2⟩ |
      ⟨_, _, _, h1, h2⟩ | ⟨_, _, _, _, _, h1, h2⟩ <;> omega
  refine ⟨h.wf ht.wf, by rw [hclock]; exact ht.clock, le_trans ht.tick htick,
    le_trans ht.nextDb hnext.1, le_trans ht.nextTable hnext.2, ht.listed, ?_, ?_⟩
  · intro x hx
    obtain ⟨r, hr, hid⟩ := ht.kept x hx
    obtain ⟨r', hr', hid', _, _⟩ := h.keeps_database r hr
    exact ⟨r', hr', by rw [hid', hid]⟩
  · intro x hx r' hr' hid
    rcases h.database_origin r' hr' with ⟨r, hr, h1, h2, h3⟩ | hnew
    · obtain ⟨hn, hi⟩ := ht.same x hx r hr (by rw [h1, hid])
      exact ⟨by rw [← h2, hn], by rw [← h3, hi]⟩
    · have := ht.listed x hx
      have := ht.nextDb
      omega

theorem Trace.append {inst : Instance} {S : List DBSchema} {dbList : List Database}
    {tick0 : Nat} {c c' c'' : Catalog} {l1 l2 : List Call}
    (h1 : Trace inst S dbList tick0 c l1 c') (h2 : Trace inst S dbList tick0 c' l2 c'') :
    Trace inst S dbList tick0 c (l1 ++ l2) c'' := by
  induction h1 with
  | nil c => simpa using h2
  | cons hs _ ih => rw [List.append_assoc]; exact Trace.cons hs (ih h2)

theorem Trace.single {inst : Instance} {S : List DBSchema} {dbList : List Database}
    {tick0 : Nat} {c c' : Catalog} {l : List Call} (h : RunStep inst S dbList tick0 c l c') :
    Trace inst S dbList tick0 c l c' := by
  have := Trace.cons h (Trace.nil c')
  simpa using this

/-- A property of catalog states that every step keeps, as long as the state
tracks the start of the run, holds after the run if it held before. -/
theorem Trace.keeps {inst : Instance} {S : List DBSchema} {dbList : List Database}
    {tick0 : Nat} {c0 c c' : Catalog} {l : List Call} (P : Catalog → Prop)
    (hstep : ∀ a l' b, Tracks dbList c0 a → RunStep inst S dbList tick0 a l' b → P a → P b)
    (h : Trace inst S dbList tick0 c l c') (ht : Tracks dbList c0 c) (hp : P c) :
    Tracks dbList c0 c' ∧ P c' := by
  induction h with
  | nil c => exact ⟨ht, hp⟩
  | cons hs _ ih => exact ih (hs.tracks_step ht) (hstep _ _ _ ht hs hp)

theorem Trace.tracks {inst : Instance} {S : List DBSchema} {dbList : List Database}
    {tick0 : Nat} {c0 c c' : Catalog} {l : List Call}
    (h : Trace inst S dbList tick0 c l c') (ht : Tracks dbList c0 c) : Tracks dbList c0 c' :=
  (Trace.keeps (fun _ => True) (fun _ _ _ _ _ _ => trivial) h ht trivial).1

theorem Trace.stamped {inst : Instance} {S : List DBSchema} {dbList : List Database}
    {tick0 : Nat} {c c' : Catalog} {l : List Call}
    (h : Trace inst S dbList tick0 c l c') (ts : Int) (hs : Stamped tick0 c ts) :
    Stamped tick0 c' ts := by
  induction h with
  | nil c => exact hs
  | cons hstep _ ih => exact ih (hs.mono hstep.kind.1 hstep.kind.2.1)

theorem RunStep.liveDb_step {inst : Instance} {S : List DBSchema} {dbList : List Database}
    {tick0 : Nat} {c c' : Catalog} {l : List Call} (h : RunStep inst S dbList tick0 c l c')
    (id : Int) (hl : LiveDb inst S c id) : LiveDb inst S c' id := by
  obtain ⟨r, hr, hid, hin, s, hs, hn⟩ := hl
  obtain ⟨r', hr', h1, h2, h3⟩ := h.keeps_database r hr
  exact ⟨r', hr', by rw [h1, hid], by rw [h3, hin], s, hs, by rw [h2, hn]⟩

theorem Trace.liveDb {inst : Instance} {S : List DBSchema} {dbList : List Database}
    {tick0 : Nat} {c c' : Catalog} {l : List Call}
    (h : Trace inst S dbList tick0 c l c') (id : Int) (hl : LiveDb inst S c id) :
    LiveDb inst S c' id := by
  induction h with
  | nil c => exact hl
  | cons hstep _ ih => exact ih (hstep.liveDb_step id hl)

/-! ## A run against the store is a sequence of steps -/

theorem forEach_trace {α : Type} {inst : Instance} {S : List DBSchema}
    {dbList : List Database} {tick0 : Nat} (body : α → Catalog → Run Catalog)
    (H : Catalog → Prop)
    (hH : ∀ c l c', Trace inst S dbList tick0 c l c' → H c → H c')
    (hbody : ∀ x c, H c → Trace inst S dbList tick0 c (body x c).calls (body x c).world)
    (xs : List α) (c : Catalog) (h : H c) :
    Trace inst S dbList tick0 c (forEach body xs c).calls (forEach body xs c).world := by
  induction xs generalizing c with
  | nil => exact Trace.nil c
  | cons x xs ih =>
    rw [forEach_cons]
    by_cases hd : (body x c).flow = Flow.done
    · rw [Run.andThen_of_done _ _ hd]
      exact (hbody x c h).append (ih _ (hH _ _ _ (hbody x c h) h))
    · rw [Run.andThen_of_not_done _ _ hd]
      exact hbody x c h

theorem createTable_trace {inst : Instance} {S : List DBSchema} {dbList : List Database}
    {tick0 : Nat} (bot project : Int) (open_ : ConnectionConfig → Ret Driver)
    (database : Database) (tc : TableCreate) (c : Catalog)
    (hl : LiveDb inst S c tc.DatabaseId) :
    Trace inst S dbList tick0 c
      (createTable (catalogEnv bot project open_) inst database tc c).calls
      (createTable (catalogEnv bot project open_) inst database tc c).world := by
  rw [createTable_calls, createTable_world]
  exact Trace.single (RunStep.createTable c tc hl)

theorem syncTable_trace {inst : Instance} {S : List DBSchema} {dbList : List Database}
    {tick0 : Nat} (bot project : Int) (open_ : ConnectionConfig → Ret Driver)
    (database : Option Database) (ts : Int) (table : TableSchema) (c : Catalog)
    (hl : ∀ d, database = some d → LiveDb inst S c d.ID) (hs : Stamped tick0 c ts) :
    Trace inst S dbList tick0 c
      (syncTable (catalogEnv bot project open_) inst database ts table c).calls
      (syncTable (catalogEnv bot project open_) inst database ts table c).world := by
  cases database with
  | none => exact Trace.nil c
  | some d =>
    have hld := hl d rfl
    have hfind : Trace inst S dbList tick0 c
        [Call.FindTable ⟨some d.ID, some table.Name⟩
          (Catalog.findTable ⟨some d.ID, some table.Name⟩ c).1.val
          (Catalog.findTable ⟨some d.ID, some table.Name⟩ c).1.err] c :=
      Trace.single (RunStep.findTable c d.ID table.Name hld)
    obtain ⟨hw, hcase⟩ := findTable_cases d.ID table.Name c
    unfold syncTable
    simp only [catalogEnv]
    rcases hcase with ⟨u, hu, hud, _, hres⟩ | ⟨_, hres⟩
    · simp only [hres, hw]
      have hp : Trace inst S dbList tick0 c
          [Call.PatchTable ⟨u.ID, bot, some SyncStatus.OK, some ts⟩
            (Catalog.patchTable ⟨u.ID, bot, some SyncStatus.OK, some ts⟩ c).1.val
            (Catalog.patchTable ⟨u.ID, bot, some SyncStatus.OK, some ts⟩ c).1.err]
          (Catalog.patchTable ⟨u.ID, bot, some SyncStatus.OK, some ts⟩ c).2 :=
        Trace.single (RunStep.patchTable c u bot ts hu (by rw [hud]; exact hld) hs)
      rw [hres] at hfind
      have := hfind.append hp
      split
      · split <;> simpa using this
      · simpa using this
    · simp only [hres, hw]
      rw [hres] at hfind
      simp only [if_true, Run.andThen_mk_done]
      exact hfind.append (createTable_trace bot project open_ d _ c hld)

theorem importTable_trace {inst : Instance} {S : List DBSchema} {dbList : List Database}
    {tick0 : Nat} (bot project : Int) (open_ : ConnectionConfig → Ret Driver)
    (database : Option Database) (table : TableSchema) (c : Catalog)
    (hl : ∀ d, database = some d → LiveDb inst S c d.ID) :
    Trace inst S dbList tick0 c
      (importTable (catalogEnv bot project open_) inst database table c).calls
      (importTable (catalogEnv bot project open_) inst database table c).world := by
  cases database with
  | none => exact Trace.nil c
  | some d => exact createTable_trace bot project open_ d _ c (hl d rfl)

theorem now_stamped (c0 c : Catalog) (h : c0.tick ≤ c.tick) :
    Stamped c0.tick (Catalog.now c).2 (Catalog.now c).1 :=
  ⟨c.tick, h, Nat.lt_succ_self _, rfl⟩

theorem syncMatched_trace {inst : Instance} {S : List DBSchema} {dbList : List Database}
    (bot project : Int) (open_ : ConnectionConfig → Ret Driver) (c0 c : Catalog)
    (m : Database) (schema : DBSchema)
    (hinst : ∀ x ∈ dbList, x.InstanceId = inst.ID)
    (hm : m ∈ dbList) (hlive : ∃ s ∈ S, s.Name = m.Name) (ht : Tracks dbList c0 c) :
    Trace inst S dbList c0.tick c
      (syncMatched (catalogEnv bot project open_) inst m schema c).calls
      (syncMatched (catalogEnv bot project open_) inst m schema c).world := by
  have hnow : Trace inst S dbList c0.tick c [] (Catalog.now c).2 :=
    Trace.single (RunStep.now c)
  have hst := now_stamped c0 c ht.tick
  have hstep := @RunStep.patchOK inst S dbList c0.tick
    (Catalog.now c).2 m bot (Catalog.now c).1 hm hlive hst
  have hpatch := hnow.append (Trace.single hstep)
  simp only [List.nil_append] at hpatch
  unfold syncMatched
  simp only [catalogEnv]
  rcases patchDatabase_result ⟨m.ID, bot, some SyncStatus.OK, some (Catalog.now c).1⟩
      (Catalog.now c).2 with ⟨herr, r, hr, hid, hval⟩ | ⟨⟨e, herr⟩, hval, _⟩
  · simp only [herr, hval] at hpatch ⊢
    rw [Run.andThen_mk_done]
    refine hpatch.append ?_
    have hlive1 : LiveDb inst S (Catalog.now c).2 m.ID := by
      obtain ⟨hn, hi⟩ := ht.same m hm r hr hid
      obtain ⟨s, hs, hsn⟩ := hlive
      exact ⟨r, hr, hid, by rw [hi, hinst m hm], s, hs, by rw [hn, hsn]⟩
    have hlive2 := hstep.liveDb_step m.ID hlive1
    have hst2 := hst.mono hstep.kind.1 hstep.kind.2.1
    refine forEach_trace _ (fun c' => LiveDb inst S c' m.ID ∧ Stamped c0.tick c' (Catalog.now c).1)
      (fun a l b htr hH => ⟨htr.liveDb _ hH.1, htr.stamped _ hH.2⟩) ?_ _ _ ⟨hlive2, hst2⟩
    intro t c' hH
    refine syncTable_trace bot project open_ _ _ t c' ?_ hH.2
    intro d hd
    simp only [Option.some.injEq] at hd
    rw [← hd, applyDatabasePatch_ID, hid]
    exact hH.1
  · simp only [herr, hval] at hpatch ⊢
    exact hpatch

theorem syncNew_trace {inst : Instance} {S : List DBSchema} {dbList : List Database}
    {tick0 : Nat} (bot project : Int) (open_ : ConnectionConfig → Ret Driver) (c : Catalog)
    (schema : DBSchema) (hs : schema ∈ S) :
    Trace inst S dbList tick0 c
      (syncNew (catalogEnv bot project open_) inst schema c).calls
      (syncNew (catalogEnv bot project open_) inst schema c).world := by
  have hstep := @RunStep.createDatabase inst S dbList tick0 c (databaseCreateOf (catalogEnv bot project open_) inst schema) rfl
    ⟨schema, hs, rfl⟩
  have hcreate := Trace.single hstep
  unfold syncNew
  simp only [catalogEnv] at hcreate hstep ⊢
  rcases createDatabase_cases
      (databaseCreateOf (catalogEnv bot project open_) inst schema) c with
    ⟨⟨e, hres⟩, _, _⟩ | ⟨d, hres, hid, hin, hn, _, _, hdb, _⟩
  · simp only [catalogEnv] at hres
    simp only [hres] at hcreate ⊢
    split <;> exact hcreate
  · simp only [catalogEnv] at hres hdb
    simp only [hres] at hcreate ⊢
    rw [Run.andThen_mk_done]
    refine hcreate.append ?_
    have hlive : LiveDb inst S
        (Catalog.createDatabase (databaseCreateOf (catalogEnv bot project open_) inst schema)
          c).2 d.ID :=
      ⟨d, by simp only [catalogEnv]; rw [hdb]; simp, rfl, by rw [hin]; rfl, schema, hs,
        by rw [hn]; rfl⟩
    simp only [catalogEnv] at hlive
    refine forEach_trace _ (fun c' => LiveDb inst S c' d.ID)
      (fun a l b htr hH => htr.liveDb _ hH) ?_ _ _ hlive
    intro t c' hH
    refine importTable_trace bot project open_ _ t c' ?_
    intro d' hd'
    simp only [Option.some.injEq] at hd'
    rw [← hd']
    exact hH

theorem syncDatabase_trace {inst : Instance} {S : List DBSchema} {dbList : List Database}
    (bot project : Int) (open_ : ConnectionConfig → Ret Driver) (c0 c : Catalog)
    (schema : DBSchema) (hinst : ∀ x ∈ dbList, x.InstanceId = inst.ID) (hs : schema ∈ S)
    (ht : Tracks dbList c0 c) :
    Trace inst S dbList c0.tick c
      (syncDatabase (catalogEnv bot project open_) inst dbList schema c).calls
      (syncDatabase (catalogEnv bot project open_) inst dbList schema c).world := by
  unfold syncDatabase
  split
  · exact Trace.nil c
  · split
    · rename_i m hm
      obtain ⟨hmem, hname⟩ := matchedDb_some _ _ _ hm
      exact syncMatched_trace bot project open_ c0 c m schema hinst hmem
        ⟨schema, hs, hname.symm⟩ ht
    · exact syncNew_trace bot project open_ c schema hs

theorem markNotFound_trace {inst : Instance} {S : List DBSchema} {dbList : List Database}
    (bot project : Int) (open_ : ConnectionConfig → Ret Driver) (c0 c : Catalog)
    (db : Database) (hdb : db ∈ dbList) (ht : Tracks dbList c0 c) :
    Trace inst S dbList c0.tick c
      (markNotFound (catalogEnv bot project open_) inst S db c).calls
      (markNotFound (catalogEnv bot project open_) inst S db c).world := by
  unfold markNotFound
  split
  · exact Trace.nil c
  · rename_i hany
    have hno : ∀ s ∈ S, s.Name ≠ db.Name := by
      intro s hs heq
      simp only [Bool.not_eq_true, List.any_eq_false, beq_iff_eq] at hany
      exact hany s hs heq.symm
    have hnow : Trace inst S dbList c0.tick c [] (Catalog.now c).2 :=
      Trace.single (RunStep.now c)
    have hstep := @RunStep.patchNotFound inst S dbList c0.tick (Catalog.now c).2 db bot (Catalog.now c).1 hdb hno
      (now_stamped c0 c ht.tick)
    have hpatch := hnow.append (Trace.single hstep)
    simp only [List.nil_append] at hpatch
    simp only [catalogEnv]
    split
    · split
      · exact hpatch
      · split <;> exact hpatch
    · exact hpatch

/-! ## Synced records stay synced -/

theorem Trace.clock_tick {inst : Instance} {S : List DBSchema} {dbList : List Database}
    {tick0 : Nat} {c c' : Catalog} {l : List Call}
    (h : Trace inst S dbList tick0 c l c') : c'.clock = c.clock ∧ c.tick ≤ c'.tick := by
  induction h with
  | nil c => exact ⟨rfl, le_refl _⟩
  | cons hstep _ ih =>
    obtain ⟨h1, h2, _⟩ := hstep.kind
    exact ⟨by rw [ih.1, h1], le_trans h2 ih.2⟩

theorem RunStep.tableSynced_step {inst : Instance} {S : List DBSchema} {dbList : List Database}
    {tick0 : Nat} {c c' : Catalog} {l : List Call} (h : RunStep inst S dbList tick0 c l c')
    (id : Int) (name : String) (hs : TableSynced tick0 c id name) :
    TableSynced tick0 c' id name := by
  obtain ⟨u, hu, hd, hn, hok, hst⟩ := hs
  have hmono := fun ts (hts : Stamped tick0 c ts) => hts.mono h.kind.1 h.kind.2.1
  have hsame : c'.tables = c.tables → TableSynced tick0 c' id name := fun ht =>
    ⟨u, by rw [ht]; exact hu, hd, hn, hok, hmono _ hst⟩
  cases h with
  | now => exact hsame rfl
  | findDatabaseList find => exact hsame rfl
  | patchOK m bot ts _ _ _ => exact hsame (patchDatabase_rest _ c).1
  | patchNotFound db bot ts _ _ _ => exact hsame (patchDatabase_rest _ c).1
  | createDatabase create _ _ =>
    rcases createDatabase_cases create c with ⟨_, hc, _⟩ | ⟨d, _, _, _, _, _, _, _, ht, _⟩
    · exact hsame (by rw [hc])
    · exact hsame ht
  | findTable id' name' _ => exact hsame rfl
  | createTable create _ =>
    rcases createTable_cases create c with ⟨_, hc, _⟩ | ⟨t, _, _, _, _, _, _, ht, _⟩
    · exact hsame (by rw [hc])
    · exact ⟨u, by rw [ht]; simp [hu], hd, hn, hok, hmono _ hst⟩
  | patchTable u0 bot ts hu0 _ hts =>
    refine ⟨_, by rw [patchTable_tables]; exact List.mem_map_of_mem _ hu, ?_⟩
    by_cases ha : (u.ID == u0.ID) = true
    · simp only [ha, if_true]
      exact ⟨hd, hn, rfl, hmono _ hts⟩
    · simp only [ha]
      exact ⟨hd, hn, hok, hmono _ hst⟩

theorem RunStep.databaseSynced_step {inst : Instance} {S : List DBSchema} {dbList : List Database}
    {tick0 : Nat} {c0 c c' : Catalog} {l : List Call}
    (h : RunStep inst S dbList tick0 c l c') (ht : Tracks dbList c0 c)
    (id : Int) (name : String) (hlive : ∃ s ∈ S, s.Name = name)
    (hs : DatabaseSynced inst tick0 c id name) : DatabaseSynced inst tick0 c' id name := by
  obtain ⟨r, hr, hid, hin, hn, hok, hst⟩ := hs
  have hmono := fun ts (hts : Stamped tick0 c ts) => hts.mono h.kind.1 h.kind.2.1
  have hsame : c'.databases = c.databases → DatabaseSynced inst tick0 c' id name := fun hd =>
    ⟨r, by rw [hd]; exact hr, hid, hin, hn, hok, hmono _ hst⟩
  cases h with
  | now => exact hsame rfl
  | findDatabaseList find => exact hsame rfl
  | patchOK m bot ts _ _ hts =>
    refine ⟨_, by rw [patchDatabase_databases]; exact List.mem_map_of_mem _ hr, ?_⟩
    by_cases ha : (r.ID == m.ID) = true
    · simp only [ha, if_true]
      exact ⟨hid, hin, hn, rfl, hmono _ hts⟩
    · simp only [ha]
      exact ⟨hid, hin, hn, hok, hmono _ hst⟩
  | patchNotFound db bot ts hdb hno hts =>
    refine ⟨_, by rw [patchDatabase_databases]; exact List.mem_map_of_mem _ hr, ?_⟩
    have ha : ¬ (r.ID == db.ID) = true := by
      intro ha
      obtain ⟨hname, _⟩ := ht.same db hdb r hr (by simpa using ha)
      obtain ⟨s, hs, hsn⟩ := hlive
      exact hno s hs (by rw [hsn, ← hn, hname])
    simp only [ha]
    exact ⟨hid, hin, hn, hok, hmono _ hst⟩
  | createDatabase create _ _ =>
    rcases createDatabase_cases create c with ⟨_, hc, _⟩ | ⟨d, _, _, _, _, _, _, hd, _⟩
    · exact hsame (by rw [hc])
    · exact ⟨r, by rw [hd]; simp [hr], hid, hin, hn, hok, hmono _ hst⟩
  | findTable id' name' _ => exact hsame rfl
  | createTable create _ =>
    rcases createTable_cases create c with ⟨_, hc, _⟩ | ⟨t, _, _, _, _, _, _, _, hd, _⟩
    · exact hsame (by rw [hc])
    · exact hsame hd
  | patchTable u0 bot ts _ _ _ => exact hsame (patchTable_rest _ c).1

theorem RunStep.synced_step {inst : Instance} {S : List DBSchema} {dbList : List Database}
    {tick0 : Nat} {c0 c c' : Catalog} {l : List Call}
    (h : RunStep inst S dbList tick0 c l c') (ht : Tracks dbList c0 c)
    (d : DBSchema) (hd : d ∈ S) (hs : Synced inst tick0 c d) : Synced inst tick0 c' d := by
  obtain ⟨id, hdb, htab⟩ := hs
  exact ⟨id, h.databaseSynced_step ht id d.Name ⟨d, hd, rfl⟩ hdb,
    fun t htl => h.tableSynced_step id t.Name (htab t htl)⟩

theorem Trace.synced {inst : Instance} {S : List DBSchema} {dbList : List Database}
    {tick0 : Nat} {c0 c c' : Catalog} {l : List Call}
    (h : Trace inst S dbList tick0 c l c') (ht : Tracks dbList c0 c)
    (d : DBSchema) (hd : d ∈ S) (hs : Synced inst tick0 c d) : Synced inst tick0 c' d :=
  (Trace.keeps (fun a => Synced inst tick0 a d)
    (fun _ _ _ hta hstep hp => hstep.synced_step hta d hd hp) h ht hs).2

theorem Trace.tableSynced {inst : Instance} {S : List DBSchema} {dbList : List Database}
    {tick0 : Nat} {c c' : Catalog} {l : List Call}
    (h : Trace inst S dbList tick0 c l c') (id : Int) (name : String)
    (hs : TableSynced tick0 c id name) : TableSynced tick0 c' id name := by
  induction h with
  | nil c => exact hs
  | cons hstep _ ih => exact ih (hstep.tableSynced_step id name hs)

theorem Trace.databaseSynced {inst : Instance} {S : List DBSchema} {dbList : List Database}
    {tick0 : Nat} {c0 c c' : Catalog} {l : List Call}
    (h : Trace inst S dbList tick0 c l c') (ht : Tracks dbList c0 c)
    (id : Int) (name : String) (hlive : ∃ s ∈ S, s.Name = name)
    (hs : DatabaseSynced inst tick0 c id name) : DatabaseSynced inst tick0 c' id name :=
  (Trace.keeps (fun a => DatabaseSynced inst tick0 a id name)
    (fun _ _ _ hta hstep hp => hstep.databaseSynced_step hta id name hlive hp) h ht hs).2

/-! ## What a loop establishes -/

theorem forEach_preserves {W α : Type} (body : α → W → Run W) (I : W → Prop)
    (xs : List α) (hI : ∀ x ∈ xs, ∀ w, I w → I (body x w).world) (w : W) (h : I w) :
    I (forEach body xs w).world := by
  induction xs generalizing w with
  | nil => exact h
  | cons x xs ih =>
    rw [forEach_cons]
    by_cases hd : (body x w).flow = Flow.done
    · rw [Run.andThen_of_done _ _ hd]
      exact ih (fun y hy => hI y (List.mem_cons_of_mem _ hy)) _
        (hI x (List.mem_cons_self _ _) w h)
    · rw [Run.andThen_of_not_done _ _ hd]
      exact hI x (List.mem_cons_self _ _) w h

/-- If every iteration that falls through establishes its own fact and keeps
the facts of the others, a loop that falls through establishes them all. -/
theorem forEach_establishes {W α : Type} (body : α → W → Run W) (I : W → Prop)
    (F : α → W → Prop) (xs : List α)
    (hI : ∀ x ∈ xs, ∀ w, I w → I (body x w).world)
    (hF : ∀ x ∈ xs, ∀ w, I w → (body x w).flow = Flow.done → F x (body x w).world)
    (hpres : ∀ x ∈ xs, ∀ y ∈ xs, ∀ w, I w → F y w → F y (body x w).world)
    (w : W) (h : I w) (hdone : (forEach body xs w).flow = Flow.done) :
    ∀ x ∈ xs, F x (forEach body xs w).world := by
  induction xs generalizing w with
  | nil => intro x hx; simp at hx
  | cons a xs ih =>
    rw [forEach_cons] at hdone ⊢
    have hd := Run.andThen_flow_done _ _ hdone
    have hrest := Run.andThen_flow_done_snd _ _ hdone
    rw [Run.andThen_world_of_done _ _ hd]
    have hIa := hI a (List.mem_cons_self _ _) w h
    intro x hx
    rcases List.mem_cons.mp hx with rfl | hx'
    · have hFx := hF x (List.mem_cons_self _ _) w h hd
      have := forEach_preserves body (fun w' => I w' ∧ F x w') xs
        (fun y hy w' hw' => ⟨hI y (List.mem_cons_of_mem _ hy) w' hw'.1,
          hpres y (List.mem_cons_of_mem _ hy) x (List.mem_cons_self _ _) w' hw'.1 hw'.2⟩)
        _ ⟨hIa, hFx⟩
      exact this.2
    · exact ih (fun y hy => hI y (List.mem_cons_of_mem _ hy))
        (fun y hy => hF y (List.mem_cons_of_mem _ hy))
        (fun y hy z hz => hpres y (List.mem_cons_of_mem _ hy) z (List.mem_cons_of_mem _ hz))
        _ hIa hrest x hx'

theorem createTable_establishes (bot project : Int) (open_ : ConnectionConfig → Ret Driver)
    (inst : Instance) (tick0 : Nat) (database : Database) (t : TableSchema) (c : Catalog)
    (htick : tick0 ≤ c.tick)
    (hdone : (createTable (catalogEnv bot project open_) inst database
      (tableCreateOf (catalogEnv bot project open_) database t) c).flow = Flow.done) :
    TableSynced tick0
      (createTable (catalogEnv bot project open_) inst database
        (tableCreateOf (catalogEnv bot project open_) database t) c).world
      database.ID t.Name := by
  rw [createTable_flow_done_iff] at hdone
  rw [createTable_world]
  simp only [catalogEnv] at hdone ⊢
  rcases createTable_cases (tableCreateOf (catalogEnv bot project open_) database t) c with
    ⟨⟨e, hres⟩, _, _⟩ | ⟨u, _, _, hd, hn, hok, hts, htb, _, _, _, hcl, htk, _⟩
  · simp only [catalogEnv] at hres
    rw [hres] at hdone
    simp at hdone
  · simp only [catalogEnv] at htb hcl htk
    refine ⟨u, by rw [htb]; simp, hd, hn, hok, c.tick, htick, by rw [htk]; omega, ?_⟩
    rw [hts, hcl]

theorem syncTable_establishes (bot project : Int) (open_ : ConnectionConfig → Ret Driver)
    (inst : Instance) (tick0 : Nat) (database : Database) (ts : Int) (t : TableSchema)
    (c : Catalog) (hs : Stamped tick0 c ts)
    (hdone : (syncTable (catalogEnv bot project open_) inst (some database) ts t c).flow
      = Flow.done) :
    TableSynced tick0
      (syncTable (catalogEnv bot project open_) inst (some database) ts t c).world
      database.ID t.Name := by
  have htick : tick0 ≤ c.tick := by
    obtain ⟨i, h1, h2, _⟩ := hs
    omega
  obtain ⟨hw, hcase⟩ := findTable_cases database.ID t.Name c
  unfold syncTable at hdone ⊢
  simp only [catalogEnv] at hdone ⊢
  rcases hcase with ⟨u, hu, hud, hun, hres⟩ | ⟨_, hres⟩
  · simp only [hres, hw] at hdone ⊢
    rcases patchTable_result ⟨u.ID, bot, some SyncStatus.OK, some ts⟩ c with
      ⟨herr, _, _, _, _⟩ | ⟨⟨e, herr⟩, _, _⟩
    · simp only [herr] at hdone ⊢
      refine ⟨_, by rw [patchTable_tables]; exact List.mem_map_of_mem _ hu, ?_⟩
      simp only [beq_self_eq_true, if_true]
      exact ⟨hud, hun, rfl, hs.mono (patchTable_rest _ c).2.2.2.1
        (le_of_eq (patchTable_rest _ c).2.2.2.2.symm)⟩
    · simp only [herr] at hdone
      split at hdone <;> simp at hdone
  · simp only [hres, hw, if_true, Run.andThen_mk_done] at hdone ⊢
    exact createTable_establishes bot project open_ inst tick0 database t c htick hdone

theorem importTable_establishes (bot project : Int) (open_ : ConnectionConfig → Ret Driver)
    (inst : Instance) (tick0 : Nat) (database : Database) (t : TableSchema)
    (c : Catalog) (htick : tick0 ≤ c.tick)
    (hdone : (importTable (catalogEnv bot project open_) inst (some database) t c).flow
      = Flow.done) :
    TableSynced tick0
      (importTable (catalogEnv bot project open_) inst (some database) t c).world
      database.ID t.Name :=
  createTable_establishes bot project open_ inst tick0 database t c htick hdone

theorem forEach_trace_mem {α : Type} {inst : Instance} {S : List DBSchema}
    {dbList : List Database} {tick0 : Nat} (body : α → Catalog → Run Catalog)
    (H : Catalog → Prop) (xs : List α)
    (hH : ∀ c l c', Trace inst S dbList tick0 c l c' → H c → H c')
    (hbody : ∀ x ∈ xs, ∀ c, H c →
      Trace inst S dbList tick0 c (body x c).calls (body x c).world)
    (c : Catalog) (h : H c) :
    Trace inst S dbList tick0 c (forEach body xs c).calls (forEach body xs c).world := by
  induction xs generalizing c with
  | nil => exact Trace.nil c
  | cons x xs ih =>
    rw [forEach_cons]
    have hx := hbody x (List.mem_cons_self _ _) c h
    by_cases hd : (body x c).flow = Flow.done
    · rw [Run.andThen_of_done _ _ hd]
      exact hx.append (ih (fun y hy => hbody y (List.mem_cons_of_mem _ hy)) _ (hH _ _ _ hx h))
    · rw [Run.andThen_of_not_done _ _ hd]
      exact hx

theorem syncMatched_establishes {inst : Instance} {S : List DBSchema}
    {dbList : List Database} (bot project : Int) (open_ : ConnectionConfig → Ret Driver)
    (c0 c : Catalog) (m : Database) (schema : DBSchema)
    (hinst : ∀ x ∈ dbList, x.InstanceId = inst.ID)
    (hm : m ∈ dbList) (hname : m.Name = schema.Name) (hs : schema ∈ S)
    (ht : Tracks dbList c0 c)
    (hdone : (syncMatched (catalogEnv bot project open_) inst m schema c).flow = Flow.done) :
    Synced inst c0.tick (syncMatched (catalogEnv bot project open_) inst m schema c).world
      schema := by
  have hlive : ∃ s ∈ S, s.Name = m.Name := ⟨schema, hs, hname.symm⟩
  have hst := now_stamped c0 c ht.tick
  have hnow := @RunStep.now inst S dbList c0.tick c
  have hstep := @RunStep.patchOK inst S dbList c0.tick
    (Catalog.now c).2 m bot (Catalog.now c).1 hm hlive hst
  have ht2 : Tracks dbList c0 (Catalog.patchDatabase
      ⟨m.ID, bot, some SyncStatus.OK, some (Catalog.now c).1⟩ (Catalog.now c).2).2 :=
    hstep.tracks_step (hnow.tracks_step ht)
  unfold syncMatched at hdone ⊢
  simp only [catalogEnv] at hdone ⊢
  rcases patchDatabase_result ⟨m.ID, bot, some SyncStatus.OK, some (Catalog.now c).1⟩
      (Catalog.now c).2 with ⟨herr, r, hr, hid, hval⟩ | ⟨⟨e, herr⟩, hval, _⟩
  · simp only [herr, hval] at hdone ⊢
    rw [Run.andThen_mk_done] at hdone ⊢
    simp only at hdone ⊢
    obtain ⟨hrn, hri⟩ := ht.same m hm r hr hid
    have hst2 := hst.mono hstep.kind.1 hstep.kind.2.1
    have hlive1 : LiveDb inst S (Catalog.now c).2 m.ID :=
      ⟨r, hr, hid, by rw [hri, hinst m hm], schema, hs, by rw [hrn, hname]⟩
    have hlive2 := hstep.liveDb_step m.ID hlive1
    have hdb : DatabaseSynced inst c0.tick (Catalog.patchDatabase
        ⟨m.ID, bot, some SyncStatus.OK, some (Catalog.now c).1⟩ (Catalog.now c).2).2
        m.ID schema.Name := by
      refine ⟨_, by rw [patchDatabase_databases]; exact List.mem_map_of_mem _ hr, ?_⟩
      have : (r.ID == m.ID) = true := by simpa using hid
      simp only [this, if_true]
      exact ⟨hid, by rw [applyDatabasePatch_InstanceId, hri, hinst m hm],
        by rw [applyDatabasePatch_Name, hrn, hname], rfl, hst2⟩
    have hbodytr : ∀ t c', LiveDb inst S c' m.ID ∧ Stamped c0.tick c' (Catalog.now c).1 →
        Trace inst S dbList c0.tick c'
          (syncTable (catalogEnv bot project open_) inst (some (applyDatabasePatch
            ⟨m.ID, bot, some SyncStatus.OK, some (Catalog.now c).1⟩ r)) (Catalog.now c).1 t
            c').calls
          (syncTable (catalogEnv bot project open_) inst (some (applyDatabasePatch
            ⟨m.ID, bot, some SyncStatus.OK, some (Catalog.now c).1⟩ r)) (Catalog.now c).1 t
            c').world := by
      intro t c' hH
      refine syncTable_trace bot project open_ _ _ t c' ?_ hH.2
      intro d hd
      simp only [Option.some.injEq] at hd
      rw [← hd, applyDatabasePatch_ID, hid]
      exact hH.1
    have hloop := @forEach_trace _ inst S dbList c0.tick
      _ (fun c' => LiveDb inst S c' m.ID ∧ Stamped c0.tick c' (Catalog.now c).1)
      (fun a l b htr hH => ⟨htr.liveDb _ hH.1, htr.stamped _ hH.2⟩) hbodytr schema.TableList _
      ⟨hlive2, hst2⟩
    refine ⟨m.ID, hloop.databaseSynced ht2 m.ID schema.Name ⟨schema, hs, rfl⟩ hdb, ?_⟩
    have := forEach_establishes
      (syncTable (catalogEnv bot project open_) inst (some (applyDatabasePatch
        ⟨m.ID, bot, some SyncStatus.OK, some (Catalog.now c).1⟩ r)) (Catalog.now c).1)
      (fun c' => LiveDb inst S c' m.ID ∧ Stamped c0.tick c' (Catalog.now c).1)
      (fun t c' => TableSynced c0.tick c' m.ID t.Name) schema.TableList
      (fun t _ c' hH => ⟨(hbodytr t c' hH).liveDb _ hH.1, (hbodytr t c' hH).stamped _ hH.2⟩)
      (fun t _ c' hH hd => by
        have := syncTable_establishes bot project open_ inst c0.tick _ _ t c' hH.2 hd
        rw [applyDatabasePatch_ID, hid] at this
        exact this)
      (fun t _ y _ c' hH hF => (hbodytr t c' hH).tableSynced _ _ hF)
      _ ⟨hlive2, hst2⟩ hdone
    exact this
  · simp only [herr, hval] at hdone
    simp at hdone

theorem catalogEnv_CreateDatabase (bot project : Int) (open_ : ConnectionConfig → Ret Driver) :
    (catalogEnv bot project open_).CreateDatabase = Catalog.createDatabase := rfl

theorem syncNew_establishes {inst : Instance} {S : List DBSchema}
    {dbList : List Database} (bot project : Int) (open_ : ConnectionConfig → Ret Driver)
    (c0 c : Catalog) (schema : DBSchema) (hs : schema ∈ S) (ht : Tracks dbList c0 c)
    (hdone : (syncNew (catalogEnv bot project open_) inst schema c).flow = Flow.done) :
    Synced inst c0.tick (syncNew (catalogEnv bot project open_) inst schema c).world schema := by
  have hci : (databaseCreateOf (catalogEnv bot project open_) inst schema).InstanceId
      = inst.ID := rfl
  have hcn : (databaseCreateOf (catalogEnv bot project open_) inst schema).Name
      = schema.Name := rfl
  unfold syncNew at hdone ⊢
  dsimp only at hdone ⊢
  rw [catalogEnv_CreateDatabase] at hdone ⊢
  generalize databaseCreateOf (catalogEnv bot project open_) inst schema = create at *
  have hstep := @RunStep.createDatabase inst S dbList c0.tick c create hci ⟨schema, hs, hcn.symm⟩
  have ht2 := hstep.tracks_step ht
  rcases createDatabase_cases create c with
    ⟨⟨e, hres⟩, _, _⟩ | ⟨d, hres, hid, hin, hn, hok, hts, hdb, _, _, _, hcl, htk, _⟩
  · simp only [hres] at hdone
    split at hdone <;> simp at hdone
  · simp only [hres] at hdone ⊢
    rw [Run.andThen_mk_done] at hdone ⊢
    simp only at hdone ⊢
    have htick := ht.tick
    have hmem : d ∈ (Catalog.createDatabase create c).2.databases := by rw [hdb]; simp
    have hlive : LiveDb inst S (Catalog.createDatabase create c).2 d.ID :=
      ⟨d, hmem, rfl, by rw [hin, hci], schema, hs, by rw [hn, hcn]⟩
    have hdbs : DatabaseSynced inst c0.tick (Catalog.createDatabase create c).2
        d.ID schema.Name :=
      ⟨d, hmem, rfl, by rw [hin, hci], by rw [hn, hcn], hok,
        c.tick, htick, by rw [htk]; omega, by rw [hts, hcl]⟩
    have hbodytr : ∀ t c', LiveDb inst S c' d.ID ∧ c0.tick ≤ c'.tick →
        Trace inst S dbList c0.tick c'
          (importTable (catalogEnv bot project open_) inst (some d) t c').calls
          (importTable (catalogEnv bot project open_) inst (some d) t c').world := by
      intro t c' hH
      refine importTable_trace bot project open_ _ t c' ?_
      intro d' hd'
      simp only [Option.some.injEq] at hd'
      rw [← hd']
      exact hH.1
    have hloop := @forEach_trace _ inst S dbList c0.tick
      _ (fun c' => LiveDb inst S c' d.ID ∧ c0.tick ≤ c'.tick)
      (fun a l b htr hH => ⟨htr.liveDb _ hH.1, le_trans hH.2 htr.clock_tick.2⟩) hbodytr
      schema.TableList _ ⟨hlive, by rw [htk]; omega⟩
    refine ⟨d.ID, hloop.databaseSynced ht2 d.ID schema.Name ⟨schema, hs, rfl⟩ hdbs, ?_⟩
    exact forEach_establishes
      (importTable (catalogEnv bot project open_) inst (some d))
      (fun c' => LiveDb inst S c' d.ID ∧ c0.tick ≤ c'.tick)
      (fun t c' => TableSynced c0.tick c' d.ID t.Name) schema.TableList
      (fun t _ c' hH => ⟨(hbodytr t c' hH).liveDb _ hH.1,
        le_trans hH.2 (hbodytr t c' hH).clock_tick.2⟩)
      (fun t _ c' hH hd =>
        importTable_establishes bot project open_ inst c0.tick d t c' hH.2 hd)
      (fun t _ y _ c' hH hF => (hbodytr t c' hH).tableSynced _ _ hF)
      _ ⟨hlive, by rw [htk]; omega⟩ hdone

theorem syncDatabase_establishes {inst : Instance} {S : List DBSchema}
    {dbList : List Database} (bot project : Int) (open_ : ConnectionConfig → Ret Driver)
    (c0 c : Catalog) (schema : DBSchema)
    (hinst : ∀ x ∈ dbList, x.InstanceId = inst.ID) (hs : schema ∈ S)
    (hres : EqualFold "bytebase" schema.Name = false) (ht : Tracks dbList c0 c)
    (hdone : (syncDatabase (catalogEnv bot project open_) inst dbList schema c).flow
      = Flow.done) :
    Synced inst c0.tick
      (syncDatabase (catalogEnv bot project open_) inst dbList schema c).world schema := by
  cases hm : matchedDb dbList schema.Name with
  | some m =>
    rw [syncDatabase_of_matched _ inst dbList schema c m hres hm] at hdone ⊢
    obtain ⟨hmem, hname⟩ := matchedDb_some _ _ _ hm
    exact syncMatched_establishes bot project open_ c0 c m schema hinst hmem hname hs ht hdone
  | none =>
    rw [syncDatabase_of_unmatched _ inst dbList schema c hres
      ((matchedDb_eq_none_iff _ _).mp hm)] at hdone ⊢
    exact syncNew_establishes bot project open_ c0 c schema hs ht hdone

/-! ## A whole run against the store -/

theorem catalogEnv_findDatabaseList (bot project : Int) (open_ : ConnectionConfig → Ret Driver)
    (inst : Instance) (c : Catalog) :
    (catalogEnv bot project open_).FindDatabaseList ⟨some inst.ID⟩ c
      = ((Catalog.listed inst c, none), c) := rfl

theorem listed_instance (inst : Instance) (c : Catalog) :
    ∀ x ∈ Catalog.listed inst c, x.InstanceId = inst.ID := by
  intro x hx
  unfold Catalog.listed at hx
  simpa using (List.mem_filter.mp hx).2

theorem listed_mem (inst : Instance) (c : Catalog) (x : Database) :
    x ∈ Catalog.listed inst c ↔ x ∈ c.databases ∧ x.InstanceId = inst.ID := by
  unfold Catalog.listed
  simp [List.mem_filter]

theorem Tracks.init (inst : Instance) (c0 : Catalog) (hwf : c0.WF) :
    Tracks (Catalog.listed inst c0) c0 c0 := by
  refine ⟨hwf, rfl, le_refl _, le_refl _, le_refl _, ?_, ?_, ?_⟩
  · intro x hx
    exact hwf.dbFresh x ((listed_mem inst c0 x).mp hx).1
  · intro x hx
    exact ⟨x, ((listed_mem inst c0 x).mp hx).1, rfl⟩
  · intro x hx r hr hid
    have hxm := ((listed_mem inst c0 x).mp hx).1
    have : r = x := by
      by_contra hne
      exact hwf.dbIds.forall (fun a b hab => fun h => hab h.symm) hr hxm hne hid
    rw [this]
    exact ⟨rfl, rfl⟩

theorem reconcile_catalog (bot project : Int) (open_ : ConnectionConfig → Ret Driver)
    (inst : Instance) (S : List DBSchema) (c0 : Catalog) :
    reconcile (catalogEnv bot project open_) inst S c0
      = ((Run.mk Flow.done c0
            [Call.FindDatabaseList ⟨some inst.ID⟩ (Catalog.listed inst c0) none]).andThen
          (forEach (syncDatabase (catalogEnv bot project open_) inst (Catalog.listed inst c0))
            S)).andThen
          (forEach (markNotFound (catalogEnv bot project open_) inst S)
            (Catalog.listed inst c0)) :=
  reconcile_of_list (catalogEnv bot project open_) inst S c0 rfl

/-- The loop over the live databases, run against the store from a well-formed
catalog: it is a sequence of steps, and when it falls through every live
database other than the reserved one is synced with all its tables. -/
theorem main_loop_catalog (bot project : Int) (open_ : ConnectionConfig → Ret Driver)
    (inst : Instance) (S : List DBSchema) (c0 : Catalog) (hwf : c0.WF) :
    Trace inst S (Catalog.listed inst c0) c0.tick c0
      (forEach (syncDatabase (catalogEnv bot project open_) inst (Catalog.listed inst c0)) S
        c0).calls
      (forEach (syncDatabase (catalogEnv bot project open_) inst (Catalog.listed inst c0)) S
        c0).world ∧
    ((forEach (syncDatabase (catalogEnv bot project open_) inst (Catalog.listed inst c0)) S
        c0).flow = Flow.done →
      ∀ d ∈ S, EqualFold "bytebase" d.Name = false →
        Synced inst c0.tick
          (forEach (syncDatabase (catalogEnv bot project open_) inst (Catalog.listed inst c0))
            S c0).world d) := by
  have ht0 := Tracks.init inst c0 hwf
  have hinst := listed_instance inst c0
  have hbody : ∀ d ∈ S, ∀ c, Tracks (Catalog.listed inst c0) c0 c →
      Trace inst S (Catalog.listed inst c0) c0.tick c
        (syncDatabase (catalogEnv bot project open_) inst (Catalog.listed inst c0) d c).calls
        (syncDatabase (catalogEnv bot project open_) inst (Catalog.listed inst c0) d c).world :=
    fun d hd c ht => syncDatabase_trace bot project open_ c0 c d hinst hd ht
  refine ⟨forEach_trace_mem _ (fun c => Tracks (Catalog.listed inst c0) c0 c) S
    (fun _ _ _ htr hH => htr.tracks hH) hbody c0 ht0, ?_⟩
  intro hdone d hd hres
  exact forEach_establishes
    (syncDatabase (catalogEnv bot project open_) inst (Catalog.listed inst c0))
    (fun c => Tracks (Catalog.listed inst c0) c0 c)
    (fun d c => EqualFold "bytebase" d.Name = false → Synced inst c0.tick c d) S
    (fun x hx c ht => (hbody x hx c ht).tracks ht)
    (fun x hx c ht hdn hr =>
      syncDatabase_establishes bot project open_ c0 c x hinst hx hr ht hdn)
    (fun x hx y hy c ht hF hr => (hbody x hx c ht).synced ht y hy (hF hr))
    c0 ht0 hdone d hd hres

/-- The Case 3 loop, run against the store from a state that tracks the start
of the run, is a sequence of steps. -/
theorem mark_loop_catalog (bot project : Int) (open_ : ConnectionConfig → Ret Driver)
    (inst : Instance) (S : List DBSchema) (c0 c : Catalog)
    (ht : Tracks (Catalog.listed inst c0) c0 c) :
    Trace inst S (Catalog.listed inst c0) c0.tick c
      (forEach (markNotFound (catalogEnv bot project open_) inst S) (Catalog.listed inst c0)
        c).calls
      (forEach (markNotFound (catalogEnv bot project open_) inst S) (Catalog.listed inst c0)
        c).world :=
  forEach_trace_mem _ (fun c => Tracks (Catalog.listed inst c0) c0 c) _
    (fun _ _ _ htr hH => htr.tracks hH)
    (fun db hdb c' ht' => markNotFound_trace bot project open_ c0 c' db hdb ht') c ht

/-- A successful run against the store, taken apart: both loops fell through,
and the world it leaves is the one the Case 3 loop leaves. -/
theorem SyncSchema_catalog_ok (bot project : Int) (open_ : ConnectionConfig → Ret Driver)
    (inst : Instance) (S : List DBSchema) (c0 : Catalog)
    (hopen : open_ (connectionOf inst) = ⟨some ⟨S, none⟩, none⟩)
    (hok : (SyncSchema (catalogEnv bot project open_) inst c0).outcome
      = Outcome.returned ⟨""⟩) :
    (forEach (syncDatabase (catalogEnv bot project open_) inst (Catalog.listed inst c0)) S
      c0).flow = Flow.done ∧
    (forEach (markNotFound (catalogEnv bot project open_) inst S) (Catalog.listed inst c0)
      (forEach (syncDatabase (catalogEnv bot project open_) inst (Catalog.listed inst c0)) S
        c0).world).flow = Flow.done ∧
    (SyncSchema (catalogEnv bot project open_) inst c0).world
      = (forEach (markNotFound (catalogEnv bot project open_) inst S) (Catalog.listed inst c0)
          (forEach (syncDatabase (catalogEnv bot project open_) inst (Catalog.listed inst c0))
            S c0).world).world ∧
    (SyncSchema (catalogEnv bot project open_) inst c0).calls
      = Call.FindDatabaseList ⟨some inst.ID⟩ (Catalog.listed inst c0) none ::
        ((forEach (syncDatabase (catalogEnv bot project open_) inst (Catalog.listed inst c0)) S
          c0).calls ++
        (forEach (markNotFound (catalogEnv bot project open_) inst S) (Catalog.listed inst c0)
          (forEach (syncDatabase (catalogEnv bot project open_) inst (Catalog.listed inst c0))
            S c0).world).calls) := by
  have hopen' : (catalogEnv bot project open_).Open (connectionOf inst)
      = ⟨some ⟨S, none⟩, none⟩ := hopen
  have hdone := (SyncSchema_ok_iff _ inst c0 ⟨S, none⟩ hopen' rfl).mp hok
  have hrec := reconcile_catalog bot project open_ inst S c0
  simp only at hdone
  rw [hrec] at hdone
  have hmain := Run.andThen_flow_done _ _ hdone
  have hc3 := Run.andThen_flow_done_snd _ _ hdone
  rw [Run.andThen_mk_done] at hmain
  simp only at hmain
  rw [Run.andThen_world_of_done _ _ rfl] at hc3
  simp only at hc3
  refine ⟨hmain, hc3, ?_, ?_⟩
  · rw [SyncSchema_of_open _ inst c0 ⟨S, none⟩ hopen' rfl, finish_world]
    simp only
    rw [hrec, Run.andThen_world_of_done _ _ (by rw [Run.andThen_mk_done]; exact hmain),
      Run.andThen_world_of_done _ _ rfl]
  · rw [SyncSchema_of_open _ inst c0 ⟨S, none⟩ hopen' rfl, finish_calls]
    simp only
    rw [hrec, Run.andThen_calls, Run.andThen_calls]
    simp only [Run.andThen_mk_done, hmain, if_true, List.singleton_append, List.cons_append,
      List.append_assoc, List.nil_append]

/-! ## C1: a successful run syncs the live schema -/

/-- C1: against the store, from a well-formed prior catalog `C`, a run on the
snapshot `S` that returns an empty `Error` leaves, for every live database `d`
of `S` other than the reserved one, a database record `r` of the instance named
`d.Name` with `SyncStatus = OK` and a `LastSuccessfulSyncTs` read from the clock
during the run, and for every live table `t` of `d` a table record
(`r.ID`, `t.Name`) with `SyncStatus = OK` and a `LastSuccessfulSyncTs` read from
the clock during the run, whether the records were patched or newly created. -/
theorem C1_successful_run_syncs_live_schema (bot project : Int)
    (open_ : ConnectionConfig → Ret Driver) (inst : Instance) (S : List DBSchema)
    (C : Catalog)
    (hopen : open_ (connectionOf inst) = ⟨some ⟨S, none⟩, none⟩)
    (hwf : C.WF)
    (hok : (SyncSchema (catalogEnv bot project open_) inst C).outcome
      = Outcome.returned ⟨""⟩) :
    ∀ d ∈ S, EqualFold "bytebase" d.Name = false →
      ∃ r ∈ (SyncSchema (catalogEnv bot project open_) inst C).world.databases,
        r.InstanceId = inst.ID ∧ r.Name = d.Name ∧ r.SyncStatus = SyncStatus.OK ∧
        (∃ i, C.tick ≤ i ∧ i < (SyncSchema (catalogEnv bot project open_) inst C).world.tick ∧
          r.LastSuccessfulSyncTs = C.clock i) ∧
        ∀ t ∈ d.TableList,
          ∃ u ∈ (SyncSchema (catalogEnv bot project open_) inst C).world.tables,
            u.DatabaseId = r.ID ∧ u.Name = t.Name ∧ u.SyncStatus = SyncStatus.OK ∧
            ∃ i, C.tick ≤ i ∧
              i < (SyncSchema (catalogEnv bot project open_) inst C).world.tick ∧
              u.LastSuccessfulSyncTs = C.clock i := by
  intro d hd hres
  obtain ⟨hmain, _, hworld, _⟩ := SyncSchema_catalog_ok bot project open_ inst S C hopen hok
  obtain ⟨htr, hest⟩ := main_loop_catalog bot project open_ inst S C hwf
  have ht1 := htr.tracks (Tracks.init inst C hwf)
  have htr3 := mark_loop_catalog bot project open_ inst S C _ ht1
  have hfinal := htr3.synced ht1 d hd (hest hmain d hd hres)
  have htfinal := htr3.tracks ht1
  rw [← hworld] at hfinal htfinal
  obtain ⟨id, ⟨r, hr, hid, hin, hn, hok', i, hi1, hi2, hi3⟩, htab⟩ := hfinal
  refine ⟨r, hr, hin, hn, hok', ⟨i, hi1, hi2, by rw [hi3, htfinal.clock]⟩, ?_⟩
  intro t ht
  obtain ⟨u, hu, hud, hun, huok, j, hj1, hj2, hj3⟩ := htab t ht
  exact ⟨u, hu, by rw [hud, hid], hun, huok, j, hj1, hj2, by rw [hj3, htfinal.clock]⟩

theorem emptyCatalog_wf : emptyCatalog.WF :=
  ⟨List.Pairwise.nil, by intro d hd; simp [emptyCatalog] at hd, List.Pairwise.nil,
    List.Pairwise.nil, by intro d hd; simp [emptyCatalog] at hd, List.Pairwise.nil⟩

theorem ordersCatalog_wf : ordersCatalog.WF :=
  ⟨List.pairwise_singleton _ _,
    by intro d hd; simp [ordersCatalog] at hd; subst hd; decide,
    List.pairwise_singleton _ _, List.pairwise_singleton _ _,
    by intro d hd; simp [ordersCatalog] at hd; subst hd; decide,
    List.pairwise_singleton _ _⟩

/-- C1 at scenario A: from the empty catalog, the run on `orders` with its
table `items` leaves both synced. -/
theorem C1_successful_run_syncs_live_schema_witness :
    ∃ r ∈ (SyncSchema (catalogEnv 1 1 (liveOpen [ordersSchema])) prodInstance
        emptyCatalog).world.databases,
      r.InstanceId = 7 ∧ r.Name = "orders" ∧ r.SyncStatus = SyncStatus.OK ∧
      ∀ t ∈ [itemsTable],
        ∃ u ∈ (SyncSchema (catalogEnv 1 1 (liveOpen [ordersSchema])) prodInstance
            emptyCatalog).world.tables,
          u.DatabaseId = r.ID ∧ u.Name = t.Name ∧ u.SyncStatus = SyncStatus.OK := by
  obtain ⟨r, hr, h1, h2, h3, _, h5⟩ :=
    C1_successful_run_syncs_live_schema 1 1 (liveOpen [ordersSchema]) prodInstance
      [ordersSchema] emptyCatalog rfl emptyCatalog_wf (by decide) ordersSchema
      (List.mem_singleton_self _) (by decide)
  refine ⟨r, hr, h1, h2, h3, ?_⟩
  intro t ht
  obtain ⟨u, hu, g1, g2, g3, _⟩ := h5 t ht
  exact ⟨u, hu, g1, g2, g3⟩

/-! ## C2: stored databases no live database matches -/

theorem liveDb_ne {inst : Instance} {S : List DBSchema} {dbList : List Database}
    {c0 c : Catalog} (ht : Tracks dbList c0 c) (x : Database) (hx : x ∈ dbList)
    (hno : ∀ s ∈ S, s.Name ≠ x.Name) (id : Int) (hl : LiveDb inst S c id) : id ≠ x.ID := by
  intro hid
  obtain ⟨r, hr, hrid, _, s, hs, hsn⟩ := hl
  obtain ⟨hname, _⟩ := ht.same x hx r hr (by rw [hrid, hid])
  exact hno s hs (by rw [hsn, hname])

theorem filter_map_patch {α : Type} (p : α → Bool) (f : α → α) (l : List α)
    (h : ∀ v ∈ l, p (f v) = p v ∧ (p v = true → f v = v)) :
    (l.map f).filter p = l.filter p := by
  induction l with
  | nil => rfl
  | cons a l ih =>
    have ha := h a (List.mem_cons_self _ _)
    have ih' := ih (fun v hv => h v (List.mem_cons_of_mem _ hv))
    simp only [List.map_cons, List.filter_cons, ha.1]
    by_cases hp : p a = true
    · simp only [hp, if_true, ha.2 hp, ih']
    · simp [hp, ih']

theorem RunStep.markedNotFound {inst : Instance} {S : List DBSchema} {dbList : List Database}
    {tick0 : Nat} {c0 c c' : Catalog} {l : List Call}
    (h : RunStep inst S dbList tick0 c l c') (ht : Tracks dbList c0 c)
    (x : Database) (hx : x ∈ dbList) (hno : ∀ s ∈ S, s.Name ≠ x.Name)
    (hs : MarkedNotFound tick0 c x) : MarkedNotFound tick0 c' x := by
  have hmono := fun ts (hts : Stamped tick0 c ts) => hts.mono h.kind.1 h.kind.2.1
  have hsame : c'.databases = c.databases → MarkedNotFound tick0 c' x := fun hd r hr hid => by
    rw [hd] at hr
    exact ⟨(hs r hr hid).1, hmono _ (hs r hr hid).2⟩
  cases h with
  | now => exact hsame rfl
  | findDatabaseList find => exact hsame rfl
  | patchOK m bot ts hm hlive _ =>
    intro r' hr' hid
    rw [patchDatabase_databases] at hr'
    obtain ⟨r, hr, rfl⟩ := List.mem_map.mp hr'
    have ha : ¬ (r.ID == m.ID) = true := by
      intro ha
      have hrx : r.ID = x.ID := by
        by_cases hb : (r.ID == m.ID) = true
        · simpa [hb, applyDatabasePatch_ID] using hid
        · exact absurd ha hb
      obtain ⟨hn1, _⟩ := ht.same m hm r hr (by simpa using ha)
      obtain ⟨hn2, _⟩ := ht.same x hx r hr hrx
      obtain ⟨s, hs', hsn⟩ := hlive
      exact hno s hs' (by rw [hsn, ← hn1, hn2])
    simp only [ha] at hid ⊢
    exact ⟨(hs r hr hid).1, hmono _ (hs r hr hid).2⟩
  | patchNotFound db bot ts _ _ hts =>
    intro r' hr' hid
    rw [patchDatabase_databases] at hr'
    obtain ⟨r, hr, rfl⟩ := List.mem_map.mp hr'
    by_cases ha : (r.ID == db.ID) = true
    · simp only [ha, if_true]
      exact ⟨rfl, hmono _ hts⟩
    · simp only [ha] at hid ⊢
      exact ⟨(hs r hr hid).1, hmono _ (hs r hr hid).2⟩
  | createDatabase create _ _ =>
    rcases createDatabase_cases create c with ⟨_, hc, _⟩ | ⟨d, _, hdid, _, _, _, _, hd, _⟩
    · exact hsame (by rw [hc])
    · intro r hr hid
      rw [hd] at hr
      rcases List.mem_append.mp hr with hr | hr
      · exact ⟨(hs r hr hid).1, hmono _ (hs r hr hid).2⟩
      · simp only [List.mem_singleton] at hr
        subst hr
        have := ht.listed x hx
        have := ht.nextDb
        omega
  | findTable id' name' _ => exact hsame rfl
  | createTable create _ =>
    rcases createTable_cases create c with ⟨_, hc, _⟩ | ⟨t, _, _, _, _, _, _, _, hd, _⟩
    · exact hsame (by rw [hc])
    · exact hsame hd
  | patchTable u0 bot ts _ _ _ => exact hsame (patchTable_rest _ c).1

theorem RunStep.tablesUntouched {inst : Instance} {S : List DBSchema}
    {dbList : List Database} {tick0 : Nat} {c0 c c' : Catalog} {l : List Call}
    (h : RunStep inst S dbList tick0 c l c') (ht : Tracks dbList c0 c)
    (x : Database) (hx : x ∈ dbList) (hno : ∀ s ∈ S, s.Name ≠ x.Name)
    (hs : TablesUntouched c0 c x) : TablesUntouched c0 c' x := by
  have hsame : c'.tables = c.tables → TablesUntouched c0 c' x := fun htb => by
    unfold TablesUntouched at hs ⊢
    rw [htb]; exact hs
  cases h with
  | now => exact hsame rfl
  | findDatabaseList find => exact hsame rfl
  | patchOK m bot ts _ _ _ => exact hsame (patchDatabase_rest _ c).1
  | patchNotFound db bot ts _ _ _ => exact hsame (patchDatabase_rest _ c).1
  | createDatabase create _ _ =>
    rcases createDatabase_cases create c with ⟨_, hc, _⟩ | ⟨d, _, _, _, _, _, _, _, htb, _⟩
    · exact hsame (by rw [hc])
    · exact hsame htb
  | findTable id' name' _ => exact hsame rfl
  | createTable create hl =>
    rcases createTable_cases create c with ⟨_, hc, _⟩ | ⟨t, _, _, htd, _, _, _, htb, _⟩
    · exact hsame (by rw [hc])
    · have hne := liveDb_ne ht x hx hno _ hl
      unfold TablesUntouched at hs ⊢
      rw [htb, List.filter_append, hs]
      have : ([t].filter fun t => t.DatabaseId == x.ID) = [] := by
        simp [List.filter_cons, htd, hne]
      rw [this, List.append_nil]
  | patchTable u0 bot ts hu0 hl _ =>
    have hne := liveDb_ne ht x hx hno _ hl
    unfold TablesUntouched at hs ⊢
    rw [patchTable_tables, filter_map_patch, hs]
    intro v hv
    by_cases ha : (v.ID == u0.ID) = true
    · simp only [ha, if_true, applyTablePatch_DatabaseId, true_and]
      intro hvx
      exfalso
      have hvu : v = u0 := by
        by_contra hvne
        exact ht.wf.tableIds.forall (fun a b hab => fun h => hab h.symm) hv hu0 hvne
          (by simpa using ha)
      rw [hvu] at hvx
      exact hne (by simpa using hvx)
    · simp [ha]

theorem RunStep.sparesTables {inst : Instance} {S : List DBSchema}
    {dbList : List Database} {tick0 : Nat} {c0 c c' : Catalog} {l : List Call}
    (h : RunStep inst S dbList tick0 c l c') (ht : Tracks dbList c0 c)
    (x : Database) (hx : x ∈ dbList) (hno : ∀ s ∈ S, s.Name ≠ x.Name)
    (hs : TablesUntouched c0 c x) : ∀ call ∈ l, call.sparesTablesOf c0 x := by
  intro call hcall
  cases h with
  | now => simp at hcall
  | findDatabaseList find =>
    simp only [List.mem_singleton] at hcall; subst hcall
    exact ⟨by intro _ _ _ h; simp at h, by intro _ _ _ h; simp at h,
      by intro _ _ _ h; simp at h⟩
  | patchOK m bot ts _ _ _ =>
    simp only [List.mem_singleton] at hcall; subst hcall
    exact ⟨by intro _ _ _ h; simp at h, by intro _ _ _ h; simp at h,
      by intro _ _ _ h; simp at h⟩
  | patchNotFound db bot ts _ _ _ =>
    simp only [List.mem_singleton] at hcall; subst hcall
    exact ⟨by intro _ _ _ h; simp at h, by intro _ _ _ h; simp at h,
      by intro _ _ _ h; simp at h⟩
  | createDatabase create _ _ =>
    simp only [List.mem_singleton] at hcall; subst hcall
    exact ⟨by intro _ _ _ h; simp at h, by intro _ _ _ h; simp at h,
      by intro _ _ _ h; simp at h⟩
  | findTable id' name' hl =>
    simp only [List.mem_singleton] at hcall; subst hcall
    have hne := liveDb_ne ht x hx hno _ hl
    refine ⟨?_, by intro _ _ _ h; simp at h, by intro _ _ _ h; simp at h⟩
    intro find ret err h
    simp only [Call.FindTable.injEq] at h
    rw [← h.1]
    simpa using hne
  | createTable create hl =>
    simp only [List.mem_singleton] at hcall; subst hcall
    have hne := liveDb_ne ht x hx hno _ hl
    refine ⟨by intro _ _ _ h; simp at h, ?_, by intro _ _ _ h; simp at h⟩
    intro cr ret err h
    simp only [Call.CreateTable.injEq] at h
    rw [← h.1]
    exact hne
  | patchTable u0 bot ts hu0 hl _ =>
    simp only [List.mem_singleton] at hcall; subst hcall
    have hne := liveDb_ne ht x hx hno _ hl
    refine ⟨by intro _ _ _ h; simp at h, by intro _ _ _ h; simp at h, ?_⟩
    intro patch ret err h t ht0 htx hid
    simp only [Call.PatchTable.injEq] at h
    have htc : t ∈ c.tables := by
      have : t ∈ c0.tables.filter (fun t => t.DatabaseId == x.ID) :=
        List.mem_filter.mpr ⟨ht0, by simpa using htx⟩
      unfold TablesUntouched at hs
      rw [← hs] at this
      exact (List.mem_filter.mp this).1
    have htu : t = u0 := by
      by_contra htne
      exact ht.wf.tableIds.forall (fun a b hab => fun h => hab h.symm) htc hu0 htne
        (by rw [hid, ← h.1])
    rw [htu] at htx
    exact hne htx

/-- Along a run, a property of states that every step keeps gives every
recorded call the property the steps give their calls. -/
theorem Trace.calls_of {inst : Instance} {S : List DBSchema} {dbList : List Database}
    {tick0 : Nat} {c0 c c' : Catalog} {l : List Call} (P : Catalog → Prop)
    (Q : Call → Prop)
    (hstep : ∀ a l' b, Tracks dbList c0 a → RunStep inst S dbList tick0 a l' b → P a → P b)
    (hQ : ∀ a l' b, Tracks dbList c0 a → RunStep inst S dbList tick0 a l' b → P a →
      ∀ call ∈ l', Q call)
    (h : Trace inst S dbList tick0 c l c') (ht : Tracks dbList c0 c) (hp : P c) :
    ∀ call ∈ l, Q call := by
  induction h with
  | nil c => intro call hc; simp at hc
  | cons hs _ ih =>
    intro call hc
    rcases List.mem_append.mp hc with hc | hc
    · exact hQ _ _ _ ht hs hp call hc
    · exact ih (hs.tracks_step ht) (hstep _ _ _ ht hs hp) call hc

theorem markNotFound_world {W : Type} (env : Env W) (inst : Instance)
    (schemaList : List DBSchema) (db : Database) (w : W) :
    (markNotFound env inst schemaList db w).world
      = if schemaList.any (fun schema => db.Name == schema.Name) then w
        else (env.PatchDatabase
          ⟨db.ID, env.SYSTEM_BOT_ID, some SyncStatus.NotFound, some (env.Now w).1⟩
          (env.Now w).2).2 := by
  unfold markNotFound
  dsimp only
  split
  · rfl
  · split
    · split
      · rfl
      · split <;> rfl
    · rfl

theorem markNotFound_establishes {inst : Instance} {S : List DBSchema}
    {dbList : List Database} (bot project : Int) (open_ : ConnectionConfig → Ret Driver)
    (c0 c : Catalog) (db : Database) (hno : ∀ s ∈ S, s.Name ≠ db.Name)
    (ht : Tracks dbList c0 c) :
    MarkedNotFound c0.tick (markNotFound (catalogEnv bot project open_) inst S db c).world
      db := by
  have hany : S.any (fun schema => db.Name == schema.Name) = false := by
    rw [List.any_eq_false]
    intro s hs
    simpa using fun h : db.Name = s.Name => hno s hs h.symm
  rw [markNotFound_world, hany]
  simp only [catalogEnv, Bool.false_eq_true, if_false]
  intro r' hr' _
  rw [patchDatabase_databases] at hr'
  obtain ⟨r, hr, rfl⟩ := List.mem_map.mp hr'
  have hst := now_stamped c0 c ht.tick
  have hst2 : Stamped c0.tick (Catalog.patchDatabase
      ⟨db.ID, bot, some SyncStatus.NotFound, some (Catalog.now c).1⟩ (Catalog.now c).2).2
      (Catalog.now c).1 :=
    hst.mono (patchDatabase_rest _ _).2.2.2.1 (le_of_eq (patchDatabase_rest _ _).2.2.2.2.symm)
  by_cases ha : (r.ID == db.ID) = true
  · simp only [ha, if_true]
    exact ⟨rfl, hst2⟩
  · rename_i hid
    simp only [ha] at hid
    exact absurd (by simpa using hid) ha

/-- C2: against the store, from a well-formed prior catalog `C`, after a run
that returns an empty `Error`, every database record `x` of the instance in `C`
whose name no live database of the snapshot has is still there under its
identifier and name, with `SyncStatus = NotFound` and a `LastSuccessfulSyncTs`
read from the clock during the run; its table records are exactly those of
`C`, and the run issued no `FindTable` and no `CreateTable` for `x` and no
`PatchTable` for one of its table records. -/
theorem C2_unmatched_record_marked_not_found (bot project : Int)
    (open_ : ConnectionConfig → Ret Driver) (inst : Instance) (S : List DBSchema)
    (C : Catalog)
    (hopen : open_ (connectionOf inst) = ⟨some ⟨S, none⟩, none⟩)
    (hwf : C.WF)
    (hok : (SyncSchema (catalogEnv bot project open_) inst C).outcome
      = Outcome.returned ⟨""⟩) :
    ∀ x ∈ C.databases, x.InstanceId = inst.ID → (∀ s ∈ S, s.Name ≠ x.Name) →
      (∃ r ∈ (SyncSchema (catalogEnv bot project open_) inst C).world.databases,
        r.ID = x.ID) ∧
      (∀ r ∈ (SyncSchema (catalogEnv bot project open_) inst C).world.databases,
        r.ID = x.ID → r.Name = x.Name ∧ r.SyncStatus = SyncStatus.NotFound ∧
          ∃ i, C.tick ≤ i ∧
            i < (SyncSchema (catalogEnv bot project open_) inst C).world.tick ∧
            r.LastSuccessfulSyncTs = C.clock i) ∧
      (SyncSchema (catalogEnv bot project open_) inst C).world.tables.filter
          (fun t => t.DatabaseId == x.ID)
        = C.tables.filter (fun t => t.DatabaseId == x.ID) ∧
      ∀ call ∈ (SyncSchema (catalogEnv bot project open_) inst C).calls,
        (∀ find ret err, call = Call.FindTable find ret err →
          find.DatabaseId ≠ some x.ID) ∧
        (∀ create ret err, call = Call.CreateTable create ret err →
          create.DatabaseId ≠ x.ID) ∧
        (∀ patch ret err, call = Call.PatchTable patch ret err →
          ∀ t ∈ C.tables, t.DatabaseId = x.ID → t.ID ≠ patch.ID) := by
  intro x hxC hxi hno
  have hx : x ∈ Catalog.listed inst C := (listed_mem inst C x).mpr ⟨hxC, hxi⟩
  obtain ⟨_, hc3done, hworld, hcalls⟩ :=
    SyncSchema_catalog_ok bot project open_ inst S C hopen hok
  obtain ⟨htr, _⟩ := main_loop_catalog bot project open_ inst S C hwf
  have ht0 := Tracks.init inst C hwf
  have ht1 := htr.tracks ht0
  have htr3 := mark_loop_catalog bot project open_ inst S C _ ht1
  have htfinal := htr3.tracks ht1
  have hkeepU := fun (a : Catalog) (l' : List Call) (b : Catalog)
      (hta : Tracks (Catalog.listed inst C) C a)
      (hs : RunStep inst S (Catalog.listed inst C) C.tick a l' b)
      (hp : TablesUntouched C a x) => hs.tablesUntouched hta x hx hno hp
  have hU0 : TablesUntouched C C x := rfl
  have hU1 := (Trace.keeps (fun a => TablesUntouched C a x) hkeepU htr ht0 hU0).2
  have hU3 := (Trace.keeps (fun a => TablesUntouched C a x) hkeepU htr3 ht1 hU1).2
  have hspare := fun (a : Catalog) (l' : List Call) (b : Catalog)
      (hta : Tracks (Catalog.listed inst C) C a)
      (hs : RunStep inst S (Catalog.listed inst C) C.tick a l' b)
      (hp : TablesUntouched C a x) => hs.sparesTables hta x hx hno hp
  have hQ1 := Trace.calls_of (fun a => TablesUntouched C a x) (Call.sparesTablesOf C x)
    hkeepU hspare htr ht0 hU0
  have hQ3 := Trace.calls_of (fun a => TablesUntouched C a x) (Call.sparesTablesOf C x)
    hkeepU hspare htr3 ht1 hU1
  have hmark := forEach_establishes
    (markNotFound (catalogEnv bot project open_) inst S)
    (fun c => Tracks (Catalog.listed inst C) C c)
    (fun y c => (∀ s ∈ S, s.Name ≠ y.Name) → MarkedNotFound C.tick c y)
    (Catalog.listed inst C)
    (fun y hy c ht => (markNotFound_trace bot project open_ C c y hy ht).tracks ht)
    (fun y _ c ht _ hny => markNotFound_establishes bot project open_ C c y hny ht)
    (fun y hy z hz c ht hF hnz =>
      (Trace.keeps (fun a => MarkedNotFound C.tick a z)
        (fun _ _ _ hta hs hp => hs.markedNotFound hta z hz hnz hp)
        (markNotFound_trace bot project open_ C c y hy ht) ht (hF hnz)).2)
    _ ht1 hc3done x hx hno
  rw [← hworld] at hmark htfinal hU3
  refine ⟨?_, ?_, hU3, ?_⟩
  · exact htfinal.kept x hx
  · intro r hr hid
    obtain ⟨hnf, i, hi1, hi2, hi3⟩ := hmark r hr hid
    exact ⟨(htfinal.same x hx r hr hid).1, hnf, i, hi1, hi2, by rw [hi3, htfinal.clock]⟩
  · intro call hcall
    rw [hcalls] at hcall
    rcases List.mem_cons.mp hcall with rfl | hcall
    · exact ⟨by intro _ _ _ h; simp at h, by intro _ _ _ h; simp at h,
        by intro _ _ _ h; simp at h⟩
    · rcases List.mem_append.mp hcall with h | h
      · exact hQ1 call h
      · exact hQ3 call h

/-- C2 at scenario B: the prior catalog holds `orders` with `items`, the
snapshot is empty; `orders` is marked `NotFound` and `items` is untouched. -/
theorem C2_unmatched_record_marked_not_found_witness :
    (∀ r ∈ (SyncSchema (catalogEnv 1 1 (liveOpen [])) prodInstance ordersCatalog).world.databases,
      r.ID = 1 → r.Name = "orders" ∧ r.SyncStatus = SyncStatus.NotFound) ∧
    (SyncSchema (catalogEnv 1 1 (liveOpen [])) prodInstance ordersCatalog).world.tables.filter
        (fun t => t.DatabaseId == 1) = [itemsRecord] := by
  obtain ⟨_, h2, h3, _⟩ :=
    C2_unmatched_record_marked_not_found 1 1 (liveOpen []) prodInstance [] ordersCatalog rfl
      ordersCatalog_wf (by decide) ordersRecord (by simp [ordersCatalog]) rfl (by simp)
  exact ⟨fun r hr hid => ⟨(h2 r hr hid).1, (h2 r hr hid).2.1⟩, h3⟩

/-! ## C7: the second run creates nothing -/

theorem Trace.keeps_table {inst : Instance} {S : List DBSchema} {dbList : List Database}
    {tick0 : Nat} {c c' : Catalog} {l : List Call}
    (h : Trace inst S dbList tick0 c l c') (u : Table) (hu : u ∈ c.tables) :
    ∃ u' ∈ c'.tables, u'.ID = u.ID ∧ u'.DatabaseId = u.DatabaseId ∧ u'.Name = u.Name := by
  induction h generalizing u with
  | nil c => exact ⟨u, hu, rfl, rfl, rfl⟩
  | cons hstep _ ih =>
    obtain ⟨u1, hu1, h1, h2, h3⟩ := hstep.keeps_table_step u hu
    obtain ⟨u2, hu2, g1, g2, g3⟩ := ih u1 hu1
    exact ⟨u2, hu2, by rw [g1, h1], by rw [g2, h2], by rw [g3, h3]⟩

theorem Trace.present {inst : Instance} {S : List DBSchema} {dbList : List Database}
    {tick0 : Nat} {c c' : Catalog} {l : List Call}
    (h : Trace inst S dbList tick0 c l c') (d : DBSchema) (hp : Present dbList c d) :
    Present dbList c' d := by
  obtain ⟨m, hm, hn, htab⟩ := hp
  refine ⟨m, hm, hn, ?_⟩
  intro t ht
  obtain ⟨u, hu, h1, h2⟩ := htab t ht
  obtain ⟨u', hu', _, g2, g3⟩ := h.keeps_table u hu
  exact ⟨u', hu', by rw [g2, h1], by rw [g3, h2]⟩

/-- A loop whose every iteration falls through, issues only calls with
property `Q` and keeps `I`, falls through, issues only such calls and keeps `I`. -/
theorem forEach_all_done {W α : Type} (body : α → W → Run W) (I : W → Prop)
    (Q : Call → Prop) (xs : List α)
    (hbody : ∀ x ∈ xs, ∀ w, I w →
      (body x w).flow = Flow.done ∧ (∀ call ∈ (body x w).calls, Q call) ∧ I (body x w).world)
    (w : W) (h : I w) :
    (forEach body xs w).flow = Flow.done ∧ (∀ call ∈ (forEach body xs w).calls, Q call) ∧
      I (forEach body xs w).world := by
  induction xs generalizing w with
  | nil => exact ⟨rfl, by intro call hc; simp [forEach_nil] at hc, h⟩
  | cons x xs ih =>
    obtain ⟨hd, hq, hi⟩ := hbody x (List.mem_cons_self _ _) w h
    obtain ⟨hd', hq', hi'⟩ := ih (fun y hy => hbody y (List.mem_cons_of_mem _ hy)) _ hi
    rw [forEach_cons, Run.andThen_of_done _ _ hd]
    refine ⟨hd', ?_, hi'⟩
    intro call hc
    rcases List.mem_append.mp hc with hc | hc
    · exact hq call hc
    · exact hq' call hc

theorem syncTable_present (bot project : Int) (open_ : ConnectionConfig → Ret Driver)
    (inst : Instance) (database : Database) (ts : Int) (t : TableSchema) (c : Catalog)
    (hex : ∃ u ∈ c.tables, u.DatabaseId = database.ID ∧ u.Name = t.Name) :
    (syncTable (catalogEnv bot project open_) inst (some database) ts t c).flow = Flow.done ∧
    ∀ call ∈ (syncTable (catalogEnv bot project open_) inst (some database) ts t c).calls,
      call.onlySyncs = true := by
  obtain ⟨hw, hcase⟩ := findTable_cases database.ID t.Name c
  unfold syncTable
  simp only [catalogEnv]
  rcases hcase with ⟨u, hu, _, _, hres⟩ | ⟨hnone, _⟩
  · simp only [hres, hw]
    rcases patchTable_result ⟨u.ID, bot, some SyncStatus.OK, some ts⟩ c with
      ⟨herr, _, _, _, _⟩ | ⟨_, _, hno⟩
    · simp only [herr]
      refine ⟨trivial, ?_⟩
      intro call hc
      simp only [List.mem_cons, List.mem_singleton, List.not_mem_nil, or_false] at hc
      rcases hc with rfl | rfl <;> rfl
    · exact absurd rfl (hno u hu)
  · obtain ⟨u, hu, h1, h2⟩ := hex
    exact absurd ⟨h1, h2⟩ (hnone u hu)

theorem syncMatched_present {inst : Instance} {S : List DBSchema}
    {dbList : List Database} (bot project : Int) (open_ : ConnectionConfig → Ret Driver)
    (c0 c : Catalog) (m : Database) (schema : DBSchema)
    (hinst : ∀ x ∈ dbList, x.InstanceId = inst.ID)
    (hm : m ∈ dbList) (hname : m.Name = schema.Name) (hs : schema ∈ S)
    (ht : Tracks dbList c0 c)
    (htab : ∀ t ∈ schema.TableList, ∃ u ∈ c.tables, u.DatabaseId = m.ID ∧ u.Name = t.Name) :
    (syncMatched (catalogEnv bot project open_) inst m schema c).flow = Flow.done ∧
    ∀ call ∈ (syncMatched (catalogEnv bot project open_) inst m schema c).calls,
      call.onlySyncs = true := by
  have hlive : ∃ s ∈ S, s.Name = m.Name := ⟨schema, hs, hname.symm⟩
  have hst := now_stamped c0 c ht.tick
  have hstep := @RunStep.patchOK inst S dbList c0.tick
    (Catalog.now c).2 m bot (Catalog.now c).1 hm hlive hst
  unfold syncMatched
  simp only [catalogEnv]
  rcases patchDatabase_result ⟨m.ID, bot, some SyncStatus.OK, some (Catalog.now c).1⟩
      (Catalog.now c).2 with ⟨herr, r, hr, hid, hval⟩ | ⟨_, _, hno⟩
  · simp only [herr, hval]
    rw [Run.andThen_mk_done]
    simp only
    obtain ⟨hrn, hri⟩ := ht.same m hm r hr hid
    have hst2 := hst.mono hstep.kind.1 hstep.kind.2.1
    have hlive1 : LiveDb inst S (Catalog.now c).2 m.ID :=
      ⟨r, hr, hid, by rw [hri, hinst m hm], schema, hs, by rw [hrn, hname]⟩
    have hlive2 := hstep.liveDb_step m.ID hlive1
    have htab2 : ∀ t ∈ schema.TableList, ∃ u ∈ (Catalog.patchDatabase
        ⟨m.ID, bot, some SyncStatus.OK, some (Catalog.now c).1⟩ (Catalog.now c).2).2.tables,
        u.DatabaseId = m.ID ∧ u.Name = t.Name := by
      intro t htl
      rw [(patchDatabase_rest _ _).1]
      exact htab t htl
    have hloop := forEach_all_done
      (syncTable (catalogEnv bot project open_) inst (some (applyDatabasePatch
        ⟨m.ID, bot, some SyncStatus.OK, some (Catalog.now c).1⟩ r)) (Catalog.now c).1)
      (fun c' => (∀ t ∈ schema.TableList, ∃ u ∈ c'.tables,
          u.DatabaseId = m.ID ∧ u.Name = t.Name) ∧
        LiveDb inst S c' m.ID ∧ Stamped c0.tick c' (Catalog.now c).1)
      (fun call => call.onlySyncs = true) schema.TableList
      (fun t htl c' hH => by
        have hpres := syncTable_present bot project open_ inst (applyDatabasePatch
          ⟨m.ID, bot, some SyncStatus.OK, some (Catalog.now c).1⟩ r) (Catalog.now c).1 t c'
          (by rw [applyDatabasePatch_ID, hid]; exact hH.1 t htl)
        have htr : Trace inst S dbList c0.tick c' _ _ :=
          syncTable_trace bot project open_ (some (applyDatabasePatch
            ⟨m.ID, bot, some SyncStatus.OK, some (Catalog.now c).1⟩ r)) (Catalog.now c).1 t c'
            (by
              intro d hd
              simp only [Option.some.injEq] at hd
              rw [← hd, applyDatabasePatch_ID, hid]
              exact hH.2.1) hH.2.2
        refine ⟨hpres.1, hpres.2, ?_, htr.liveDb _ hH.2.1, htr.stamped _ hH.2.2⟩
        intro t' ht'
        obtain ⟨u, hu, h1, h2⟩ := hH.1 t' ht'
        obtain ⟨u', hu', _, g2, g3⟩ := htr.keeps_table u hu
        exact ⟨u', hu', by rw [g2, h1], by rw [g3, h2]⟩)
      _ ⟨htab2, hlive2, hst2⟩
    refine ⟨hloop.1, ?_⟩
    intro call hc
    rcases List.mem_append.mp hc with hc | hc
    · simp only [List.mem_singleton] at hc
      subst hc; rfl
    · exact hloop.2.1 call hc
  · obtain ⟨r, hr, hid⟩ := ht.kept m hm
    exact absurd hid (hno r hr)

theorem markNotFound_present {inst : Instance} {S : List DBSchema}
    {dbList : List Database} (bot project : Int) (open_ : ConnectionConfig → Ret Driver)
    (c0 c : Catalog) (db : Database) (hdb : db ∈ dbList) (ht : Tracks dbList c0 c) :
    (markNotFound (catalogEnv bot project open_) inst S db c).flow = Flow.done ∧
    ∀ call ∈ (markNotFound (catalogEnv bot project open_) inst S db c).calls,
      call.onlySyncs = true := by
  unfold markNotFound
  split
  · exact ⟨rfl, by intro call hc; simp at hc⟩
  · simp only [catalogEnv]
    rcases patchDatabase_result ⟨db.ID, bot, some SyncStatus.NotFound, some (Catalog.now c).1⟩
        (Catalog.now c).2 with ⟨herr, _, _, _, _⟩ | ⟨_, _, hno⟩
    · simp only [herr]
      refine ⟨trivial, ?_⟩
      intro call hc
      simp only [List.mem_singleton] at hc
      subst hc; rfl
    · obtain ⟨r, hr, hid⟩ := ht.kept db hdb
      exact absurd hid (hno r hr)

theorem listed_name_unique (inst : Instance) (c : Catalog) (hwf : c.WF) (x y : Database)
    (hx : x ∈ Catalog.listed inst c) (hy : y ∈ Catalog.listed inst c)
    (hn : x.Name = y.Name) : x = y := by
  by_contra hne
  have hx' := (listed_mem inst c x).mp hx
  have hy' := (listed_mem inst c y).mp hy
  exact hwf.dbNames.forall (fun a b hab => fun h => hab ⟨h.1.symm, h.2.symm⟩) hx'.1 hy'.1 hne
    ⟨by rw [hx'.2, hy'.2], hn⟩

theorem syncDatabase_present (bot project : Int) (open_ : ConnectionConfig → Ret Driver)
    (inst : Instance) (S : List DBSchema) (c0 c : Catalog) (hwf : c0.WF) (d : DBSchema)
    (hd : d ∈ S) (ht : Tracks (Catalog.listed inst c0) c0 c)
    (hp : EqualFold "bytebase" d.Name = false → Present (Catalog.listed inst c0) c d) :
    (syncDatabase (catalogEnv bot project open_) inst (Catalog.listed inst c0) d c).flow
      = Flow.done ∧
    ∀ call ∈ (syncDatabase (catalogEnv bot project open_) inst (Catalog.listed inst c0) d
        c).calls, call.onlySyncs = true := by
  cases hres : EqualFold "bytebase" d.Name with
  | true =>
    rw [syncDatabase_of_reserved _ _ _ _ _ hres]
    exact ⟨rfl, by intro call hc; simp at hc⟩
  | false =>
    obtain ⟨m, hm, hn, htab⟩ := hp hres
    cases hmd : matchedDb (Catalog.listed inst c0) d.Name with
    | none => exact absurd hn ((matchedDb_eq_none_iff _ _).mp hmd m hm)
    | some m' =>
      obtain ⟨hm', hn'⟩ := matchedDb_some _ _ _ hmd
      have hmm : m' = m := listed_name_unique inst c0 hwf m' m hm' hm (by rw [hn', hn])
      subst hmm
      rw [syncDatabase_of_matched _ _ _ _ _ m' hres hmd]
      exact @syncMatched_present inst S _ bot project open_ c0 c m' d (listed_instance inst c0)
        hm hn hd ht htab

/-- A run against the store from a well-formed catalog that already holds, for
every live database other than the reserved one, a record of the instance under
its name and a table record for each of its tables: the run returns an empty
`Error` and issues reads and sync patches only. -/
theorem SyncSchema_catalog_present (bot project : Int) (open_ : ConnectionConfig → Ret Driver)
    (inst : Instance) (S : List DBSchema) (c0 : Catalog)
    (hopen : open_ (connectionOf inst) = ⟨some ⟨S, none⟩, none⟩) (hwf : c0.WF)
    (hp : ∀ d ∈ S, EqualFold "bytebase" d.Name = false →
      Present (Catalog.listed inst c0) c0 d) :
    (SyncSchema (catalogEnv bot project open_) inst c0).outcome = Outcome.returned ⟨""⟩ ∧
    ∀ call ∈ (SyncSchema (catalogEnv bot project open_) inst c0).calls,
      call.onlySyncs = true := by
  have hmain := forEach_all_done
    (syncDatabase (catalogEnv bot project open_) inst (Catalog.listed inst c0))
    (fun c => Tracks (Catalog.listed inst c0) c0 c ∧
      ∀ d ∈ S, EqualFold "bytebase" d.Name = false → Present (Catalog.listed inst c0) c d)
    (fun call => call.onlySyncs = true) S
    (fun d hd c hI => by
      have htr := @syncDatabase_trace inst S _ bot project open_ c0 c d
        (listed_instance inst c0) hd hI.1
      have hpres := syncDatabase_present bot project open_ inst S c0 c hwf d hd hI.1
        (hI.2 d hd)
      exact ⟨hpres.1, hpres.2, htr.tracks hI.1, fun e he hr => htr.present e (hI.2 e he hr)⟩)
    c0 ⟨Tracks.init inst c0 hwf, hp⟩
  have hmark := forEach_all_done
    (markNotFound (catalogEnv bot project open_) inst S)
    (fun c => Tracks (Catalog.listed inst c0) c0 c)
    (fun call => call.onlySyncs = true) (Catalog.listed inst c0)
    (fun db hdb c hI => by
      have htr := @markNotFound_trace inst S _ bot project open_ c0 c db hdb hI
      have hpres := @markNotFound_present inst S _ bot project open_ c0 c db hdb hI
      exact ⟨hpres.1, hpres.2, htr.tracks hI⟩)
    _ hmain.2.2.1
  have hopen' : (catalogEnv bot project open_).Open (connectionOf inst)
      = ⟨some ⟨S, none⟩, none⟩ := hopen
  have hflow : (reconcile (catalogEnv bot project open_) inst S c0).flow = Flow.done := by
    rw [reconcile_catalog,
      Run.andThen_flow_of_done _ _ (by rw [Run.andThen_mk_done]; exact hmain.1),
      Run.andThen_world_of_done _ _ rfl]
    exact hmark.1
  have hok := (SyncSchema_ok_iff _ inst c0 ⟨S, none⟩ hopen' rfl).mpr hflow
  refine ⟨hok, ?_⟩
  obtain ⟨_, _, _, hcalls⟩ := SyncSchema_catalog_ok bot project open_ inst S c0 hopen hok
  rw [hcalls]
  intro call hc
  rcases List.mem_cons.mp hc with rfl | hc
  · rfl
  · rcases List.mem_append.mp hc with hc | hc
    · exact hmain.2.1 call hc
    · exact hmark.2.1 call hc

/-- C7: against the store, from a well-formed prior catalog `C`, if the run on
the snapshot `S` returns an empty `Error` and leaves the catalog `C'`, then the
run on the same snapshot `S` against `C'` also returns an empty `Error`, and
every call it issues is a read (`FindDatabaseList`, `FindTable`) or a
`PatchDatabase` / `PatchTable` that sets `SyncStatus` and
`LastSuccessfulSyncTs`: none of its calls is a `CreateDatabase` or a
`CreateTable`. -/
theorem C7_second_run_creates_nothing (bot project : Int)
    (open_ : ConnectionConfig → Ret Driver) (inst : Instance) (S : List DBSchema)
    (C : Catalog)
    (hopen : open_ (connectionOf inst) = ⟨some ⟨S, none⟩, none⟩)
    (hwf : C.WF)
    (hok : (SyncSchema (catalogEnv bot project open_) inst C).outcome
      = Outcome.returned ⟨""⟩) :
    (SyncSchema (catalogEnv bot project open_) inst
      (SyncSchema (catalogEnv bot project open_) inst C).world).outcome
        = Outcome.returned ⟨""⟩ ∧
    ∀ call ∈ (SyncSchema (catalogEnv bot project open_) inst
        (SyncSchema (catalogEnv bot project open_) inst C).world).calls,
      call.onlySyncs = true ∧
      (∀ create ret err, call ≠ Call.CreateDatabase create ret err) ∧
      (∀ create ret err, call ≠ Call.CreateTable create ret err) := by
  obtain ⟨hmain, _, hworld, _⟩ := SyncSchema_catalog_ok bot project open_ inst S C hopen hok
  obtain ⟨htr, hest⟩ := main_loop_catalog bot project open_ inst S C hwf
  have ht1 := htr.tracks (Tracks.init inst C hwf)
  have htr3 := mark_loop_catalog bot project open_ inst S C _ ht1
  have htfinal := htr3.tracks ht1
  have hsynced : ∀ d ∈ S, EqualFold "bytebase" d.Name = false →
      Synced inst C.tick (SyncSchema (catalogEnv bot project open_) inst C).world d := by
    intro d hd hres
    rw [hworld]
    exact htr3.synced ht1 d hd (hest hmain d hd hres)
  rw [← hworld] at htfinal
  have hsecond := SyncSchema_catalog_present bot project open_ inst S
    (SyncSchema (catalogEnv bot project open_) inst C).world hopen htfinal.wf
    (by
      intro d hd hres
      obtain ⟨id, ⟨r, hr, hid, hin, hn, _⟩, htab⟩ := hsynced d hd hres
      refine ⟨r, (listed_mem inst _ r).mpr ⟨hr, hin⟩, hn, ?_⟩
      intro t htl
      obtain ⟨u, hu, hud, hun, _⟩ := htab t htl
      exact ⟨u, hu, by rw [hud, hid], hun⟩)
  refine ⟨hsecond.1, ?_⟩
  intro call hc
  have hsync := hsecond.2 call hc
  refine ⟨hsync, ?_, ?_⟩
  · intro create ret err heq
    rw [heq] at hsync
    exact Bool.noConfusion hsync
  · intro create ret err heq
    rw [heq] at hsync
    exact Bool.noConfusion hsync

/-- C7 at scenario A run twice: from the empty catalog the first run creates
`orders` and `items`; the second run on the same snapshot succeeds and creates
nothing. -/
theorem C7_second_run_creates_nothing_witness :
    (SyncSchema (catalogEnv 1 1 (liveOpen [ordersSchema])) prodInstance
      (SyncSchema (catalogEnv 1 1 (liveOpen [ordersSchema])) prodInstance
        emptyCatalog).world).outcome = Outcome.returned ⟨""⟩ ∧
    ∀ call ∈ (SyncSchema (catalogEnv 1 1 (liveOpen [ordersSchema])) prodInstance
        (SyncSchema (catalogEnv 1 1 (liveOpen [ordersSchema])) prodInstance
          emptyCatalog).world).calls,
      call.onlySyncs = true ∧
      (∀ create ret err, call ≠ Call.CreateDatabase create ret err) ∧
      (∀ create ret err, call ≠ Call.CreateTable create ret err) :=
  C7_second_run_creates_nothing 1 1 (liveOpen [ordersSchema]) prodInstance [ordersSchema]
    emptyCatalog rfl emptyCatalog_wf (by decide)

/-! ## Properties of the call list put together piece by piece -/

theorem Run.andThen_calls_pieces {W : Type} (P : List Call → Prop) (hnil : P [])
    (happ : ∀ l1 l2, P l1 → P l2 → P (l1 ++ l2)) (r : Run W) (k : W → Run W)
    (hr : P r.calls) (hk : ∀ w, P (k w).calls) : P (r.andThen k).calls := by
  rw [Run.andThen_calls]
  split
  · exact happ _ _ hr (hk _)
  · exact happ _ _ hr hnil

theorem forEach_calls_pieces {W α : Type} (P : List Call → Prop) (hnil : P [])
    (happ : ∀ l1 l2, P l1 → P l2 → P (l1 ++ l2)) (body : α → W → Run W)
    (hbody : ∀ x w, P (body x w).calls) (xs : List α) (w : W) :
    P (forEach body xs w).calls := by
  induction xs generalizing w with
  | nil => exact hnil
  | cons x xs ih =>
    rw [forEach_cons]
    exact Run.andThen_calls_pieces P hnil happ _ _ (hbody x w) ih

/-- A property of call lists that holds of the empty list, of a single
database-level call as the run issues them and of the calls of one iteration of
a table loop, and that is kept by concatenation, holds of the calls of every run. -/
theorem SyncSchema_calls_pieces {W : Type} (env : Env W) (inst : Instance)
    (P : List Call → Prop) (hnil : P [])
    (happ : ∀ l1 l2, P l1 → P l2 → P (l1 ++ l2))
    (hlist : ∀ find l e, P [Call.FindDatabaseList find l e])
    (hpatch : ∀ id status ts ret err,
      P [Call.PatchDatabase ⟨id, env.SYSTEM_BOT_ID, some status, some ts⟩ ret err])
    (hcreate : ∀ schema ret err, P [Call.CreateDatabase (databaseCreateOf env inst schema) ret err])
    (htable : ∀ database ts table w, P (syncTable env inst database ts table w).calls)
    (himport : ∀ database table w, P (importTable env inst database table w).calls) (w : W) :
    P (SyncSchema env inst w).calls := by
  have hmatched : ∀ m schema w', P (syncMatched env inst m schema w').calls := by
    intro m schema w'
    rw [syncMatched_calls]
    refine happ [_] _ (hpatch _ _ _ _ _) ?_
    split
    · exact hnil
    · exact forEach_calls_pieces P hnil happ _ (htable _ _) _ _
  have hnew : ∀ schema w', P (syncNew env inst schema w').calls := by
    intro schema w'
    rw [syncNew_calls]
    refine happ [_] _ (hcreate _ _ _) ?_
    split
    · exact hnil
    · exact forEach_calls_pieces P hnil happ _ (himport _) _ _
  have hsync : ∀ dbList schema w', P (syncDatabase env inst dbList schema w').calls := by
    intro dbList schema w'
    unfold syncDatabase
    split
    · exact hnil
    · split
      · exact hmatched _ _ _
      · exact hnew _ _
  have hmark : ∀ S db w', P (markNotFound env inst S db w').calls := by
    intro S db w'
    rw [markNotFound_calls]
    split
    · exact hnil
    · exact hpatch _ _ _ _ _
  unfold SyncSchema
  dsimp only
  split
  · exact hnil
  · split
    · exact hnil
    · split
      · exact hnil
      · rw [finish_calls]
        unfold reconcile
        dsimp only
        split
        · exact hlist _ _ _
        · exact Run.andThen_calls_pieces P hnil happ _ _
            (Run.andThen_calls_pieces P hnil happ _ _ (hlist _ _ _)
              (fun w' => forEach_calls_pieces P hnil happ _ (hsync _) _ w'))
            (fun w' => forEach_calls_pieces P hnil happ _ (hmark _) _ w')

theorem foundThenPatched_nil (bot : Int) : FoundThenPatched bot [] := by
  intro A B find st h
  simp at h

theorem foundThenPatched_append (bot : Int) (l1 l2 : List Call)
    (h1 : FoundThenPatched bot l1) (h2 : FoundThenPatched bot l2) :
    FoundThenPatched bot (l1 ++ l2) := by
  intro A B find st h
  rcases append_eq_append_cons l1 l2 A B _ h with ⟨A', _, hl2⟩ | ⟨B1, hl1, hB⟩
  · exact h2 A' B find st hl2
  · obtain ⟨ts, pr, pe, B', hB'⟩ := h1 A B1 find st hl1
    exact ⟨ts, pr, pe, B' ++ l2, by rw [hB, hB']; rfl⟩

theorem foundThenPatched_of_no_find (bot : Int) (l : List Call)
    (h : ∀ c ∈ l, ∀ find ret err, c ≠ Call.FindTable find ret err) :
    FoundThenPatched bot l := by
  intro A B find st hl
  exact absurd rfl (h (Call.FindTable find (some st) none) (by rw [hl]; simp) find (some st) none)

theorem syncTable_foundThenPatched {W : Type} (env : Env W) (inst : Instance)
    (database : Option Database) (ts : Int) (table : TableSchema) (w : W) :
    FoundThenPatched env.SYSTEM_BOT_ID (syncTable env inst database ts table w).calls := by
  cases database with
  | none => exact foundThenPatched_nil _
  | some d =>
    unfold syncTable
    dsimp only
    split
    · rename_i e he
      split
      · rw [Run.andThen_mk_done, createTable_calls]
        intro A B find st hl
        rcases A with _ | ⟨a, _ | ⟨a2, A⟩⟩ <;> simp at hl
        rw [he] at hl
        simp at hl
      · intro A B find st hl
        rcases A with _ | ⟨a, A⟩ <;> simp at hl
        rw [he] at hl
        simp at hl
    · rename_i he
      split
      · rename_i hv
        intro A B find st hl
        rcases A with _ | ⟨a, A⟩ <;> simp at hl
        rw [hv] at hl
        simp at hl
      · rename_i st hst
        intro A B find st' hl
        split at hl
        · split at hl <;>
          · rcases A with _ | ⟨a, _ | ⟨a2, A⟩⟩ <;> simp at hl
            obtain ⟨⟨_, h2, _⟩, hB⟩ := hl
            rw [hst] at h2
            simp only [Option.some.injEq] at h2
            subst h2
            exact ⟨ts, _, _, [], hB.symm⟩
        · rcases A with _ | ⟨a, _ | ⟨a2, A⟩⟩ <;> simp at hl
          obtain ⟨⟨_, h2, _⟩, hB⟩ := hl
          rw [hst] at h2
          simp only [Option.some.injEq] at h2
          subst h2
          exact ⟨ts, _, _, [], hB.symm⟩

/-- Where a `PatchTable` of a run comes from: the Case 1 iteration of a live
database whose `PatchDatabase` returned `database` with timestamp `ts`, right
after the `FindTable` of a live table that returned the record `st`. -/
theorem SyncSchema_patchTable_origin {W : Type} (env : Env W) (inst : Instance) (w : W)
    (A B : List Call) (patch : TablePatch) (pr : Option Table) (pe : Option Error)
    (h : (SyncSchema env inst w).calls = A ++ Call.PatchTable patch pr pe :: B) :
    ∃ (pre mid : List Call) (matched database : Database) (ts : Int) (table : TableSchema)
      (st : Table),
      A = pre ++ Call.PatchDatabase
            ⟨matched.ID, env.SYSTEM_BOT_ID, some SyncStatus.OK, some ts⟩ (some database) none ::
          (mid ++ [Call.FindTable ⟨some database.ID, some table.Name⟩ (some st) none]) ∧
      (∀ c ∈ mid, c.isTableCall = true) ∧
      patch = ⟨st.ID, env.SYSTEM_BOT_ID, some SyncStatus.OK, some ts⟩ := by
  obtain ⟨driver, _, schema, _, _, pre, mid, dbc, database, hA,
      ⟨matched, ts, w2, B2, _, hdbc, hloop⟩ | ⟨w2, B2, _, _, hloop⟩⟩ :=
    SyncSchema_table_call_context env inst w A B _ h rfl
  · obtain ⟨tpre, t, tpost, A2, B3, B1, _, _, hbody, hmid, _⟩ :=
      forEach_calls_split _ _ _ _ _ _ hloop
    have hmidcalls : ∀ c ∈ (forEach (syncTable env inst (some database) ts) tpre w2).calls,
        c.isTableCall = true :=
      fun c hc => forEach_syncTable_calls_isTableCall env inst _ ts tpre w2 c hc
    generalize (forEach (syncTable env inst (some database) ts) tpre w2).world = w3 at hbody
    rcases syncTable_calls_cases env inst (some database) ts t w3 with ⟨h0, _⟩ |
      ⟨d, hd, fr, fe, _, h1 | ⟨e, cr, ce, _, _, h2⟩ | ⟨st, pr', pe', hst, hfe, h3⟩⟩
    · simp at h0
    · rw [h1] at hbody
      rcases A2 with _ | ⟨a, A2⟩ <;> simp at hbody
    · rw [h2] at hbody
      rcases A2 with _ | ⟨a, _ | ⟨a2, A2⟩⟩ <;> simp at hbody
    · simp only [Option.some.injEq] at hd
      subst hd
      rw [h3, hst, hfe] at hbody
      rcases A2 with _ | ⟨a, _ | ⟨a2, A2⟩⟩ <;> simp at hbody
      obtain ⟨ha, hp, _⟩ := hbody
      refine ⟨pre, _, matched, database, ts, t, st, ?_, hmidcalls, hp.1.symm⟩
      rw [hA, hdbc, hmid, ← ha]
  · obtain ⟨t, _, w', hc⟩ := forEach_calls_mem _ _ _ _
      (show Call.PatchTable patch pr pe ∈
        (forEach (importTable env inst (some database)) schema.TableList w2).calls by
          rw [hloop]; simp)
    rcases importTable_calls_cases env inst (some database) t w' with ⟨_, h0⟩ | ⟨d, cr, ce, _, h1⟩
    · rw [h0] at hc; simp at hc
    · rw [h1] at hc; simp at hc

/-! ## Every run against the store is a sequence of steps -/

theorem reconcile_catalog_trace (bot project : Int) (open_ : ConnectionConfig → Ret Driver)
    (inst : Instance) (S : List DBSchema) (c0 : Catalog) (hwf : c0.WF) :
    Trace inst S (Catalog.listed inst c0) c0.tick c0
      (reconcile (catalogEnv bot project open_) inst S c0).calls
      (reconcile (catalogEnv bot project open_) inst S c0).world := by
  obtain ⟨htr, _⟩ := main_loop_catalog bot project open_ inst S c0 hwf
  have ht1 := htr.tracks (Tracks.init inst c0 hwf)
  have htr3 := mark_loop_catalog bot project open_ inst S c0 _ ht1
  have hfirst : Trace inst S (Catalog.listed inst c0) c0.tick c0
      [Call.FindDatabaseList ⟨some inst.ID⟩ (Catalog.listed inst c0) none] c0 :=
    Trace.single (RunStep.findDatabaseList c0 ⟨some inst.ID⟩)
  rw [reconcile_catalog, Run.andThen_mk_done]
  generalize forEach (syncDatabase (catalogEnv bot project open_) inst
    (Catalog.listed inst c0)) S c0 = m at htr ht1 htr3 ⊢
  obtain ⟨f, w, cs⟩ := m
  cases f with
  | done => exact (hfirst.append htr).append htr3
  | fail msg => exact hfirst.append htr
  | fault => exact hfirst.append htr

/-- Whatever the driver side answers, a run against the store from a
well-formed catalog is a sequence of steps on some snapshot. -/
theorem SyncSchema_catalog_trace (bot project : Int) (open_ : ConnectionConfig → Ret Driver)
    (inst : Instance) (c0 : Catalog) (hwf : c0.WF) :
    ∃ S, Trace inst S (Catalog.listed inst c0) c0.tick c0
      (SyncSchema (catalogEnv bot project open_) inst c0).calls
      (SyncSchema (catalogEnv bot project open_) inst c0).world := by
  unfold SyncSchema
  dsimp only
  split
  · exact ⟨[], Trace.nil c0⟩
  · split
    · exact ⟨[], Trace.nil c0⟩
    · rename_i driver _
      split
      · exact ⟨[], Trace.nil c0⟩
      · rw [finish_calls, finish_world]
        exact ⟨driver.schemaList, reconcile_catalog_trace bot project open_ inst _ c0 hwf⟩

theorem applyTablePatch_shape (p : TablePatch) (t : Table) :
    (applyTablePatch p t).shape = t.shape := rfl

/-- A step keeps every table record under its identifier and database, with
its structural attributes. -/
theorem RunStep.keeps_shape_step {inst : Instance} {S : List DBSchema} {dbList : List Database}
    {tick0 : Nat} {c c' : Catalog} {l : List Call} (h : RunStep inst S dbList tick0 c l c')
    (u : Table) (hu : u ∈ c.tables) :
    ∃ u' ∈ c'.tables, u'.ID = u.ID ∧ u'.DatabaseId = u.DatabaseId ∧ u'.shape = u.shape := by
  obtain ⟨_, _, hk⟩ := h.kind
  rcases hk with ⟨_, ht, _⟩ | ⟨p, _, ht, _⟩ | ⟨d, _, _, _, ht, _⟩ | ⟨p, ht, _⟩ | ⟨t, ht, _⟩
  · exact ⟨u, by rw [ht]; exact hu, rfl, rfl, rfl⟩
  · exact ⟨u, by rw [ht]; exact hu, rfl, rfl, rfl⟩
  · exact ⟨u, by rw [ht]; exact hu, rfl, rfl, rfl⟩
  · refine ⟨_, by rw [ht]; exact List.mem_map_of_mem _ hu, ?_⟩
    by_cases ha : (u.ID == p.ID) = true <;>
      simp [ha, applyTablePatch_ID, applyTablePatch_DatabaseId, applyTablePatch_shape]
  · exact ⟨u, by rw [ht]; simp [hu], rfl, rfl, rfl⟩

theorem Trace.keeps_shape {inst : Instance} {S : List DBSchema} {dbList : List Database}
    {tick0 : Nat} {c c' : Catalog} {l : List Call}
    (h : Trace inst S dbList tick0 c l c') (u : Table) (hu : u ∈ c.tables) :
    ∃ u' ∈ c'.tables, u'.ID = u.ID ∧ u'.DatabaseId = u.DatabaseId ∧ u'.shape = u.shape := by
  induction h generalizing u with
  | nil c => exact ⟨u, hu, rfl, rfl, rfl⟩
  | cons hstep _ ih =>
    obtain ⟨u1, hu1, h1, h2, h3⟩ := hstep.keeps_shape_step u hu
    obtain ⟨u2, hu2, g1, g2, g3⟩ := ih u1 hu1
    exact ⟨u2, hu2, by rw [g1, h1], by rw [g2, h2], by rw [g3, h3]⟩

/-! ## C11: a stored table that is found again -/

/-- C11: in every run, a `FindTable` that returns a record `st` is followed at
once by one `PatchTable` whose request is exactly the ID of `st`, the system
actor as updater, `SyncStatus = OK` and a timestamp; every `PatchTable` of the
run is such a one, issued right after the `FindTable` of a live table of the
database whose `PatchDatabase` precedes it, with that patch's timestamp.  The
request has no other field.  Against the store, from a well-formed prior
catalog, every table record is still there after the run under its ID and
database with its structural attributes (name, type, engine, collation, row
count, data size, index size, free space, create options, comment) as they
were, whatever the live tables look like. -/
theorem C11_stored_table_is_only_restamped {W : Type} (env : Env W) (inst : Instance) (w : W) :
    (∀ A B find st,
      (SyncSchema env inst w).calls = A ++ Call.FindTable find (some st) none :: B →
      ∃ ts pr pe B', B = Call.PatchTable
        ⟨st.ID, env.SYSTEM_BOT_ID, some SyncStatus.OK, some ts⟩ pr pe :: B') ∧
    (∀ A B patch pr pe,
      (SyncSchema env inst w).calls = A ++ Call.PatchTable patch pr pe :: B →
      ∃ (pre mid : List Call) (matched database : Database) (ts : Int) (table : TableSchema)
        (st : Table),
        A = pre ++ Call.PatchDatabase
              ⟨matched.ID, env.SYSTEM_BOT_ID, some SyncStatus.OK, some ts⟩ (some database) none ::
            (mid ++ [Call.FindTable ⟨some database.ID, some table.Name⟩ (some st) none]) ∧
        (∀ c ∈ mid, c.isTableCall = true) ∧
        patch = ⟨st.ID, env.SYSTEM_BOT_ID, some SyncStatus.OK, some ts⟩) ∧
    (∀ (bot project : Int) (open_ : ConnectionConfig → Ret Driver) (C : Catalog), C.WF →
      ∀ u ∈ C.tables,
        ∃ u' ∈ (SyncSchema (catalogEnv bot project open_) inst C).world.tables,
          u'.ID = u.ID ∧ u'.DatabaseId = u.DatabaseId ∧ u'.shape = u.shape) := by
  refine ⟨?_, ?_, ?_⟩
  · exact SyncSchema_calls_pieces env inst (FoundThenPatched env.SYSTEM_BOT_ID)
      (foundThenPatched_nil _) (foundThenPatched_append _)
      (fun _ _ _ => foundThenPatched_of_no_find _ _ (by simp))
      (fun _ _ _ _ _ => foundThenPatched_of_no_find _ _ (by simp))
      (fun _ _ _ => foundThenPatched_of_no_find _ _ (by simp))
      (fun database ts table w' => syncTable_foundThenPatched env inst database ts table w')
      (fun database table w' => foundThenPatched_of_no_find _ _ (by
        intro c hc find ret err heq
        rcases importTable_calls_cases env inst database table w' with
          ⟨_, h0⟩ | ⟨d, cr, ce, _, h1⟩
        · rw [h0] at hc; simp at hc
        · rw [h1, heq] at hc; simp at hc)) w
  · intro A B patch pr pe h
    exact SyncSchema_patchTable_origin env inst w A B patch pr pe h
  · intro bot project open_ C hwf u hu
    obtain ⟨S, htr⟩ := SyncSchema_catalog_trace bot project open_ inst C hwf
    exact htr.keeps_shape u hu

/-- C11 at the stored `orders` with `items`, whose live table has grown: the
run finds the record, patches it once, and the stored attributes are still
those of the record, not those of the live table. -/
theorem C11_stored_table_is_only_restamped_witness :
    (SyncSchema (catalogEnv 1 1 (liveOpen [ordersGrown])) prodInstance ordersCatalog).calls
      = [Call.FindDatabaseList ⟨some 7⟩ [ordersRecord] none,
         Call.PatchDatabase ⟨1, 1, some SyncStatus.OK, some 1000⟩
           (some { ordersRecord with LastSuccessfulSyncTs := 1000 }) none,
         Call.FindTable ⟨some 1, some "items"⟩ (some itemsRecord) none,
         Call.PatchTable ⟨1, 1, some SyncStatus.OK, some 1000⟩
           (some { itemsRecord with LastSuccessfulSyncTs := 1000 }) none] ∧
    itemsRecord.shape ≠ itemsGrown ∧
    ∃ u' ∈ (SyncSchema (catalogEnv 1 1 (liveOpen [ordersGrown])) prodInstance
        ordersCatalog).world.tables,
      u'.ID = itemsRecord.ID ∧ u'.DatabaseId = itemsRecord.DatabaseId ∧
        u'.shape = itemsRecord.shape :=
  ⟨by decide, by decide,
    (C11_stored_table_is_only_restamped (catalogEnv 1 1 (liveOpen [ordersGrown])) prodInstance
      ordersCatalog).2.2 1 1 (liveOpen [ordersGrown]) ordersCatalog ordersCatalog_wf itemsRecord
      (by simp [ordersCatalog])⟩

/-! ## C12: the timestamps a run writes -/

/-- Every patch a run issues carries `SyncStatus` and `LastSuccessfulSyncTs` together. -/
theorem SyncSchema_calls_pair {W : Type} (env : Env W) (inst : Instance) (w : W) :
    ∀ call ∈ (SyncSchema env inst w).calls, call.pairsStatusAndTs = true := by
  refine SyncSchema_calls_pieces env inst (fun l => ∀ call ∈ l, call.pairsStatusAndTs = true)
    (by simp) ?_ ?_ ?_ ?_ ?_ ?_ w
  · intro l1 l2 h1 h2 call hc
    rcases List.mem_append.mp hc with hc | hc
    · exact h1 call hc
    · exact h2 call hc
  · intro find l e call hc
    simp only [List.mem_singleton] at hc; subst hc; rfl
  · intro id status ts ret err call hc
    simp only [List.mem_singleton] at hc; subst hc; rfl
  · intro schema ret err call hc
    simp only [List.mem_singleton] at hc; subst hc; rfl
  · intro database ts table w' call hc
    rcases syncTable_calls_cases env inst database ts table w' with
      ⟨_, h0⟩ | ⟨d, _, fr, fe, _, h1 | ⟨e, cr, ce, _, _, h2⟩ | ⟨st, pr, pe, _, _, h3⟩⟩
    · rw [h0] at hc; simp at hc
    · rw [h1] at hc; simp at hc; subst hc; rfl
    · rw [h2] at hc; simp at hc; rcases hc with hc | hc <;> subst hc <;> rfl
    · rw [h3] at hc; simp at hc; rcases hc with hc | hc <;> subst hc <;> rfl
  · intro database table w' call hc
    rcases importTable_calls_cases env inst database table w' with ⟨_, h0⟩ | ⟨d, cr, ce, _, h1⟩
    · rw [h0] at hc; simp at hc
    · rw [h1] at hc; simp only [List.mem_singleton] at hc; subst hc; rfl

theorem RunStep.readSince_step {inst : Instance} {S : List DBSchema} {dbList : List Database}
    {c0 c c' : Catalog} {l : List Call} (h : RunStep inst S dbList c0.tick c l c')
    (ht : Tracks dbList c0 c) : ∀ call ∈ l, call.readSince c0 := by
  intro call hcall
  cases h with
  | now => simp at hcall
  | findDatabaseList find =>
    simp only [List.mem_singleton] at hcall; subst hcall; trivial
  | patchOK m bot ts _ _ hst =>
    simp only [List.mem_singleton] at hcall; subst hcall
    obtain ⟨i, h1, _, h3⟩ := hst
    exact ⟨i, h1, by rw [h3, ht.clock]⟩
  | patchNotFound db bot ts _ _ hst =>
    simp only [List.mem_singleton] at hcall; subst hcall
    obtain ⟨i, h1, _, h3⟩ := hst
    exact ⟨i, h1, by rw [h3, ht.clock]⟩
  | createDatabase create _ _ =>
    simp only [List.mem_singleton] at hcall; subst hcall; trivial
  | findTable id' name' hl =>
    simp only [List.mem_singleton] at hcall; subst hcall; trivial
  | createTable create hl =>
    simp only [List.mem_singleton] at hcall; subst hcall; trivial
  | patchTable u0 bot ts hu0 hl hst =>
    simp only [List.mem_singleton] at hcall; subst hcall
    obtain ⟨i, h1, _, h3⟩ := hst
    exact ⟨i, h1, by rw [h3, ht.clock]⟩

theorem Call.notBefore_of_readSince (C : Catalog) (hna : NotAhead C) (call : Call)
    (h : call.readSince C) : call.notBefore C := by
  cases call with
  | PatchDatabase patch ret err =>
    obtain ⟨i, hi, hts⟩ := h
    exact ⟨_, hts, fun r hr _ => (hna i hi).1 r hr⟩
  | PatchTable patch ret err =>
    obtain ⟨i, hi, hts⟩ := h
    exact ⟨_, hts, fun t ht _ => (hna i hi).2 t ht⟩
  | FindDatabaseList _ _ _ => trivial
  | CreateDatabase _ _ _ => trivial
  | FindTable _ _ _ => trivial
  | CreateTable _ _ _ => trivial

theorem forward_map_database (l : List Database) (p : DatabasePatch) (ts : Int)
    (hp : p.LastSuccessfulSyncTs = some ts) (r : Database) (hb : r.LastSuccessfulSyncTs ≤ ts)
    (h : ∃ r' ∈ l, r'.ID = r.ID ∧ r.LastSuccessfulSyncTs ≤ r'.LastSuccessfulSyncTs) :
    ∃ r' ∈ l.map (fun x => if (x.ID == p.ID) = true then applyDatabasePatch p x else x),
      r'.ID = r.ID ∧ r.LastSuccessfulSyncTs ≤ r'.LastSuccessfulSyncTs := by
  obtain ⟨r', hr', hid, hle⟩ := h
  refine ⟨_, List.mem_map_of_mem _ hr', ?_⟩
  by_cases ha : (r'.ID == p.ID) = true
  · simp only [ha, if_true, applyDatabasePatch_ID]
    exact ⟨hid, by simp [applyDatabasePatch, hp, hb]⟩
  · simp only [ha]
    exact ⟨hid, hle⟩

theorem forward_map_table (l : List Table) (p : TablePatch) (ts : Int)
    (hp : p.LastSuccessfulSyncTs = some ts) (t : Table) (hb : t.LastSuccessfulSyncTs ≤ ts)
    (h : ∃ t' ∈ l, t'.ID = t.ID ∧ t.LastSuccessfulSyncTs ≤ t'.LastSuccessfulSyncTs) :
    ∃ t' ∈ l.map (fun x => if (x.ID == p.ID) = true then applyTablePatch p x else x),
      t'.ID = t.ID ∧ t.LastSuccessfulSyncTs ≤ t'.LastSuccessfulSyncTs := by
  obtain ⟨t', ht', hid, hle⟩ := h
  refine ⟨_, List.mem_map_of_mem _ ht', ?_⟩
  by_cases ha : (t'.ID == p.ID) = true
  · simp only [ha, if_true, applyTablePatch_ID]
    exact ⟨hid, by simp [applyTablePatch, hp, hb]⟩
  · simp only [ha]
    exact ⟨hid, hle⟩

theorem RunStep.forward_step {inst : Instance} {S : List DBSchema} {dbList : List Database}
    {c0 c c' : Catalog} {l : List Call} (h : RunStep inst S dbList c0.tick c l c')
    (ht : Tracks dbList c0 c) (hna : NotAhead c0) (hp : Forward c0 c) : Forward c0 c' := by
  have hbound : ∀ ts, Stamped c0.tick c ts →
      (∀ r ∈ c0.databases, r.LastSuccessfulSyncTs ≤ ts) ∧
      (∀ t ∈ c0.tables, t.LastSuccessfulSyncTs ≤ ts) := by
    intro ts hst
    obtain ⟨i, h1, _, h3⟩ := hst
    rw [h3, ht.clock]
    exact hna i h1
  cases h with
  | now => exact hp
  | findDatabaseList find => exact hp
  | patchOK m bot ts _ _ hst =>
    refine ⟨?_, ?_⟩
    · intro r hr
      rw [patchDatabase_databases]
      exact forward_map_database _ _ ts rfl r ((hbound ts hst).1 r hr) (hp.1 r hr)
    · rw [(patchDatabase_rest _ _).1]; exact hp.2
  | patchNotFound db bot ts _ _ hst =>
    refine ⟨?_, ?_⟩
    · intro r hr
      rw [patchDatabase_databases]
      exact forward_map_database _ _ ts rfl r ((hbound ts hst).1 r hr) (hp.1 r hr)
    · rw [(patchDatabase_rest _ _).1]; exact hp.2
  | createDatabase create _ _ =>
    rcases createDatabase_cases create c with ⟨_, hc, _⟩ |
      ⟨d, _, _, _, _, _, _, hdb, htb, _⟩
    · rw [hc]; exact hp
    · refine ⟨?_, by rw [htb]; exact hp.2⟩
      intro r hr
      obtain ⟨r', hr', h1, h2⟩ := hp.1 r hr
      exact ⟨r', by rw [hdb]; simp [hr'], h1, h2⟩
  | findTable id' name' hl => exact hp
  | createTable create hl =>
    rcases createTable_cases create c with ⟨_, hc, _⟩ |
      ⟨t, _, _, _, _, _, _, htb, hdb, _⟩
    · rw [hc]; exact hp
    · refine ⟨by rw [hdb]; exact hp.1, ?_⟩
      intro u hu
      obtain ⟨u', hu', h1, h2⟩ := hp.2 u hu
      exact ⟨u', by rw [htb]; simp [hu'], h1, h2⟩
  | patchTable u0 bot ts hu0 hl hst =>
    refine ⟨by rw [(patchTable_rest _ _).1]; exact hp.1, ?_⟩
    intro t htm
    rw [patchTable_tables]
    exact forward_map_table _ _ ts rfl t ((hbound ts hst).2 t htm) (hp.2 t htm)

/-- C12, as stated, fails: nothing compares the timestamp a run writes with the
one the record holds.  The stored `orders` was stamped 5000; the run reads the
clock at 1000 and patches the record with 1000, together with `SyncStatus`. -/
theorem C12_patch_sets_timestamp_back :
    aheadRecord ∈ aheadCatalog.databases ∧ aheadRecord.LastSuccessfulSyncTs = 5000 ∧
    (SyncSchema (catalogEnv 1 1 (liveOpen [ordersBare])) prodInstance aheadCatalog).outcome
      = Outcome.returned ⟨""⟩ ∧
    (SyncSchema (catalogEnv 1 1 (liveOpen [ordersBare])) prodInstance aheadCatalog).calls
      = [Call.FindDatabaseList ⟨some 7⟩ [aheadRecord] none,
         Call.PatchDatabase ⟨aheadRecord.ID, 1, some SyncStatus.OK, some 1000⟩
           (some { aheadRecord with LastSuccessfulSyncTs := 1000 }) none] ∧
    (SyncSchema (catalogEnv 1 1 (liveOpen [ordersBare])) prodInstance
        aheadCatalog).world.databases = [{ aheadRecord with LastSuccessfulSyncTs := 1000 }] ∧
    (1000 : Int) < aheadRecord.LastSuccessfulSyncTs := by
  refine ⟨?_, ?_, ?_, ?_, ?_, ?_⟩ <;> decide

/-- C12, amended: every patch a run issues, of a database or of a table record,
carries `SyncStatus` and `LastSuccessfulSyncTs` together.  Against the store,
from a well-formed prior catalog `C` none of whose timestamps is ahead of a
reading the clock gives from the start of the run on, the timestamp every patch
writes is not before the one the record it names held in `C`, and after the run
every record of `C` is there under its ID with a timestamp that is not before
the one it held in `C`. -/
theorem C12_timestamps_paired_and_forward {W : Type} (env : Env W) (inst : Instance) (w : W) :
    (∀ call ∈ (SyncSchema env inst w).calls, call.pairsStatusAndTs = true) ∧
    (∀ (bot project : Int) (open_ : ConnectionConfig → Ret Driver) (C : Catalog),
      C.WF → NotAhead C →
      (∀ call ∈ (SyncSchema (catalogEnv bot project open_) inst C).calls, call.notBefore C) ∧
      (∀ r ∈ C.databases,
        ∃ r' ∈ (SyncSchema (catalogEnv bot project open_) inst C).world.databases,
          r'.ID = r.ID ∧ r.LastSuccessfulSyncTs ≤ r'.LastSuccessfulSyncTs) ∧
      (∀ t ∈ C.tables,
        ∃ t' ∈ (SyncSchema (catalogEnv bot project open_) inst C).world.tables,
          t'.ID = t.ID ∧ t.LastSuccessfulSyncTs ≤ t'.LastSuccessfulSyncTs)) := by
  refine ⟨SyncSchema_calls_pair env inst w, ?_⟩
  intro bot project open_ C hwf hna
  obtain ⟨S, htr⟩ := SyncSchema_catalog_trace bot project open_ inst C hwf
  have ht0 := Tracks.init inst C hwf
  have hcalls := Trace.calls_of (fun _ => True) (Call.readSince C)
    (fun _ _ _ _ _ _ => trivial) (fun _ _ _ hta hs _ => hs.readSince_step hta) htr ht0 trivial
  have hfw := (Trace.keeps (Forward C) (fun _ _ _ hta hs hp => hs.forward_step hta hna hp) htr ht0
    ⟨fun r hr => ⟨r, hr, rfl, le_refl _⟩, fun t ht => ⟨t, ht, rfl, le_refl _⟩⟩).2
  exact ⟨fun call hc => Call.notBefore_of_readSince C hna call (hcalls call hc), hfw.1, hfw.2⟩

theorem ordersCatalog_notAhead : NotAhead ordersCatalog := by
  intro i _
  refine ⟨?_, ?_⟩
  · intro r hr
    simp only [ordersCatalog, List.mem_singleton] at hr
    subst hr
    show (900 : Int) ≤ 1000 + (i : Int)
    omega
  · intro t ht
    simp only [ordersCatalog, List.mem_singleton] at ht
    subst ht
    show (900 : Int) ≤ 1000 + (i : Int)
    omega

/-- C12, amended, at scenario B with a live `orders`: the stored records were
stamped 900 and the clock reads 1000 and later. -/
theorem C12_timestamps_paired_and_forward_witness :
    (∀ call ∈ (SyncSchema (catalogEnv 1 1 (liveOpen [ordersSchema])) prodInstance
        ordersCatalog).calls, call.pairsStatusAndTs = true ∧ call.notBefore ordersCatalog) ∧
    ∃ r' ∈ (SyncSchema (catalogEnv 1 1 (liveOpen [ordersSchema])) prodInstance
        ordersCatalog).world.databases,
      r'.ID = ordersRecord.ID ∧ ordersRecord.LastSuccessfulSyncTs ≤ r'.LastSuccessfulSyncTs :=
  ⟨fun call hc =>
      ⟨(C12_timestamps_paired_and_forward (catalogEnv 1 1 (liveOpen [ordersSchema]))
          prodInstance ordersCatalog).1 call hc,
        ((C12_timestamps_paired_and_forward (catalogEnv 1 1 (liveOpen [ordersSchema]))
          prodInstance ordersCatalog).2 1 1 (liveOpen [ordersSchema]) ordersCatalog
          ordersCatalog_wf ordersCatalog_notAhead).1 call hc⟩,
    ((C12_timestamps_paired_and_forward (catalogEnv 1 1 (liveOpen [ordersSchema]))
      prodInstance ordersCatalog).2 1 1 (liveOpen [ordersSchema]) ordersCatalog
      ordersCatalog_wf ordersCatalog_notAhead).2.1 ordersRecord (by simp [ordersCatalog])⟩

/-! ## The call that halts a run -/

theorem andThen_halts {W : Type} {report : List Call → Call → Flow → Prop}
    (hpre : ∀ X A c f, report A c f → report (X ++ A) c f)
    (hdone : ∀ A c, ¬ report A c Flow.done)
    (r : Run W) (k : W → Run W) (hr : r.Halts report) (hk : ∀ w, (k w).Halts report) :
    (r.andThen k).Halts report := by
  intro A B c h hc
  by_cases hd : r.flow = Flow.done
  · rw [Run.andThen_of_done _ _ hd] at h ⊢
    simp only at h ⊢
    rcases append_eq_append_cons _ _ A B c h with ⟨A', hA, hk'⟩ | ⟨B', hr', _⟩
    · obtain ⟨hB, hrep⟩ := hk _ A' B c hk' hc
      exact ⟨hB, by rw [hA]; exact hpre _ _ _ _ hrep⟩
    · have := (hr A B' c hr' hc).2
      rw [hd] at this
      exact absurd this (hdone A c)
  · rw [Run.andThen_of_not_done _ _ hd] at h ⊢
    exact hr A B c h hc

theorem forEach_halts {W α : Type} {report : List Call → Call → Flow → Prop}
    (hpre : ∀ X A c f, report A c f → report (X ++ A) c f)
    (hdone : ∀ A c, ¬ report A c Flow.done)
    (body : α → W → Run W) (hbody : ∀ x w, (body x w).Halts report) (xs : List α) (w : W) :
    (forEach body xs w).Halts report := by
  induction xs generalizing w with
  | nil => intro A B c h _; simp [forEach_nil] at h
  | cons x xs ih =>
    rw [forEach_cons]
    exact andThen_halts hpre hdone _ _ (hbody x w) ih

theorem andThen_failsLast {W : Type} (r : Run W) (k : W → Run W)
    (hr : r.FailsLast) (hk : ∀ w, (k w).FailsLast) : (r.andThen k).FailsLast := by
  intro msg h
  by_cases hd : r.flow = Flow.done
  · rw [Run.andThen_of_done _ _ hd] at h ⊢
    simp only at h ⊢
    obtain ⟨A, c, hA, hc⟩ := hk _ msg h
    exact ⟨r.calls ++ A, c, by rw [hA, List.append_assoc], hc⟩
  · rw [Run.andThen_of_not_done _ _ hd] at h ⊢
    exact hr msg h

theorem forEach_failsLast {W α : Type} (body : α → W → Run W)
    (hbody : ∀ x w, (body x w).FailsLast) (xs : List α) (w : W) :
    (forEach body xs w).FailsLast := by
  induction xs generalizing w with
  | nil => intro msg h; simp [forEach_nil] at h
  | cons x xs ih =>
    rw [forEach_cons]
    exact andThen_failsLast _ _ (hbody x w) ih

theorem encloses_append_left {A : List Call} {d : Database} (X : List Call)
    (h : Encloses A d) : Encloses (X ++ A) d := by
  obtain ⟨pre, dbc, mid, hA, hmid, hdbc⟩ := h
  exact ⟨X ++ pre, dbc, mid, by rw [hA, List.append_assoc], hmid, hdbc⟩

theorem tableFailure_append_left {inst : Instance} {d : Database} {A : List Call} {c : Call}
    {f : Flow} (X : List Call) (h : TableFailure inst d A c f) :
    TableFailure inst d (X ++ A) c f := by
  cases c with
  | PatchTable patch ret err =>
    cases err with
    | none => exact h
    | some e =>
      obtain ⟨A', find, st, hA, hid, hf⟩ := h
      exact ⟨X ++ A', find, st, by rw [hA, List.append_assoc], hid, hf⟩
  | FindDatabaseList _ _ _ => exact h
  | PatchDatabase _ _ _ => exact h
  | CreateDatabase _ _ _ => exact h
  | FindTable _ _ err =>
    cases err with
    | none => exact h
    | some e => exact h
  | CreateTable _ _ err =>
    cases err with
    | none => exact h
    | some e => exact h

theorem tableFailure_not_done {inst : Instance} {d : Database} {A : List Call} {c : Call}
    (h : TableFailure inst d A c Flow.done) : False := by
  cases c with
  | PatchTable patch ret err =>
    cases err with
    | none => exact h
    | some e =>
      obtain ⟨_, _, _, _, _, hf⟩ := h
      exact Flow.noConfusion hf
  | FindDatabaseList _ _ _ => exact h
  | PatchDatabase _ _ _ => exact h
  | CreateDatabase _ _ _ => exact h
  | FindTable _ _ err =>
    cases err with
    | none => exact h
    | some e => exact Flow.noConfusion h
  | CreateTable _ _ err =>
    cases err with
    | none => exact h
    | some e => exact Flow.noConfusion h.2

theorem reported_append_left {inst : Instance} {A : List Call} {c : Call} {f : Flow}
    (X : List Call) (h : Reported inst A c f) : Reported inst (X ++ A) c f := by
  cases c with
  | FindDatabaseList _ _ err =>
    cases err with
    | none => exact h
    | some e => exact h
  | PatchDatabase _ ret err =>
    cases err with
    | none => cases ret <;> exact h
    | some e => cases ret <;> exact h
  | CreateDatabase _ _ err =>
    cases err with
    | none => exact h
    | some e => exact h
  | FindTable _ _ err =>
    cases err with
    | none => exact h
    | some e =>
      obtain ⟨d, hd, hf⟩ := h
      exact ⟨d, encloses_append_left X hd, tableFailure_append_left X hf⟩
  | CreateTable _ _ err =>
    cases err with
    | none => exact h
    | some e =>
      obtain ⟨d, hd, hf⟩ := h
      exact ⟨d, encloses_append_left X hd, tableFailure_append_left X hf⟩
  | PatchTable _ _ err =>
    cases err with
    | none => exact h
    | some e =>
      obtain ⟨d, hd, hf⟩ := h
      exact ⟨d, encloses_append_left X hd, tableFailure_append_left X hf⟩

theorem reported_not_done {inst : Instance} {A : List Call} {c : Call}
    (h : Reported inst A c Flow.done) : False := by
  cases c with
  | FindDatabaseList _ _ err =>
    cases err with
    | none => exact h
    | some e => exact Flow.noConfusion h
  | PatchDatabase _ ret err =>
    cases err with
    | none => cases ret <;> exact h
    | some e => cases ret <;> exact Flow.noConfusion h
  | CreateDatabase _ _ err =>
    cases err with
    | none => exact h
    | some e => exact Flow.noConfusion h
  | FindTable _ _ err =>
    cases err with
    | none => exact h
    | some e => obtain ⟨d, _, hf⟩ := h; exact tableFailure_not_done hf
  | CreateTable _ _ err =>
    cases err with
    | none => exact h
    | some e => obtain ⟨d, _, hf⟩ := h; exact tableFailure_not_done hf
  | PatchTable _ _ err =>
    cases err with
    | none => exact h
    | some e => obtain ⟨d, _, hf⟩ := h; exact tableFailure_not_done hf

theorem halts_of_calls_single {W : Type} {report : List Call → Call → Flow → Prop}
    (r : Run W) (c0 : Call) (h : r.calls = [c0])
    (hrep : c0.halts = true → report [] c0 r.flow) : r.Halts report := by
  intro A B c hAB hc
  rw [h] at hAB
  rcases A with _ | ⟨a, A⟩
  · simp only [List.nil_append, List.cons.injEq] at hAB
    obtain ⟨rfl, hB⟩ := hAB
    exact ⟨hB.symm, hrep hc⟩
  · simp at hAB

theorem halts_of_calls_pair {W : Type} {report : List Call → Call → Flow → Prop}
    (r : Run W) (c0 c1 : Call) (h : r.calls = [c0, c1]) (h0 : c0.halts = false)
    (hrep : c1.halts = true → report [c0] c1 r.flow) : r.Halts report := by
  intro A B c hAB hc
  rw [h] at hAB
  rcases A with _ | ⟨a, _ | ⟨a2, A⟩⟩
  · simp only [List.nil_append, List.cons.injEq] at hAB
    obtain ⟨rfl, _⟩ := hAB
    rw [h0] at hc
    exact Bool.noConfusion hc
  · simp only [List.cons_append, List.nil_append, List.cons.injEq] at hAB
    obtain ⟨rfl, rfl, hB⟩ := hAB
    exact ⟨hB.symm, hrep hc⟩
  · simp at hAB

theorem halts_of_calls_nil {W : Type} {report : List Call → Call → Flow → Prop}
    (r : Run W) (h : r.calls = []) : r.Halts report := by
  intro A B c hAB _
  rw [h] at hAB
  simp at hAB

theorem createTable_tableFailure {W : Type} (env : Env W) (inst : Instance) (d : Database)
    (tc : TableCreate) (w : W) (A : List Call) (hid : tc.DatabaseId = d.ID)
    (hc : (Call.CreateTable tc (env.CreateTable tc w).1.val (env.CreateTable tc w).1.err).halts
      = true) :
    TableFailure inst d A
      (Call.CreateTable tc (env.CreateTable tc w).1.val (env.CreateTable tc w).1.err)
      (createTable env inst d tc w).flow := by
  unfold createTable
  dsimp only
  cases herr : (env.CreateTable tc w).1.err with
  | none => rw [herr] at hc; simp [Call.halts, Call.err] at hc
  | some e =>
    dsimp only [TableFailure]
    refine ⟨hid, ?_⟩
    by_cases hcode : e.code = Code.ECONFLICT <;> simp [hcode]

theorem createTable_halts {W : Type} (env : Env W) (inst : Instance) (d : Database)
    (tc : TableCreate) (w : W) (hid : tc.DatabaseId = d.ID) :
    (createTable env inst d tc w).Halts (TableFailure inst d) :=
  halts_of_calls_single _ _ (createTable_calls env inst d tc w)
    (createTable_tableFailure env inst d tc w [] hid)

theorem createTable_failsLast {W : Type} (env : Env W) (inst : Instance) (d : Database)
    (tc : TableCreate) (w : W) : (createTable env inst d tc w).FailsLast := by
  intro msg h
  refine ⟨[], _, by rw [createTable_calls]; rfl, ?_⟩
  cases herr : (env.CreateTable tc w).1.err with
  | none =>
    rw [(createTable_flow_done_iff env inst d tc w).mpr herr] at h
    exact Flow.noConfusion h
  | some e => rfl

theorem importTable_halts {W : Type} (env : Env W) (inst : Instance) (d : Database)
    (t : TableSchema) (w : W) :
    (importTable env inst (some d) t w).Halts (TableFailure inst d) :=
  createTable_halts env inst d (tableCreateOf env d t) w rfl

theorem importTable_failsLast {W : Type} (env : Env W) (inst : Instance)
    (database : Option Database) (t : TableSchema) (w : W) :
    (importTable env inst database t w).FailsLast := by
  cases database with
  | none => intro msg h; exact Flow.noConfusion h
  | some d => exact createTable_failsLast env inst d (tableCreateOf env d t) w

theorem syncTable_halts {W : Type} (env : Env W) (inst : Instance) (d : Database)
    (ts : Int) (t : TableSchema) (w : W) :
    (syncTable env inst (some d) ts t w).Halts (TableFailure inst d) := by
  unfold syncTable
  dsimp only
  cases herr : (env.FindTable ⟨some d.ID, some t.Name⟩ w).1.err with
  | some e =>
    dsimp only
    by_cases hcode : e.code = Code.ENOTFOUND
    · rw [if_pos hcode, Run.andThen_mk_done]
      refine halts_of_calls_pair _ _ _
        (by dsimp only; rw [createTable_calls]; rfl) (by simp [Call.halts, hcode]) ?_
      exact createTable_tableFailure env inst d (tableCreateOf env d t) _ _ rfl
    · rw [if_neg hcode]
      exact halts_of_calls_single _ _ rfl (fun _ => rfl)
  | none =>
    dsimp only
    cases hval : (env.FindTable ⟨some d.ID, some t.Name⟩ w).1.val with
    | none =>
      dsimp only
      refine halts_of_calls_single _ _ rfl (fun hc => ?_)
      simp [Call.halts, Call.err] at hc
    | some st =>
      dsimp only
      cases hperr : (env.PatchTable ⟨st.ID, env.SYSTEM_BOT_ID, some SyncStatus.OK, some ts⟩
          (env.FindTable ⟨some d.ID, some t.Name⟩ w).2).1.err with
      | none =>
        dsimp only
        refine halts_of_calls_pair _ _ _ rfl (by simp [Call.halts, Call.err]) (fun hc => ?_)
        simp [Call.halts, Call.err] at hc
      | some pe =>
        dsimp only
        by_cases hcode : pe.code = Code.ENOTFOUND
        · rw [if_pos hcode]
          refine halts_of_calls_pair _ _ _ rfl (by simp [Call.halts, Call.err]) (fun _ => ?_)
          exact ⟨[], _, st, rfl, rfl, by simp [hcode]⟩
        · rw [if_neg hcode]
          refine halts_of_calls_pair _ _ _ rfl (by simp [Call.halts, Call.err]) (fun _ => ?_)
          exact ⟨[], _, st, rfl, rfl, by simp [hcode]⟩

theorem syncTable_failsLast {W : Type} (env : Env W) (inst : Instance)
    (database : Option Database) (ts : Int) (t : TableSchema) (w : W) :
    (syncTable env inst database ts t w).FailsLast := by
  cases database with
  | none => intro msg h; exact Flow.noConfusion h
  | some d =>
    unfold syncTable
    dsimp only
    cases herr : (env.FindTable ⟨some d.ID, some t.Name⟩ w).1.err with
    | some e =>
      dsimp only
      by_cases hcode : e.code = Code.ENOTFOUND
      · rw [if_pos hcode]
        exact andThen_failsLast _ _ (fun msg h => Flow.noConfusion h)
          (fun w2 => createTable_failsLast env inst d _ w2)
      · rw [if_neg hcode]
        intro msg _
        exact ⟨[], _, rfl, by simp [Call.halts, hcode]⟩
    | none =>
      dsimp only
      cases hval : (env.FindTable ⟨some d.ID, some t.Name⟩ w).1.val with
      | none => intro msg h; exact Flow.noConfusion h
      | some st =>
        dsimp only
        cases hperr : (env.PatchTable ⟨st.ID, env.SYSTEM_BOT_ID, some SyncStatus.OK, some ts⟩
            (env.FindTable ⟨some d.ID, some t.Name⟩ w).2).1.err with
        | none => intro msg h; exact Flow.noConfusion h
        | some pe =>
          dsimp only
          intro msg _
          split <;> exact ⟨[_], _, rfl, rfl⟩

theorem forEach_syncTable_none_calls {W : Type} (env : Env W) (inst : Instance) (ts : Int)
    (xs : List TableSchema) (w : W) :
    (forEach (syncTable env inst none ts) xs w).calls = [] := by
  cases xs with
  | nil => rfl
  | cons x xs => rfl

theorem forEach_importTable_none_calls {W : Type} (env : Env W) (inst : Instance)
    (xs : List TableSchema) (w : W) :
    (forEach (importTable env inst none) xs w).calls = [] := by
  cases xs with
  | nil => rfl
  | cons x xs => rfl

/-- A table loop that follows the database-level call `dbc`, which returned the
record `d` without error: what halts it is reported as a failure in the
iteration of `d`. -/
theorem halts_of_tableLoop {W : Type} (inst : Instance) (d : Database) (dbc : Call)
    (hdbc : (∃ patch, dbc = Call.PatchDatabase patch (some d) none) ∨
      (∃ create, dbc = Call.CreateDatabase create (some d) none))
    (w0 : W) (k : W → Run W) (hk : (k w0).Halts (TableFailure inst d))
    (htab : ∀ a ∈ (k w0).calls, a.isTableCall = true) :
    ((Run.mk Flow.done w0 [dbc]).andThen k).Halts (Reported inst) := by
  rw [Run.andThen_mk_done]
  intro A B c hAB hc
  simp only at hAB ⊢
  rcases A with _ | ⟨a, A⟩
  · simp only [List.nil_append, List.singleton_append, List.cons.injEq] at hAB
    obtain ⟨rfl, _⟩ := hAB
    rcases hdbc with ⟨p, rfl⟩ | ⟨cr, rfl⟩ <;> simp [Call.halts, Call.err] at hc
  · simp only [List.singleton_append, List.cons_append, List.cons.injEq] at hAB
    obtain ⟨rfl, hk'⟩ := hAB
    rw [List.nil_append] at hk'
    obtain ⟨hB, hrep⟩ := hk A B c hk' hc
    refine ⟨hB, ?_⟩
    have hmid : ∀ x ∈ A, x.isTableCall = true := fun x hx =>
      htab x (by rw [hk']; exact List.mem_append_left _ hx)
    have hct : c.isTableCall = true := htab c (by rw [hk']; simp)
    have henc : Encloses (dbc :: A) d := ⟨[], dbc, A, rfl, hmid, hdbc⟩
    have hrep' := @tableFailure_append_left inst d A c _ [dbc] hrep
    cases c with
    | FindDatabaseList _ _ _ => simp [Call.isTableCall] at hct
    | PatchDatabase _ _ _ => simp [Call.isTableCall] at hct
    | CreateDatabase _ _ _ => simp [Call.isTableCall] at hct
    | FindTable _ _ err =>
      cases err with
      | none => simp [Call.halts, Call.err] at hc
      | some e => exact ⟨d, henc, hrep'⟩
    | CreateTable _ _ err =>
      cases err with
      | none => simp [Call.halts, Call.err] at hc
      | some e => exact ⟨d, henc, hrep'⟩
    | PatchTable _ _ err =>
      cases err with
      | none => simp [Call.halts, Call.err] at hc
      | some e => exact ⟨d, henc, hrep'⟩

theorem halts_mk_done_nil {W : Type} {report : List Call → Call → Flow → Prop}
    (w0 : W) (c0 : Call) (h0 : c0.halts = false) (k : W → Run W) (hk : (k w0).calls = []) :
    ((Run.mk Flow.done w0 [c0]).andThen k).Halts report := by
  rw [Run.andThen_mk_done]
  refine halts_of_calls_single _ c0 (by simp [hk]) (fun hc => ?_)
  rw [h0] at hc
  exact Bool.noConfusion hc

theorem syncMatched_halts {W : Type} (env : Env W) (inst : Instance) (matched : Database)
    (schema : DBSchema) (w : W) :
    (syncMatched env inst matched schema w).Halts (Reported inst) := by
  unfold syncMatched
  dsimp only
  cases herr : (env.PatchDatabase ⟨matched.ID, env.SYSTEM_BOT_ID, some SyncStatus.OK,
      some (env.Now w).1⟩ (env.Now w).2).1.err with
  | some e =>
    dsimp only
    cases hval : (env.PatchDatabase ⟨matched.ID, env.SYSTEM_BOT_ID, some SyncStatus.OK,
        some (env.Now w).1⟩ (env.Now w).2).1.val with
    | none => exact halts_of_calls_single _ _ rfl (fun _ => rfl)
    | some d =>
      dsimp only
      by_cases hcode : e.code = Code.ENOTFOUND
      · rw [if_pos hcode]
        exact halts_of_calls_single _ _ rfl (fun _ => by simp [Reported, hcode])
      · rw [if_neg hcode]
        exact halts_of_calls_single _ _ rfl (fun _ => by simp [Reported, hcode])
  | none =>
    dsimp only
    cases hval : (env.PatchDatabase ⟨matched.ID, env.SYSTEM_BOT_ID, some SyncStatus.OK,
        some (env.Now w).1⟩ (env.Now w).2).1.val with
    | none =>
      exact halts_mk_done_nil _ _ (by simp [Call.halts, Call.err]) _
        (forEach_syncTable_none_calls env inst _ _ _)
    | some d =>
      exact halts_of_tableLoop inst d _ (Or.inl ⟨_, rfl⟩) _ _
        (forEach_halts (fun X _ _ _ h => tableFailure_append_left X h)
          (fun _ _ h => tableFailure_not_done h) _
          (fun t w2 => syncTable_halts env inst d _ t w2) _ _)
        (fun a ha => forEach_syncTable_calls_isTableCall env inst _ _ _ _ a ha)

theorem syncNew_halts {W : Type} (env : Env W) (inst : Instance) (schema : DBSchema) (w : W) :
    (syncNew env inst schema w).Halts (Reported inst) := by
  unfold syncNew
  dsimp only
  cases herr : (env.CreateDatabase (databaseCreateOf env inst schema) w).1.err with
  | some e =>
    dsimp only
    by_cases hcode : e.code = Code.ECONFLICT
    · rw [if_pos hcode]
      exact halts_of_calls_single _ _ rfl (fun _ => by simp [Reported, hcode])
    · rw [if_neg hcode]
      exact halts_of_calls_single _ _ rfl (fun _ => by simp [Reported, hcode])
  | none =>
    dsimp only
    cases hval : (env.CreateDatabase (databaseCreateOf env inst schema) w).1.val with
    | none =>
      exact halts_mk_done_nil _ _ (by simp [Call.halts, Call.err]) _
        (forEach_importTable_none_calls env inst _ _)
    | some d =>
      exact halts_of_tableLoop inst d _ (Or.inr ⟨_, rfl⟩) _ _
        (forEach_halts (fun X _ _ _ h => tableFailure_append_left X h)
          (fun _ _ h => tableFailure_not_done h) _
          (fun t w2 => importTable_halts env inst d t w2) _ _)
        (fun a ha => forEach_importTable_calls_isTableCall env inst _ _ _ a ha)

theorem syncDatabase_halts {W : Type} (env : Env W) (inst : Instance)
    (dbList : List Database) (schema : DBSchema) (w : W) :
    (syncDatabase env inst dbList schema w).Halts (Reported inst) := by
  unfold syncDatabase
  split
  · exact halts_of_calls_nil _ rfl
  · split
    · exact syncMatched_halts env inst _ schema w
    · exact syncNew_halts env inst schema w

theorem markNotFound_halts {W : Type} (env : Env W) (inst : Instance)
    (schemaList : List DBSchema) (db : Database) (w : W) :
    (markNotFound env inst schemaList db w).Halts (Reported inst) := by
  unfold markNotFound
  split
  · exact halts_of_calls_nil _ rfl
  · dsimp only
    cases herr : (env.PatchDatabase ⟨db.ID, env.SYSTEM_BOT_ID, some SyncStatus.NotFound,
        some (env.Now w).1⟩ (env.Now w).2).1.err with
    | some e =>
      dsimp only
      cases hval : (env.PatchDatabase ⟨db.ID, env.SYSTEM_BOT_ID, some SyncStatus.NotFound,
          some (env.Now w).1⟩ (env.Now w).2).1.val with
      | none => exact halts_of_calls_single _ _ rfl (fun _ => rfl)
      | some d =>
        dsimp only
        by_cases hcode : e.code = Code.ENOTFOUND
        · rw [if_pos hcode]
          exact halts_of_calls_single _ _ rfl (fun _ => by simp [Reported, hcode])
        · rw [if_neg hcode]
          exact halts_of_calls_single _ _ rfl (fun _ => by simp [Reported, hcode])
    | none =>
      dsimp only
      refine halts_of_calls_single _ _ rfl (fun hc => ?_)
      simp [Call.halts, Call.err] at hc

theorem reconcile_halts {W : Type} (env : Env W) (inst : Instance)
    (schemaList : List DBSchema) (w : W) :
    (reconcile env inst schemaList w).Halts (Reported inst) := by
  unfold reconcile
  dsimp only
  cases herr : (env.FindDatabaseList ⟨some inst.ID⟩ w).1.2 with
  | some e =>
    dsimp only
    exact halts_of_calls_single _ _ rfl (fun _ => rfl)
  | none =>
    dsimp only
    have hpre : ∀ (X A : List Call) (c : Call) (f : Flow),
        Reported inst A c f → Reported inst (X ++ A) c f :=
      fun X _ _ _ h => reported_append_left X h
    have hdone : ∀ (A : List Call) (c : Call), ¬ Reported inst A c Flow.done :=
      fun _ _ h => reported_not_done h
    refine andThen_halts hpre hdone _ _ (andThen_halts hpre hdone _ _ ?_ ?_) ?_
    · refine halts_of_calls_single _ _ rfl (fun hc => ?_)
      simp [Call.halts, Call.err] at hc
    · exact fun w2 => forEach_halts hpre hdone _
        (fun s w3 => syncDatabase_halts env inst _ s w3) _ w2
    · exact fun w2 => forEach_halts hpre hdone _
        (fun db w3 => markNotFound_halts env inst _ db w3) _ w2

theorem syncMatched_failsLast {W : Type} (env : Env W) (inst : Instance) (matched : Database)
    (schema : DBSchema) (w : W) : (syncMatched env inst matched schema w).FailsLast := by
  unfold syncMatched
  dsimp only
  cases herr : (env.PatchDatabase ⟨matched.ID, env.SYSTEM_BOT_ID, some SyncStatus.OK,
      some (env.Now w).1⟩ (env.Now w).2).1.err with
  | some e =>
    dsimp only
    cases hval : (env.PatchDatabase ⟨matched.ID, env.SYSTEM_BOT_ID, some SyncStatus.OK,
        some (env.Now w).1⟩ (env.Now w).2).1.val with
    | none => intro msg h; exact Flow.noConfusion h
    | some d =>
      dsimp only
      intro msg _
      split <;> exact ⟨[], _, rfl, rfl⟩
  | none =>
    dsimp only
    exact andThen_failsLast _ _ (fun msg h => Flow.noConfusion h)
      (fun w2 => forEach_failsLast _ (fun t w3 => syncTable_failsLast env inst _ _ t w3) _ w2)

theorem syncNew_failsLast {W : Type} (env : Env W) (inst : Instance) (schema : DBSchema)
    (w : W) : (syncNew env inst schema w).FailsLast := by
  unfold syncNew
  dsimp only
  cases herr : (env.CreateDatabase (databaseCreateOf env inst schema) w).1.err with
  | some e =>
    dsimp only
    intro msg _
    split <;> exact ⟨[], _, rfl, rfl⟩
  | none =>
    dsimp only
    exact andThen_failsLast _ _ (fun msg h => Flow.noConfusion h)
      (fun w2 => forEach_failsLast _ (fun t w3 => importTable_failsLast env inst _ t w3) _ w2)

theorem syncDatabase_failsLast {W : Type} (env : Env W) (inst : Instance)
    (dbList : List Database) (schema : DBSchema) (w : W) :
    (syncDatabase env inst dbList schema w).FailsLast := by
  unfold syncDatabase
  split
  · intro msg h; exact Flow.noConfusion h
  · split
    · exact syncMatched_failsLast env inst _ schema w
    · exact syncNew_failsLast env inst schema w

theorem markNotFound_failsLast {W : Type} (env : Env W) (inst : Instance)
    (schemaList : List DBSchema) (db : Database) (w : W) :
    (markNotFound env inst schemaList db w).FailsLast := by
  unfold markNotFound
  split
  · intro msg h; exact Flow.noConfusion h
  · dsimp only
    cases herr : (env.PatchDatabase ⟨db.ID, env.SYSTEM_BOT_ID, some SyncStatus.NotFound,
        some (env.Now w).1⟩ (env.Now w).2).1.err with
    | some e =>
      dsimp only
      cases hval : (env.PatchDatabase ⟨db.ID, env.SYSTEM_BOT_ID, some SyncStatus.NotFound,
          some (env.Now w).1⟩ (env.Now w).2).1.val with
      | none => intro msg h; exact Flow.noConfusion h
      | some d =>
        dsimp only
        intro msg _
        split <;> exact ⟨[], _, rfl, rfl⟩
    | none => intro msg h; exact Flow.noConfusion h

theorem reconcile_failsLast {W : Type} (env : Env W) (inst : Instance)
    (schemaList : List DBSchema) (w : W) : (reconcile env inst schemaList w).FailsLast := by
  unfold reconcile
  dsimp only
  cases herr : (env.FindDatabaseList ⟨some inst.ID⟩ w).1.2 with
  | some e =>
    dsimp only
    intro msg _
    exact ⟨[], _, rfl, rfl⟩
  | none =>
    dsimp only
    refine andThen_failsLast _ _ (andThen_failsLast _ _ (fun msg h => Flow.noConfusion h) ?_) ?_
    · exact fun w2 => forEach_failsLast _
        (fun s w3 => syncDatabase_failsLast env inst _ s w3) _ w2
    · exact fun w2 => forEach_failsLast _
        (fun db w3 => markNotFound_failsLast env inst _ db w3) _ w2

/-! ## What a run leaves behind -/

theorem RunStep.label {inst : Instance} {S : List DBSchema} {dbList : List Database}
    {tick0 : Nat} {c c' : Catalog} {l : List Call} (h : RunStep inst S dbList tick0 c l c') :
    l = [] ∨ ∃ x, l = [x] := by
  cases h <;> simp

/-- A sequence of steps splits at each call it records. -/
theorem Trace.split_at {inst : Instance} {S : List DBSchema} {dbList : List Database}
    {tick0 : Nat} {c c' : Catalog} {l : List Call}
    (h : Trace inst S dbList tick0 c l c') (A B : List Call) (x : Call)
    (hl : l = A ++ x :: B) :
    ∃ a b, Trace inst S dbList tick0 c A a ∧ RunStep inst S dbList tick0 a [x] b ∧
      Trace inst S dbList tick0 b B c' := by
  induction h generalizing A with
  | nil c => simp at hl
  | cons hs htr ih =>
    rcases hs.label with rfl | ⟨y, rfl⟩
    · obtain ⟨a, b, h1, h2, h3⟩ := ih A (by simpa using hl)
      have := Trace.cons hs h1
      exact ⟨a, b, by simpa using this, h2, h3⟩
    · rcases A with _ | ⟨z, A⟩
      · simp only [List.singleton_append, List.nil_append, List.cons.injEq] at hl
        obtain ⟨rfl, rfl⟩ := hl
        exact ⟨_, _, Trace.nil _, hs, htr⟩
      · simp only [List.singleton_append, List.cons_append, List.cons.injEq] at hl
        obtain ⟨rfl, hl⟩ := hl
        obtain ⟨a, b, h1, h2, h3⟩ := ih A hl
        exact ⟨a, b, Trace.cons hs h1, h2, h3⟩

theorem RunStep.holdsDatabase_step {inst : Instance} {S : List DBSchema}
    {dbList : List Database} {tick0 : Nat} {c0 c c' : Catalog} {l : List Call}
    (h : RunStep inst S dbList tick0 c l c') (ht : Tracks dbList c0 c)
    (d : Database) (hside : Settled S d) (hp : c.holdsDatabase d) : c'.holdsDatabase d := by
  obtain ⟨r, hr, hid, hn, hin, hst⟩ := hp
  have hsame : c'.databases = c.databases → c'.holdsDatabase d := fun hd =>
    ⟨r, by rw [hd]; exact hr, hid, hn, hin, hst⟩
  cases h with
  | now => exact hsame rfl
  | findDatabaseList find => exact hsame rfl
  | patchOK m bot ts hm hlive _ =>
    refine ⟨_, by rw [patchDatabase_databases]; exact List.mem_map_of_mem _ hr, ?_⟩
    by_cases ha : (r.ID == m.ID) = true
    · simp only [ha, if_true]
      refine ⟨hid, hn, hin, ?_⟩
      rcases hside with ⟨hok, _⟩ | ⟨_, hno⟩
      · rw [hok]; rfl
      · obtain ⟨s, hs, hsn⟩ := hlive
        obtain ⟨hname, _⟩ := ht.same m hm r hr (by simpa using ha)
        exact absurd (by rw [hsn, ← hname, hn]) (hno s hs)
    · simp only [ha]
      exact ⟨hid, hn, hin, hst⟩
  | patchNotFound db bot ts hdb hno _ =>
    refine ⟨_, by rw [patchDatabase_databases]; exact List.mem_map_of_mem _ hr, ?_⟩
    by_cases ha : (r.ID == db.ID) = true
    · simp only [ha, if_true]
      refine ⟨hid, hn, hin, ?_⟩
      rcases hside with ⟨_, s, hs, hsn⟩ | ⟨hnf, _⟩
      · obtain ⟨hname, _⟩ := ht.same db hdb r hr (by simpa using ha)
        exact absurd (by rw [hsn, ← hn, hname]) (hno s hs)
      · rw [hnf]; rfl
    · simp only [ha]
      exact ⟨hid, hn, hin, hst⟩
  | createDatabase create _ _ =>
    rcases createDatabase_cases create c with ⟨_, hc, _⟩ | ⟨d', _, _, _, _, _, _, hd, _⟩
    · exact hsame (by rw [hc])
    · exact ⟨r, by rw [hd]; simp [hr], hid, hn, hin, hst⟩
  | findTable id' name' _ => exact hsame rfl
  | createTable create _ =>
    rcases createTable_cases create c with ⟨_, hc, _⟩ | ⟨t, _, _, _, _, _, _, _, hd, _⟩
    · exact hsame (by rw [hc])
    · exact hsame hd
  | patchTable u0 bot ts _ _ _ => exact hsame (patchTable_rest _ c).1

theorem RunStep.holdsTable_step {inst : Instance} {S : List DBSchema}
    {dbList : List Database} {tick0 : Nat} {c c' : Catalog} {l : List Call}
    (h : RunStep inst S dbList tick0 c l c')
    (t : Table) (hok : t.SyncStatus = SyncStatus.OK) (hp : c.holdsTable t) :
    c'.holdsTable t := by
  obtain ⟨u, hu, hid, hdb, hsh, hst⟩ := hp
  have hsame : c'.tables = c.tables → c'.holdsTable t := fun hd =>
    ⟨u, by rw [hd]; exact hu, hid, hdb, hsh, hst⟩
  cases h with
  | now => exact hsame rfl
  | findDatabaseList find => exact hsame rfl
  | patchOK m bot ts _ _ _ => exact hsame (patchDatabase_rest _ c).1
  | patchNotFound db bot ts _ _ _ => exact hsame (patchDatabase_rest _ c).1
  | createDatabase create _ _ =>
    rcases createDatabase_cases create c with ⟨_, hc, _⟩ | ⟨d', _, _, _, _, _, _, _, hd, _⟩
    · exact hsame (by rw [hc])
    · exact hsame hd
  | findTable id' name' _ => exact hsame rfl
  | createTable create _ =>
    rcases createTable_cases create c with ⟨_, hc, _⟩ | ⟨t', _, _, _, _, _, _, hd, _⟩
    · exact hsame (by rw [hc])
    · exact ⟨u, by rw [hd]; simp [hu], hid, hdb, hsh, hst⟩
  | patchTable u0 bot ts _ _ _ =>
    refine ⟨_, by rw [patchTable_tables]; exact List.mem_map_of_mem _ hu, ?_⟩
    by_cases ha : (u.ID == u0.ID) = true
    · simp only [ha, if_true]
      exact ⟨hid, hdb, hsh, by rw [hok]; rfl⟩
    · simp only [ha]
      exact ⟨hid, hdb, hsh, hst⟩

/-- The database record a step's call returned is in the state after the step,
and its status agrees with the snapshot. -/
theorem RunStep.returns_database {inst : Instance} {S : List DBSchema}
    {dbList : List Database} {tick0 : Nat} {c0 c c' : Catalog} {l : List Call}
    (h : RunStep inst S dbList tick0 c l c') (ht : Tracks dbList c0 c)
    (call : Call) (hl : l = [call]) (d : Database) (hd : call.database = some d) :
    c'.holdsDatabase d ∧ Settled S d := by
  cases h with
  | now => simp at hl
  | findDatabaseList find =>
    simp only [List.cons.injEq, and_true] at hl
    subst hl
    simp [Call.database] at hd
  | patchOK m bot ts hm hlive _ =>
    simp only [List.cons.injEq, and_true] at hl
    subst hl
    rcases patchDatabase_result ⟨m.ID, bot, some SyncStatus.OK, some ts⟩ c with
      ⟨herr, r, hr, hid, hval⟩ | ⟨⟨e, herr⟩, hval, _⟩
    · rw [herr, hval] at hd
      simp only [Call.database, Option.some.injEq] at hd
      subst hd
      refine ⟨⟨_, ?_, rfl, rfl, rfl, rfl⟩, Or.inl ⟨rfl, ?_⟩⟩
      · rw [patchDatabase_databases]
        exact List.mem_map.mpr ⟨r, hr, by simp [hid]⟩
      · obtain ⟨s, hs, hsn⟩ := hlive
        exact ⟨s, hs, by rw [applyDatabasePatch_Name, (ht.same m hm r hr hid).1, hsn]⟩
    · rw [herr, hval] at hd
      simp [Call.database] at hd
  | patchNotFound db bot ts hdb hno _ =>
    simp only [List.cons.injEq, and_true] at hl
    subst hl
    rcases patchDatabase_result ⟨db.ID, bot, some SyncStatus.NotFound, some ts⟩ c with
      ⟨herr, r, hr, hid, hval⟩ | ⟨⟨e, herr⟩, hval, _⟩
    · rw [herr, hval] at hd
      simp only [Call.database, Option.some.injEq] at hd
      subst hd
      refine ⟨⟨_, ?_, rfl, rfl, rfl, rfl⟩, Or.inr ⟨rfl, ?_⟩⟩
      · rw [patchDatabase_databases]
        exact List.mem_map.mpr ⟨r, hr, by simp [hid]⟩
      · intro s hs
        rw [applyDatabasePatch_Name, (ht.same db hdb r hr hid).1]
        exact hno s hs
    · rw [herr, hval] at hd
      simp [Call.database] at hd
  | createDatabase create _ hlive =>
    simp only [List.cons.injEq, and_true] at hl
    subst hl
    rcases createDatabase_cases create c with
      ⟨⟨e, hc⟩, _, _⟩ | ⟨d', hc, _, _, hname, hok, _, hdbs, _⟩
    · rw [hc] at hd
      simp [Call.database] at hd
    · rw [hc] at hd
      simp only [Call.database, Option.some.injEq] at hd
      subst hd
      refine ⟨⟨d', by rw [hdbs]; simp, rfl, rfl, rfl, rfl⟩, Or.inl ⟨hok, ?_⟩⟩
      obtain ⟨s, hs, hsn⟩ := hlive
      exact ⟨s, hs, by rw [hsn, hname]⟩
  | findTable id' name' _ =>
    simp only [List.cons.injEq, and_true] at hl
    subst hl
    simp [Call.database] at hd
  | createTable create _ =>
    simp only [List.cons.injEq, and_true] at hl
    subst hl
    simp [Call.database] at hd
  | patchTable u0 bot ts _ _ _ =>
    simp only [List.cons.injEq, and_true] at hl
    subst hl
    simp [Call.database] at hd

/-- The table record a step's call returned is in the state after the step,
with `SyncStatus = OK`. -/
theorem RunStep.returns_table {inst : Instance} {S : List DBSchema}
    {dbList : List Database} {tick0 : Nat} {c c' : Catalog} {l : List Call}
    (h : RunStep inst S dbList tick0 c l c')
    (call : Call) (hl : l = [call]) (t : Table) (hd : call.table = some t) :
    c'.holdsTable t ∧ t.SyncStatus = SyncStatus.OK := by
  cases h with
  | now => simp at hl
  | findDatabaseList find =>
    simp only [List.cons.injEq, and_true] at hl
    subst hl
    simp [Call.table] at hd
  | patchOK m bot ts hm hlive _ =>
    simp only [List.cons.injEq, and_true] at hl
    subst hl
    simp [Call.table] at hd
  | patchNotFound db bot ts hdb hno _ =>
    simp only [List.cons.injEq, and_true] at hl
    subst hl
    simp [Call.table] at hd
  | createDatabase create _ hlive =>
    simp only [List.cons.injEq, and_true] at hl
    subst hl
    simp [Call.table] at hd
  | findTable id' name' _ =>
    simp only [List.cons.injEq, and_true] at hl
    subst hl
    simp [Call.table] at hd
  | createTable create _ =>
    simp only [List.cons.injEq, and_true] at hl
    subst hl
    rcases createTable_cases create c with
      ⟨⟨e, hc⟩, _, _⟩ | ⟨t', hc, _, _, _, hok, _, htabs, _⟩
    · rw [hc] at hd
      simp [Call.table] at hd
    · rw [hc] at hd
      simp only [Call.table, Option.some.injEq] at hd
      subst hd
      exact ⟨⟨t', by rw [htabs]; simp, rfl, rfl, rfl, rfl⟩, hok⟩
  | patchTable u0 bot ts _ _ _ =>
    simp only [List.cons.injEq, and_true] at hl
    subst hl
    rcases patchTable_result ⟨u0.ID, bot, some SyncStatus.OK, some ts⟩ c with
      ⟨herr, r, hr, hid, hval⟩ | ⟨⟨e, herr⟩, hval, _⟩
    · rw [herr, hval] at hd
      simp only [Call.table, Option.some.injEq] at hd
      subst hd
      refine ⟨⟨_, ?_, rfl, rfl, rfl, rfl⟩, rfl⟩
      rw [patchTable_tables]
      exact List.mem_map.mpr ⟨r, hr, by simp [hid]⟩
    · rw [herr, hval] at hd
      simp [Call.table] at hd

/-- Against the store, from a well-formed catalog: whatever record a call of
the run returned without error, the catalog the run leaves holds it. -/
theorem SyncSchema_catalog_holds (bot project : Int) (open_ : ConnectionConfig → Ret Driver)
    (inst : Instance) (C : Catalog) (hwf : C.WF) (call : Call)
    (hc : call ∈ (SyncSchema (catalogEnv bot project open_) inst C).calls) :
    (∀ d, call.database = some d →
      (SyncSchema (catalogEnv bot project open_) inst C).world.holdsDatabase d) ∧
    (∀ t, call.table = some t →
      (SyncSchema (catalogEnv bot project open_) inst C).world.holdsTable t) := by
  obtain ⟨S, htr⟩ := SyncSchema_catalog_trace bot project open_ inst C hwf
  obtain ⟨A, B, hAB⟩ := List.append_of_mem hc
  obtain ⟨a, b, h1, h2, h3⟩ := htr.split_at A B call hAB
  have hta := h1.tracks (Tracks.init inst C hwf)
  have htb := h2.tracks_step hta
  constructor
  · intro d hd
    obtain ⟨hb, hside⟩ := h2.returns_database hta call rfl d hd
    exact (Trace.keeps (fun x => x.holdsDatabase d)
      (fun _ _ _ htx hstep hp => hstep.holdsDatabase_step htx d hside hp) h3 htb hb).2
  · intro t hd
    obtain ⟨hb, hok⟩ := h2.returns_table call rfl t hd
    exact (Trace.keeps (fun x => x.holdsTable t)
      (fun _ _ _ _ hstep hp => hstep.holdsTable_step t hok hp) h3 htb hb).2

/-! ## C13: a name conflict on create -/

theorem finish_outcome_flow {W : Type} (r : Run W) (w : W) :
    (finish r).outcome = (finish (Run.mk r.flow w [])).outcome := by
  unfold finish
  cases r.flow <;> rfl

/-- The call that halts a run is its last call, and the run ends as `Reported`
says of it: with the error text, or with a nil dereference. -/
theorem SyncSchema_halts {W : Type} (env : Env W) (inst : Instance) (w : W)
    (A B : List Call) (c : Call) (h : (SyncSchema env inst w).calls = A ++ c :: B)
    (hc : c.halts = true) :
    B = [] ∧ ∃ f, Reported inst A c f ∧
      (SyncSchema env inst w).outcome = (finish (Run.mk f w [])).outcome := by
  unfold SyncSchema at h ⊢
  dsimp only at h ⊢
  split at h
  · simp at h
  · split at h
    · simp at h
    · split at h
      · simp at h
      · rw [finish_calls] at h
        obtain ⟨hB, hrep⟩ := reconcile_halts env inst _ w A B c h hc
        exact ⟨hB, _, hrep, finish_outcome_flow _ w⟩

/-- C13: a name conflict on create is reported with its context and halts the
run.  If a `CreateTable` of the run fails with a conflict error, it is the last
call of the run, it belongs to the iteration of the record `d` that the latest
database-level call returned, and the run returns the `Error` "failed to sync
table for instance: <instance name>, database: <name of d>. Table name already
exists: <table name>".  If a `CreateDatabase` fails with a conflict error, it
is the last call of the run and the `Error` is "failed to sync database for
instance: <instance name>. Database name already exists: <database name>".
Against the store, from a well-formed catalog, every record a call of the run
returned without error is held by the catalog the run leaves: nothing is
rolled back. -/
theorem C13_conflict_on_create_halts {W : Type} (env : Env W) (inst : Instance) (w : W) :
    (∀ A B create ret e,
      (SyncSchema env inst w).calls = A ++ Call.CreateTable create ret (some e) :: B →
      e.code = Code.ECONFLICT →
      B = [] ∧ ∃ d, Encloses A d ∧ create.DatabaseId = d.ID ∧
        (SyncSchema env inst w).outcome = Outcome.returned
          ⟨"failed to sync table for instance: " ++ inst.Name ++ ", database: " ++ d.Name
            ++ ". Table name already exists: " ++ create.Name⟩) ∧
    (∀ A B create ret e,
      (SyncSchema env inst w).calls = A ++ Call.CreateDatabase create ret (some e) :: B →
      e.code = Code.ECONFLICT →
      B = [] ∧ (SyncSchema env inst w).outcome = Outcome.returned
        ⟨"failed to sync database for instance: " ++ inst.Name
          ++ ". Database name already exists: " ++ create.Name⟩) ∧
    (∀ bot project open_ C, C.WF →
      ∀ call ∈ (SyncSchema (catalogEnv bot project open_) inst C).calls,
        (∀ d, call.database = some d →
          (SyncSchema (catalogEnv bot project open_) inst C).world.holdsDatabase d) ∧
        (∀ t, call.table = some t →
          (SyncSchema (catalogEnv bot project open_) inst C).world.holdsTable t)) := by
  refine ⟨?_, ?_, ?_⟩
  · intro A B create ret e h hcode
    obtain ⟨hB, f, hrep, hout⟩ := SyncSchema_halts env inst w A B _ h rfl
    obtain ⟨d, henc, hid, hf⟩ := hrep
    refine ⟨hB, d, henc, hid, ?_⟩
    rw [hout, hf, if_pos hcode]
    rfl
  · intro A B create ret e h hcode
    obtain ⟨hB, f, hrep, hout⟩ := SyncSchema_halts env inst w A B _ h rfl
    have hf : f = Flow.fail _ := hrep
    refine ⟨hB, ?_⟩
    rw [hout, hf, if_pos hcode]
    rfl
  · intro bot project open_ C hwf call hc
    exact SyncSchema_catalog_holds bot project open_ inst C hwf call hc

/-- C13 at the empty catalog.  The live `orders` reports `items` twice: the
second `CreateTable` conflicts, is the last call, and the message names `prod`,
`orders` and `items`.  The snapshot reports `orders` twice: the second
`CreateDatabase` conflicts, is the last call, and the catalog still holds the
`orders` and `items` records created before it. -/
theorem C13_conflict_on_create_halts_witness :
    ([] = ([] : List Call) ∧ ∃ d,
      Encloses
        [Call.FindDatabaseList ⟨some 7⟩ [] none,
         Call.CreateDatabase (databaseCreateOf (catalogEnv 1 1 (liveOpen [twinItems]))
           prodInstance twinItems) (some { ordersRecord with LastSuccessfulSyncTs := 1000 }) none,
         Call.CreateTable (tableCreateOf (catalogEnv 1 1 (liveOpen [twinItems])) ordersRecord
           itemsTable) (some { itemsRecord with LastSuccessfulSyncTs := 1001 }) none] d ∧
      (tableCreateOf (catalogEnv 1 1 (liveOpen [twinItems])) ordersRecord itemsTable).DatabaseId
        = d.ID ∧
      (SyncSchema (catalogEnv 1 1 (liveOpen [twinItems])) prodInstance emptyCatalog).outcome
        = Outcome.returned
          ⟨"failed to sync table for instance: " ++ prodInstance.Name ++ ", database: "
            ++ d.Name ++ ". Table name already exists: "
            ++ (tableCreateOf (catalogEnv 1 1 (liveOpen [twinItems])) ordersRecord
              itemsTable).Name⟩) ∧
    ([] = ([] : List Call) ∧
      (SyncSchema (catalogEnv 1 1 (liveOpen twiceOrders)) prodInstance emptyCatalog).outcome
        = Outcome.returned
          ⟨"failed to sync database for instance: prod. Database name already exists: orders"⟩) ∧
    (SyncSchema (catalogEnv 1 1 (liveOpen twiceOrders)) prodInstance
        emptyCatalog).world.holdsDatabase { ordersRecord with LastSuccessfulSyncTs := 1000 } ∧
    (SyncSchema (catalogEnv 1 1 (liveOpen twiceOrders)) prodInstance
        emptyCatalog).world.holdsTable { itemsRecord with LastSuccessfulSyncTs := 1001 } :=
  ⟨(C13_conflict_on_create_halts (catalogEnv 1 1 (liveOpen [twinItems])) prodInstance
      emptyCatalog).1 _ [] _ none ⟨Code.ECONFLICT, "table name already exists"⟩
      (by decide) rfl,
    (C13_conflict_on_create_halts (catalogEnv 1 1 (liveOpen twiceOrders)) prodInstance
      emptyCatalog).2.1
      [Call.FindDatabaseList ⟨some 7⟩ [] none,
       Call.CreateDatabase (databaseCreateOf (catalogEnv 1 1 (liveOpen twiceOrders))
         prodInstance ordersSchema) (some { ordersRecord with LastSuccessfulSyncTs := 1000 }) none,
       Call.CreateTable (tableCreateOf (catalogEnv 1 1 (liveOpen twiceOrders)) ordersRecord
         itemsTable) (some { itemsRecord with LastSuccessfulSyncTs := 1001 }) none]
      [] (databaseCreateOf (catalogEnv 1 1 (liveOpen twiceOrders)) prodInstance ordersSchema)
      none ⟨Code.ECONFLICT, "database name already exists"⟩ (by decide) rfl,
    ((C13_conflict_on_create_halts (catalogEnv 1 1 (liveOpen twiceOrders)) prodInstance
      emptyCatalog).2.2 1 1 (liveOpen twiceOrders) emptyCatalog emptyCatalog_wf
      (Call.CreateDatabase (databaseCreateOf (catalogEnv 1 1 (liveOpen twiceOrders))
        prodInstance ordersSchema) (some { ordersRecord with LastSuccessfulSyncTs := 1000 }) none)
      (by decide)).1 _ rfl,
    ((C13_conflict_on_create_halts (catalogEnv 1 1 (liveOpen twiceOrders)) prodInstance
      emptyCatalog).2.2 1 1 (liveOpen twiceOrders) emptyCatalog emptyCatalog_wf
      (Call.CreateTable (tableCreateOf (catalogEnv 1 1 (liveOpen twiceOrders)) ordersRecord
        itemsTable) (some { itemsRecord with LastSuccessfulSyncTs := 1001 }) none)
      (by decide)).2 _ rfl⟩

/-! ## C14: the context of a failure message -/

theorem mentions_append_self (a n : String) : Mentions (a ++ n) n := by
  unfold Mentions
  rw [String.toList, String.toList, String.data_append]
  exact (List.suffix_append _ _).isInfix

theorem mentions_append_left {s n : String} (t : String) (h : Mentions s n) :
    Mentions (s ++ t) n := by
  unfold Mentions at h ⊢
  rw [String.toList, String.toList, String.data_append]
  exact h.trans (List.prefix_append _ _).isInfix

theorem finish_outcome_returned {W : Type} (r : Run W) (msg : String)
    (h : (finish r).outcome = Outcome.returned ⟨msg⟩) (hne : msg ≠ "") :
    r.flow = Flow.fail msg := by
  unfold finish at h
  cases hf : r.flow with
  | done =>
    rw [hf] at h
    simp only [Outcome.returned.injEq, SqlResultSet.mk.injEq] at h
    exact absurd h.symm hne
  | fail m =>
    rw [hf] at h
    simp only [Outcome.returned.injEq, SqlResultSet.mk.injEq] at h
    rw [h]
  | fault =>
    rw [hf] at h
    exact Outcome.noConfusion h

/-- A run that returns a non-empty `Error` failed to connect, or failed at
introspection, or was halted by its last catalog call, which is reported. -/
theorem SyncSchema_failure_cases {W : Type} (env : Env W) (inst : Instance) (w : W)
    (msg : String) (hout : (SyncSchema env inst w).outcome = Outcome.returned ⟨msg⟩)
    (hne : msg ≠ "") :
    (∃ e, (env.Open (connectionOf inst)).err = some e ∧
      msg = "failed to connect instance: " ++ inst.Name ++ " with user: " ++ inst.Username
        ++ ". Error " ++ e.msg) ∨
    (∃ driver e, env.Open (connectionOf inst) = ⟨some driver, none⟩ ∧
      driver.syncErr = some e ∧ msg = e.msg) ∨
    (∃ A c, (SyncSchema env inst w).calls = A ++ [c] ∧ c.halts = true ∧
      Reported inst A c (Flow.fail msg)) := by
  unfold SyncSchema at hout ⊢
  dsimp only at hout ⊢
  cases herr : (env.Open (connectionOf inst)).err with
  | some e =>
    rw [herr] at hout
    simp only [Outcome.returned.injEq, SqlResultSet.mk.injEq] at hout
    exact Or.inl ⟨e, rfl, hout.symm⟩
  | none =>
    rw [herr] at hout
    dsimp only at hout ⊢
    cases hval : (env.Open (connectionOf inst)).val with
    | none =>
      rw [hval] at hout
      exact Outcome.noConfusion hout
    | some driver =>
      rw [hval] at hout
      dsimp only at hout ⊢
      cases hsync : driver.syncErr with
      | some e =>
        rw [hsync] at hout
        simp only [Outcome.returned.injEq, SqlResultSet.mk.injEq] at hout
        refine Or.inr (Or.inl ⟨driver, e, ?_, hsync, hout.symm⟩)
        cases ho : env.Open (connectionOf inst) with
        | mk v e' =>
          rw [ho] at herr hval
          simp only at herr hval
          rw [herr, hval]
      | none =>
        rw [hsync] at hout
        dsimp only at hout ⊢
        have hflow := finish_outcome_returned _ msg hout hne
        obtain ⟨A, c, hA, hc⟩ := reconcile_failsLast env inst driver.schemaList w msg hflow
        have hrep := (reconcile_halts env inst driver.schemaList w A [] c hA hc).2
        rw [hflow] at hrep
        exact Or.inr (Or.inr ⟨A, c, by rw [finish_calls]; exact hA, hc, hrep⟩)

set_option maxRecDepth 100000 in
/-- C14, refuted as stated: an introspection failure is returned as the
driver's own text, which does not name the instance, and a failed `FindTable`
is reported without the name of the table it looked for. -/
theorem C14_failure_without_context :
    (SyncSchema (catalogEnv 1 1 (liveBroken ⟨Code.EINTERNAL, "down"⟩)) prodInstance
      ordersCatalog).outcome = Outcome.returned ⟨"down"⟩ ∧
    ¬ Mentions "down" prodInstance.Name ∧
    (SyncSchema (brokenFindEnv (liveOpen [ordersSchema])) prodInstance ordersCatalog).calls
      = [Call.FindDatabaseList ⟨some 7⟩ [ordersRecord] none,
         Call.PatchDatabase ⟨1, 1, some SyncStatus.OK, some 1000⟩
           (some { ordersRecord with LastSuccessfulSyncTs := 1000 }) none,
         Call.FindTable ⟨some 1, some "items"⟩ none
           (some ⟨Code.EINTERNAL, "database is locked"⟩)] ∧
    (SyncSchema (brokenFindEnv (liveOpen [ordersSchema])) prodInstance ordersCatalog).outcome
      = Outcome.returned
        ⟨"failed to sync table for instance: prod, database: orders. Error database is locked"⟩ ∧
    ¬ Mentions "failed to sync table for instance: prod, database: orders. Error database is locked"
      itemsTable.Name := by
  refine ⟨by decide, by decide, by decide, by decide, ?_⟩
  decide

/-- C14, amended: a run that returns a non-empty `Error` is in one of three
cases.  The connection failed, and the `Error` is the text of line 102, which
contains the instance name.  Or introspection failed, and the `Error` is the
driver's own text, with no context added.  Or the last catalog call of the run
failed, and the `Error` contains the instance name; it contains in addition
the name of the record returned with a failed `PatchDatabase`, the name
requested by a failed `CreateDatabase`, for a failed table call the name of the
database record its iteration works on, and the table name for a failed
`CreateTable` (the name requested) or `PatchTable` (the name of the record
found just before).  For a failed `FindTable` the `Error` is the text of line
191, which carries the instance and the database but not the table. -/
theorem C14_failure_context {W : Type} (env : Env W) (inst : Instance) (w : W) (msg : String)
    (hout : (SyncSchema env inst w).outcome = Outcome.returned ⟨msg⟩) (hne : msg ≠ "") :
    (∃ e, (env.Open (connectionOf inst)).err = some e ∧
      msg = "failed to connect instance: " ++ inst.Name ++ " with user: " ++ inst.Username
        ++ ". Error " ++ e.msg ∧ Mentions msg inst.Name) ∨
    (∃ driver e, env.Open (connectionOf inst) = ⟨some driver, none⟩ ∧
      driver.syncErr = some e ∧ msg = e.msg) ∨
    (∃ A c, (SyncSchema env inst w).calls = A ++ [c] ∧ c.halts = true ∧
      Mentions msg inst.Name ∧
      (∀ patch d e, c = Call.PatchDatabase patch (some d) (some e) → Mentions msg d.Name) ∧
      (∀ create ret e, c = Call.CreateDatabase create ret (some e) →
        Mentions msg create.Name) ∧
      (c.isTableCall = true → ∃ d, Encloses A d ∧ Mentions msg d.Name) ∧
      (∀ find ret e, c = Call.FindTable find ret (some e) →
        ∃ d, Encloses A d ∧
          msg = "failed to sync table for instance: " ++ inst.Name ++ ", database: "
            ++ d.Name ++ ". Error " ++ e.msg) ∧
      (∀ create ret e, c = Call.CreateTable create ret (some e) →
        Mentions msg create.Name) ∧
      (∀ patch ret e, c = Call.PatchTable patch ret (some e) →
        ∃ A' find st, A = A' ++ [Call.FindTable find (some st) none] ∧ patch.ID = st.ID ∧
          Mentions msg st.Name)) := by
  rcases SyncSchema_failure_cases env inst w msg hout hne with
    ⟨e, he, hmsg⟩ | ⟨driver, e, ho, hs, hmsg⟩ | ⟨A, c, hA, hc, hrep⟩
  · refine Or.inl ⟨e, he, hmsg, ?_⟩
    rw [hmsg]
    repeat (first | exact mentions_append_self _ _ | apply mentions_append_left)
  · exact Or.inr (Or.inl ⟨driver, e, ho, hs, hmsg⟩)
  · refine Or.inr (Or.inr ⟨A, c, hA, hc, ?_⟩)
    cases c with
    | FindDatabaseList find l err =>
      cases err with
      | none => exact absurd hrep id
      | some e =>
        have hmsg : Flow.fail msg = Flow.fail _ := hrep
        simp only [Flow.fail.injEq] at hmsg
        refine ⟨?_, ?_, ?_, ?_, ?_, ?_, ?_⟩
        · rw [hmsg]
          repeat (first | exact mentions_append_self _ _ | apply mentions_append_left)
        · intro _ _ _ h; exact Call.noConfusion h
        · intro _ _ _ h; exact Call.noConfusion h
        · intro h; exact Bool.noConfusion h
        · intro _ _ _ h; exact Call.noConfusion h
        · intro _ _ _ h; exact Call.noConfusion h
        · intro _ _ _ h; exact Call.noConfusion h
    | PatchDatabase patch ret err =>
      cases err with
      | none => cases ret <;> exact absurd hrep id
      | some e =>
        cases ret with
        | none =>
          have : Flow.fail msg = Flow.fault := hrep
          exact Flow.noConfusion this
        | some d =>
          have hmsg : Flow.fail msg = Flow.fail _ := hrep
          simp only [Flow.fail.injEq] at hmsg
          refine ⟨?_, ?_, ?_, ?_, ?_, ?_, ?_⟩
          · rw [hmsg]
            split
            · repeat (first | exact mentions_append_self _ _ | apply mentions_append_left)
            · repeat (first | exact mentions_append_self _ _ | apply mentions_append_left)
          · intro p d' e' h
            simp only [Call.PatchDatabase.injEq, Option.some.injEq] at h
            obtain ⟨_, rfl, _⟩ := h
            rw [hmsg]
            split
            · repeat (first | exact mentions_append_self _ _ | apply mentions_append_left)
            · repeat (first | exact mentions_append_self _ _ | apply mentions_append_left)
          · intro _ _ _ h; exact Call.noConfusion h
          · intro h; exact Bool.noConfusion h
          · intro _ _ _ h; exact Call.noConfusion h
          · intro _ _ _ h; exact Call.noConfusion h
          · intro _ _ _ h; exact Call.noConfusion h
    | CreateDatabase create ret err =>
      cases err with
      | none => exact absurd hrep id
      | some e =>
        have hmsg : Flow.fail msg = Flow.fail _ := hrep
        simp only [Flow.fail.injEq] at hmsg
        refine ⟨?_, ?_, ?_, ?_, ?_, ?_, ?_⟩
        · rw [hmsg]
          split
          · repeat (first | exact mentions_append_self _ _ | apply mentions_append_left)
          · repeat (first | exact mentions_append_self _ _ | apply mentions_append_left)
        · intro _ _ _ h; exact Call.noConfusion h
        · intro cr r' e' h
          simp only [Call.CreateDatabase.injEq] at h
          obtain ⟨rfl, _, _⟩ := h
          rw [hmsg]
          split
          · repeat (first | exact mentions_append_self _ _ | apply mentions_append_left)
          · repeat (first | exact mentions_append_self _ _ | apply mentions_append_left)
        · intro h; exact Bool.noConfusion h
        · intro _ _ _ h; exact Call.noConfusion h
        · intro _ _ _ h; exact Call.noConfusion h
        · intro _ _ _ h; exact Call.noConfusion h
    | FindTable find ret err =>
      cases err with
      | none => exact absurd hrep id
      | some e =>
        obtain ⟨d, henc, hf⟩ := hrep
        have hmsg : Flow.fail msg = Flow.fail _ := hf
        simp only [Flow.fail.injEq] at hmsg
        refine ⟨?_, ?_, ?_, ?_, ?_, ?_, ?_⟩
        · rw [hmsg]
          repeat (first | exact mentions_append_self _ _ | apply mentions_append_left)
        · intro _ _ _ h; exact Call.noConfusion h
        · intro _ _ _ h; exact Call.noConfusion h
        · intro _
          refine ⟨d, henc, ?_⟩
          rw [hmsg]
          repeat (first | exact mentions_append_self _ _ | apply mentions_append_left)
        · intro f r' e' h
          simp only [Call.FindTable.injEq, Option.some.injEq] at h
          obtain ⟨_, _, rfl⟩ := h
          exact ⟨d, henc, hmsg⟩
        · intro _ _ _ h; exact Call.noConfusion h
        · intro _ _ _ h; exact Call.noConfusion h
    | CreateTable create ret err =>
      cases err with
      | none => exact absurd hrep id
      | some e =>
        obtain ⟨d, henc, _, hf⟩ := hrep
        have hmsg : Flow.fail msg = Flow.fail _ := hf
        simp only [Flow.fail.injEq] at hmsg
        refine ⟨?_, ?_, ?_, ?_, ?_, ?_, ?_⟩
        · rw [hmsg]
          split
          · repeat (first | exact mentions_append_self _ _ | apply mentions_append_left)
          · repeat (first | exact mentions_append_self _ _ | apply mentions_append_left)
        · intro _ _ _ h; exact Call.noConfusion h
        · intro _ _ _ h; exact Call.noConfusion h
        · intro _
          refine ⟨d, henc, ?_⟩
          rw [hmsg]
          split
          · repeat (first | exact mentions_append_self _ _ | apply mentions_append_left)
          · repeat (first | exact mentions_append_self _ _ | apply mentions_append_left)
        · intro _ _ _ h; exact Call.noConfusion h
        · intro cr r' e' h
          simp only [Call.CreateTable.injEq] at h
          obtain ⟨rfl, _, _⟩ := h
          rw [hmsg]
          split
          · repeat (first | exact mentions_append_self _ _ | apply mentions_append_left)
          · repeat (first | exact mentions_append_self _ _ | apply mentions_append_left)
        · intro _ _ _ h; exact Call.noConfusion h
    | PatchTable patch ret err =>
      cases err with
      | none => exact absurd hrep id
      | some e =>
        obtain ⟨d, henc, A', find, st, hA', hid, hf⟩ := hrep
        have hmsg : Flow.fail msg = Flow.fail _ := hf
        simp only [Flow.fail.injEq] at hmsg
        refine ⟨?_, ?_, ?_, ?_, ?_, ?_, ?_⟩
        · rw [hmsg]
          split
          · repeat (first | exact mentions_append_self _ _ | apply mentions_append_left)
          · repeat (first | exact mentions_append_self _ _ | apply mentions_append_left)
        · intro _ _ _ h; exact Call.noConfusion h
        · intro _ _ _ h; exact Call.noConfusion h
        · intro _
          refine ⟨d, henc, ?_⟩
          rw [hmsg]
          split
          · repeat (first | exact mentions_append_self _ _ | apply mentions_append_left)
          · repeat (first | exact mentions_append_self _ _ | apply mentions_append_left)
        · intro _ _ _ h; exact Call.noConfusion h
        · intro _ _ _ h; exact Call.noConfusion h
        · intro p r' e' h
          simp only [Call.PatchTable.injEq] at h
          obtain ⟨rfl, _, _⟩ := h
          refine ⟨A', find, st, hA', hid, ?_⟩
          rw [hmsg]
          split
          · repeat (first | exact mentions_append_self _ _ | apply mentions_append_left)
          · repeat (first | exact mentions_append_self _ _ | apply mentions_append_left)

/-- C14 at the snapshot that reports `orders` twice, on the empty catalog: the
second `CreateDatabase` fails, and the `Error` names `prod` and `orders`. -/
theorem C14_failure_context_witness :
    (SyncSchema (catalogEnv 1 1 (liveOpen twiceOrders)) prodInstance emptyCatalog).outcome
      = Outcome.returned ⟨"failed to sync database for instance: prod. Database name already exists: orders"⟩ ∧
    "failed to sync database for instance: prod. Database name already exists: orders" ≠ "" ∧
    ((∃ e, ((catalogEnv 1 1 (liveOpen twiceOrders)).Open (connectionOf prodInstance)).err
        = some e ∧
      "failed to sync database for instance: prod. Database name already exists: orders"
        = "failed to connect instance: " ++ prodInstance.Name ++ " with user: "
          ++ prodInstance.Username ++ ". Error " ++ e.msg ∧
      Mentions "failed to sync database for instance: prod. Database name already exists: orders"
        prodInstance.Name) ∨
    (∃ driver e, (catalogEnv 1 1 (liveOpen twiceOrders)).Open (connectionOf prodInstance)
        = ⟨some driver, none⟩ ∧ driver.syncErr = some e ∧
      "failed to sync database for instance: prod. Database name already exists: orders"
        = e.msg) ∨
    (∃ A c, (SyncSchema (catalogEnv 1 1 (liveOpen twiceOrders)) prodInstance emptyCatalog).calls
        = A ++ [c] ∧ c.halts = true ∧
      Mentions "failed to sync database for instance: prod. Database name already exists: orders"
        prodInstance.Name ∧
      (∀ patch d e, c = Call.PatchDatabase patch (some d) (some e) →
        Mentions "failed to sync database for instance: prod. Database name already exists: orders"
          d.Name) ∧
      (∀ create ret e, c = Call.CreateDatabase create ret (some e) →
        Mentions "failed to sync database for instance: prod. Database name already exists: orders"
          create.Name) ∧
      (c.isTableCall = true → ∃ d, Encloses A d ∧
        Mentions "failed to sync database for instance: prod. Database name already exists: orders"
          d.Name) ∧
      (∀ find ret e, c = Call.FindTable find ret (some e) →
        ∃ d, Encloses A d ∧
          "failed to sync database for instance: prod. Database name already exists: orders"
            = "failed to sync table for instance: " ++ prodInstance.Name ++ ", database: "
              ++ d.Name ++ ". Error " ++ e.msg) ∧
      (∀ create ret e, c = Call.CreateTable create ret (some e) →
        Mentions "failed to sync database for instance: prod. Database name already exists: orders"
          create.Name) ∧
      (∀ patch ret e, c = Call.PatchTable patch ret (some e) →
        ∃ A' find st, A = A' ++ [Call.FindTable find (some st) none] ∧ patch.ID = st.ID ∧
          Mentions "failed to sync database for instance: prod. Database name already exists: orders"
            st.Name))) :=
  ⟨by decide, by decide,
    C14_failure_context (catalogEnv 1 1 (liveOpen twiceOrders)) prodInstance emptyCatalog
      "failed to sync database for instance: prod. Database name already exists: orders"
      (by decide) (by decide)⟩

/-! ## C15: a connection failure -/

/-- C15, refuted as stated: `db.Open` fails with the message "connection
refused", and the `Error` returned is not that message but the text of line
102 around it. -/
theorem C15_connection_error_not_verbatim :
    (SyncSchema (catalogEnv 1 1 (liveDown ⟨Code.EINTERNAL, "connection refused"⟩)) prodInstance
      emptyCatalog).outcome
      = Outcome.returned
        ⟨"failed to connect instance: prod with user: root. Error connection refused"⟩ ∧
    (SyncSchema (catalogEnv 1 1 (liveDown ⟨Code.EINTERNAL, "connection refused"⟩)) prodInstance
      emptyCatalog).outcome ≠ Outcome.returned ⟨"connection refused"⟩ := by
  constructor <;> decide

/-- C15, amended: for every instance, if `db.Open` fails with error `e`, the
run issues no catalog call and returns the `Error` "failed to connect
instance: <instance name> with user: <username>. Error <e's message>": the
message of `e` is the end of it, after a non-empty text that names the instance
and the user, so the `Error` is never `e`'s message alone. -/
theorem C15_connection_failure_is_wrapped {W : Type} (env : Env W) (inst : Instance) (w : W)
    (e : Error) (h : (env.Open (connectionOf inst)).err = some e) :
    (SyncSchema env inst w).calls = [] ∧
    (SyncSchema env inst w).outcome = Outcome.returned
      ⟨"failed to connect instance: " ++ inst.Name ++ " with user: " ++ inst.Username
        ++ ". Error " ++ e.msg⟩ ∧
    (SyncSchema env inst w).outcome ≠ Outcome.returned ⟨e.msg⟩ := by
  have hout : (SyncSchema env inst w).outcome = Outcome.returned
      ⟨"failed to connect instance: " ++ inst.Name ++ " with user: " ++ inst.Username
        ++ ". Error " ++ e.msg⟩ := by
    simp [SyncSchema, h]
  refine ⟨by simp [SyncSchema, h], hout, ?_⟩
  rw [hout]
  intro heq
  simp only [Outcome.returned.injEq, SqlResultSet.mk.injEq] at heq
  have hlen := congrArg String.length heq
  simp only [String.length_append] at hlen
  have h8 : ". Error ".length = 8 := by decide
  omega

/-- C15 at a refused connection to `prod`. -/
theorem C15_connection_failure_is_wrapped_witness :
    (SyncSchema (catalogEnv 1 1 (liveDown ⟨Code.EINTERNAL, "connection refused"⟩)) prodInstance
      emptyCatalog).calls = [] ∧
    (SyncSchema (catalogEnv 1 1 (liveDown ⟨Code.EINTERNAL, "connection refused"⟩)) prodInstance
      emptyCatalog).outcome = Outcome.returned
      ⟨"failed to connect instance: " ++ prodInstance.Name ++ " with user: "
        ++ prodInstance.Username ++ ". Error "
        ++ (Error.mk Code.EINTERNAL "connection refused").msg⟩ ∧
    (SyncSchema (catalogEnv 1 1 (liveDown ⟨Code.EINTERNAL, "connection refused"⟩)) prodInstance
      emptyCatalog).outcome
      ≠ Outcome.returned ⟨(Error.mk Code.EINTERNAL "connection refused").msg⟩ :=
  C15_connection_failure_is_wrapped
    (catalogEnv 1 1 (liveDown ⟨Code.EINTERNAL, "connection refused"⟩)) prodInstance emptyCatalog
    ⟨Code.EINTERNAL, "connection refused"⟩ rfl

/-! ## C16: a database that reappears -/

theorem wf_name_unique (c : Catalog) (hwf : c.WF) (a b : Database)
    (ha : a ∈ c.databases) (hb : b ∈ c.databases)
    (hi : a.InstanceId = b.InstanceId) (hn : a.Name = b.Name) : a = b := by
  by_contra hne
  exact hwf.dbNames.forall (fun _ _ hab => fun h => hab ⟨h.1.symm, h.2.symm⟩) ha hb hne ⟨hi, hn⟩

/-- A run issues `CreateDatabase` only for a name that no listed record has. -/
theorem SyncSchema_createDatabase_unmatched {W : Type} (env : Env W) (inst : Instance) (w : W)
    (create : DatabaseCreate) (ret : Option Database) (err : Option Error)
    (h : Call.CreateDatabase create ret err ∈ (SyncSchema env inst w).calls) :
    matchedDb (env.FindDatabaseList ⟨some inst.ID⟩ w).1.1 create.Name = none := by
  obtain ⟨A, B, hAB⟩ := List.append_of_mem h
  obtain ⟨driver, _, _, hfirst | ⟨_, pre, schema, post, A2, B2, _, _, hbody, _⟩ |
      ⟨_, db, _, w', hc3⟩⟩ := SyncSchema_calls_locate env inst w A B _ hAB
  · exact Call.noConfusion hfirst.2
  · generalize (forEach (syncDatabase env inst (env.FindDatabaseList ⟨some inst.ID⟩ w).1.1) pre
      (env.FindDatabaseList ⟨some inst.ID⟩ w).2).world = bw at hbody
    have hmem : Call.CreateDatabase create ret err ∈ (syncDatabase env inst
        (env.FindDatabaseList ⟨some inst.ID⟩ w).1.1 schema bw).calls := by
      rw [hbody]; simp
    rcases syncDatabase_calls_cases env inst (env.FindDatabaseList ⟨some inst.ID⟩ w).1.1
        schema bw with ⟨_, h0⟩ | ⟨_, dbc, r', e', tcs, hcalls, _, hcase⟩
    · rw [h0] at hmem; simp at hmem
    · rw [hcalls] at hmem
      rcases List.mem_cons.mp hmem with hhead | htail
      · rcases hcase with ⟨matched, ts, _, hdbc, _⟩ | ⟨hnone, hdbc, _⟩
        · rw [hdbc] at hhead; exact Call.noConfusion hhead
        · rw [hdbc] at hhead
          simp only [Call.CreateDatabase.injEq] at hhead
          rw [hhead.1]
          exact hnone
      · rcases hcase with ⟨matched, ts, _, _, htcs⟩ | ⟨_, _, htcs⟩
        · obtain ⟨t, _, w2, hc⟩ := htcs _ htail
          have := syncTable_calls_isTableCall env inst r' ts t w2 _ hc
          simp [Call.isTableCall] at this
        · obtain ⟨t, _, w2, hc⟩ := htcs _ htail
          rcases importTable_calls_cases env inst r' t w2 with ⟨_, h0⟩ | ⟨d, cr, ce, _, h1⟩
          · rw [h0] at hc; simp at hc
          · rw [h1] at hc; simp at hc
  · obtain ⟨_, ts, r', e', hc⟩ := markNotFound_calls_mem env inst _ db w' _ hc3
    exact Call.noConfusion hc

theorem goneCatalog_wf : goneCatalog.WF :=
  ⟨List.pairwise_singleton _ _,
    by intro d hd; simp [goneCatalog] at hd; subst hd; decide,
    List.pairwise_singleton _ _, List.pairwise_singleton _ _,
    by intro d hd; simp [goneCatalog] at hd; subst hd; decide,
    List.pairwise_singleton _ _⟩

/-- C16: reappearance.  Against the store, from a well-formed prior catalog
`C` that holds a record `x` of the instance with `SyncStatus = NotFound`: if
the snapshot `S` has a live database with exactly the name of `x`, which is not
the reserved name, and the run returns an empty `Error`, then the catalog it
leaves holds a record with the ID of `x`, under the name of `x`, with
`SyncStatus = OK` and a timestamp read during the run; every record of the
instance under that name has the ID of `x`; and the run issued no
`CreateDatabase` for that name. -/
theorem C16_not_found_record_reappears (bot project : Int)
    (open_ : ConnectionConfig → Ret Driver) (inst : Instance) (S : List DBSchema)
    (C : Catalog) (x : Database) (d : DBSchema)
    (hopen : open_ (connectionOf inst) = ⟨some ⟨S, none⟩, none⟩)
    (hwf : C.WF) (hx : x ∈ C.databases) (hinst : x.InstanceId = inst.ID)
    (hnf : x.SyncStatus = SyncStatus.NotFound)
    (hd : d ∈ S) (hname : d.Name = x.Name) (hres : EqualFold "bytebase" d.Name = false)
    (hok : (SyncSchema (catalogEnv bot project open_) inst C).outcome
      = Outcome.returned ⟨""⟩) :
    (∃ r ∈ (SyncSchema (catalogEnv bot project open_) inst C).world.databases,
      r.ID = x.ID ∧ r.InstanceId = inst.ID ∧ r.Name = x.Name ∧
      r.SyncStatus = SyncStatus.OK ∧
      Stamped C.tick (SyncSchema (catalogEnv bot project open_) inst C).world
        r.LastSuccessfulSyncTs) ∧
    (∀ r ∈ (SyncSchema (catalogEnv bot project open_) inst C).world.databases,
      r.InstanceId = inst.ID → r.Name = x.Name → r.ID = x.ID) ∧
    (∀ create ret err,
      Call.CreateDatabase create ret err ∈ (SyncSchema (catalogEnv bot project open_) inst C).calls →
      create.Name ≠ x.Name) := by
  have hxl : x ∈ Catalog.listed inst C := (listed_mem inst C x).mpr ⟨hx, hinst⟩
  obtain ⟨hmain, _, hworld, _⟩ := SyncSchema_catalog_ok bot project open_ inst S C hopen hok
  obtain ⟨htr, hest⟩ := main_loop_catalog bot project open_ inst S C hwf
  have ht1 := htr.tracks (Tracks.init inst C hwf)
  have htr3 := mark_loop_catalog bot project open_ inst S C _ ht1
  have htfinal := htr3.tracks ht1
  have hsynced := htr3.synced ht1 d hd (hest hmain d hd hres)
  rw [← hworld] at htfinal hsynced
  obtain ⟨x', hx', hid'⟩ := htfinal.kept x hxl
  obtain ⟨hn', hi'⟩ := htfinal.same x hxl x' hx' hid'
  have huniq : ∀ r ∈ (SyncSchema (catalogEnv bot project open_) inst C).world.databases,
      r.InstanceId = inst.ID → r.Name = x.Name → r = x' := fun r hr hri hrn =>
    wf_name_unique _ htfinal.wf r x' hr hx' (by rw [hri, hi', hinst]) (by rw [hrn, hn'])
  refine ⟨?_, ?_, ?_⟩
  · obtain ⟨id, ⟨r, hr, _, hin, hn, hst, hts⟩, _⟩ := hsynced
    have hrx := huniq r hr hin (by rw [hn, hname])
    exact ⟨r, hr, by rw [hrx, hid'], hin, by rw [hn, hname], hst, hts⟩
  · intro r hr hri hrn
    rw [huniq r hr hri hrn, hid']
  · intro create ret err hc hcn
    have hnone := SyncSchema_createDatabase_unmatched _ inst C create ret err hc
    rw [catalogEnv_findDatabaseList] at hnone
    exact (matchedDb_eq_none_iff _ _).mp hnone x hxl hcn.symm

/-- C16 at the stored `orders` marked `NotFound`, with `orders` live again:
the run leaves record 1 with `SyncStatus = OK`. -/
theorem C16_not_found_record_reappears_witness :
    goneRecord.SyncStatus = SyncStatus.NotFound ∧
    (∃ r ∈ (SyncSchema (catalogEnv 1 1 (liveOpen [ordersSchema])) prodInstance
        goneCatalog).world.databases,
      r.ID = goneRecord.ID ∧ r.InstanceId = prodInstance.ID ∧ r.Name = goneRecord.Name ∧
      r.SyncStatus = SyncStatus.OK ∧
      Stamped goneCatalog.tick (SyncSchema (catalogEnv 1 1 (liveOpen [ordersSchema]))
        prodInstance goneCatalog).world r.LastSuccessfulSyncTs) ∧
    (∀ r ∈ (SyncSchema (catalogEnv 1 1 (liveOpen [ordersSchema])) prodInstance
        goneCatalog).world.databases,
      r.InstanceId = prodInstance.ID → r.Name = goneRecord.Name → r.ID = goneRecord.ID) ∧
    (∀ create ret err,
      Call.CreateDatabase create ret err ∈ (SyncSchema (catalogEnv 1 1 (liveOpen [ordersSchema]))
        prodInstance goneCatalog).calls →
      create.Name ≠ goneRecord.Name) :=
  ⟨rfl, C16_not_found_record_reappears 1 1 (liveOpen [ordersSchema]) prodInstance [ordersSchema]
    goneCatalog goneRecord ordersSchema rfl goneCatalog_wf (by simp [goneCatalog]) rfl rfl
    (by simp) rfl (by decide) (by decide)⟩

/-! ## C17: the password the `/sql/ping` handler connects with -/

theorem connect_opened (env : PingEnv) (connectionInfo : ConnectionInfo) (password : String) :
    (connect env connectionInfo password).opened
      = [(connectionInfo.DBType,
          ⟨connectionInfo.Username, password, connectionInfo.Host, connectionInfo.Port⟩)] := by
  unfold connect respond
  dsimp only
  repeat' split
  all_goals rfl

/-- C17: in the `/sql/ping` handler, when the request carries an empty password
and an `InstanceId`, and `FindInstanceAdminPasswordById` succeeds, the one
connection opened uses the password it returned with the `Username`, `Host` and
`Port` of the request; when the request password is non-empty, or no
`InstanceId` is given, the one connection opened uses the request's password
unchanged; and when retrieving the stored password fails, the handler returns
an HTTP 500 error and opens no connection. -/
theorem C17_ping_password_fallback (env : PingEnv) (connectionInfo : ConnectionInfo) :
    (∀ instanceId, connectionInfo.Password = "" → connectionInfo.InstanceId = some instanceId →
      (env.FindInstanceAdminPasswordById instanceId).2 = none →
      (sqlPing env (some connectionInfo)).opened
        = [(connectionInfo.DBType,
            ⟨connectionInfo.Username, (env.FindInstanceAdminPasswordById instanceId).1,
              connectionInfo.Host, connectionInfo.Port⟩)]) ∧
    (connectionInfo.Password ≠ "" ∨ connectionInfo.InstanceId = none →
      (sqlPing env (some connectionInfo)).opened
        = [(connectionInfo.DBType,
            ⟨connectionInfo.Username, connectionInfo.Password, connectionInfo.Host,
              connectionInfo.Port⟩)]) ∧
    (∀ instanceId e, connectionInfo.Password = "" →
      connectionInfo.InstanceId = some instanceId →
      (env.FindInstanceAdminPasswordById instanceId).2 = some e →
      (sqlPing env (some connectionInfo)).opened = [] ∧
      (sqlPing env (some connectionInfo)).outcome = PingOutcome.httpError 500
        ("Failed to retrieve admin password for instance: " ++ env.PointerText)) := by
  refine ⟨?_, ?_, ?_⟩
  · intro instanceId hp hi hr
    unfold sqlPing
    simp only [hp, hi, hr, if_true]
    rw [connect_opened]
  · intro h
    unfold sqlPing
    dsimp only
    rcases h with h | h
    · rw [if_neg h, connect_opened]
    · rw [h]
      split <;> rw [connect_opened]
  · intro instanceId e hp hi hr
    unfold sqlPing
    simp only [hp, hi, hr, if_true]
    exact ⟨trivial, trivial⟩

/-- C17 at three requests: without password for the stored instance 7 the
connection uses `secret`; with the password `typed` it uses `typed`; without
password for the unknown instance 8 the handler answers 500 and opens nothing. -/
theorem C17_ping_password_fallback_witness :
    (sqlPing pingEnv (some pingStored)).opened
      = [("MYSQL", ⟨"root", "secret", "127.0.0.1", "3306"⟩)] ∧
    (sqlPing pingEnv (some pingTyped)).opened
      = [("MYSQL", ⟨"root", "typed", "127.0.0.1", "3306"⟩)] ∧
    ((sqlPing pingEnv (some pingUnknown)).opened = [] ∧
      (sqlPing pingEnv (some pingUnknown)).outcome = PingOutcome.httpError 500
        ("Failed to retrieve admin password for instance: " ++ pingEnv.PointerText)) :=
  ⟨(C17_ping_password_fallback pingEnv pingStored).1 7 rfl rfl rfl,
    (C17_ping_password_fallback pingEnv pingTyped).2.1 (Or.inl (by decide)),
    (C17_ping_password_fallback pingEnv pingUnknown).2.2 8
      ⟨Code.ENOTFOUND, "instance not found"⟩ rfl rfl rfl⟩

/-! ## C18: how a live database is matched -/

/-- The matched record is the first listed record whose name is exactly the
live name. -/
theorem matchedDb_eq_some_iff (dbList : List Database) (name : String) (m : Database) :
    matchedDb dbList name = some m ↔
      ∃ before after, dbList = before ++ m :: after ∧ m.Name = name ∧
        ∀ x ∈ before, x.Name ≠ name := by
  unfold matchedDb
  rw [List.find?_eq_some]
  constructor
  · rintro ⟨hm, before, after, hl, hb⟩
    exact ⟨before, after, hl, by simpa using hm, fun x hx => by simpa using hb x hx⟩
  · rintro ⟨before, after, hl, hm, hb⟩
    exact ⟨by simpa using hm, before, after, hl, fun x hx => by simpa using hb x hx⟩

/-- The list of stored databases is read once, by the first call of the run. -/
theorem SyncSchema_findDatabaseList_first {W : Type} (env : Env W) (inst : Instance) (w : W)
    (A B : List Call) (find : DatabaseFind) (l : List Database) (e : Option Error)
    (h : (SyncSchema env inst w).calls = A ++ Call.FindDatabaseList find l e :: B) :
    A = [] := by
  obtain ⟨driver, _, _, hfirst | ⟨_, pre, schema, post, A2, B2, _, _, hbody, _⟩ |
      ⟨_, db, _, w', hc3⟩⟩ := SyncSchema_calls_locate env inst w A B _ h
  · exact hfirst.1
  · generalize (forEach (syncDatabase env inst (env.FindDatabaseList ⟨some inst.ID⟩ w).1.1) pre
      (env.FindDatabaseList ⟨some inst.ID⟩ w).2).world = bw at hbody
    have hmem : Call.FindDatabaseList find l e ∈ (syncDatabase env inst
        (env.FindDatabaseList ⟨some inst.ID⟩ w).1.1 schema bw).calls := by
      rw [hbody]; simp
    rcases syncDatabase_calls_cases env inst (env.FindDatabaseList ⟨some inst.ID⟩ w).1.1
        schema bw with ⟨_, h0⟩ | ⟨_, dbc, r', e', tcs, hcalls, _, hcase⟩
    · rw [h0] at hmem; simp at hmem
    · rw [hcalls] at hmem
      rcases List.mem_cons.mp hmem with hhead | htail
      · rcases hcase with ⟨matched, ts, _, hdbc, _⟩ | ⟨_, hdbc, _⟩
        · rw [hdbc] at hhead; exact Call.noConfusion hhead
        · rw [hdbc] at hhead; exact Call.noConfusion hhead
      · rcases hcase with ⟨matched, ts, _, _, htcs⟩ | ⟨_, _, htcs⟩
        · obtain ⟨t, _, w2, hc⟩ := htcs _ htail
          have := syncTable_calls_isTableCall env inst r' ts t w2 _ hc
          simp [Call.isTableCall] at this
        · obtain ⟨t, _, w2, hc⟩ := htcs _ htail
          rcases importTable_calls_cases env inst r' t w2 with ⟨_, h0⟩ | ⟨d, cr, ce, _, h1⟩
          · rw [h0] at hc; simp at hc
          · rw [h1] at hc; simp at hc
  · obtain ⟨_, ts, r', e', hc⟩ := markNotFound_calls_mem env inst _ db w' _ hc3
    exact Call.noConfusion hc

/-- The calls of a loop, cut at one element that the loop reaches. -/
theorem forEach_calls_at {W α : Type} (body : α → W → Run W) (pre post : List α) (x : α)
    (w : W) (hreach : (forEach body pre w).flow = Flow.done) :
    ∃ rest, (forEach body (pre ++ x :: post) w).calls
      = (forEach body pre w).calls ++ ((body x (forEach body pre w).world).calls ++ rest) := by
  rw [forEach_append, Run.andThen_calls, if_pos hreach, forEach_cons, Run.andThen_calls]
  exact ⟨_, rfl⟩

/-- The calls of a run whose loop over the live databases fell through: the
list read, the calls of that loop, the calls of the Case 3 loop. -/
theorem SyncSchema_calls_mark {W : Type} (env : Env W) (inst : Instance) (w : W)
    (driver : Driver) (dbList : List Database) (w1 : W)
    (hopen : env.Open (connectionOf inst) = ⟨some driver, none⟩)
    (hsync : driver.syncErr = none)
    (hlist : env.FindDatabaseList ⟨some inst.ID⟩ w = ((dbList, none), w1))
    (hmain : (forEach (syncDatabase env inst dbList) driver.schemaList w1).flow = Flow.done) :
    (SyncSchema env inst w).calls
      = Call.FindDatabaseList ⟨some inst.ID⟩ dbList none ::
        ((forEach (syncDatabase env inst dbList) driver.schemaList w1).calls ++
          (forEach (markNotFound env inst driver.schemaList) dbList
            (forEach (syncDatabase env inst dbList) driver.schemaList w1).world).calls) := by
  have h1 : (env.FindDatabaseList ⟨some inst.ID⟩ w).1.2 = none := by rw [hlist]
  have h2 : (env.FindDatabaseList ⟨some inst.ID⟩ w).1.1 = dbList := by rw [hlist]
  have h3 : (env.FindDatabaseList ⟨some inst.ID⟩ w).2 = w1 := by rw [hlist]
  rw [SyncSchema_of_open env inst w driver hopen hsync, finish_calls,
    reconcile_of_list env inst _ w h1, h2, h3, Run.andThen_mk_done, Run.andThen_calls]
  simp only [hmain, if_true, List.singleton_append, List.cons_append, List.nil_append]

/-- C18, amended: a live database is matched to the first listed record whose name is
exactly, case-sensitively, its name, against the list read once by the first
call of the run.  Consequently a live database, not the reserved one, whose
name no listed record has exactly (a difference in letter case is enough) is
treated as new: once the run reaches it, it issues `CreateDatabase` for it.  A
listed record whose exact name no live database has is patched `NotFound` in
the same run, once the run reaches it.  And for a snapshot that has the same
unmatched name twice, once the run reaches the second occurrence it has issued
`CreateDatabase` twice for that name. -/
theorem C18_matching_is_exact_and_first {W : Type} (env : Env W) (inst : Instance) (w : W)
    (driver : Driver) (dbList : List Database) (w1 : W)
    (hopen : env.Open (connectionOf inst) = ⟨some driver, none⟩)
    (hsync : driver.syncErr = none)
    (hlist : env.FindDatabaseList ⟨some inst.ID⟩ w = ((dbList, none), w1)) :
    (∀ name m, matchedDb dbList name = some m ↔
      ∃ before after, dbList = before ++ m :: after ∧ m.Name = name ∧
        ∀ x ∈ before, x.Name ≠ name) ∧
    (∀ A B find l e,
      (SyncSchema env inst w).calls = A ++ Call.FindDatabaseList find l e :: B → A = []) ∧
    (∀ pre post d, driver.schemaList = pre ++ d :: post →
      EqualFold "bytebase" d.Name = false →
      (∀ db ∈ dbList, db.Name ≠ d.Name) →
      (forEach (syncDatabase env inst dbList) pre w1).flow = Flow.done →
      ∃ ret err,
        Call.CreateDatabase (databaseCreateOf env inst d) ret err ∈ (SyncSchema env inst w).calls) ∧
    (∀ before after x, dbList = before ++ x :: after →
      (∀ s ∈ driver.schemaList, s.Name ≠ x.Name) →
      (forEach (syncDatabase env inst dbList) driver.schemaList w1).flow = Flow.done →
      (forEach (markNotFound env inst driver.schemaList) before
        (forEach (syncDatabase env inst dbList) driver.schemaList w1).world).flow = Flow.done →
      ∃ ts ret err,
        Call.PatchDatabase ⟨x.ID, env.SYSTEM_BOT_ID, some SyncStatus.NotFound, some ts⟩ ret err
          ∈ (SyncSchema env inst w).calls) ∧
    (∀ pre mid post d d', driver.schemaList = (pre ++ d :: mid) ++ d' :: post →
      d'.Name = d.Name →
      EqualFold "bytebase" d.Name = false →
      (∀ db ∈ dbList, db.Name ≠ d.Name) →
      (forEach (syncDatabase env inst dbList) (pre ++ d :: mid) w1).flow = Flow.done →
      ∃ X Y Z r1 e1 r2 e2, (SyncSchema env inst w).calls
        = X ++ Call.CreateDatabase (databaseCreateOf env inst d) r1 e1 ::
          (Y ++ Call.CreateDatabase (databaseCreateOf env inst d') r2 e2 :: Z) ∧
        (databaseCreateOf env inst d').Name = (databaseCreateOf env inst d).Name) := by
  refine ⟨fun name m => matchedDb_eq_some_iff dbList name m,
    fun A B find l e h => SyncSchema_findDatabaseList_first env inst w A B find l e h,
    ?_, ?_, ?_⟩
  · intro pre post d hlive hres hnew hreach
    obtain ⟨rest, hcalls, _⟩ := SyncSchema_calls_at env inst w driver pre post d dbList w1
      hopen hsync hlive hlist hreach
    rw [syncDatabase_of_unmatched env inst dbList d _ hres hnew, syncNew_calls] at hcalls
    exact ⟨_, _, by
      rw [hcalls]
      exact List.mem_cons_of_mem _ (List.mem_append_right _
        (List.mem_append_left _ (List.mem_cons_self _ _)))⟩
  · intro before after x hdb hno hmain hreach
    subst hdb
    have hcalls := SyncSchema_calls_mark env inst w driver _ w1 hopen hsync hlist hmain
    obtain ⟨rest, hmark⟩ := forEach_calls_at (markNotFound env inst driver.schemaList)
      before after x _ hreach
    have hany : (driver.schemaList.any (fun schema => x.Name == schema.Name)) = false := by
      rw [Bool.eq_false_iff]
      intro hany
      obtain ⟨s, hs, hsn⟩ := List.any_eq_true.mp hany
      exact hno s hs (by simpa using hsn : x.Name = s.Name).symm
    rw [markNotFound_calls, hany] at hmark
    simp only [Bool.false_eq_true, if_false] at hmark
    exact ⟨_, _, _, by
      rw [hcalls, hmark]
      exact List.mem_cons_of_mem _ (List.mem_append_right _ (List.mem_append_right _
        (List.mem_append_left _ (List.mem_singleton.mpr rfl))))⟩
  · intro pre mid post d d' hlive hname hres hnew hreach
    have hnew' : ∀ db ∈ dbList, db.Name ≠ d'.Name := by rw [hname]; exact hnew
    have hres' : EqualFold "bytebase" d'.Name = false := by rw [hname]; exact hres
    obtain ⟨rest2, hcalls, _⟩ := SyncSchema_calls_at env inst w driver (pre ++ d :: mid) post
      d' dbList w1 hopen hsync hlive hlist hreach
    have hpre : (forEach (syncDatabase env inst dbList) pre w1).flow = Flow.done := by
      rw [forEach_append] at hreach
      exact Run.andThen_flow_done _ _ hreach
    obtain ⟨rest1, hfirst⟩ := forEach_calls_at (syncDatabase env inst dbList) pre mid d w1 hpre
    obtain ⟨r1, e1, tcs1, h1⟩ : ∃ ret err tcs, (syncNew env inst d
        (forEach (syncDatabase env inst dbList) pre w1).world).calls
        = Call.CreateDatabase (databaseCreateOf env inst d) ret err :: tcs :=
      ⟨_, _, _, syncNew_calls env inst d _⟩
    obtain ⟨r2, e2, tcs2, h2⟩ : ∃ ret err tcs, (syncNew env inst d'
        (forEach (syncDatabase env inst dbList) (pre ++ d :: mid) w1).world).calls
        = Call.CreateDatabase (databaseCreateOf env inst d') ret err :: tcs :=
      ⟨_, _, _, syncNew_calls env inst d' _⟩
    rw [hfirst, syncDatabase_of_unmatched env inst dbList d _ hres hnew, h1,
      syncDatabase_of_unmatched env inst dbList d' _ hres' hnew', h2] at hcalls
    refine ⟨Call.FindDatabaseList ⟨some inst.ID⟩ dbList none ::
        (forEach (syncDatabase env inst dbList) pre w1).calls, tcs1 ++ rest1, tcs2 ++ rest2,
      r1, e1, r2, e2, ?_, hname⟩
    rw [hcalls]
    simp only [List.cons_append, List.append_assoc]

/-- C18 at two runs.  The catalog holds `orders` and the live database is
`Orders`: the names are equal but for the letter case, no record is matched,
the run issues `CreateDatabase` for `Orders` and patches record 1 `NotFound`.
The empty catalog and a snapshot that reports `orders` twice: `CreateDatabase`
is issued twice for `orders`. -/
theorem C18_matching_is_exact_and_first_witness :
    EqualFold capitalOrders.Name ordersRecord.Name = true ∧
    matchedDb [ordersRecord] capitalOrders.Name = none ∧
    (∃ ret err,
      Call.CreateDatabase
        (databaseCreateOf (catalogEnv 1 1 (liveOpen [capitalOrders])) prodInstance capitalOrders)
        ret err
        ∈ (SyncSchema (catalogEnv 1 1 (liveOpen [capitalOrders])) prodInstance
          ordersCatalog).calls) ∧
    (∃ ts ret err,
      Call.PatchDatabase
        ⟨ordersRecord.ID, (catalogEnv 1 1 (liveOpen [capitalOrders])).SYSTEM_BOT_ID,
          some SyncStatus.NotFound, some ts⟩ ret err
        ∈ (SyncSchema (catalogEnv 1 1 (liveOpen [capitalOrders])) prodInstance
          ordersCatalog).calls) ∧
    (∃ X Y Z r1 e1 r2 e2,
      (SyncSchema (catalogEnv 1 1 (liveOpen twiceOrders)) prodInstance emptyCatalog).calls
        = X ++ Call.CreateDatabase
            (databaseCreateOf (catalogEnv 1 1 (liveOpen twiceOrders)) prodInstance ordersSchema)
            r1 e1 ::
          (Y ++ Call.CreateDatabase
            (databaseCreateOf (catalogEnv 1 1 (liveOpen twiceOrders)) prodInstance ordersSchema)
            r2 e2 :: Z) ∧
      (databaseCreateOf (catalogEnv 1 1 (liveOpen twiceOrders)) prodInstance ordersSchema).Name
        = (databaseCreateOf (catalogEnv 1 1 (liveOpen twiceOrders)) prodInstance
          ordersSchema).Name) :=
  ⟨by decide, by decide,
    (C18_matching_is_exact_and_first (catalogEnv 1 1 (liveOpen [capitalOrders])) prodInstance
      ordersCatalog ⟨[capitalOrders], none⟩ [ordersRecord] ordersCatalog rfl rfl rfl).2.2.1
      [] [] capitalOrders rfl (by decide) (by decide) rfl,
    (C18_matching_is_exact_and_first (catalogEnv 1 1 (liveOpen [capitalOrders])) prodInstance
      ordersCatalog ⟨[capitalOrders], none⟩ [ordersRecord] ordersCatalog rfl rfl rfl).2.2.2.1
      [] [] ordersRecord rfl (by decide) (by decide) rfl,
    (C18_matching_is_exact_and_first (catalogEnv 1 1 (liveOpen twiceOrders)) prodInstance
      emptyCatalog ⟨twiceOrders, none⟩ [] emptyCatalog rfl rfl rfl).2.2.2.2
      [] [] [] ordersSchema ordersSchema rfl rfl (by decide) (by simp) (by decide)⟩

/-! ## C19: the active profile of the release build -/

theorem demo_dsn_ne (dataDir : String) :
    "file:" ++ dataDir ++ "/bytebase_demo.db" ≠ "file:" ++ dataDir ++ "/bytebase.db" := by
  intro h
  have hlen := congrArg String.length h
  simp only [String.length_append] at hlen
  have h1 : "/bytebase_demo.db".length = 17 := by decide
  have h2 : "/bytebase.db".length = 12 := by decide
  omega

/-- C19: for every `dataDir` and `isDemo`, `activeProfile` equals its reference
definition: `mode` is "release"; without `isDemo` the DSN is
"file:<dataDir>/bytebase.db", the seed directory "seed/release" and
`forceResetSeed` false; with `isDemo` the DSN is
"file:<dataDir>/bytebase_demo.db", the seed directory "seed/test" and
`forceResetSeed` true.  Hence `forceResetSeed` is `isDemo`, the demo DSN differs
from the non-demo DSN, and a profile that forces a seed reset never has the DSN
of the release database file. -/
theorem C19_activeProfile_matches_reference (dataDir : String) (isDemo : Bool) :
    activeProfile dataDir isDemo = activeProfileReference dataDir isDemo ∧
    (activeProfile dataDir isDemo).mode = "release" ∧
    (activeProfile dataDir isDemo).forceResetSeed = isDemo ∧
    (activeProfile dataDir true).dsn ≠ (activeProfile dataDir false).dsn ∧
    ((activeProfile dataDir isDemo).forceResetSeed = true →
      (activeProfile dataDir isDemo).dsn ≠ "file:" ++ dataDir ++ "/bytebase.db") := by
  refine ⟨?_, ?_, ?_, demo_dsn_ne dataDir, ?_⟩
  · cases isDemo <;> rfl
  · cases isDemo <;> rfl
  · cases isDemo <;> rfl
  · cases isDemo with
    | false => intro h; exact Bool.noConfusion h
    | true => intro _; exact demo_dsn_ne dataDir

/-- C19 at the data directory `/var/opt/bytebase` in demo mode. -/
theorem C19_activeProfile_matches_reference_witness :
    activeProfile "/var/opt/bytebase" true
      = { mode := "release", dsn := "file:/var/opt/bytebase/bytebase_demo.db",
          seedDir := "seed/test", forceResetSeed := true } ∧
    (activeProfile "/var/opt/bytebase" true).forceResetSeed = true ∧
    (activeProfile "/var/opt/bytebase" true).dsn
      ≠ "file:" ++ "/var/opt/bytebase" ++ "/bytebase.db" :=
  ⟨by decide, rfl,
    (C19_activeProfile_matches_reference "/var/opt/bytebase" true).2.2.2.2 rfl⟩

/-! ## C10, C18: runs that halt before a later database -/

/-- C10, refuted as stated: the catalog is empty and the live databases are
`orders`, with tables `items` and `lines`, and `refunds`; neither is reserved
and no stored database has their names.  `CreateTable` fails for `items`.  The
run returns the error of that call, its only database-level request is the
`CreateDatabase` of `orders`, and its only table call is the failed
`CreateTable` of `items`: no `CreateDatabase` is issued for `refunds` and no
`CreateTable` for `lines`. -/
theorem C10_halted_run_skips_later_creates :
    EqualFold "bytebase" refundsSchema.Name = false ∧
    matchedDb (Catalog.listed prodInstance emptyCatalog) refundsSchema.Name = none ∧
    (SyncSchema (brokenCreateEnv (liveOpen [ordersWide, refundsSchema])) prodInstance
      emptyCatalog).outcome = Outcome.returned
        ⟨"failed to sync database for instance: prod, database: orders. "
          ++ "Failed to import new table: items. Error disk full"⟩ ∧
    (SyncSchema (brokenCreateEnv (liveOpen [ordersWide, refundsSchema])) prodInstance
      emptyCatalog).calls.filterMap Call.dbRequest = [DbRequest.create "orders"] ∧
    (SyncSchema (brokenCreateEnv (liveOpen [ordersWide, refundsSchema])) prodInstance
      emptyCatalog).calls.filter Call.isTableCall
      = [Call.CreateTable
          (tableCreateOf (brokenCreateEnv (liveOpen [ordersWide, refundsSchema])) ordersRecord
            itemsTable) none (some ⟨Code.EINTERNAL, "disk full"⟩)] := by
  refine ⟨by decide, by decide, by decide, by decide, by decide⟩

/-- C18, refuted as stated.  The catalog holds `orders` and the live database
is `Orders`, equal but for the letter case: when `CreateTable` fails for its
table the run halts after the `CreateDatabase` of `Orders` and never patches
record 1.  When the snapshot is `Orders` and `orders`, the run succeeds, creates
`Orders` and patches record 1 `OK`, not `NotFound`.  And when the snapshot
reports the unmatched `orders` twice and `CreateTable` fails in the first
iteration, `CreateDatabase` is issued once. -/
theorem C18_case_twin_not_marked :
    EqualFold capitalOrders.Name ordersRecord.Name = true ∧
    capitalOrders.Name ≠ ordersRecord.Name ∧
    (SyncSchema (brokenCreateEnv (liveOpen [capitalOrders])) prodInstance
      ordersCatalog).outcome = Outcome.returned
        ⟨"failed to sync database for instance: prod, database: Orders. "
          ++ "Failed to import new table: items. Error disk full"⟩ ∧
    (SyncSchema (brokenCreateEnv (liveOpen [capitalOrders])) prodInstance
      ordersCatalog).calls.filterMap Call.dbRequest = [DbRequest.create "Orders"] ∧
    (SyncSchema (catalogEnv 1 1 (liveOpen [capitalOrders, ordersSchema])) prodInstance
      ordersCatalog).outcome = Outcome.returned ⟨""⟩ ∧
    (SyncSchema (catalogEnv 1 1 (liveOpen [capitalOrders, ordersSchema])) prodInstance
      ordersCatalog).calls.filterMap Call.dbRequest
      = [DbRequest.create "Orders", DbRequest.patch 1 (some SyncStatus.OK)] ∧
    (SyncSchema (catalogEnv 1 1 (liveOpen [capitalOrders, ordersSchema])) prodInstance
      ordersCatalog).world.databases.map (fun r => (r.ID, r.Name, r.SyncStatus))
      = [(1, "orders", SyncStatus.OK), (2, "Orders", SyncStatus.OK)] ∧
    matchedDb (Catalog.listed prodInstance emptyCatalog) ordersSchema.Name = none ∧
    (SyncSchema (brokenCreateEnv (liveOpen twiceOrders)) prodInstance
      emptyCatalog).calls.filterMap Call.dbRequest = [DbRequest.create "orders"] := by
  refine ⟨by decide, by decide, by decide, by decide, by decide, by decide, by decide,
    by decide, by decide⟩

end Bytebase
